import Mathlib

/-!
# Air-traffic control simulation: flight lifecycle and runway admission

A shallow embedding of `src/main.cpp` (classes `Flight`, `AVNGenerator`,
`ATCSController`) together with theorems about it.

Conventions of the embedding

* C++ `int` fields are `Int`; the values that occur (flight numbers, runway
  indices, wait times of a 300 second run) stay far from the 32-bit range.
* `std::chrono` time points are `Int` tick counts of the clock (nanoseconds).
* `float` and `double` values are the rational numbers they denote; every
  arithmetic operation on them is the exact operation followed by rounding to
  the format (`roundBinary`), comparisons are exact.
* A `Flight*` is the index of the flight in the controller's `flights` vector,
  which only ever grows by `push_back`.
-/

set_option autoImplicit false

namespace ATCS

/-! ## Enumerations -/

inductive AircraftType where
  | Commercial
  | Cargo
  | Emergency
  deriving DecidableEq, Repr

inductive EmergencyType where
  | None
  | Military
  | Medical
  | DiversionOrLowFuel
  | VIP
  deriving DecidableEq, Repr

inductive FlightDirection where
  | NorthArrival
  | SouthArrival
  | EastDeparture
  | WestDeparture
  deriving DecidableEq, Repr

inductive FlightPhase where
  | Holding
  | Approach
  | Landing
  | Taxi
  | AtGate
  | TakeoffRoll
  | Climb
  | Cruise
  | Departure
  deriving DecidableEq, Repr

/-! ## Airline and Flight -/

structure Airline where
  name : String
  type : AircraftType
  totalAircrafts : Int
  flightsInOperation : Int
  deriving DecidableEq, Repr

structure Flight where
  flightNumber : Int
  airline : Airline
  aircraftType : AircraftType
  direction : FlightDirection
  phase : FlightPhase
  speed : ℚ
  violationActive : Bool
  violationReason : String
  scheduledTime : Int
  actualTime : Int
  runwayAssigned : Int
  runwayOccupied : Bool
  emergencyType : EmergencyType
  priorityLevel : Int
  hasFault : Bool
  faultDescription : String
  estimatedWaitTime : Int
  avnIDs : List Int
  deriving DecidableEq

/-- `Flight::calculatePriority`, reading the two members it depends on. -/
def calculatePriority (aircraftType : AircraftType) (emergencyType : EmergencyType) : Int :=
  if aircraftType = AircraftType.Emergency then 1
  else if emergencyType = EmergencyType.VIP then 2
  else if aircraftType = AircraftType.Cargo then 3
  else 4

/-- The constructor `Flight::Flight(num, al, at, dir, sched, emType)`. -/
def Flight.new (num : Int) (al : Airline) (aty : AircraftType) (dir : FlightDirection)
    (sched : Int) (emType : EmergencyType) : Flight :=
  { flightNumber := num
    airline := al
    aircraftType := aty
    direction := dir
    phase := FlightPhase.Holding
    speed := 0
    violationActive := false
    violationReason := ""
    scheduledTime := sched
    actualTime := sched
    runwayAssigned := -1
    runwayOccupied := false
    emergencyType := emType
    priorityLevel := calculatePriority aty emType
    hasFault := false
    faultDescription := ""
    estimatedWaitTime := 0
    avnIDs := [] }

/-! ## Binary floating point

`float` is IEEE-754 binary32 (24 significant bits) and `double` is binary64
(53 significant bits).  A value of either type is the rational number it
denotes; an arithmetic operation is the exact rational operation followed by
`roundBinary` (round to nearest, ties to even).  All values met in this
program lie in the normal range of their format, so exponent limits are left
out. -/

/-- Exponent of the binade of a nonzero rational: the greatest `e` with `2 ^ e ≤ |x|`. -/
def binade (x : ℚ) : Int := Int.log 2 |x|

/-- Round to the nearest integer, ties to the even neighbour. -/
def roundHalfEven (x : ℚ) : Int :=
  let f := Int.floor x
  let r := x - f
  if r < 1/2 then f
  else if 1/2 < r then f + 1
  else if f % 2 = 0 then f else f + 1

/-- Round a rational to `p` significant bits, nearest, ties to even. -/
def roundBinary (p : Nat) (x : ℚ) : ℚ :=
  if x = 0 then 0
  else
    let e := binade x
    (roundHalfEven (x * (2 : ℚ) ^ ((p : Int) - 1 - e)) : ℚ) * (2 : ℚ) ^ (e - ((p : Int) - 1))

/-- Rounding to `double`. -/
def toDouble (x : ℚ) : ℚ := roundBinary 53 x

/-- Rounding to `float`. -/
def toFloat (x : ℚ) : ℚ := roundBinary 24 x

/-! ## Violation notices (AVN) and the shared ledger -/

/-- The class `AVN`; the back pointer `flight` is not part of the record. -/
structure AVN where
  avnID : Int
  airlineName : String
  flightNumber : Int
  aircraftType : AircraftType
  recordedSpeed : ℚ
  permissibleSpeed : ℚ
  issueDateTime : Int
  fineAmount : ℚ
  paymentStatus : Bool
  dueDate : Int
  deriving DecidableEq

/-- The record `SharedAVN` kept in the shared-memory vector. -/
structure SharedAVN where
  avnID : Int
  airlineName : String
  flightNumber : Int
  aircraftType : Int
  recordedSpeed : ℚ
  permissibleSpeed : ℚ
  issueDateTime : Int
  fineAmount : ℚ
  paymentStatus : Bool
  dueDate : Int
  deriving DecidableEq

/-- Ticks of `std::chrono::system_clock` (nanoseconds) in one second. -/
def ticksPerSecond : Int := 1000000000

/-- The duration `std::chrono::hours(n)` in clock ticks. -/
def hours (n : Int) : Int := n * 3600 * ticksPerSecond

/-- The conversion `system_clock::to_time_t`: whole seconds, truncated toward zero. -/
def to_time_t (tp : Int) : Int := Int.tdiv tp ticksPerSecond

/-- The conversion `static_cast<int>(AircraftType)`. -/
def AircraftType.toInt : AircraftType → Int
  | AircraftType.Commercial => 0
  | AircraftType.Cargo => 1
  | AircraftType.Emergency => 2

/-- The constructor `AVN::AVN(id, f, recSpeed, permSpeed, fine)`; `now` is the value
of `system_clock::now()` read by the constructor. -/
def AVN.new (id : Int) (f : Flight) (recSpeed permSpeed fine : ℚ) (now : Int) : AVN :=
  { avnID := id
    airlineName := f.airline.name
    flightNumber := f.flightNumber
    aircraftType := f.aircraftType
    recordedSpeed := recSpeed
    permissibleSpeed := permSpeed
    issueDateTime := now
    fineAmount := fine
    paymentStatus := false
    dueDate := now + hours (24 * 3) }

/-- The shared-memory state of `AVNGenerator`: the ticket counter and the ticket vector. -/
structure Ledger where
  avnCounter : Int
  avnVector : List SharedAVN
  deriving DecidableEq

/-- The `switch` of `AVNGenerator::generateAVN` choosing `baseAmount`. -/
def baseAmount : AircraftType → ℚ
  | AircraftType.Commercial => 500000
  | AircraftType.Cargo => 700000
  | AircraftType.Emergency => 500000

/-- The expression `baseAmount * 1.15`: the literal is the `double` nearest to 1.15
and the product is rounded to `double`. -/
def totalAmount (aty : AircraftType) : ℚ :=
  toDouble (baseAmount aty * toDouble (115 / 100))

/-- The local object `newAVN` built by `AVNGenerator::generateAVN`. -/
def generateAVN.newAVN (L : Ledger) (flight : Flight) (permissibleSpeed : ℚ) (now : Int) : AVN :=
  AVN.new (L.avnCounter + 1) flight flight.speed permissibleSpeed (totalAmount flight.aircraftType) now

/-- The record `sharedAVN` that `AVNGenerator::generateAVN` copies from `newAVN`. -/
def generateAVN.sharedAVN (newAVN : AVN) (permissibleSpeed : ℚ) : SharedAVN :=
  { avnID := newAVN.avnID
    airlineName := newAVN.airlineName.take 49
    flightNumber := newAVN.flightNumber
    aircraftType := newAVN.aircraftType.toInt
    recordedSpeed := newAVN.recordedSpeed
    permissibleSpeed := permissibleSpeed
    issueDateTime := to_time_t newAVN.issueDateTime
    fineAmount := newAVN.fineAmount
    paymentStatus := false
    dueDate := to_time_t newAVN.dueDate }

/-- The method `AVNGenerator::generateAVN(flight, permissibleSpeed)`: returns the new
ticket id and the ledger with the ticket appended. -/
def generateAVN (L : Ledger) (flight : Flight) (permissibleSpeed : ℚ) (now : Int) : Int × Ledger :=
  let currentAvnId := L.avnCounter + 1
  let newAVN := generateAVN.newAVN L flight permissibleSpeed now
  (currentAvnId,
    { avnCounter := currentAvnId
      avnVector := L.avnVector ++ [generateAVN.sharedAVN newAVN permissibleSpeed] })

/-! ## Speed envelopes -/

/-- The three locals of `ATCSController::checkSpeedViolation` after its `switch`. -/
structure SpeedVerdict where
  permissibleSpeed : ℚ
  violation : Bool
  violationReason : String
  deriving DecidableEq

/-- The `switch (flight.phase)` of `ATCSController::checkSpeedViolation`.  The locals
start as `0.0f`, `false` and the empty string; `Departure` has no case. -/
def checkSpeedViolation.verdict (phase : FlightPhase) (speed : ℚ) : SpeedVerdict :=
  match phase with
  | FlightPhase.Holding =>
    if speed > 600 ∨ speed < 400 then
      { permissibleSpeed := 600, violation := true
        violationReason := "Speed outside holding range (400-600 km/h)" }
    else { permissibleSpeed := 600, violation := false, violationReason := "" }
  | FlightPhase.Approach =>
    if speed < 240 ∨ speed > 290 then
      { permissibleSpeed := 290, violation := true
        violationReason := "Speed outside approach range (240-290 km/h)" }
    else { permissibleSpeed := 290, violation := false, violationReason := "" }
  | FlightPhase.Landing =>
    if speed > 240 then
      { permissibleSpeed := 240, violation := true
        violationReason := "Exceeded landing speed limit (240 km/h)" }
    else { permissibleSpeed := 240, violation := false, violationReason := "" }
  | FlightPhase.Taxi =>
    if speed > 30 ∨ speed < 15 then
      { permissibleSpeed := 30, violation := true
        violationReason := "Speed outside taxi range (15-30 km/h)" }
    else { permissibleSpeed := 30, violation := false, violationReason := "" }
  | FlightPhase.AtGate =>
    if speed > 5 then
      { permissibleSpeed := 5, violation := true
        violationReason := "Exceeded gate speed limit (5 km/h)" }
    else { permissibleSpeed := 5, violation := false, violationReason := "" }
  | FlightPhase.TakeoffRoll =>
    if speed > 290 then
      { permissibleSpeed := 290, violation := true
        violationReason := "Exceeded takeoff roll speed limit (290 km/h)" }
    else { permissibleSpeed := 290, violation := false, violationReason := "" }
  | FlightPhase.Climb =>
    if speed < 250 ∨ speed > 463 then
      { permissibleSpeed := 463, violation := true
        violationReason := "Speed outside climb range (250-463 km/h)" }
    else { permissibleSpeed := 463, violation := false, violationReason := "" }
  | FlightPhase.Cruise =>
    if speed < 800 ∨ speed > 900 then
      { permissibleSpeed := 900, violation := true
        violationReason := "Speed outside cruise range (800-900 km/h)" }
    else { permissibleSpeed := 900, violation := false, violationReason := "" }
  | FlightPhase.Departure =>
    { permissibleSpeed := 0, violation := false, violationReason := "" }

/-- The body of `ATCSController::checkSpeedViolation` on the flight record and the
ledger of `avnGenerator`; `now` is the clock value read when the ticket is built. -/
def checkSpeedViolation.onFlight (flight : Flight) (L : Ledger) (now : Int) : Flight × Ledger :=
  let v := checkSpeedViolation.verdict flight.phase flight.speed
  if v.violation && !flight.violationActive then
    let flight1 := { flight with violationActive := true, violationReason := v.violationReason }
    let r := generateAVN L flight1 v.permissibleSpeed now
    ({ flight1 with avnIDs := flight1.avnIDs ++ [r.1] }, r.2)
  else (flight, L)

/-- The speed envelope of a phase as the specification lists it (km/h, bounds included):
Holding 400-600, Approach 240-290, Landing at most 240, Taxi 15-30, AtGate at most 5,
TakeoffRoll at most 290, Climb 250-463, Cruise 800-900; Departure has no limit. -/
def inEnvelope (phase : FlightPhase) (speed : ℚ) : Prop :=
  match phase with
  | FlightPhase.Holding => 400 ≤ speed ∧ speed ≤ 600
  | FlightPhase.Approach => 240 ≤ speed ∧ speed ≤ 290
  | FlightPhase.Landing => speed ≤ 240
  | FlightPhase.Taxi => 15 ≤ speed ∧ speed ≤ 30
  | FlightPhase.AtGate => speed ≤ 5
  | FlightPhase.TakeoffRoll => speed ≤ 290
  | FlightPhase.Climb => 250 ≤ speed ∧ speed ≤ 463
  | FlightPhase.Cruise => 800 ≤ speed ∧ speed ≤ 900
  | FlightPhase.Departure => True

/-- The reason text that names the speed limit of a phase in a violation report. -/
def limitReason : FlightPhase → String
  | FlightPhase.Holding => "Speed outside holding range (400-600 km/h)"
  | FlightPhase.Approach => "Speed outside approach range (240-290 km/h)"
  | FlightPhase.Landing => "Exceeded landing speed limit (240 km/h)"
  | FlightPhase.Taxi => "Speed outside taxi range (15-30 km/h)"
  | FlightPhase.AtGate => "Exceeded gate speed limit (5 km/h)"
  | FlightPhase.TakeoffRoll => "Exceeded takeoff roll speed limit (290 km/h)"
  | FlightPhase.Climb => "Speed outside climb range (250-463 km/h)"
  | FlightPhase.Cruise => "Speed outside cruise range (800-900 km/h)"
  | FlightPhase.Departure => ""

/-! ## The binary heap behind `std::priority_queue`

`runwayQueue` is a `std::priority_queue` over a `std::vector`; its operations are
`push_back` followed by `std::push_heap`, and `std::pop_heap` followed by `pop_back`.
The heap algorithms are those of libstdc++ (`bits/stl_heap.h`).  The comparator
`comp a b` means that `a` is ordered before `b`, so the top is a greatest element. -/

namespace Heap

variable {α : Type}

/-- The loop of `std::__push_heap(first, holeIndex, topIndex, value, comp)`.  The hole
index halves in every round, so `fuel = holeIndex` rounds are enough. -/
def pushHeap (comp : α → α → Bool) (value : α) (topIndex : Nat) :
    Nat → List α → Nat → List α
  | 0, first, holeIndex => first.set holeIndex value
  | fuel + 1, first, holeIndex =>
    let parent := (holeIndex - 1) / 2
    if holeIndex > topIndex then
      match first[parent]? with
      | some p =>
        if comp p value then pushHeap comp value topIndex fuel (first.set holeIndex p) parent
        else first.set holeIndex value
      | none => first.set holeIndex value
    else first.set holeIndex value

/-- The algorithm `std::push_heap(first, last, comp)` on the whole vector. -/
def push_heap (comp : α → α → Bool) (cont : List α) : List α :=
  match cont.getLast? with
  | none => cont
  | some value => pushHeap comp value 0 (cont.length - 1) cont (cont.length - 1)

/-- The first loop of `std::__adjust_heap`: the hole moves down to the child that the
comparator does not order before its sibling.  Returns the vector, `holeIndex` and
`secondChild`; `secondChild` grows in every round, so `fuel = len` rounds are enough. -/
def adjustHeapLoop (comp : α → α → Bool) (len : Nat) :
    Nat → List α → Nat → Nat → List α × Nat × Nat
  | 0, first, holeIndex, secondChild => (first, holeIndex, secondChild)
  | fuel + 1, first, holeIndex, secondChild =>
    if secondChild < (len - 1) / 2 then
      let sc := 2 * (secondChild + 1)
      match first[sc]?, first[sc - 1]? with
      | some a, some b =>
        if comp a b then adjustHeapLoop comp len fuel (first.set holeIndex b) (sc - 1) (sc - 1)
        else adjustHeapLoop comp len fuel (first.set holeIndex a) sc sc
      | _, _ => (first, holeIndex, secondChild)
    else (first, holeIndex, secondChild)

/-- The step of `std::__adjust_heap` after its loop: when `len` is even and the hole has
a left child only, that child moves up. -/
def adjustHeapLast (len : Nat) (st : List α × Nat × Nat) : List α × Nat :=
  if len % 2 = 0 ∧ (st.2.2 : Int) = Int.tdiv ((len : Int) - 2) 2 then
    let sc := 2 * (st.2.2 + 1)
    match st.1[sc - 1]? with
    | some x => (st.1.set st.2.1 x, sc - 1)
    | none => (st.1, st.2.1)
  else (st.1, st.2.1)

/-- The algorithm `std::__adjust_heap(first, holeIndex, len, value, comp)`. -/
def adjustHeap (comp : α → α → Bool) (first : List α) (holeIndex len : Nat) (value : α) :
    List α :=
  let st := adjustHeapLast len (adjustHeapLoop comp len len first holeIndex holeIndex)
  pushHeap comp value holeIndex st.2 st.1 st.2

/-- The algorithm `std::pop_heap(first, last, comp)` on the whole vector: the last
element is saved, the first is moved to the back, and the saved one is sifted in. -/
def pop_heap (comp : α → α → Bool) (cont : List α) : List α :=
  if cont.length > 1 then
    let len := cont.length - 1
    match cont[len]?, cont[0]? with
    | some value, some front => adjustHeap comp (cont.set len front) 0 len value
    | _, _ => cont
  else cont

end Heap

/-- The call `priority_queue::push(x)`. -/
def PriorityQueue.push {α : Type} (comp : α → α → Bool) (cont : List α) (x : α) : List α :=
  Heap.push_heap comp (cont ++ [x])

/-- The call `priority_queue::pop()`. -/
def PriorityQueue.pop {α : Type} (comp : α → α → Bool) (cont : List α) : List α :=
  (Heap.pop_heap comp cont).dropLast

/-- The call `priority_queue::top()`, the front of the vector. -/
def PriorityQueue.top {α : Type} (cont : List α) : Option α := cont.head?

/-- The elements in the order in which successive `top()` and `pop()` calls yield them. -/
def PriorityQueue.popAll {α : Type} (comp : α → α → Bool) : Nat → List α → List α
  | 0, _ => []
  | fuel + 1, cont =>
    match PriorityQueue.top cont with
    | none => []
    | some x => x :: PriorityQueue.popAll comp fuel (PriorityQueue.pop comp cont)

/-! ## Runways and the controller -/

/-- The class `Runway`; `runwayMutex` is true while the mutex is locked. -/
structure Runway where
  id : Int
  name : String
  runwayMutex : Bool
  occupied : Bool
  deriving DecidableEq

/-- The constructor `Runway::Runway(i, n)`. -/
def Runway.new (i : Int) (n : String) : Runway :=
  { id := i, name := n, runwayMutex := false, occupied := false }

/-- The struct `ATCSController::FlightSchedule`. -/
structure FlightSchedule where
  direction : FlightDirection
  intervalSeconds : Int
  emergencyProbability : ℚ
  description : String
  emergencyType : EmergencyType
  deriving DecidableEq

/-- The data members of `ATCSController` that the engine reads and writes.  An entry of
`runwayQueue` is a `Flight*`, the index of the flight in `flights`; `avnGenerator` is the
shared ledger behind the generator object. -/
structure ATCSController where
  airlines : List Airline
  runways : List Runway
  flights : List Flight
  avnGenerator : Ledger
  flightSchedules : List FlightSchedule
  runwayQueue : List Nat

instance : Inhabited Flight :=
  ⟨Flight.new 0 ⟨"", AircraftType.Commercial, 0, 0⟩ AircraftType.Commercial
    FlightDirection.NorthArrival 0 EmergencyType.None⟩

/-- The state built by the constructor `ATCSController::ATCSController()`. -/
def ATCSController.new : ATCSController :=
  { airlines :=
      [ ⟨"PIA", AircraftType.Commercial, 6, 4⟩,
        ⟨"AirBlue", AircraftType.Commercial, 4, 4⟩,
        ⟨"FedEx Cargo", AircraftType.Cargo, 3, 2⟩,
        ⟨"Pakistan Airforce", AircraftType.Emergency, 2, 1⟩,
        ⟨"Blue Dart Cargo", AircraftType.Cargo, 2, 2⟩,
        ⟨"AghaKhan Air Ambulance", AircraftType.Emergency, 2, 1⟩ ]
    runways :=
      [ Runway.new 0 "RWY-A (North-South Arrivals)",
        Runway.new 1 "RWY-B (East-West Departures)",
        Runway.new 2 "RWY-C (Cargo/Emergency/Overflow)" ]
    flights := []
    avnGenerator := { avnCounter := 0, avnVector := [] }
    flightSchedules :=
      [ ⟨FlightDirection.NorthArrival, 180, toFloat (10 / 100), "International Arrivals",
          EmergencyType.DiversionOrLowFuel⟩,
        ⟨FlightDirection.SouthArrival, 120, toFloat (5 / 100), "Domestic Arrivals",
          EmergencyType.Medical⟩,
        ⟨FlightDirection.EastDeparture, 150, toFloat (15 / 100), "International Departures",
          EmergencyType.Military⟩,
        ⟨FlightDirection.WestDeparture, 240, toFloat (20 / 100), "Domestic Departures",
          EmergencyType.VIP⟩ ]
    runwayQueue := [] }

/-- Dereference of a `Flight*`. -/
def ATCSController.flightAt (c : ATCSController) (p : Nat) : Flight := c.flights.getD p default

/-- A write through a `Flight*`. -/
def ATCSController.modifyFlight (c : ATCSController) (p : Nat) (g : Flight → Flight) :
    ATCSController :=
  { c with flights := c.flights.set p (g (c.flightAt p)) }

/-- The functor `ATCSController::FlightPriorityComparator` on the two flights pointed to. -/
def FlightPriorityComparator (a b : Flight) : Bool :=
  if a.priorityLevel ≠ b.priorityLevel then decide (a.priorityLevel > b.priorityLevel)
  else decide (a.scheduledTime > b.scheduledTime)

/-- The comparator of `runwayQueue` on pointers into `flights`. -/
def queueComp (flights : List Flight) (a b : Nat) : Bool :=
  FlightPriorityComparator (flights.getD a default) (flights.getD b default)

/-- The call `runwayQueue.push(flightPtr)`. -/
def ATCSController.pushQueue (c : ATCSController) (p : Nat) : ATCSController :=
  { c with runwayQueue := PriorityQueue.push (queueComp c.flights) c.runwayQueue p }

/-- The call `runwayQueue.pop()`. -/
def ATCSController.popQueue (c : ATCSController) : ATCSController :=
  { c with runwayQueue := PriorityQueue.pop (queueComp c.flights) c.runwayQueue }

/-- The method `ATCSController::addFlight(flight)`; the same two containers are extended
by `flightGenerationThread` when it creates a flight. -/
def ATCSController.addFlight (c : ATCSController) (flight : Flight) : ATCSController :=
  ({ c with flights := c.flights ++ [flight] }).pushQueue c.flights.length

/-- The preferred runway computed at the head of `ATCSController::assignRunway`. -/
def preferredRunway (flight : Flight) : Int :=
  if flight.aircraftType = AircraftType.Cargo ∨ flight.aircraftType = AircraftType.Emergency then 2
  else if flight.direction = FlightDirection.NorthArrival ∨
      flight.direction = FlightDirection.SouthArrival then 0
  else 1

/-- The first attempt of `ATCSController::assignRunway`, on the preferred runway. -/
def assignRunway.preferred (runways : List Runway) (flight : Flight) :
    Option (List Runway × Flight) :=
  let preferredRunway := preferredRunway flight
  if preferredRunway ≥ 0 ∧ preferredRunway < (runways.length : Int) then
    match runways[preferredRunway.toNat]? with
    | some r =>
      if !r.occupied then
        some (runways.set preferredRunway.toNat { r with occupied := true },
          { flight with runwayAssigned := preferredRunway, runwayOccupied := true })
      else none
    | none => none
  else none

/-- The `for` loop of `ATCSController::assignRunway` over the alternative runways, from
index `i` on; `fuel = runways.size()` rounds are enough. -/
def assignRunway.overflow (preferredRunway : Int) (flight : Flight) :
    Nat → Nat → List Runway → Option (List Runway × Flight)
  | 0, _, _ => none
  | fuel + 1, i, runways =>
    if i < runways.length then
      if (i : Int) ≠ preferredRunway then
        match runways[i]? with
        | some r =>
          if !r.occupied then
            some (runways.set i { r with occupied := true },
              { flight with runwayAssigned := (i : Int), runwayOccupied := true })
          else assignRunway.overflow preferredRunway flight fuel (i + 1) runways
        | none => none
      else assignRunway.overflow preferredRunway flight fuel (i + 1) runways
    else none

/-- The method `ATCSController::assignRunway(flight)` on the runway vector and the flight
record: the result flag, the runways and the flight afterwards. -/
def assignRunway.onFlight (runways : List Runway) (flight : Flight) :
    Bool × List Runway × Flight :=
  match assignRunway.preferred runways flight with
  | some r => (true, r.1, r.2)
  | none =>
    if flight.aircraftType ≠ AircraftType.Cargo then
      match assignRunway.overflow (preferredRunway flight) flight runways.length 0 runways with
      | some r => (true, r.1, r.2)
      | none => (false, runways, flight)
    else (false, runways, flight)

/-- The method `ATCSController::assignRunway(flight)` with the flight given by pointer. -/
def assignRunway (c : ATCSController) (p : Nat) : Bool × ATCSController :=
  let r := assignRunway.onFlight c.runways (c.flightAt p)
  (r.1, { c with runways := r.2.1, flights := c.flights.set p r.2.2 })

/-- The method `ATCSController::releaseRunway(runwayID)`. -/
def releaseRunway (c : ATCSController) (runwayID : Int) : ATCSController :=
  if runwayID ≥ 0 ∧ runwayID < (c.runways.length : Int) then
    match c.runways[runwayID.toNat]? with
    | some r => { c with runways := c.runways.set runwayID.toNat { r with occupied := false } }
    | none => c
  else c

/-- The statement pair `releaseRunway(flight.runwayAssigned); flight.runwayAssigned = -1;`
under its guard `flight.runwayAssigned != -1`, as it occurs in `flightThread` and in
`removeFaultedFlight`. -/
def releaseHeld (c : ATCSController) (p : Nat) : ATCSController :=
  if (c.flightAt p).runwayAssigned ≠ -1 then
    (releaseRunway c (c.flightAt p).runwayAssigned).modifyFlight p
      (fun f => { f with runwayAssigned := -1 })
  else c

/-- The inner `while (!runwayQueue.empty())` loop of `runwayManagementThread`.  Every round
that continues pops one entry, so `fuel = runwayQueue.size()` rounds are enough. -/
def runwayManagementThread.loop : Nat → ATCSController → ATCSController
  | 0, c => c
  | fuel + 1, c =>
    match PriorityQueue.top c.runwayQueue with
    | none => c
    | some p =>
      if (c.flightAt p).runwayAssigned = -1 then
        let r := assignRunway c p
        if r.1 then runwayManagementThread.loop fuel r.2.popQueue
        else r.2.modifyFlight p (fun f => { f with estimatedWaitTime := f.estimatedWaitTime + 500 })
      else runwayManagementThread.loop fuel c.popQueue

/-- One dispatch pass of `ATCSController::runwayManagementThread`: the queue processing
done under `flightsMutex` once per 500 ms round. -/
def runwayManagementThread.pass (c : ATCSController) : ATCSController :=
  runwayManagementThread.loop c.runwayQueue.length c

/-- The method `ATCSController::checkSpeedViolation(flight)` with the flight given by
pointer. -/
def checkSpeedViolation (c : ATCSController) (p : Nat) (now : Int) : ATCSController :=
  let r := checkSpeedViolation.onFlight (c.flightAt p) c.avnGenerator now
  { c with flights := c.flights.set p r.1, avnGenerator := r.2 }

/-- The first loop of `ATCSController::removeFaultedFlight`: the queue is emptied and the
entries with another flight number are collected in `tempQueue`. -/
def removeFaultedFlight.drain (flights : List Flight) (flightNumber : Int) :
    Nat → List Nat → List Nat → List Nat × List Nat
  | 0, queue, tempQueue => (queue, tempQueue)
  | fuel + 1, queue, tempQueue =>
    match PriorityQueue.top queue with
    | none => (queue, tempQueue)
    | some f =>
      if (flights.getD f default).flightNumber ≠ flightNumber then
        removeFaultedFlight.drain flights flightNumber fuel
          (PriorityQueue.pop (queueComp flights) queue) (tempQueue ++ [f])
      else
        removeFaultedFlight.drain flights flightNumber fuel
          (PriorityQueue.pop (queueComp flights) queue) tempQueue

/-- The method `ATCSController::removeFaultedFlight(flight)`. -/
def removeFaultedFlight (c : ATCSController) (p : Nat) : ATCSController :=
  let d := removeFaultedFlight.drain c.flights (c.flightAt p).flightNumber
    c.runwayQueue.length c.runwayQueue []
  let queue := d.2.foldl (PriorityQueue.push (queueComp c.flights)) d.1
  releaseHeld { c with runwayQueue := queue } p

/-- The vector `faultTypes` of `ATCSController::checkGroundFaults`. -/
def faultTypes : List String :=
  ["Brake failure", "Hydraulic leak", "APU malfunction", "Steering system fault"]

/-- The method `ATCSController::checkGroundFaults(flight)`; `u` is the value drawn from
`dis(gen)` and `r` the value of `rand()`. -/
def checkGroundFaults (c : ATCSController) (p : Nat) (u : ℚ) (r : Nat) : ATCSController :=
  if (c.flightAt p).phase = FlightPhase.Taxi ∨ (c.flightAt p).phase = FlightPhase.AtGate then
    if u < toDouble (5 / 100) ∧ (c.flightAt p).hasFault = false then
      removeFaultedFlight
        (c.modifyFlight p (fun f =>
          { f with hasFault := true
                   faultDescription := faultTypes.getD (r % faultTypes.length) "" })) p
    else c
  else c

/-- The method `Flight::updatePhase` through a pointer. -/
def updatePhase (c : ATCSController) (p : Nat) (newPhase : FlightPhase) : ATCSController :=
  c.modifyFlight p (fun f => { f with phase := newPhase })

/-- The method `Flight::updateSpeed` through a pointer. -/
def updateSpeed (c : ATCSController) (p : Nat) (newSpeed : ℚ) : ATCSController :=
  c.modifyFlight p (fun f => { f with speed := newSpeed })

/-- The speed set while landing: `240.0f * (1.0f - landingProgress) + 30.0f * landingProgress`
with `landingProgress = elapsed / 6.0f`, every operation rounded to `float`. -/
def landingSpeed (elapsed : Nat) : ℚ :=
  let landingProgress := toFloat (toFloat (elapsed : ℚ) / 6)
  toFloat (toFloat (240 * toFloat (1 - landingProgress)) + toFloat (30 * landingProgress))

/-- The speed set during the takeoff roll: `290.0f * rollProgress` with
`rollProgress = static_cast<float>(elapsed) / 3.0f`. -/
def rollSpeed (elapsed : Nat) : ℚ :=
  toFloat (290 * toFloat (toFloat (elapsed : ℚ) / 3))

/-- The `switch (flight.phase)` of one round of the loop of `ATCSController::flightThread`.
`elapsed` is the whole number of seconds since `phaseStart`, `r` the value of `rand()` and
`now` the clock value read if a ticket is issued.  The flag is true when the round ends in
`return`.  Integer speeds are below `2 ^ 24` and convert to `float` unchanged. -/
def flightThread.phaseSwitch (c : ATCSController) (p : Nat) (elapsed : Nat) (r : Nat)
    (now : Int) : ATCSController × Bool :=
  match (c.flightAt p).phase with
  | FlightPhase.Holding =>
    if elapsed ≥ 10 then
      (checkSpeedViolation
        (updateSpeed (updatePhase c p FlightPhase.Approach) p ((400 + r % 201 : Nat) : ℚ)) p now,
        false)
    else (c, false)
  | FlightPhase.Approach =>
    if elapsed ≥ 8 then
      (checkSpeedViolation (updateSpeed (updatePhase c p FlightPhase.Landing) p 240) p now, false)
    else (c, false)
  | FlightPhase.Landing =>
    if elapsed < 6 then
      (checkSpeedViolation (updateSpeed c p (landingSpeed elapsed)) p now, false)
    else (updateSpeed (updatePhase c p FlightPhase.Taxi) p 20, false)
  | FlightPhase.Taxi =>
    if elapsed ≥ 5 then (updateSpeed (updatePhase c p FlightPhase.AtGate) p 0, false)
    else (c, false)
  | FlightPhase.AtGate =>
    let c1 :=
      if elapsed ≥ 5 then
        if (c.flightAt p).direction = FlightDirection.EastDeparture ∨
            (c.flightAt p).direction = FlightDirection.WestDeparture then
          updateSpeed (updatePhase c p FlightPhase.Taxi) p ((15 + r % 16 : Nat) : ℚ)
        else c
      else c
    (releaseHeld c1 p, false)
  | FlightPhase.TakeoffRoll =>
    if elapsed ≥ 3 then
      (checkSpeedViolation
        (updateSpeed (updatePhase c p FlightPhase.Climb) p ((250 + r % 213 : Nat) : ℚ)) p now,
        false)
    else (updateSpeed c p (rollSpeed elapsed), false)
  | FlightPhase.Climb =>
    if elapsed ≥ 4 then
      (releaseHeld
        (checkSpeedViolation
          (updateSpeed (updatePhase c p FlightPhase.Cruise) p ((800 + r % 101 : Nat) : ℚ)) p now)
        p, false)
    else (c, false)
  | FlightPhase.Cruise =>
    if elapsed ≥ 10 then (updatePhase c p FlightPhase.Departure, true)
    else (c, false)
  | FlightPhase.Departure => (c, true)

/-- One round of the loop of `ATCSController::flightThread` (one actor poll): the phase
`switch`, then `checkGroundFaults` if the round did not return and `simulationRunning`
still holds.  `u` and `r2` are the random values read by `checkGroundFaults`.  The second
component is false when the thread has ended. -/
def flightThread.step (c : ATCSController) (p : Nat) (elapsed : Nat) (r : Nat) (now : Int)
    (simulationRunning : Bool) (u : ℚ) (r2 : Nat) : ATCSController × Bool :=
  let s := flightThread.phaseSwitch c p elapsed r now
  if s.2 then (s.1, false)
  else if simulationRunning then (checkGroundFaults s.1 p u r2, true)
  else (s.1, true)

/-- One operation of the engine taken as a whole: a flight creation, a dispatch pass, an
actor poll or a fault removal.  The poll is one round of `flightThread` with no other thread
running inside it; `RaceStep` takes the release pair of the round statement by statement. -/
inductive Step : ATCSController → ATCSController → Prop
  | create (c : ATCSController) (num : Int) (al : Airline) (aty : AircraftType)
      (dir : FlightDirection) (sched : Int) (emType : EmergencyType) :
      Step c (c.addFlight (Flight.new num al aty dir sched emType))
  | dispatch (c : ATCSController) : Step c (runwayManagementThread.pass c)
  | poll (c : ATCSController) (p elapsed r : Nat) (now : Int) (simulationRunning : Bool)
      (u : ℚ) (r2 : Nat) :
      p < c.flights.length →
      Step c (flightThread.step c p elapsed r now simulationRunning u r2).1
  | fault (c : ATCSController) (p : Nat) :
      p < c.flights.length → Step c (removeFaultedFlight c p)

/-- The states the engine can reach from the freshly constructed controller (all runways
free, no flights) by any sequence of operations. -/
inductive Reachable : ATCSController → Prop
  | init : Reachable ATCSController.new
  | step (c c' : ATCSController) : Reachable c → Step c c' → Reachable c'

/-! ## Vocabulary for the backlog -/

/-- Heap order on the first `n` entries, in terms of a key that the comparator reverses:
the key of a parent is at most the key of its child. -/
def Heap.Ordered {α K : Type} [LinearOrder K] (key : α → K) (l : List α) (n : Nat) : Prop :=
  ∀ i x y, 0 < i → i < n → l[(i - 1) / 2]? = some x → l[i]? = some y → key x ≤ key y

/-- Heap order on the first `n` entries everywhere except at the hole `h`: pairs that do not
involve the hole are ordered, and the children of the hole are ordered after its parent. -/
def Heap.OrderedAround {α K : Type} [LinearOrder K] (key : α → K) (l : List α) (h n : Nat) :
    Prop :=
  (∀ i x y, 0 < i → i < n → i ≠ h → (i - 1) / 2 ≠ h →
      l[(i - 1) / 2]? = some x → l[i]? = some y → key x ≤ key y) ∧
    (∀ i x y, 0 < i → i < n → (i - 1) / 2 = h → 0 < h →
      l[(h - 1) / 2]? = some x → l[i]? = some y → key x ≤ key y)

/-- The children of the hole `h` among the first `n` entries have keys at least that of `v`. -/
def Heap.ChildrenAbove {α K : Type} [LinearOrder K] (key : α → K) (l : List α) (h n : Nat)
    (v : α) : Prop :=
  ∀ i y, 0 < i → i < n → (i - 1) / 2 = h → l[i]? = some y → key v ≤ key y

/-- The pair (priorityLevel, scheduledTime) under the lexicographic order. -/
def flightKey (f : Flight) : ℤ ×ₗ ℤ := toLex (f.priorityLevel, f.scheduledTime)

/-- The key of the flight a queue entry points to. -/
def queueKey (flights : List Flight) (p : Nat) : ℤ ×ₗ ℤ := flightKey (flights.getD p default)

/-- Flight `a` is not after flight `b` in (priorityLevel, scheduledTime) order: a smaller
priority value, or the same priority value and a scheduled time that is not later. -/
def dispatchedBefore (a b : Flight) : Prop :=
  a.priorityLevel < b.priorityLevel ∨
    (a.priorityLevel = b.priorityLevel ∧ a.scheduledTime ≤ b.scheduledTime)

/-- The members of a flight that the runway, backlog and violation invariants read. -/
def Flight.core (f : Flight) :
    Int × Int × Int × List Int × Bool × AircraftType × EmergencyType × Int × FlightDirection :=
  (f.priorityLevel, f.scheduledTime, f.runwayAssigned, f.avnIDs, f.violationActive,
    f.aircraftType, f.emergencyType, f.flightNumber, f.direction)

/-- Runway exclusion: two flights never hold the same runway, and a runway held by a flight
exists and is marked occupied. -/
def RunwayInv (c : ATCSController) : Prop :=
  (∀ i j, i < c.flights.length → j < c.flights.length →
      (c.flightAt i).runwayAssigned ≠ -1 →
      (c.flightAt i).runwayAssigned = (c.flightAt j).runwayAssigned → i = j) ∧
    (∀ i, i < c.flights.length → (c.flightAt i).runwayAssigned ≠ -1 →
      0 ≤ (c.flightAt i).runwayAssigned ∧
        ∃ rw, c.runways[(c.flightAt i).runwayAssigned.toNat]? = some rw ∧ rw.occupied = true)

/-- Ticket bookkeeping: a flight has at most one ticket, and has one exactly when its
violation flag is set. -/
def ViolInv (c : ATCSController) : Prop :=
  ∀ i, i < c.flights.length →
    (c.flightAt i).avnIDs.length ≤ 1 ∧
      ((c.flightAt i).avnIDs ≠ [] ↔ (c.flightAt i).violationActive = true)

/-- The violation flags set in `c0` are still set in `c`, and no flight has disappeared. -/
def FlagsKept (c0 c : ATCSController) : Prop :=
  c0.flights.length ≤ c.flights.length ∧
    ∀ i, i < c0.flights.length → (c0.flightAt i).violationActive = true →
      (c.flightAt i).violationActive = true

/-- The effect an operation may have on the violation members of the flights: for every
flight either nothing changes, or a lowered flag is raised and one ticket id is appended. -/
def ViolEffect (c c' : ATCSController) : Prop :=
  c'.flights.length = c.flights.length ∧
    ∀ q, ((c'.flightAt q).avnIDs = (c.flightAt q).avnIDs ∧
        (c'.flightAt q).violationActive = (c.flightAt q).violationActive) ∨
      ((c.flightAt q).violationActive = false ∧ (c'.flightAt q).violationActive = true ∧
        ∃ id, (c'.flightAt q).avnIDs = (c.flightAt q).avnIDs ++ [id])

/-- Well-formed backlog: every entry points to a flight, no flight is queued twice, the
vector is in heap order for the (priorityLevel, scheduledTime) key, and a queued flight
holds no runway. -/
def QueueInv (c : ATCSController) : Prop :=
  (∀ p ∈ c.runwayQueue, p < c.flights.length) ∧ c.runwayQueue.Nodup ∧
    Heap.Ordered (queueKey c.flights) c.runwayQueue c.runwayQueue.length ∧
    (∀ p ∈ c.runwayQueue, (c.flightAt p).runwayAssigned = -1)

/-- The backlog entries in the order in which a dispatch pass would examine them. -/
def ATCSController.popOrder (c : ATCSController) : List Nat :=
  PriorityQueue.popAll (queueComp c.flights) c.runwayQueue.length c.runwayQueue

/-- Every flight carries the priority level its constructor computed. -/
def ConsInv (c : ATCSController) : Prop :=
  ∀ i, i < c.flights.length →
    (c.flightAt i).priorityLevel =
      calculatePriority (c.flightAt i).aircraftType (c.flightAt i).emergencyType

/-- What one dispatch pass from `c` to `c'` does when it removes `k` entries: the backlog
that remains is, in pop order, the old pop order without its first `k` entries; each removed
entry was given a runway that was free; if an entry remains, the first one stays on top with
no runway change, 500 more wait time and no runway it could acquire in the final pool;
every flight other than the first `k + 1` entries is untouched; and a runway that was free
is still free and unchanged unless one of the removed entries holds it. -/
def PassSpec (c c' : ATCSController) (k : Nat) : Prop :=
  k ≤ c.runwayQueue.length ∧ c'.flights.length = c.flights.length ∧
    c'.popOrder = c.popOrder.drop k ∧
    c'.runwayQueue.Perm (c.popOrder.drop k) ∧
    (∀ p ∈ c.popOrder.take k, ∃ (j : Nat) (r : Runway),
      c.runways[j]? = some r ∧ r.occupied = false ∧
        c'.flightAt p =
          { c.flightAt p with runwayAssigned := (j : Int), runwayOccupied := true }) ∧
    (k < c.runwayQueue.length → ∃ b, c.popOrder[k]? = some b ∧
      PriorityQueue.top c'.runwayQueue = some b ∧
      c'.flightAt b =
        { c.flightAt b with estimatedWaitTime := (c.flightAt b).estimatedWaitTime + 500 } ∧
      (assignRunway.onFlight c'.runways (c.flightAt b)).1 = false) ∧
    (∀ p, p ∉ c.popOrder.take (k + 1) → c'.flightAt p = c.flightAt p) ∧
    (∀ (j : Nat) (r : Runway), c.runways[j]? = some r → r.occupied = false →
      c'.runways[j]? = some r ∨
        ∃ p ∈ c.popOrder.take k, (c'.flightAt p).runwayAssigned = (j : Int))

/-! ## Vocabulary for the runway pool -/

/-- Runway `j` exists and is free. -/
def runwayFree (runways : List Runway) (j : Nat) : Prop :=
  ∃ r, runways[j]? = some r ∧ r.occupied = false

/-- The pool in which runway `j` has gone from its present state to occupied and nothing
else differs. -/
def occupy (runways : List Runway) (j : Nat) : List Runway :=
  match runways[j]? with
  | some r => runways.set j { r with occupied := true }
  | none => runways

/-- The outcome of a successful assignment of runway `j` to `flight`. -/
def granted (runways : List Runway) (flight : Flight) (j : Nat) : Bool × List Runway × Flight :=
  (true, occupy runways j, { flight with runwayAssigned := (j : Int), runwayOccupied := true })

/-- A pool of the three reference runways with the given occupancy flags. -/
def samplePool (a b d : Bool) : List Runway :=
  [ { Runway.new 0 "RWY-A (North-South Arrivals)" with occupied := a },
    { Runway.new 1 "RWY-B (East-West Departures)" with occupied := b },
    { Runway.new 2 "RWY-C (Cargo/Emergency/Overflow)" with occupied := d } ]

/-! ## Sample data -/

/-- The airline `PIA` of the reference table. -/
def samplePIA : Airline := ⟨"PIA", AircraftType.Commercial, 6, 4⟩

/-- The airline `FedEx Cargo` of the reference table. -/
def sampleFedEx : Airline := ⟨"FedEx Cargo", AircraftType.Cargo, 3, 2⟩

/-- The airline `Pakistan Airforce` of the reference table. -/
def sampleAirforce : Airline := ⟨"Pakistan Airforce", AircraftType.Emergency, 2, 1⟩

/-- A Commercial flight in the Landing phase at 250 km/h. -/
def sampleLanding250 : Flight :=
  { Flight.new 1000 samplePIA AircraftType.Commercial FlightDirection.NorthArrival 0
      EmergencyType.None with phase := FlightPhase.Landing, speed := 250 }

/-- A Commercial flight in the Landing phase at 200 km/h. -/
def sampleLanding200 : Flight :=
  { Flight.new 1000 samplePIA AircraftType.Commercial FlightDirection.NorthArrival 0
      EmergencyType.None with phase := FlightPhase.Landing, speed := 200 }

/-- A Cargo flight as the constructor builds it. -/
def sampleCargo : Flight :=
  Flight.new 1001 sampleFedEx AircraftType.Cargo FlightDirection.NorthArrival 0
    EmergencyType.None

/-- The empty ledger. -/
def emptyLedger : Ledger := { avnCounter := 0, avnVector := [] }

/-- A Commercial north arrival (priority 4, preferred runway 0). -/
def sampleNorth : Flight :=
  Flight.new 1000 samplePIA AircraftType.Commercial FlightDirection.NorthArrival 10
    EmergencyType.None

/-- A Commercial east departure (priority 4, preferred runway 1). -/
def sampleEast : Flight :=
  Flight.new 1001 samplePIA AircraftType.Commercial FlightDirection.EastDeparture 20
    EmergencyType.None

/-- A second Commercial north arrival (priority 4). -/
def sampleNorth2 : Flight :=
  Flight.new 1002 samplePIA AircraftType.Commercial FlightDirection.NorthArrival 25
    EmergencyType.None

/-- A military emergency arrival (priority 1, preferred runway 2). -/
def sampleEmergency : Flight :=
  Flight.new 1003 sampleAirforce AircraftType.Emergency FlightDirection.NorthArrival 30
    EmergencyType.Military

/-- Two flights created on the empty airport. -/
def sampleTwoQueued : ATCSController :=
  (ATCSController.new.addFlight sampleNorth).addFlight sampleEast

/-- The state after a dispatch pass on `sampleTwoQueued`: runways 0 and 1 are held. -/
def sampleTwoLanded : ATCSController := runwayManagementThread.pass sampleTwoQueued

/-- Two more flights, of priority 4 and priority 1, queued while only runway 2 is free. -/
def sampleContended : ATCSController :=
  (sampleTwoLanded.addFlight sampleNorth2).addFlight sampleEmergency

/-- The state after the actor of flight 0 has left Holding (elapsed time 10 s, random value
0): the flight is in Approach at 400 km/h. -/
def sampleViolated : ATCSController :=
  (flightThread.step sampleTwoQueued 0 10 0 0 true (1 / 2) 0).1

/-- Runway `j` may be given to `flight` by `assignRunway`: it is the preferred runway of
the flight, or the flight is not Cargo (only then is the overflow loop entered). -/
def admissible (flight : Flight) (j : Nat) : Prop :=
  (j : Int) = preferredRunway flight ∨ flight.aircraftType ≠ AircraftType.Cargo

/-- An emergency flight holds runway 2 and a Cargo flight (pointer 1) has been queued:
runways 0 and 1 are free. -/
def sampleCargoBlocked : ATCSController :=
  (runwayManagementThread.pass (ATCSController.new.addFlight sampleEmergency)).addFlight
    sampleCargo

/-- The method `Runway::tryAcquire()`. `runwayMutex.try_lock()` succeeds exactly when the
mutex is not held (the flag `runwayMutex` is false); when the runway is then free, it is
marked occupied and the method returns with the mutex still locked; when it is occupied
the mutex is unlocked again. -/
def Runway.tryAcquire (r : Runway) : Bool × Runway :=
  if !r.runwayMutex then
    let locked : Runway := { r with runwayMutex := true }
    if !locked.occupied then (true, { locked with occupied := true })
    else (false, { locked with runwayMutex := false })
  else (false, r)

/-- The method `Runway::release()`: the flag is cleared and the mutex unlocked. Unlocking
a mutex that is not held has no defined meaning in C++; here it stays unlocked. -/
def Runway.release (r : Runway) : Runway :=
  { r with occupied := false, runwayMutex := false }

/-- Runway 0 of the reference pool, free, while another thread holds its mutex (as inside
the `lock_guard` of `releaseRunway`). -/
def sampleLockedFree : Runway :=
  { Runway.new 0 "RWY-A (North-South Arrivals)" with runwayMutex := true }

/-- The state `c'` is reached from `c` by finitely many steps of the system. -/
inductive Later : ATCSController → ATCSController → Prop
  | refl (c : ATCSController) : Later c c
  | step (c c' c'' : ATCSController) : Later c c' → Step c' c'' → Later c c''

/-- Flight `p` is out of service: it exists, is not in the backlog and holds no runway. -/
def Retired (c : ATCSController) (p : Nat) : Prop :=
  p < c.flights.length ∧ p ∉ c.runwayQueue ∧ (c.flightAt p).runwayAssigned = -1

/-- A Commercial north arrival with flight number `1000 + n` scheduled at `sched`. -/
def sampleArrival (n : Nat) (sched : Int) : Flight :=
  Flight.new (1000 + n) samplePIA AircraftType.Commercial FlightDirection.NorthArrival sched
    EmergencyType.None

/-- A military emergency arrival with flight number `1000 + n` scheduled at `sched`. -/
def sampleMilitary (n : Nat) (sched : Int) : Flight :=
  Flight.new (1000 + n) sampleAirforce AircraftType.Emergency FlightDirection.NorthArrival sched
    EmergencyType.Military

/-- Five queued flights: two Commercial arrivals created at the same clock value 0 (they
tie), then three emergency arrivals created at 1, 2 and 3. -/
def sampleTied : ATCSController :=
  ((((ATCSController.new.addFlight (sampleArrival 0 0)).addFlight
    (sampleArrival 1 0)).addFlight (sampleMilitary 2 1)).addFlight
    (sampleMilitary 3 2)).addFlight (sampleMilitary 4 3)

/-- Entry `a` is popped before entry `b` in the pop order `l`. -/
def poppedBefore (l : List Nat) (a b : Nat) : Prop := [a, b].Sublist l

/-- The dwell threshold of a phase in whole seconds, as the phase table lists it;
Departure has none. -/
def dwellThreshold : FlightPhase → Option Nat
  | FlightPhase.Holding => some 10
  | FlightPhase.Approach => some 8
  | FlightPhase.Landing => some 6
  | FlightPhase.Taxi => some 5
  | FlightPhase.AtGate => some 5
  | FlightPhase.TakeoffRoll => some 3
  | FlightPhase.Climb => some 4
  | FlightPhase.Cruise => some 10
  | FlightPhase.Departure => none

/-- The elapsed dwell time has reached the threshold of the phase. -/
def thresholdReached (phase : FlightPhase) (elapsed : Nat) : Prop :=
  match dwellThreshold phase with
  | some t => t ≤ elapsed
  | none => False

instance (phase : FlightPhase) (elapsed : Nat) : Decidable (thresholdReached phase elapsed) := by
  unfold thresholdReached
  split <;> infer_instance

/-- The flight is a departure (East or West). -/
def isDeparture (direction : FlightDirection) : Prop :=
  direction = FlightDirection.EastDeparture ∨ direction = FlightDirection.WestDeparture

instance (direction : FlightDirection) : Decidable (isDeparture direction) := by
  unfold isDeparture
  infer_instance

/-- The successor of a phase as the phase table lists it; at the gate only departures
move on (to Taxi), arrivals stay. -/
def tableSuccessor (phase : FlightPhase) (direction : FlightDirection) : FlightPhase :=
  match phase with
  | FlightPhase.Holding => FlightPhase.Approach
  | FlightPhase.Approach => FlightPhase.Landing
  | FlightPhase.Landing => FlightPhase.Taxi
  | FlightPhase.Taxi => FlightPhase.AtGate
  | FlightPhase.AtGate =>
    if direction = FlightDirection.EastDeparture ∨ direction = FlightDirection.WestDeparture
    then FlightPhase.Taxi else FlightPhase.AtGate
  | FlightPhase.TakeoffRoll => FlightPhase.Climb
  | FlightPhase.Climb => FlightPhase.Cruise
  | FlightPhase.Cruise => FlightPhase.Departure
  | FlightPhase.Departure => FlightPhase.Departure

/-- A value of type `double`: rounding to `double` leaves it unchanged. -/
def isDouble (u : ℚ) : Prop := toDouble u = u

/-- The condition under which the claim lets `checkGroundFaults` inject a fault: the flight
is in Taxi or AtGate, is not yet faulted, and the draw is below 0.05. -/
def groundFaultFires (flight : Flight) (u : ℚ) : Prop :=
  (flight.phase = FlightPhase.Taxi ∨ flight.phase = FlightPhase.AtGate) ∧
    flight.hasFault = false ∧ u < 5 / 100

instance (flight : Flight) (u : ℚ) : Decidable (groundFaultFires flight u) := by
  unfold groundFaultFires
  infer_instance

/-- The two writes of `checkGroundFaults` on a flight picked for a fault. -/
def markFaulted (c : ATCSController) (p r : Nat) : ATCSController :=
  c.modifyFlight p (fun f =>
    { f with hasFault := true
             faultDescription := faultTypes.getD (r % faultTypes.length) "" })

/-- One flight created, given runway 0 by a dispatch pass and polled out of Holding (after
10 s), Approach (8 s) and Landing (6 s): it is in Taxi. -/
def sampleTaxi : ATCSController :=
  (flightThread.phaseSwitch (flightThread.phaseSwitch (flightThread.phaseSwitch
    (runwayManagementThread.pass (ATCSController.new.addFlight sampleNorth))
    0 10 0 100).1 0 8 0 200).1 0 6 0 300).1

/-- The state after the next poll of that flight has drawn 0 in `checkGroundFaults`: the
flight is faulted, still in Taxi. -/
def sampleFaulted : ATCSController := removeFaultedFlight (markFaulted sampleTaxi 0 0) 0

/-- The airline filter of `flightGenerationThread`: whether the airline is pushed on
`candidateAirlines` for this schedule. -/
def flightGenerationThread.isCandidate (schedule : FlightSchedule) (isEmergency : Bool)
    (a : Airline) : Bool :=
  if isEmergency then
    if schedule.emergencyType = EmergencyType.Military ∧ a.name = "Pakistan Airforce" then true
    else if schedule.emergencyType = EmergencyType.Medical ∧
        a.name = "AghaKhan Air Ambulance" then true
    else if schedule.emergencyType ≠ EmergencyType.Military ∧
        schedule.emergencyType ≠ EmergencyType.Medical ∧
        a.type = AircraftType.Emergency then true
    else false
  else
    if a.type ≠ AircraftType.Emergency then true else false

/-- The vector `candidateAirlines` built by `flightGenerationThread`: the indices of the
candidate airlines, in increasing order. -/
def flightGenerationThread.candidateAirlines (airlines : List Airline)
    (schedule : FlightSchedule) (isEmergency : Bool) : List Nat :=
  (List.range airlines.length).filter (fun j =>
    match airlines[j]? with
    | some a => flightGenerationThread.isCandidate schedule isEmergency a
    | none => false)

/-- The conversion of the `unsigned int` flight number to the `int` parameter of the
constructor (32 bits, two's complement). -/
def unsignedToInt (n : Nat) : Int :=
  if n % 2 ^ 32 < 2 ^ 31 then ((n % 2 ^ 32 : Nat) : Int)
  else ((n % 2 ^ 32 : Nat) : Int) - 2 ^ 32

/-- The body of `flightGenerationThread` for one schedule that is due. `u1` and `u2` are
the two values drawn from `dis(gen)`, `sysNow` the value of `system_clock::now()` and
`flightNumberCounter` the static counter; the result is the controller and the counter
afterwards. The result is `none` when the index computed from `u2` is outside
`candidateAirlines`, which is undefined behaviour in the source. -/
def flightGenerationThread.generate (c : ATCSController) (schedule : FlightSchedule)
    (flightNumberCounter : Nat) (u1 u2 : ℚ) (sysNow : Int) : Option (ATCSController × Nat) :=
  let isEmergency := decide (u1 < schedule.emergencyProbability)
  let candidateAirlines :=
    flightGenerationThread.candidateAirlines c.airlines schedule isEmergency
  if candidateAirlines ≠ [] then
    match candidateAirlines[(Int.floor
        (toDouble (u2 * (candidateAirlines.length : ℚ)))).toNat]? with
    | some airlineIdx =>
      match c.airlines[airlineIdx]? with
      | some airline =>
        let emType := if isEmergency then schedule.emergencyType else EmergencyType.None
        some (c.addFlight (Flight.new (unsignedToInt flightNumberCounter) airline airline.type
            schedule.direction sysNow emType),
          (flightNumberCounter + 1) % 2 ^ 32)
      | none => none
    | none => none
  else some (c, flightNumberCounter)

/-- The schedule `International Departures` of the reference table. -/
def sampleEastSchedule : FlightSchedule :=
  ⟨FlightDirection.EastDeparture, 150, toFloat (15 / 100), "International Departures",
    EmergencyType.Military⟩

/-- The fresh controller after the generator has created one East departure of PIA. -/
def sampleDeparture : ATCSController :=
  ATCSController.new.addFlight
    (Flight.new 1000 samplePIA AircraftType.Commercial FlightDirection.EastDeparture 0
      EmergencyType.None)

/-- The candidate rule as the specification words it: for an emergency draw the airlines
named `Pakistan Airforce` (subtype Military), those named `AghaKhan Air Ambulance` (subtype
Medical), or the Emergency-category airlines (any other subtype); for a non-emergency draw
the airlines of another category. -/
def candidateRule (schedule : FlightSchedule) (isEmergency : Bool) (a : Airline) : Prop :=
  if isEmergency = true then
    if schedule.emergencyType = EmergencyType.Military then a.name = "Pakistan Airforce"
    else if schedule.emergencyType = EmergencyType.Medical then
      a.name = "AghaKhan Air Ambulance"
    else a.type = AircraftType.Emergency
  else a.type ≠ AircraftType.Emergency

/-- A hypothetical schedule with emergency probability 1.0 and subtype Military. -/
def sampleMilitarySchedule : FlightSchedule :=
  ⟨FlightDirection.NorthArrival, 180, 1, "Military Arrivals", EmergencyType.Military⟩

/-- A controller whose airline table holds PIA only. -/
def samplePIAOnly : ATCSController := { ATCSController.new with airlines := [samplePIA] }

/-- The members of a flight that no operation of the engine writes after construction. -/
def Flight.fixed (f : Flight) : Int × AircraftType × EmergencyType × Int × FlightDirection :=
  (f.flightNumber, f.aircraftType, f.emergencyType, f.priorityLevel, f.direction)

/-- The controller `d` has the flights of `c`, each with the same fixed members, and the
same airline and schedule tables. -/
def FixedEq (c d : ATCSController) : Prop :=
  d.flights.length = c.flights.length ∧ d.airlines = c.airlines ∧
    d.flightSchedules = c.flightSchedules ∧
    ∀ i, (d.flightAt i).fixed = (c.flightAt i).fixed

/-- One operation of the running engine, on the controller and the static flight-number
counter of the generator: the generator handles one due schedule, the dispatcher makes one
pass, or the actor of a flight makes one poll. -/
inductive EngineStep : ATCSController × Nat → ATCSController × Nat → Prop
  | generate (c : ATCSController) (n : Nat) (schedule : FlightSchedule) (u1 u2 : ℚ)
      (sysNow : Int) (c' : ATCSController) (n' : Nat) :
      schedule ∈ c.flightSchedules →
      flightGenerationThread.generate c schedule n u1 u2 sysNow = some (c', n') →
      EngineStep (c, n) (c', n')
  | dispatch (c : ATCSController) (n : Nat) :
      EngineStep (c, n) (runwayManagementThread.pass c, n)
  | poll (c : ATCSController) (n : Nat) (p elapsed r : Nat) (now : Int)
      (simulationRunning : Bool) (u : ℚ) (r2 : Nat) :
      p < c.flights.length →
      EngineStep (c, n) ((flightThread.step c p elapsed r now simulationRunning u r2).1, n)

/-- The states of the running engine: the fresh controller with the counter at 1000, and
whatever the three threads make of it. -/
inductive EngineReachable : ATCSController × Nat → Prop
  | init : EngineReachable (ATCSController.new, 1000)
  | step (s s' : ATCSController × Nat) : EngineReachable s → EngineStep s s' →
      EngineReachable s'

/-- What the generator leaves behind: the reference tables, a counter that is 1000 plus
the number of flights made (modulo `2 ^ 32`), flight `i` numbered by the counter value it
was made at, and an emergency subtype only on aircraft of the Emergency category. -/
def GeneratorInv (s : ATCSController × Nat) : Prop :=
  s.1.airlines = ATCSController.new.airlines ∧
    s.1.flightSchedules = ATCSController.new.flightSchedules ∧
    s.2 = (1000 + s.1.flights.length) % 2 ^ 32 ∧
    ∀ i, i < s.1.flights.length →
      (s.1.flightAt i).flightNumber = unsignedToInt (1000 + i) ∧
        ((s.1.flightAt i).emergencyType ≠ EmergencyType.None →
          (s.1.flightAt i).aircraftType = AircraftType.Emergency)

/-- The state of the engine after the generator has made the East departure of
`sampleDeparture`. -/
def sampleEngine : ATCSController × Nat := (sampleDeparture, 1001)

/-- The loop of `AVNGenerator::updatePaymentStatus`: the first record with the id gets the
payment status, and the loop ends there. -/
def updatePaymentStatus.scan (avnID : Int) (paid : Bool) : List SharedAVN → List SharedAVN
  | [] => []
  | avn :: rest =>
    if avn.avnID = avnID then { avn with paymentStatus := paid } :: rest
    else avn :: updatePaymentStatus.scan avnID paid rest

/-- The method `AVNGenerator::updatePaymentStatus(avnID, paid)`. It begins by locking the
named mutex `AVNMutex`; `namedMutex` tells whether the calling thread holds that mutex
already. The mutex is not recursive: in that case the lock is never granted and the call
does not return, which is the result `none`. -/
def updatePaymentStatus (namedMutex : Bool) (L : Ledger) (avnID : Int) (paid : Bool) :
    Option Ledger :=
  if namedMutex then none
  else some { L with avnVector := updatePaymentStatus.scan avnID paid L.avnVector }

/-- The loop of `StripePay::processPayment` over the ticket vector, run while the
`scoped_lock` of the method holds the named mutex. -/
def processPayment.scan (L : Ledger) (avnID : Int) (amount : ℚ) :
    List SharedAVN → Option (Bool × Ledger)
  | [] => some (false, L)
  | avn :: rest =>
    if avn.avnID = avnID then
      if amount ≥ avn.fineAmount then
        match updatePaymentStatus true L avnID true with
        | some L' => some (true, L')
        | none => none
      else some (false, L)
    else processPayment.scan L avnID amount rest

/-- The method `StripePay::processPayment(avnID, amount)`: the return value and the ledger
afterwards, or `none` when the call does not return. -/
def processPayment (L : Ledger) (avnID : Int) (amount : ℚ) : Option (Bool × Ledger) :=
  processPayment.scan L avnID amount L.avnVector

/-- The method `AirlinePortal::payAVN(avnID)`, which calls `updatePaymentStatus` without
holding the named mutex. -/
def payAVN (L : Ledger) (avnID : Int) : Option Ledger :=
  updatePaymentStatus false L avnID true

/-- The records `AirlinePortal::listActiveAVNs` prints for the airline: its unpaid
tickets. -/
def listActiveAVNs (L : Ledger) (airlineName : String) : List SharedAVN :=
  L.avnVector.filter (fun avn => decide (avn.airlineName = airlineName) && !avn.paymentStatus)

/-- The ledger holding the one ticket issued to `sampleLanding250`. -/
def sampleLedger : Ledger := (generateAVN emptyLedger sampleLanding250 240 0).2

/-- One flight created, given runway 0 and polled out of Holding and Approach: it is in
Landing. -/
def sampleInLanding : ATCSController :=
  (flightThread.phaseSwitch (flightThread.phaseSwitch
    (runwayManagementThread.pass (ATCSController.new.addFlight sampleNorth))
    0 10 0 100).1 0 8 0 200).1

/-- The runway vector after `releaseRunway(runwayID)`. -/
def releasePool (runways : List Runway) (runwayID : Int) : List Runway :=
  if runwayID ≥ 0 ∧ runwayID < (runways.length : Int) then
    match runways[runwayID.toNat]? with
    | some r => runways.set runwayID.toNat { r with occupied := false }
    | none => runways
  else runways

/-- What a poll of flight `p` can change about runways: the pool and the runway the flight
holds. -/
def runwayView (c : ATCSController) (p : Nat) : List Runway × Int :=
  (c.runways, (c.flightAt p).runwayAssigned)

/-- The view after the flight has given up the runway it holds, if any. -/
def released (v : List Runway × Int) : List Runway × Int :=
  (if v.2 ≠ -1 then releasePool v.1 v.2 else v.1, -1)

/-- The fault injection fires in this poll of flight `p`: the round reaches
`checkGroundFaults` with the flight in Taxi or AtGate and not yet faulted, and the draw is
below the literal `0.05`. -/
def faultInjected (c : ATCSController) (p elapsed r : Nat) (now : Int)
    (simulationRunning : Bool) (u : ℚ) : Prop :=
  simulationRunning = true ∧ (flightThread.phaseSwitch c p elapsed r now).2 = false ∧
    (((flightThread.phaseSwitch c p elapsed r now).1.flightAt p).phase = FlightPhase.Taxi ∨
      ((flightThread.phaseSwitch c p elapsed r now).1.flightAt p).phase = FlightPhase.AtGate) ∧
    u < toDouble (5 / 100) ∧
    ((flightThread.phaseSwitch c p elapsed r now).1.flightAt p).hasFault = false

instance (c : ATCSController) (p elapsed r : Nat) (now : Int) (simulationRunning : Bool)
    (u : ℚ) : Decidable (faultInjected c p elapsed r now simulationRunning u) := by
  unfold faultInjected
  infer_instance

/-- The poll of flight `p` releases the runway the flight holds: the flight is at the gate,
or leaves Climb, or is faulted in this poll. -/
def pollReleases (c : ATCSController) (p elapsed r : Nat) (now : Int)
    (simulationRunning : Bool) (u : ℚ) : Prop :=
  (c.flightAt p).phase = FlightPhase.AtGate ∨
    ((c.flightAt p).phase = FlightPhase.Climb ∧ 4 ≤ elapsed) ∨
    faultInjected c p elapsed r now simulationRunning u

instance (c : ATCSController) (p elapsed r : Nat) (now : Int) (simulationRunning : Bool)
    (u : ℚ) : Decidable (pollReleases c p elapsed r now simulationRunning u) := by
  unfold pollReleases
  infer_instance

/-- The five phases of the arrival leg and the ground. -/
def groundPhase (phase : FlightPhase) : Prop :=
  phase = FlightPhase.Holding ∨ phase = FlightPhase.Approach ∨ phase = FlightPhase.Landing ∨
    phase = FlightPhase.Taxi ∨ phase = FlightPhase.AtGate

/-- Flight 0 of `sampleTaxi` polled after 5 s in Taxi: it is at the gate and still has
runway 0. -/
def sampleGate : ATCSController := (flightThread.phaseSwitch sampleTaxi 0 5 0 400).1

/-- The state `sampleTwoLanded` with flight 1, the east departure that holds runway 1, put
in the Climb phase.  No run of the program puts a flight in Climb; the state serves to
evaluate the Climb case of `flightThread`. -/
def sampleClimb : ATCSController := updatePhase sampleTwoLanded 1 FlightPhase.Climb

/-! ## The release pair of the actor, statement by statement -/

/-- The statement `releaseRunway(flight.runwayAssigned);` of the pair in `flightThread`
(lines 722 and 777).  The actor holds no mutex of the controller here; `releaseRunway`
takes the mutex of the runway for its own duration only. -/
def flightThread.releaseStatement (c : ATCSController) (p : Nat) : ATCSController :=
  releaseRunway c (c.flightAt p).runwayAssigned

/-- The statement `flight.runwayAssigned = -1;` that follows it (lines 723 and 778). -/
def flightThread.clearStatement (c : ATCSController) (p : Nat) : ATCSController :=
  c.modifyFlight p (fun f => { f with runwayAssigned := -1 })

/-- The part of one round of `flightThread` that comes before the guard
`flight.runwayAssigned != -1` of the pair: the AtGate case up to line 720 and the Climb case
with `elapsed >= 4` up to line 773.  The result is `none` when the round does not come to
the pair. -/
def flightThread.beforePair (c : ATCSController) (p : Nat) (elapsed : Nat) (r : Nat)
    (now : Int) : Option ATCSController :=
  match (c.flightAt p).phase with
  | FlightPhase.AtGate =>
    some
      (if elapsed ≥ 5 then
        if (c.flightAt p).direction = FlightDirection.EastDeparture ∨
            (c.flightAt p).direction = FlightDirection.WestDeparture then
          updateSpeed (updatePhase c p FlightPhase.Taxi) p ((15 + r % 16 : Nat) : ℚ)
        else c
      else c)
  | FlightPhase.Climb =>
    if elapsed ≥ 4 then
      some (checkSpeedViolation
        (updateSpeed (updatePhase c p FlightPhase.Cruise) p ((800 + r % 101 : Nat) : ℚ)) p now)
    else none
  | _ => none

/-- The part of the round that comes after the pair: `checkGroundFaults` if
`simulationRunning` still holds (lines 811-813). -/
def flightThread.afterPair (c : ATCSController) (p : Nat) (simulationRunning : Bool) (u : ℚ)
    (r2 : Nat) : ATCSController :=
  if simulationRunning then checkGroundFaults c p u r2 else c

/-- One action of the running program with the pair taken statement by statement.  The
second component lists the flights whose actor stands between the two statements of the
pair.  A flight creation and a dispatch pass run under `flightsMutex`; an actor takes no
mutex for the pair, so a creation or a dispatch pass can run between its two statements.
A whole round of an actor that does not stand inside the pair is one action. -/
inductive RaceStep : ATCSController × List Nat → ATCSController × List Nat → Prop
  | create (c : ATCSController) (pending : List Nat) (num : Int) (al : Airline)
      (aty : AircraftType) (dir : FlightDirection) (sched : Int) (emType : EmergencyType) :
      RaceStep (c, pending) (c.addFlight (Flight.new num al aty dir sched emType), pending)
  | dispatch (c : ATCSController) (pending : List Nat) :
      RaceStep (c, pending) (runwayManagementThread.pass c, pending)
  | poll (c : ATCSController) (pending : List Nat) (p elapsed r : Nat) (now : Int)
      (simulationRunning : Bool) (u : ℚ) (r2 : Nat) :
      p < c.flights.length → p ∉ pending →
      RaceStep (c, pending) ((flightThread.step c p elapsed r now simulationRunning u r2).1,
        pending)
  | release (c : ATCSController) (pending : List Nat) (p elapsed r : Nat) (now : Int)
      (c1 : ATCSController) :
      p < c.flights.length → p ∉ pending →
      flightThread.beforePair c p elapsed r now = some c1 →
      (c1.flightAt p).runwayAssigned ≠ -1 →
      RaceStep (c, pending) (flightThread.releaseStatement c1 p, p :: pending)
  | clear (c : ATCSController) (pending : List Nat) (p : Nat) (simulationRunning : Bool)
      (u : ℚ) (r2 : Nat) :
      p ∈ pending →
      RaceStep (c, pending)
        (flightThread.afterPair (flightThread.clearStatement c p) p simulationRunning u r2,
          pending.erase p)

/-- The states the running program can be in, the pair taken statement by statement, from
the freshly constructed controller with no actor inside the pair. -/
inductive RaceReachable : ATCSController × List Nat → Prop
  | init : RaceReachable (ATCSController.new, [])
  | step (s s' : ATCSController × List Nat) : RaceReachable s → RaceStep s s' → RaceReachable s'

/-- A second north arrival created while flight 0 is at the gate with runway 0. -/
def sampleGateQueued : ATCSController := sampleGate.addFlight sampleNorth2

/-- The actor of flight 0 has run `releaseRunway(0)` and not yet `runwayAssigned = -1`. -/
def sampleMidRelease : ATCSController := flightThread.releaseStatement sampleGateQueued 0

/-- A dispatch pass has run at that point. -/
def sampleRace : ATCSController := runwayManagementThread.pass sampleMidRelease

/-! # Theorems -/

/-! ## Rounding -/

theorem binade_eq (x : ℚ) (e : Int) (h1 : (2 : ℚ) ^ e ≤ |x|) (h2 : |x| < (2 : ℚ) ^ (e + 1)) :
    binade x = e := by
  unfold binade
  have hpos : 0 < |x| := lt_of_lt_of_le (by positivity) h1
  apply le_antisymm
  · have := (Int.lt_zpow_iff_log_lt (b := 2) (by norm_num) hpos).1 h2
    omega
  · exact (Int.zpow_le_iff_le_log (b := 2) (by norm_num) hpos).1 h1

theorem roundHalfEven_eq (y : ℚ) (m : Int) (h1 : (m : ℚ) - 1/2 < y) (h2 : y < (m : ℚ) + 1/2) :
    roundHalfEven y = m := by
  unfold roundHalfEven
  have hf1 : (Int.floor y : ℚ) ≤ y := Int.floor_le y
  have hf2 : y < (Int.floor y : ℚ) + 1 := Int.lt_floor_add_one y
  have up : ∀ a b : Int, (a : ℚ) < (b : ℚ) + 1 → a < b + 1 := by
    intro a b h
    have : (a : ℚ) < ((b + 1 : Int) : ℚ) := by push_cast; exact h
    exact_mod_cast this
  simp only []
  split_ifs with c1 c2 c3
  · have b1 := up (Int.floor y) m (by linarith)
    have b2 := up m (Int.floor y) (by linarith)
    omega
  · have b1 := up (Int.floor y) (m - 1) (by push_cast; linarith)
    have b2 := up (m - 1) (Int.floor y) (by push_cast; linarith)
    omega
  · have hr : y - (Int.floor y : ℚ) = 1/2 := le_antisymm (not_lt.1 c2) (not_lt.1 c1)
    have b1 := up (Int.floor y) (m - 1) (by push_cast; linarith)
    have b2 := up m (Int.floor y) (by linarith)
    omega
  · have hr : y - (Int.floor y : ℚ) = 1/2 := le_antisymm (not_lt.1 c2) (not_lt.1 c1)
    have b1 := up (Int.floor y) (m - 1) (by push_cast; linarith)
    have b2 := up m (Int.floor y) (by linarith)
    omega

/-- Evaluation rule for `roundBinary`: if `x` lies in the binade of exponent `e` and the
integer `m` is strictly nearest to the scaled value, the result is `m * 2 ^ (e - (p - 1))`. -/
theorem roundBinary_eq (p : Nat) (x : ℚ) (e m : Int)
    (h1 : (2 : ℚ) ^ e ≤ |x|) (h2 : |x| < (2 : ℚ) ^ (e + 1))
    (h3 : (m : ℚ) - 1/2 < x * (2 : ℚ) ^ ((p : Int) - 1 - e))
    (h4 : x * (2 : ℚ) ^ ((p : Int) - 1 - e) < (m : ℚ) + 1/2) :
    roundBinary p x = (m : ℚ) * (2 : ℚ) ^ (e - ((p : Int) - 1)) := by
  have hx : x ≠ 0 := by
    intro h
    rw [h] at h1
    have : (0 : ℚ) < 2 ^ e := by positivity
    simp at h1
    linarith
  unfold roundBinary
  rw [if_neg hx]
  simp only []
  rw [binade_eq x e h1 h2, roundHalfEven_eq _ m h3 h4]

/-- The `double` literal `1.15`. -/
theorem toDouble_115 : toDouble (115 / 100) = 2589569785738035 / 2251799813685248 := by
  have := roundBinary_eq 53 (115/100) 0 5179139571476070
    (by norm_num [abs_of_pos]) (by norm_num [abs_of_pos]) (by norm_num) (by norm_num)
  unfold toDouble
  rw [this]
  norm_num

theorem totalAmount_Commercial : totalAmount AircraftType.Commercial = 575000 := by
  unfold totalAmount baseAmount
  rw [toDouble_115]
  have := roundBinary_eq 53 (500000 * (2589569785738035 / 2251799813685248)) 19
    4939212390400000 (by norm_num [abs_of_pos]) (by norm_num [abs_of_pos])
    (by norm_num) (by norm_num)
  unfold toDouble
  rw [this]
  norm_num

theorem totalAmount_Emergency : totalAmount AircraftType.Emergency = 575000 := by
  have h : totalAmount AircraftType.Emergency = totalAmount AircraftType.Commercial := rfl
  rw [h, totalAmount_Commercial]

theorem totalAmount_Cargo : totalAmount AircraftType.Cargo = 805000 - 1 / 2 ^ 33 := by
  unfold totalAmount baseAmount
  rw [toDouble_115]
  have := roundBinary_eq 53 (700000 * (2589569785738035 / 2251799813685248)) 19
    6914897346559999 (by norm_num [abs_of_pos]) (by norm_num [abs_of_pos])
    (by norm_num) (by norm_num)
  unfold toDouble
  rw [this]
  norm_num

/-! ## Priority level (C4) -/

/-- C4: a newly constructed flight has priority level 1 if its aircraft type is Emergency,
otherwise 2 if its emergency subtype is VIP, otherwise 3 if its aircraft type is Cargo,
otherwise 4; the level is always between 1 and 4. -/
theorem Flight_new_priorityLevel (num : Int) (al : Airline) (aty : AircraftType)
    (dir : FlightDirection) (sched : Int) (emType : EmergencyType) :
    (Flight.new num al aty dir sched emType).priorityLevel =
        (if aty = AircraftType.Emergency then 1
         else if emType = EmergencyType.VIP then 2
         else if aty = AircraftType.Cargo then 3
         else 4) ∧
      1 ≤ (Flight.new num al aty dir sched emType).priorityLevel ∧
      (Flight.new num al aty dir sched emType).priorityLevel ≤ 4 := by
  refine ⟨rfl, ?_, ?_⟩ <;>
    (simp only [Flight.new, calculatePriority]; split_ifs <;> decide)

/-! ## Speed envelopes (C5, C6, C7) -/

theorem verdict_breach (phase : FlightPhase) (speed : ℚ) :
    (checkSpeedViolation.verdict phase speed).violation = true ↔ ¬ inEnvelope phase speed := by
  cases phase <;> simp only [checkSpeedViolation.verdict, inEnvelope] <;>
    first
      | (split_ifs with h <;> simp only [not_and_or, not_le, not_true_eq_false,
            Bool.false_eq_true, iff_false, iff_true, not_not] <;>
          tauto)
      | simp

/-- C5: for every phase and speed, the check judges the speed a breach exactly when it is
outside the inclusive envelope of the phase (Holding 400-600, Approach 240-290, Landing at
most 240, Taxi 15-30, AtGate at most 5, TakeoffRoll at most 290, Climb 250-463, Cruise
800-900); in Departure no speed is a breach. -/
theorem verdict_violation_iff (phase : FlightPhase) (speed : ℚ) :
    ((checkSpeedViolation.verdict phase speed).violation = true ↔
        ¬ inEnvelope phase speed) ∧
      (checkSpeedViolation.verdict FlightPhase.Departure speed).violation = false :=
  ⟨verdict_breach phase speed, rfl⟩

theorem verdict_reason (phase : FlightPhase) (speed : ℚ)
    (h : (checkSpeedViolation.verdict phase speed).violation = true) :
    (checkSpeedViolation.verdict phase speed).violationReason = limitReason phase := by
  cases phase <;> simp only [checkSpeedViolation.verdict, limitReason] at h ⊢ <;>
    (split_ifs at h ⊢ with c; rfl)

/-- C6: on a flight with no open violation, a speed outside the envelope of its phase sets
`violationActive`, stores the reason text of that phase's limit and appends exactly the
ticket id returned by the ledger (one new ledger record); a speed inside the envelope
changes neither the flight nor the ledger. -/
theorem checkSpeedViolation_first_breach (flight : Flight) (L : Ledger) (now : Int)
    (hopen : flight.violationActive = false) :
    (¬ inEnvelope flight.phase flight.speed →
      (checkSpeedViolation.onFlight flight L now).1 =
          { flight with
              violationActive := true
              violationReason := limitReason flight.phase
              avnIDs := flight.avnIDs ++
                [(generateAVN L
                    { flight with violationActive := true
                                  violationReason := limitReason flight.phase }
                    (checkSpeedViolation.verdict flight.phase flight.speed).permissibleSpeed
                    now).1] } ∧
        (checkSpeedViolation.onFlight flight L now).2 =
          (generateAVN L
              { flight with violationActive := true
                            violationReason := limitReason flight.phase }
              (checkSpeedViolation.verdict flight.phase flight.speed).permissibleSpeed now).2 ∧
        (checkSpeedViolation.onFlight flight L now).1.avnIDs.length =
          flight.avnIDs.length + 1 ∧
        (checkSpeedViolation.onFlight flight L now).2.avnVector.length =
          L.avnVector.length + 1) ∧
    (inEnvelope flight.phase flight.speed →
      checkSpeedViolation.onFlight flight L now = (flight, L)) := by
  constructor
  · intro hb
    have hv := (verdict_breach flight.phase flight.speed).2 hb
    have hr := verdict_reason flight.phase flight.speed hv
    simp [checkSpeedViolation.onFlight, hv, hopen, hr, generateAVN]
  · intro hin
    have hv : (checkSpeedViolation.verdict flight.phase flight.speed).violation = false := by
      cases h : (checkSpeedViolation.verdict flight.phase flight.speed).violation
      · rfl
      · exact absurd hin ((verdict_breach flight.phase flight.speed).1 h)
    simp [checkSpeedViolation.onFlight, hv]

/-- C6, witness: a Commercial flight in Landing at 250 km/h gets one violation whose reason
cites the 240 km/h landing limit and one ticket; the same flight at 200 km/h is left alone. -/
theorem checkSpeedViolation_first_breach_witness :
    sampleLanding250.violationActive = false ∧
      ¬ inEnvelope sampleLanding250.phase sampleLanding250.speed ∧
      (checkSpeedViolation.onFlight sampleLanding250 emptyLedger 0).1.violationActive = true ∧
      (checkSpeedViolation.onFlight sampleLanding250 emptyLedger 0).1.violationReason =
        "Exceeded landing speed limit (240 km/h)" ∧
      (checkSpeedViolation.onFlight sampleLanding250 emptyLedger 0).1.avnIDs = [1] ∧
      (checkSpeedViolation.onFlight sampleLanding250 emptyLedger 0).2.avnVector.length = 1 ∧
      inEnvelope sampleLanding200.phase sampleLanding200.speed ∧
      checkSpeedViolation.onFlight sampleLanding200 emptyLedger 0 =
        (sampleLanding200, emptyLedger) := by
  have hb : ¬ inEnvelope sampleLanding250.phase sampleLanding250.speed := by
    simp only [sampleLanding250, inEnvelope]; norm_num
  have hin : inEnvelope sampleLanding200.phase sampleLanding200.speed := by
    simp only [sampleLanding200, inEnvelope]; norm_num
  have h := (checkSpeedViolation_first_breach sampleLanding250 emptyLedger 0 rfl).1 hb
  have h2 := (checkSpeedViolation_first_breach sampleLanding200 emptyLedger 0 rfl).2 hin
  refine ⟨rfl, hb, ?_, ?_, ?_, ?_, hin, h2⟩
  · rw [h.1]
  · rw [h.1]; rfl
  · rw [h.1]; rfl
  · rw [h.2.2.2]; rfl

/-- C7: on a flight whose `violationActive` flag is already set, whatever its phase and
speed, the check issues no ticket and leaves the flight and the ledger as they were. -/
theorem checkSpeedViolation_single_fire (flight : Flight) (L : Ledger) (now : Int)
    (hset : flight.violationActive = true) :
    checkSpeedViolation.onFlight flight L now = (flight, L) := by
  simp [checkSpeedViolation.onFlight, hset]

/-- C7, witness: the Landing flight at 250 km/h with its flag already raised is left as it
is and the ledger stays empty. -/
theorem checkSpeedViolation_single_fire_witness :
    ({ sampleLanding250 with violationActive := true } : Flight).violationActive = true ∧
      checkSpeedViolation.onFlight { sampleLanding250 with violationActive := true }
          emptyLedger 0 =
        ({ sampleLanding250 with violationActive := true }, emptyLedger) :=
  ⟨rfl, checkSpeedViolation_single_fire _ emptyLedger 0 rfl⟩

/-! ## Fines (C9) -/

/-- C9, as the code computes it: the ticket built by `generateAVN` is unpaid, is due 72
hours after its issue time, and carries the `double` product `baseAmount * 1.15`, which is
575000 for Commercial and Emergency aircraft but `805000 - 2 ^ (-33)` for Cargo, not
805000. -/
theorem generateAVN_ticket (L : Ledger) (flight : Flight) (permissibleSpeed : ℚ) (now : Nat) :
    (generateAVN.newAVN L flight permissibleSpeed now).fineAmount =
        (if flight.aircraftType = AircraftType.Cargo then 805000 - 1 / 2 ^ 33 else 575000) ∧
      (generateAVN.newAVN L sampleCargo permissibleSpeed now).fineAmount ≠ 805000 ∧
      (generateAVN.newAVN L flight permissibleSpeed now).paymentStatus = false ∧
      (generateAVN.newAVN L flight permissibleSpeed now).dueDate =
        (generateAVN.newAVN L flight permissibleSpeed now).issueDateTime +
          72 * 3600 * 1000000000 ∧
      (generateAVN L flight permissibleSpeed now).2.avnVector =
        L.avnVector ++
          [generateAVN.sharedAVN (generateAVN.newAVN L flight permissibleSpeed now)
            permissibleSpeed] ∧
      (generateAVN.sharedAVN (generateAVN.newAVN L flight permissibleSpeed now)
          permissibleSpeed).fineAmount =
        (generateAVN.newAVN L flight permissibleSpeed now).fineAmount ∧
      (generateAVN.sharedAVN (generateAVN.newAVN L flight permissibleSpeed now)
          permissibleSpeed).paymentStatus = false ∧
      (generateAVN.sharedAVN (generateAVN.newAVN L flight permissibleSpeed now)
          permissibleSpeed).dueDate =
        (generateAVN.sharedAVN (generateAVN.newAVN L flight permissibleSpeed now)
          permissibleSpeed).issueDateTime + 72 * 3600 := by
  refine ⟨?_, ?_, rfl, ?_, rfl, rfl, rfl, ?_⟩
  · simp only [generateAVN.newAVN, AVN.new]
    cases flight.aircraftType
    · simp [totalAmount_Commercial]
    · simp [totalAmount_Cargo]
    · simp [totalAmount_Emergency]
  · simp only [generateAVN.newAVN, AVN.new, sampleCargo, Flight.new, totalAmount_Cargo]
    norm_num
  · simp only [generateAVN.newAVN, AVN.new, hours, ticksPerSecond]
    ring
  · simp only [generateAVN.sharedAVN, generateAVN.newAVN, AVN.new, hours, ticksPerSecond,
      to_time_t]
    have h1 : ((now : Int) + 24 * 3 * 3600 * 1000000000) =
        ((now : Int) + 1000000000 * 259200) := by ring
    rw [h1]
    have hn : (0 : Int) ≤ (now : Int) := Int.ofNat_nonneg now
    rw [Int.tdiv_eq_ediv (by omega) (by norm_num), Int.tdiv_eq_ediv hn (by norm_num)]
    omega

/-! ## Runway assignment (C10) -/

theorem overflow_lowest (preferredRunway : Int) (flight : Flight) (runways : List Runway)
    (j : Nat) (hfree : runwayFree runways j) (hj : (j : Int) ≠ preferredRunway) :
    ∀ (fuel i : Nat), i ≤ j → j < i + fuel →
      (∀ k, i ≤ k → k < j → (k : Int) ≠ preferredRunway → ¬ runwayFree runways k) →
      assignRunway.overflow preferredRunway flight fuel i runways =
        some (occupy runways j,
          { flight with runwayAssigned := (j : Int), runwayOccupied := true }) := by
  obtain ⟨r, hr, hocc⟩ := hfree
  have hjlen : j < runways.length := by
    by_contra hc
    rw [List.getElem?_eq_none (not_lt.1 hc)] at hr
    exact absurd hr (by simp)
  intro fuel
  induction fuel with
  | zero => intro i h1 h2; omega
  | succ n ih =>
    intro i h1 h2 hlow
    have hilen : i < runways.length := by omega
    rw [assignRunway.overflow, if_pos hilen]
    rcases Nat.eq_or_lt_of_le h1 with heq | hlt
    · subst heq
      rw [if_pos hj, hr]
      simp [hocc, occupy, hr]
    · have hrec := ih (i + 1) (by omega) (by omega)
        (fun k hk1 hk2 hk3 => hlow k (by omega) hk2 hk3)
      by_cases hp : (i : Int) ≠ preferredRunway
      · rw [if_pos hp]
        have hnf := hlow i (le_refl i) hlt hp
        have hget : runways[i]? = some runways[i] := List.getElem?_eq_getElem hilen
        rw [hget]
        have hocci : runways[i].occupied = true := by
          cases hb : runways[i].occupied
          · exact absurd ⟨runways[i], hget, hb⟩ hnf
          · rfl
        simp only [hocci, Bool.not_true, Bool.false_eq_true, if_false]
        exact hrec
      · rw [if_neg hp]
        exact hrec

theorem overflow_some (preferredRunway : Int) (flight : Flight) (runways : List Runway) :
    ∀ (fuel i : Nat) (res : List Runway × Flight),
      assignRunway.overflow preferredRunway flight fuel i runways = some res →
      ∃ j, i ≤ j ∧ runwayFree runways j ∧ (j : Int) ≠ preferredRunway ∧
        (∀ k, i ≤ k → k < j → (k : Int) ≠ preferredRunway → ¬ runwayFree runways k) ∧
        res = (occupy runways j,
          { flight with runwayAssigned := (j : Int), runwayOccupied := true }) := by
  intro fuel
  induction fuel with
  | zero => intro i res h; simp [assignRunway.overflow] at h
  | succ n ih =>
    intro i res h
    rw [assignRunway.overflow] at h
    split_ifs at h with hilen hp
    · have hget : runways[i]? = some runways[i] := List.getElem?_eq_getElem hilen
      rw [hget] at h
      cases hb : runways[i].occupied
      · simp only [hb, Bool.not_false, if_true, Option.some.injEq] at h
        refine ⟨i, le_refl i, ⟨runways[i], hget, hb⟩, hp, fun k h1 h2 => by omega, ?_⟩
        rw [← h]
        simp [occupy, hget]
      · simp only [hb, Bool.not_true, Bool.false_eq_true, if_false] at h
        obtain ⟨j, hj1, hj2, hj3, hj4, hj5⟩ := ih (i + 1) res h
        refine ⟨j, by omega, hj2, hj3, ?_, hj5⟩
        intro k hk1 hk2 hk3
        rcases Nat.eq_or_lt_of_le hk1 with heq | hlt
        · subst heq
          rintro ⟨r, hr1, hr2⟩
          rw [hget] at hr1
          cases hr1
          rw [hb] at hr2
          exact absurd hr2 (by decide)
        · exact hj4 k (by omega) hk2 hk3
    · obtain ⟨j, hj1, hj2, hj3, hj4, hj5⟩ := ih (i + 1) res h
      refine ⟨j, by omega, hj2, hj3, ?_, hj5⟩
      intro k hk1 hk2 hk3
      rcases Nat.eq_or_lt_of_le hk1 with heq | hlt
      · subst heq
        exact absurd hk3 hp
      · exact hj4 k (by omega) hk2 hk3

theorem preferredRunway_range (flight : Flight) :
    preferredRunway flight = 0 ∨ preferredRunway flight = 1 ∨ preferredRunway flight = 2 := by
  unfold preferredRunway
  split_ifs <;> simp

theorem preferred_some_iff (runways : List Runway) (flight : Flight) :
    (runwayFree runways (preferredRunway flight).toNat →
      assignRunway.preferred runways flight =
        some (occupy runways (preferredRunway flight).toNat,
          { flight with runwayAssigned := preferredRunway flight, runwayOccupied := true })) ∧
    (¬ runwayFree runways (preferredRunway flight).toNat →
      assignRunway.preferred runways flight = none) := by
  have hnn : (0 : Int) ≤ preferredRunway flight := by
    rcases preferredRunway_range flight with h | h | h <;> rw [h] <;> decide
  constructor
  · rintro ⟨r, hr, hocc⟩
    have hlen : (preferredRunway flight).toNat < runways.length := by
      by_contra hc
      rw [List.getElem?_eq_none (not_lt.1 hc)] at hr
      exact absurd hr (by simp)
    have hlt : preferredRunway flight < (runways.length : Int) := by omega
    simp only [assignRunway.preferred, ge_iff_le, hnn, hlt, and_self, if_true, hr, hocc,
      Bool.not_false, occupy]
  · intro hnf
    simp only [assignRunway.preferred]
    split_ifs with h1
    · cases hg : runways[(preferredRunway flight).toNat]? with
      | none => rfl
      | some r =>
        cases hb : r.occupied
        · exact absurd ⟨r, hg, hb⟩ hnf
        · simp [hb]
    · rfl

theorem occupy_getElem (runways : List Runway) (j : Nat) (r : Runway)
    (hr : runways[j]? = some r) :
    (occupy runways j)[j]? = some { r with occupied := true } ∧
      (∀ k, k ≠ j → (occupy runways j)[k]? = runways[k]?) ∧
      (occupy runways j).length = runways.length := by
  have hlen : j < runways.length := by
    by_contra hc
    rw [List.getElem?_eq_none (not_lt.1 hc)] at hr
    exact absurd hr (by simp)
  simp only [occupy, hr]
  refine ⟨by simp [hlen], ?_, by simp⟩
  intro k hk
  rw [List.getElem?_set_ne (Ne.symm hk)]

/-- C10: `assignRunway` gives the flight its preferred runway (index 2 for Cargo or
Emergency aircraft, else 0 for North/South arrivals, else 1) when that runway is free;
otherwise a non-Cargo flight gets the lowest-indexed free runway other than the preferred
one.  On success exactly one runway, free before, becomes occupied, the flight's
`runwayAssigned` is its index, and every other runway is unchanged. -/
theorem assignRunway_choice (runways : List Runway) (flight : Flight) :
    preferredRunway flight =
        (if flight.aircraftType = AircraftType.Cargo ∨
            flight.aircraftType = AircraftType.Emergency then 2
         else if flight.direction = FlightDirection.NorthArrival ∨
            flight.direction = FlightDirection.SouthArrival then 0
         else 1) ∧
      (runwayFree runways (preferredRunway flight).toNat →
        assignRunway.onFlight runways flight =
          granted runways flight (preferredRunway flight).toNat) ∧
      (¬ runwayFree runways (preferredRunway flight).toNat →
        flight.aircraftType ≠ AircraftType.Cargo →
        ∀ j, runwayFree runways j → (j : Int) ≠ preferredRunway flight →
          (∀ k, k < j → (k : Int) ≠ preferredRunway flight → ¬ runwayFree runways k) →
          assignRunway.onFlight runways flight = granted runways flight j) ∧
      ((assignRunway.onFlight runways flight).1 = true →
        ∃ j r, runways[j]? = some r ∧ r.occupied = false ∧
          assignRunway.onFlight runways flight = granted runways flight j ∧
          (assignRunway.onFlight runways flight).2.2.runwayAssigned = (j : Int) ∧
          (assignRunway.onFlight runways flight).2.1[j]? = some { r with occupied := true } ∧
          (∀ k, k ≠ j → (assignRunway.onFlight runways flight).2.1[k]? = runways[k]?) ∧
          (assignRunway.onFlight runways flight).2.1.length = runways.length) := by
  have hnn : (0 : Int) ≤ preferredRunway flight := by
    rcases preferredRunway_range flight with h | h | h <;> rw [h] <;> decide
  have hcast : (((preferredRunway flight).toNat : Nat) : Int) = preferredRunway flight :=
    Int.toNat_of_nonneg hnn
  refine ⟨rfl, ?_, ?_, ?_⟩
  · intro hf
    simp only [assignRunway.onFlight, (preferred_some_iff runways flight).1 hf, granted, hcast]
  · intro hnf hnc j hj hjp hlow
    have hlen : j < runways.length := by
      obtain ⟨r, hr, _⟩ := hj
      by_contra hc
      rw [List.getElem?_eq_none (not_lt.1 hc)] at hr
      exact absurd hr (by simp)
    simp only [assignRunway.onFlight, (preferred_some_iff runways flight).2 hnf, ne_eq, hnc,
      not_false_eq_true, if_true,
      overflow_lowest (preferredRunway flight) flight runways j hj hjp runways.length 0
        (Nat.zero_le j) (by omega) (fun k _ hk2 hk3 => hlow k hk2 hk3), granted]
  · intro hs
    have key : ∃ j, runwayFree runways j ∧
        assignRunway.onFlight runways flight = granted runways flight j := by
      by_cases hf : runwayFree runways (preferredRunway flight).toNat
      · refine ⟨_, hf, ?_⟩
        simp only [assignRunway.onFlight, (preferred_some_iff runways flight).1 hf, granted,
          hcast]
      · simp only [assignRunway.onFlight, (preferred_some_iff runways flight).2 hf] at hs ⊢
        split_ifs at hs ⊢ with hc
        · cases ho : assignRunway.overflow (preferredRunway flight) flight runways.length 0
              runways with
          | none => simp [ho] at hs
          | some res =>
            obtain ⟨j, _, hj2, _, _, hj5⟩ := overflow_some _ _ _ _ _ _ ho
            refine ⟨j, hj2, ?_⟩
            simp only [hj5, granted]
    obtain ⟨j, ⟨r, hr, hocc⟩, hg⟩ := key
    obtain ⟨o1, o2, o3⟩ := occupy_getElem runways j r hr
    refine ⟨j, r, hr, hocc, hg, ?_, ?_, ?_, ?_⟩
    · rw [hg]; rfl
    · rw [hg]; exact o1
    · rw [hg]; exact o2
    · rw [hg]; exact o3

/-- C10, witness: with runway 0 occupied and runways 1 and 2 free, a Commercial north
arrival (preferred runway 0) is given runway 1; with all runways free a Cargo flight is
given its preferred runway 2. -/
theorem assignRunway_choice_witness :
    ¬ runwayFree (samplePool true false false) (preferredRunway sampleLanding250).toNat ∧
      sampleLanding250.aircraftType ≠ AircraftType.Cargo ∧
      runwayFree (samplePool true false false) 1 ∧
      assignRunway.onFlight (samplePool true false false) sampleLanding250 =
        granted (samplePool true false false) sampleLanding250 1 ∧
      (granted (samplePool true false false) sampleLanding250 1).2.1 =
        samplePool true true false ∧
      runwayFree (samplePool false false false) (preferredRunway sampleCargo).toNat ∧
      assignRunway.onFlight (samplePool false false false) sampleCargo =
        granted (samplePool false false false) sampleCargo 2 ∧
      (granted (samplePool false false false) sampleCargo 2).2.1 =
        samplePool false false true ∧
      (∃ (j : Nat) (r : Runway), (samplePool false false false)[j]? = some r ∧
        r.occupied = false ∧
        (assignRunway.onFlight (samplePool false false false) sampleCargo).2.2.runwayAssigned
          = (j : Int)) := by
  have h0 : ¬ runwayFree (samplePool true false false) (preferredRunway sampleLanding250).toNat := by
    rintro ⟨r, hr, ho⟩
    have : r = { Runway.new 0 "RWY-A (North-South Arrivals)" with occupied := true } := by
      simpa [samplePool, preferredRunway, sampleLanding250, Flight.new] using hr.symm
    rw [this] at ho
    exact absurd ho (by decide)
  have h1 : runwayFree (samplePool true false false) 1 := ⟨_, rfl, rfl⟩
  have h2 : runwayFree (samplePool false false false) (preferredRunway sampleCargo).toNat :=
    ⟨_, rfl, rfl⟩
  have hc : sampleLanding250.aircraftType ≠ AircraftType.Cargo := by decide
  have hs : (assignRunway.onFlight (samplePool false false false) sampleCargo).1 = true := by
    rw [(assignRunway_choice (samplePool false false false) sampleCargo).2.1 h2]
    rfl
  refine ⟨h0, hc, h1,
    (assignRunway_choice (samplePool true false false) sampleLanding250).2.2.1 h0 hc 1 h1
      (by decide) ?_, rfl,
    h2, (assignRunway_choice (samplePool false false false) sampleCargo).2.1 h2, rfl, ?_⟩
  · intro k hk hkp
    have hk0 : k = 0 := by omega
    subst hk0
    exact absurd rfl hkp
  · obtain ⟨j, r, a1, a2, _, a4, _⟩ :=
      (assignRunway_choice (samplePool false false false) sampleCargo).2.2.2 hs
    exact ⟨j, r, a1, a2, a4⟩

/-! ## The binary heap -/

namespace Heap

variable {α K : Type} [LinearOrder K]

theorem getElem?_set_other (l : List α) (h i : Nat) (x : α) (hne : i ≠ h) :
    (l.set h x)[i]? = l[i]? := by
  rw [List.getElem?_set_ne (Ne.symm hne)]

theorem getElem?_set_same (l : List α) (h : Nat) (x : α) (hlt : h < l.length) :
    (l.set h x)[h]? = some x := by
  simp [hlt]

/-- Writing the sifted value into the hole gives a heap when the value is not ordered after
the parent of the hole. -/
theorem ordered_fill (key : α → K) (l : List α) (h n : Nat) (v : α) (hn : n ≤ l.length)
    (hh : h < n) (hinv : OrderedAround key l h n) (hch : ChildrenAbove key l h n v)
    (hpar : h = 0 ∨ ∃ pv, l[(h - 1) / 2]? = some pv ∧ key pv ≤ key v) :
    Ordered key (l.set h v) n := by
  intro i x y hi0 hin hx hy
  have hhl : h < l.length := by omega
  by_cases hih : i = h
  · subst hih
    rw [getElem?_set_same l i v hhl] at hy
    cases hy
    have hpne : (i - 1) / 2 ≠ i := by omega
    rw [getElem?_set_other l i _ v hpne] at hx
    rcases hpar with h0 | ⟨pv, hpv, hle⟩
    · omega
    · rw [hpv] at hx
      cases hx
      exact hle
  · rw [getElem?_set_other l h i v hih] at hy
    by_cases hph : (i - 1) / 2 = h
    · rw [hph, getElem?_set_same l h v hhl] at hx
      cases hx
      exact hch i y hi0 hin hph hy
    · rw [getElem?_set_other l h _ v hph] at hx
      exact hinv.1 i x y hi0 hin hih hph hx hy

/-- Moving the parent into the hole keeps the order around the (new) hole. -/
theorem orderedAround_up (key : α → K) (l : List α) (h n : Nat) (v pv : α)
    (hn : n ≤ l.length) (hh : h < n) (h0 : 0 < h)
    (hinv : OrderedAround key l h n) (hch : ChildrenAbove key l h n v)
    (hpv : l[(h - 1) / 2]? = some pv) (hlt : key v < key pv) :
    OrderedAround key (l.set h pv) ((h - 1) / 2) n ∧
      ChildrenAbove key (l.set h pv) ((h - 1) / 2) n v := by
  have hhl : h < l.length := by omega
  have hpne : (h - 1) / 2 ≠ h := by omega
  refine ⟨⟨?_, ?_⟩, ?_⟩
  · intro i x y hi0 hin hip hpp hx hy
    have hih : i ≠ h := by
      intro hc
      rw [hc] at hpp
      exact hpp rfl
    rw [getElem?_set_other l h i pv hih] at hy
    by_cases hph : (i - 1) / 2 = h
    · rw [hph, getElem?_set_same l h pv hhl] at hx
      cases hx
      exact hinv.2 i _ y hi0 hin hph h0 hpv hy
    · rw [getElem?_set_other l h _ pv hph] at hx
      exact hinv.1 i x y hi0 hin hih hph hx hy
  · intro i x y hi0 hin hip hp0 hx hy
    have hppne : ((h - 1) / 2 - 1) / 2 ≠ h := by omega
    rw [getElem?_set_other l h _ pv hppne] at hx
    have hppp : key x ≤ key pv :=
      hinv.1 ((h - 1) / 2) x pv hp0 (by omega) hpne hppne hx hpv
    by_cases hih : i = h
    · subst hih
      rw [getElem?_set_same l i pv hhl] at hy
      cases hy
      exact hppp
    · rw [getElem?_set_other l h i pv hih] at hy
      have hiph : (i - 1) / 2 ≠ h := by omega
      have := hinv.1 i pv y hi0 hin hih hiph (by rw [hip]; exact hpv) hy
      exact le_trans hppp this
  · intro i y hi0 hin hip hy
    by_cases hih : i = h
    · subst hih
      rw [getElem?_set_same l i pv hhl] at hy
      cases hy
      exact le_of_lt hlt
    · rw [getElem?_set_other l h i pv hih] at hy
      have hiph : (i - 1) / 2 ≠ h := by omega
      have := hinv.1 i pv y hi0 hin hih hiph (by rw [hip]; exact hpv) hy
      exact le_trans (le_of_lt hlt) this


/-- Exchanging the hole with another position does not change the multiset of entries. -/
theorem set_set_perm (l : List α) (h p : Nat) (x v : α) (hp : p < l.length)
    (hh : h < l.length) (hne : p ≠ h) (hx : l[p]? = some x) :
    ((l.set h x).set p v).Perm (l.set h v) := by
  classical
  have hxp : l[p] = x := by
    rw [List.getElem?_eq_getElem hp] at hx
    exact Option.some.inj hx
  rw [List.perm_iff_count]
  intro b
  have hp2 : p < (l.set h x).length := by simpa using hp
  rw [List.count_set _ _ _ _ hp2, List.count_set _ _ _ _ hh, List.count_set _ _ _ _ hh]
  have e1 : (l.set h x)[p] = x := by
    rw [List.getElem_set_ne (Ne.symm hne)]
    exact hxp
  rw [e1]
  have hle : (if l[h] == b then 1 else 0) ≤ l.count b := by
    rw [List.count_eq_countP]
    exact List.boole_getElem_le_countP (fun a => a == b) l h hh
  split_ifs <;> omega

theorem pushHeap_spec (comp : α → α → Bool) (key : α → K)
    (hcomp : ∀ a b, comp a b = true ↔ key b < key a) (v : α) (n : Nat) :
    ∀ (fuel : Nat) (l : List α) (h : Nat), h ≤ fuel → h < n → n ≤ l.length →
      OrderedAround key l h n → ChildrenAbove key l h n v →
      Ordered key (pushHeap comp v 0 fuel l h) n ∧
        (pushHeap comp v 0 fuel l h).length = l.length ∧
        (pushHeap comp v 0 fuel l h).Perm (l.set h v) ∧
        (∀ j, n ≤ j → (pushHeap comp v 0 fuel l h)[j]? = l[j]?) := by
  intro fuel
  induction fuel with
  | zero =>
    intro l h hf hh hn hinv hch
    have h0 : h = 0 := by omega
    subst h0
    refine ⟨ordered_fill key l 0 n v hn hh hinv hch (Or.inl rfl), by simp [pushHeap],
      by simp [pushHeap], ?_⟩
    intro j hj
    simp only [pushHeap]
    exact getElem?_set_other l 0 j v (by omega)
  | succ m ih =>
    intro l h hf hh hn hinv hch
    have hhl : h < l.length := by omega
    have hfill : ∀ j, n ≤ j → (l.set h v)[j]? = l[j]? :=
      fun j hj => getElem?_set_other l h j v (by omega)
    rw [pushHeap]
    split_ifs with h0
    · have hpl : (h - 1) / 2 < l.length := by omega
      rw [List.getElem?_eq_getElem hpl]
      simp only []
      split_ifs with hc
      · have hlt : key v < key (l[(h - 1) / 2]) := (hcomp _ _).1 hc
        have hget : l[(h - 1) / 2]? = some (l[(h - 1) / 2]) := List.getElem?_eq_getElem hpl
        obtain ⟨i1, i2⟩ := orderedAround_up key l h n v _ hn hh h0 hinv hch hget hlt
        obtain ⟨r1, r2, r3, r4⟩ := ih (l.set h (l[(h - 1) / 2])) ((h - 1) / 2) (by omega)
          (by omega) (by simpa using hn) i1 i2
        refine ⟨r1, by simpa using r2, ?_, ?_⟩
        · exact r3.trans (set_set_perm l h _ _ v hpl hhl (by omega) hget)
        · intro j hj
          rw [r4 j hj]
          exact getElem?_set_other l h j _ (by omega)
      · have hle : key (l[(h - 1) / 2]) ≤ key v := by
          by_contra hcon
          exact hc ((hcomp _ _).2 (not_le.1 hcon))
        exact ⟨ordered_fill key l h n v hn hh hinv hch
          (Or.inr ⟨_, List.getElem?_eq_getElem hpl, hle⟩), by simp, List.Perm.refl _, hfill⟩
    · have h00 : h = 0 := by omega
      exact ⟨ordered_fill key l h n v hn hh hinv hch (Or.inl h00), by simp,
        List.Perm.refl _, hfill⟩


/-- Moving the least child into the hole keeps the order around the (new) hole. -/
theorem orderedAround_down (key : α → K) (l : List α) (h c n : Nat) (cv : α)
    (hn : n ≤ l.length) (hc0 : 0 < c) (hcn : c < n) (hch : (c - 1) / 2 = h)
    (hinv : OrderedAround key l h n) (hcv : l[c]? = some cv)
    (hmin : ∀ i y, 0 < i → i < n → (i - 1) / 2 = h → l[i]? = some y → key cv ≤ key y) :
    OrderedAround key (l.set h cv) c n := by
  have hhl : h < l.length := by omega
  have hhc : h < c := by omega
  refine ⟨?_, ?_⟩
  · intro i x y hi0 hin hic hpc hx hy
    by_cases hih : i = h
    · subst hih
      rw [getElem?_set_same l i cv hhl] at hy
      cases hy
      have hpne : (i - 1) / 2 ≠ i := by omega
      rw [getElem?_set_other l i _ cv hpne] at hx
      exact hinv.2 c x _ hc0 hcn hch hi0 hx hcv
    · rw [getElem?_set_other l h i cv hih] at hy
      by_cases hph : (i - 1) / 2 = h
      · rw [hph, getElem?_set_same l h cv hhl] at hx
        cases hx
        exact hmin i y hi0 hin hph hy
      · rw [getElem?_set_other l h _ cv hph] at hx
        exact hinv.1 i x y hi0 hin hih hph hx hy
  · intro i x y hi0 hin hip _ hx hy
    rw [hch, getElem?_set_same l h cv hhl] at hx
    cases hx
    have hih : i ≠ h := by omega
    rw [getElem?_set_other l h i cv hih] at hy
    exact hinv.1 i _ y hi0 hin hih (by omega) (by rw [hip]; exact hcv) hy

theorem adjustHeapLoop_spec (comp : α → α → Bool) (key : α → K)
    (hcomp : ∀ a b, comp a b = true ↔ key b < key a) (n : Nat) :
    ∀ (fuel : Nat) (l : List α) (h : Nat), n ≤ h + fuel → h < n → n ≤ l.length →
      OrderedAround key l h n →
      OrderedAround key (adjustHeapLoop comp n fuel l h h).1
          (adjustHeapLoop comp n fuel l h h).2.1 n ∧
        (adjustHeapLoop comp n fuel l h h).2.2 = (adjustHeapLoop comp n fuel l h h).2.1 ∧
        (adjustHeapLoop comp n fuel l h h).2.1 < n ∧
        ¬ ((adjustHeapLoop comp n fuel l h h).2.1 < (n - 1) / 2) ∧
        (adjustHeapLoop comp n fuel l h h).1.length = l.length ∧
        (∀ v, ((adjustHeapLoop comp n fuel l h h).1.set
            (adjustHeapLoop comp n fuel l h h).2.1 v).Perm (l.set h v)) ∧
        (∀ j, n ≤ j → (adjustHeapLoop comp n fuel l h h).1[j]? = l[j]?) := by
  intro fuel
  induction fuel with
  | zero => intro l h hf hh; omega
  | succ m ih =>
    intro l h hf hh hn hinv
    have hhl : h < l.length := by omega
    rw [adjustHeapLoop]
    split_ifs with hlt
    · have hsc : 2 * (h + 1) < l.length := by omega
      have hsc1 : 2 * (h + 1) - 1 < l.length := by omega
      have ga : l[2 * (h + 1)]? = some (l[2 * (h + 1)]) := List.getElem?_eq_getElem hsc
      have gb : l[2 * (h + 1) - 1]? = some (l[2 * (h + 1) - 1]) :=
        List.getElem?_eq_getElem hsc1
      simp only [ga, gb]
      have hkids : ∀ i, 0 < i → (i - 1) / 2 = h → i = 2 * (h + 1) ∨ i = 2 * (h + 1) - 1 := by
        intro i hi hp
        omega
      split_ifs with hc
      · have hkey : key (l[2 * (h + 1) - 1]) < key (l[2 * (h + 1)]) := (hcomp _ _).1 hc
        have hmin : ∀ i y, 0 < i → i < n → (i - 1) / 2 = h → l[i]? = some y →
            key (l[2 * (h + 1) - 1]) ≤ key y := by
          intro i y hi0 hin hp hy
          rcases hkids i hi0 hp with e | e
          · rw [e, ga] at hy
            cases hy
            exact le_of_lt hkey
          · rw [e, gb] at hy
            cases hy
            exact le_refl _
        have hdown := orderedAround_down key l h (2 * (h + 1) - 1) n _ hn (by omega)
          (by omega) (by omega) hinv gb hmin
        obtain ⟨r1, r2, r3, r4, r5, r6, r7⟩ := ih (l.set h (l[2 * (h + 1) - 1]))
          (2 * (h + 1) - 1) (by omega) (by omega) (by simpa using hn) hdown
        refine ⟨r1, r2, r3, r4, by simpa using r5, ?_, ?_⟩
        · intro v
          exact (r6 v).trans (set_set_perm l h _ _ v hsc1 hhl (by omega) gb)
        · intro j hj
          rw [r7 j hj]
          exact getElem?_set_other l h j _ (by omega)
      · have hkey : key (l[2 * (h + 1)]) ≤ key (l[2 * (h + 1) - 1]) := by
          by_contra hcon
          exact hc ((hcomp _ _).2 (not_le.1 hcon))
        have hmin : ∀ i y, 0 < i → i < n → (i - 1) / 2 = h → l[i]? = some y →
            key (l[2 * (h + 1)]) ≤ key y := by
          intro i y hi0 hin hp hy
          rcases hkids i hi0 hp with e | e
          · rw [e, ga] at hy
            cases hy
            exact le_refl _
          · rw [e, gb] at hy
            cases hy
            exact hkey
        have hdown := orderedAround_down key l h (2 * (h + 1)) n _ hn (by omega)
          (by omega) (by omega) hinv ga hmin
        obtain ⟨r1, r2, r3, r4, r5, r6, r7⟩ := ih (l.set h (l[2 * (h + 1)]))
          (2 * (h + 1)) (by omega) (by omega) (by simpa using hn) hdown
        refine ⟨r1, r2, r3, r4, by simpa using r5, ?_, ?_⟩
        · intro v
          exact (r6 v).trans (set_set_perm l h _ _ v hsc hhl (by omega) ga)
        · intro j hj
          rw [r7 j hj]
          exact getElem?_set_other l h j _ (by omega)
    · exact ⟨hinv, rfl, hh, hlt, rfl, fun v => List.Perm.refl _, fun j _ => rfl⟩

theorem adjustHeapLast_spec (key : α → K) (n : Nat) (l : List α) (h : Nat)
    (hh : h < n) (hn : n ≤ l.length) (hinv : OrderedAround key l h n)
    (hstop : ¬ (h < (n - 1) / 2)) :
    OrderedAround key (adjustHeapLast n (l, h, h)).1 (adjustHeapLast n (l, h, h)).2 n ∧
      (adjustHeapLast n (l, h, h)).2 < n ∧
      (∀ i, 0 < i → i < n → (i - 1) / 2 ≠ (adjustHeapLast n (l, h, h)).2) ∧
      (adjustHeapLast n (l, h, h)).1.length = l.length ∧
      (∀ v, ((adjustHeapLast n (l, h, h)).1.set (adjustHeapLast n (l, h, h)).2 v).Perm
        (l.set h v)) ∧
      (∀ j, n ≤ j → (adjustHeapLast n (l, h, h)).1[j]? = l[j]?) := by
  have hhl : h < l.length := by omega
  unfold adjustHeapLast
  simp only []
  split_ifs with hc
  · obtain ⟨hev, heq⟩ := hc
    have hn2 : 2 ≤ n := by omega
    rw [Int.tdiv_eq_ediv (by omega) (by norm_num)] at heq
    have hnh : n = 2 * h + 2 := by omega
    have hl1 : 2 * (h + 1) - 1 < l.length := by omega
    have gx : l[2 * (h + 1) - 1]? = some (l[2 * (h + 1) - 1]) := List.getElem?_eq_getElem hl1
    simp only [gx]
    have hmin : ∀ i y, 0 < i → i < n → (i - 1) / 2 = h → l[i]? = some y →
        key (l[2 * (h + 1) - 1]) ≤ key y := by
      intro i y hi0 hin hp hy
      have e : i = 2 * (h + 1) - 1 := by omega
      rw [e, gx] at hy
      cases hy
      exact le_refl _
    have hdown := orderedAround_down key l h (2 * (h + 1) - 1) n _ hn (by omega)
      (by omega) (by omega) hinv gx hmin
    refine ⟨hdown, by omega, ?_, by simp, ?_, ?_⟩
    · intro i hi0 hin
      omega
    · intro v
      exact set_set_perm l h _ _ v hl1 hhl (by omega) gx
    · intro j hj
      exact getElem?_set_other l h j _ (by omega)
  · refine ⟨hinv, hh, ?_, rfl, fun v => List.Perm.refl _, fun j _ => rfl⟩
    intro i hi0 hin hp
    apply hc
    have hn2 : 2 ≤ n := by omega
    rw [Int.tdiv_eq_ediv (by omega) (by norm_num)]
    constructor <;> omega

theorem adjustHeap_spec (comp : α → α → Bool) (key : α → K)
    (hcomp : ∀ a b, comp a b = true ↔ key b < key a) (n : Nat) (l : List α) (v : α)
    (h0 : 0 < n) (hn : n ≤ l.length) (hinv : OrderedAround key l 0 n) :
    Ordered key (adjustHeap comp l 0 n v) n ∧
      (adjustHeap comp l 0 n v).length = l.length ∧
      (adjustHeap comp l 0 n v).Perm (l.set 0 v) ∧
      (∀ j, n ≤ j → (adjustHeap comp l 0 n v)[j]? = l[j]?) := by
  obtain ⟨a1, a2, a3, a4, a5, a6, a7⟩ :=
    adjustHeapLoop_spec comp key hcomp n n l 0 (by omega) h0 hn hinv
  unfold adjustHeap
  simp only []
  generalize adjustHeapLoop comp n n l 0 0 = st at a1 a2 a3 a4 a5 a6 a7
  obtain ⟨l1, h1, sc1⟩ := st
  simp only at a1 a2 a3 a4 a5 a6 a7
  subst a2
  obtain ⟨b1, b2, b3, b4, b5, b6⟩ :=
    adjustHeapLast_spec key n l1 sc1 a3 (by omega) a1 a4
  generalize adjustHeapLast n (l1, sc1, sc1) = st2 at b1 b2 b3 b4 b5 b6
  obtain ⟨l2, h2⟩ := st2
  simp only at b1 b2 b3 b4 b5 b6
  have hch : ChildrenAbove key l2 h2 n v := by
    intro i y hi0 hin hp
    exact absurd hp (b3 i hi0 hin)
  obtain ⟨c1, c2, c3, c4⟩ :=
    pushHeap_spec comp key hcomp v n h2 l2 h2 (le_refl _) b2 (by omega) b1 hch
  refine ⟨c1, ?_, c3.trans ((b5 v).trans (a6 v)), ?_⟩
  · show (pushHeap comp v 0 h2 l2 h2).length = l.length
    omega
  · intro j hj
    show (pushHeap comp v 0 h2 l2 h2)[j]? = l[j]?
    rw [c4 j hj, b6 j hj, a7 j hj]


theorem set_getElem_eq (l : List α) (n : Nat) (hn : n < l.length) : l.set n (l[n]) = l := by
  apply List.ext_getElem?
  intro i
  by_cases hi : i = n
  · subst hi
    rw [getElem?_set_same l i _ hn, List.getElem?_eq_getElem hn]
  · exact getElem?_set_other l n i _ hi

/-- In a heap the front has the least key. -/
theorem ordered_front_le (key : α → K) (l : List α) (n : Nat) (hn : n ≤ l.length)
    (ho : Ordered key l n) :
    ∀ i, i < n → ∀ x y, l[0]? = some x → l[i]? = some y → key x ≤ key y := by
  intro i
  induction i using Nat.strong_induction_on with
  | _ i ih =>
    intro hi x y hx hy
    rcases Nat.eq_zero_or_pos i with h0 | hpos
    · subst h0
      rw [hx] at hy
      cases hy
      exact le_refl _
    · have hp : (i - 1) / 2 < i := by omega
      have hpl : (i - 1) / 2 < l.length := by omega
      have h1 := ih ((i - 1) / 2) hp (by omega) x _ hx (List.getElem?_eq_getElem hpl)
      have h2 := ho i _ y hpos hi (List.getElem?_eq_getElem hpl) hy
      exact le_trans h1 h2

theorem push_spec (comp : α → α → Bool) (key : α → K)
    (hcomp : ∀ a b, comp a b = true ↔ key b < key a) (l : List α) (x : α)
    (ho : Ordered key l l.length) :
    Ordered key (PriorityQueue.push comp l x) (PriorityQueue.push comp l x).length ∧
      (PriorityQueue.push comp l x).length = l.length + 1 ∧
      (PriorityQueue.push comp l x).Perm (l ++ [x]) := by
  unfold PriorityQueue.push push_heap
  have hlast : (l ++ [x]).getLast? = some x := by simp
  rw [hlast]
  simp only [List.length_append, List.length_singleton, Nat.add_sub_cancel]
  have hinv : OrderedAround key (l ++ [x]) l.length (l.length + 1) := by
    refine ⟨?_, ?_⟩
    · intro i a b hi0 hin hne hpne ha hb
      have hil : i < l.length := by omega
      rw [List.getElem?_append_left hil] at hb
      rw [List.getElem?_append_left (by omega)] at ha
      exact ho i a b hi0 hil ha hb
    · intro i a b hi0 hin hp
      omega
  have hch : ChildrenAbove key (l ++ [x]) l.length (l.length + 1) x := by
    intro i y hi0 hin hp
    omega
  obtain ⟨r1, r2, r3, _⟩ := pushHeap_spec comp key hcomp x (l.length + 1) l.length
    (l ++ [x]) l.length (le_refl _) (by omega) (by simp) hinv hch
  have hset : (l ++ [x]).set l.length x = l ++ [x] := by
    rw [List.set_append_right _ _ (le_refl _)]
    simp
  rw [hset] at r3
  have hlen : (pushHeap comp x 0 l.length (l ++ [x]) l.length).length = l.length + 1 := by
    rw [r2]; simp
  refine ⟨?_, hlen, r3⟩
  rw [hlen]
  exact r1

theorem pop_spec (comp : α → α → Bool) (key : α → K)
    (hcomp : ∀ a b, comp a b = true ↔ key b < key a) (l : List α)
    (ho : Ordered key l l.length) :
    Ordered key (PriorityQueue.pop comp l) (PriorityQueue.pop comp l).length ∧
      (PriorityQueue.pop comp l).length = l.length - 1 ∧
      (PriorityQueue.pop comp l).Perm l.tail := by
  unfold PriorityQueue.pop pop_heap
  split_ifs with hlen
  · have hn : l.length - 1 < l.length := by omega
    have h0 : 0 < l.length := by omega
    have gv : l[l.length - 1]? = some (l[l.length - 1]) := List.getElem?_eq_getElem hn
    have gf : l[0]? = some (l[0]) := List.getElem?_eq_getElem h0
    simp only [gv, gf]
    have hinv : OrderedAround key (l.set (l.length - 1) (l[0])) 0 (l.length - 1) := by
      refine ⟨?_, ?_⟩
      · intro i a b hi0 hin hne hpne ha hb
        rw [getElem?_set_other l _ i _ (by omega)] at hb
        rw [getElem?_set_other l _ _ _ (by omega)] at ha
        exact ho i a b hi0 (by omega) ha hb
      · intro i a b _ _ _ hc
        omega
    obtain ⟨r1, r2, r3, r4⟩ := adjustHeap_spec comp key hcomp (l.length - 1)
      (l.set (l.length - 1) (l[0])) (l[l.length - 1]) (by omega) (by simp) hinv
    generalize adjustHeap comp (l.set (l.length - 1) (l[0])) 0 (l.length - 1)
      (l[l.length - 1]) = r at r1 r2 r3 r4
    have hrlen : r.length = l.length := by simpa using r2
    have hrl : r[l.length - 1]? = some (l[0]) := by
      rw [r4 (l.length - 1) (le_refl _)]
      exact getElem?_set_same l _ _ hn
    have hperm : r.Perm l := by
      refine r3.trans ?_
      have := set_set_perm l (l.length - 1) 0 (l[0]) (l[l.length - 1]) h0 hn (by omega) gf
      refine this.trans ?_
      rw [set_getElem_eq l _ hn]
    have hdl : (r.dropLast).length = l.length - 1 := by simp [hrlen]
    refine ⟨?_, hdl, ?_⟩
    · rw [hdl]
      intro i a b hi0 hin ha hb
      rw [List.dropLast_eq_take, hrlen, List.getElem?_take_of_lt (by omega)] at ha
      rw [List.dropLast_eq_take, hrlen, List.getElem?_take_of_lt hin] at hb
      exact r1 i a b hi0 hin ha hb
    · have hrne : r ≠ [] := by
        intro hc
        rw [hc] at hrlen
        simp at hrlen
        omega
      have hgl : r.getLast hrne = l[0] := by
        rw [List.getLast_eq_getElem]
        have : r.length - 1 = l.length - 1 := by omega
        have h2 : r[r.length - 1]? = some (l[0]) := by rw [this]; exact hrl
        rw [List.getElem?_eq_getElem (by omega)] at h2
        exact Option.some.inj h2
      have hsplit : r = r.dropLast ++ [l[0]] := by
        rw [← hgl]
        exact (List.dropLast_append_getLast hrne).symm
      have hl : l = l[0] :: l.tail := by
        cases l with
        | nil => simp at h0
        | cons a t => simp
      rw [hsplit] at hperm
      have h3 : (l[0] :: r.dropLast).Perm (l[0] :: l.tail) := by
        refine (List.perm_append_singleton _ _).symm.trans ?_
        rw [← hl]
        exact hperm
      exact h3.cons_inv
  · have hcases : l = [] ∨ ∃ a, l = [a] := by
      cases l with
      | nil => exact Or.inl rfl
      | cons a t =>
        cases t with
        | nil => exact Or.inr ⟨a, rfl⟩
        | cons b t => simp at hlen
    rcases hcases with e | ⟨a, e⟩ <;> subst e <;>
      exact ⟨fun i _ _ _ hin => by simp at hin, by simp, by simp⟩

theorem popAll_spec (comp : α → α → Bool) (key : α → K)
    (hcomp : ∀ a b, comp a b = true ↔ key b < key a) :
    ∀ (n : Nat) (l : List α), l.length ≤ n → Ordered key l l.length →
      (PriorityQueue.popAll comp n l).Perm l ∧
        (PriorityQueue.popAll comp n l).Pairwise (fun a b => key a ≤ key b) := by
  intro n
  induction n with
  | zero =>
    intro l hl _
    have : l = [] := List.length_eq_zero.1 (by omega)
    subst this
    simp [PriorityQueue.popAll]
  | succ m ih =>
    intro l hl ho
    cases l with
    | nil => simp [PriorityQueue.popAll, PriorityQueue.top]
    | cons x t =>
      obtain ⟨p1, p2, p3⟩ := pop_spec comp key hcomp (x :: t) ho
      have hlen : (PriorityQueue.pop comp (x :: t)).length ≤ m := by
        rw [p2]; simp at hl ⊢; omega
      obtain ⟨q1, q2⟩ := ih _ hlen p1
      simp only [PriorityQueue.popAll, PriorityQueue.top, List.head?_cons]
      have hperm : (PriorityQueue.popAll comp m (PriorityQueue.pop comp (x :: t))).Perm t :=
        q1.trans (by simpa using p3)
      refine ⟨List.Perm.cons x hperm, List.Pairwise.cons ?_ q2⟩
      intro b hb
      have hbt : b ∈ x :: t := List.mem_cons_of_mem x (hperm.subset hb)
      obtain ⟨i, hi, hget⟩ := List.getElem_of_mem hbt
      have hgi : (x :: t)[i]? = some b := by
        rw [List.getElem?_eq_getElem hi, hget]
      exact ordered_front_le key (x :: t) _ (le_refl _) ho i hi x b (by simp) hgi


end Heap

/-! ## Effects of the controller operations on single flights -/

theorem getD_set (l : List Flight) (p q : Nat) (x : Flight) :
    (l.set p x).getD q default = if q = p ∧ p < l.length then x else l.getD q default := by
  rw [List.getD_eq_getElem?_getD, List.getD_eq_getElem?_getD, List.getElem?_set]
  by_cases hqp : q = p
  · subst hqp
    by_cases hl : q < l.length
    · simp [hl]
    · simp [hl, List.getElem?_eq_none (not_lt.1 hl)]
  · have : ¬ p = q := fun h => hqp h.symm
    simp [hqp, this]

theorem flightAt_modifyFlight (c : ATCSController) (p q : Nat) (g : Flight → Flight) :
    (c.modifyFlight p g).flightAt q =
      if q = p ∧ p < c.flights.length then g (c.flightAt p) else c.flightAt q := by
  simp only [ATCSController.modifyFlight, ATCSController.flightAt]
  exact getD_set c.flights p q _

theorem flightAt_invalid (c : ATCSController) (p : Nat) (hp : ¬ p < c.flights.length) :
    c.flightAt p = default := by
  unfold ATCSController.flightAt
  rw [List.getD_eq_getElem?_getD, List.getElem?_eq_none (not_lt.1 hp)]
  rfl

theorem core_modifyFlight (c : ATCSController) (p q : Nat) (g : Flight → Flight)
    (hg : ∀ f, (g f).core = f.core) :
    ((c.modifyFlight p g).flightAt q).core = (c.flightAt q).core := by
  rw [flightAt_modifyFlight]
  split_ifs with h
  · rw [h.1]; exact hg _
  · rfl

/-- The two outcomes of the violation check on a flight record. -/
theorem onFlight_cases (flight : Flight) (L : Ledger) (now : Int) :
    checkSpeedViolation.onFlight flight L now = (flight, L) ∨
      (flight.violationActive = false ∧
        (checkSpeedViolation.onFlight flight L now).1 =
          { flight with
              violationActive := true
              violationReason :=
                (checkSpeedViolation.verdict flight.phase flight.speed).violationReason
              avnIDs := flight.avnIDs ++ [L.avnCounter + 1] }) := by
  unfold checkSpeedViolation.onFlight
  simp only []
  split_ifs with h
  · right
    simp only [Bool.and_eq_true, Bool.not_eq_true'] at h
    exact ⟨h.2, rfl⟩
  · left; rfl

theorem flightAt_checkSpeedViolation (c : ATCSController) (p q : Nat) (now : Int) :
    (checkSpeedViolation c p now).flightAt q =
      if q = p ∧ p < c.flights.length then
        (checkSpeedViolation.onFlight (c.flightAt p) c.avnGenerator now).1
      else c.flightAt q := by
  simp only [checkSpeedViolation, ATCSController.flightAt]
  exact getD_set c.flights p q _

/-- Preservation scheme for one round of the phase `switch`: a property kept by harmless
writes to a flight, by the violation check and by the release of a held runway is kept by
the round. -/
theorem phaseSwitch_preserves (P : ATCSController → Prop)
    (hmod : ∀ c p g, (∀ f, (g f).core = f.core) → P c → P (c.modifyFlight p g))
    (hcheck : ∀ c p now, P c → P (checkSpeedViolation c p now))
    (hrel : ∀ c p, P c → P (releaseHeld c p))
    (c : ATCSController) (p elapsed r : Nat) (now : Int) (hc : P c) :
    P (flightThread.phaseSwitch c p elapsed r now).1 := by
  have hph : ∀ c p ph, P c → P (updatePhase c p ph) :=
    fun c p ph h => hmod c p _ (fun _ => rfl) h
  have hsp : ∀ c p v, P c → P (updateSpeed c p v) :=
    fun c p v h => hmod c p _ (fun _ => rfl) h
  unfold flightThread.phaseSwitch
  split
  · split_ifs
    · exact hcheck _ _ _ (hsp _ _ _ (hph _ _ _ hc))
    · exact hc
  · split_ifs
    · exact hcheck _ _ _ (hsp _ _ _ (hph _ _ _ hc))
    · exact hc
  · split_ifs
    · exact hcheck _ _ _ (hsp _ _ _ hc)
    · exact hsp _ _ _ (hph _ _ _ hc)
  · split_ifs
    · exact hsp _ _ _ (hph _ _ _ hc)
    · exact hc
  · simp only []
    apply hrel
    split_ifs
    · exact hsp _ _ _ (hph _ _ _ hc)
    · exact hc
    · exact hc
  · split_ifs
    · exact hcheck _ _ _ (hsp _ _ _ (hph _ _ _ hc))
    · exact hsp _ _ _ hc
  · split_ifs
    · exact hrel _ _ (hcheck _ _ _ (hsp _ _ _ (hph _ _ _ hc)))
    · exact hc
  · split_ifs
    · exact hph _ _ _ hc
    · exact hc
  · exact hc

/-- Preservation scheme for one operation of the engine. -/
theorem Step_preserves (P : ATCSController → Prop)
    (hadd : ∀ c num al aty dir sched emType, P c →
      P (c.addFlight (Flight.new num al aty dir sched emType)))
    (hpass : ∀ c, P c → P (runwayManagementThread.pass c))
    (hmod : ∀ c p g, (∀ f, (g f).core = f.core) → P c → P (c.modifyFlight p g))
    (hcheck : ∀ c p now, P c → P (checkSpeedViolation c p now))
    (hrel : ∀ c p, P c → P (releaseHeld c p))
    (hfault : ∀ c p, P c → P (removeFaultedFlight c p))
    (c c' : ATCSController) (hs : Step c c') (hc : P c) : P c' := by
  cases hs with
  | create num al aty dir sched emType => exact hadd c num al aty dir sched emType hc
  | dispatch => exact hpass c hc
  | poll p elapsed r now running u r2 hp =>
    have h1 := phaseSwitch_preserves P hmod hcheck hrel c p elapsed r now hc
    unfold flightThread.step
    simp only []
    split_ifs
    · exact h1
    · unfold checkGroundFaults
      split_ifs
      · exact hfault _ _ (hmod _ _ _ (fun _ => rfl) h1)
      · exact h1
      · exact h1
    · exact h1
  | fault p hp => exact hfault c p hc

/-- Preservation scheme for the reachable states. -/
theorem Reachable_preserves (P : ATCSController → Prop) (hinit : P ATCSController.new)
    (hadd : ∀ c num al aty dir sched emType, P c →
      P (c.addFlight (Flight.new num al aty dir sched emType)))
    (hpass : ∀ c, P c → P (runwayManagementThread.pass c))
    (hmod : ∀ c p g, (∀ f, (g f).core = f.core) → P c → P (c.modifyFlight p g))
    (hcheck : ∀ c p now, P c → P (checkSpeedViolation c p now))
    (hrel : ∀ c p, P c → P (releaseHeld c p))
    (hfault : ∀ c p, P c → P (removeFaultedFlight c p))
    (c : ATCSController) (hr : Reachable c) : P c := by
  induction hr with
  | init => exact hinit
  | step c c' _ hs ih => exact Step_preserves P hadd hpass hmod hcheck hrel hfault c c' hs ih

/-- The two outcomes of `assignRunway` on the runway vector and a flight record: failure
without any change, or the grant of a runway that was free. -/
theorem onFlight_outcome (runways : List Runway) (flight : Flight) :
    assignRunway.onFlight runways flight = (false, runways, flight) ∨
      ∃ j r, runways[j]? = some r ∧ r.occupied = false ∧
        assignRunway.onFlight runways flight = granted runways flight j := by
  have hnn : (0 : Int) ≤ preferredRunway flight := by
    rcases preferredRunway_range flight with h | h | h <;> rw [h] <;> decide
  have hcast : (((preferredRunway flight).toNat : Nat) : Int) = preferredRunway flight :=
    Int.toNat_of_nonneg hnn
  by_cases hf : runwayFree runways (preferredRunway flight).toNat
  · right
    obtain ⟨r, hr, ho⟩ := hf
    refine ⟨_, r, hr, ho, ?_⟩
    simp only [assignRunway.onFlight, (preferred_some_iff runways flight).1 ⟨r, hr, ho⟩,
      granted, hcast]
  · simp only [assignRunway.onFlight, (preferred_some_iff runways flight).2 hf]
    split_ifs with hc
    · cases ho : assignRunway.overflow (preferredRunway flight) flight runways.length 0
          runways with
      | none => left; rfl
      | some res =>
        right
        obtain ⟨j, _, ⟨r, hr, hocc⟩, _, _, hj5⟩ := overflow_some _ _ _ _ _ _ ho
        refine ⟨j, r, hr, hocc, ?_⟩
        simp only [hj5, granted]
    · left; rfl

/-! ## Runway exclusion between whole operations -/

theorem RunwayInv_congr (c c' : ATCSController) (hlen : c'.flights.length = c.flights.length)
    (hrw : c'.runways = c.runways)
    (hfl : ∀ q, (c'.flightAt q).runwayAssigned = (c.flightAt q).runwayAssigned)
    (h : RunwayInv c) : RunwayInv c' := by
  refine ⟨?_, ?_⟩
  · intro i j hi hj hne heq
    rw [hlen] at hi hj
    rw [hfl i] at hne heq
    rw [hfl j] at heq
    exact h.1 i j hi hj hne heq
  · intro i hi hne
    rw [hlen] at hi
    rw [hfl i] at hne ⊢
    rw [hrw]
    exact h.2 i hi hne

theorem core_runwayAssigned (f g : Flight) (h : f.core = g.core) :
    f.runwayAssigned = g.runwayAssigned :=
  congrArg (fun x => x.2.2.1) h

theorem RunwayInv_modify (c : ATCSController) (p : Nat) (g : Flight → Flight)
    (hg : ∀ f, (g f).core = f.core) (h : RunwayInv c) : RunwayInv (c.modifyFlight p g) :=
  RunwayInv_congr c _ (by simp [ATCSController.modifyFlight]) rfl
    (fun q => core_runwayAssigned _ _ (core_modifyFlight c p q g hg)) h

theorem onFlight_runwayAssigned (flight : Flight) (L : Ledger) (now : Int) :
    (checkSpeedViolation.onFlight flight L now).1.runwayAssigned = flight.runwayAssigned := by
  rcases onFlight_cases flight L now with h | ⟨_, h⟩ <;> rw [h]

theorem RunwayInv_check (c : ATCSController) (p : Nat) (now : Int) (h : RunwayInv c) :
    RunwayInv (checkSpeedViolation c p now) := by
  refine RunwayInv_congr c _ (by simp [checkSpeedViolation]) rfl ?_ h
  intro q
  rw [flightAt_checkSpeedViolation]
  split_ifs with hq
  · rw [hq.1]; exact onFlight_runwayAssigned _ _ _
  · rfl

theorem default_runwayAssigned : (default : Flight).runwayAssigned = -1 := rfl

theorem releaseRunway_flights (c : ATCSController) (r : Int) :
    (releaseRunway c r).flights = c.flights ∧
      (releaseRunway c r).runwayQueue = c.runwayQueue ∧
      (releaseRunway c r).avnGenerator = c.avnGenerator := by
  unfold releaseRunway
  split_ifs
  · split <;> exact ⟨rfl, rfl, rfl⟩
  · exact ⟨rfl, rfl, rfl⟩

theorem releaseRunway_other (c : ATCSController) (r : Int) (k : Nat) (hk : k ≠ r.toNat) :
    (releaseRunway c r).runways[k]? = c.runways[k]? := by
  unfold releaseRunway
  split_ifs
  · split
    · exact List.getElem?_set_ne (Ne.symm hk)
    · rfl
  · rfl

theorem RunwayInv_releaseHeld (c : ATCSController) (p : Nat) (h : RunwayInv c) :
    RunwayInv (releaseHeld c p) := by
  unfold releaseHeld
  split_ifs with hr
  swap
  · exact h
  have hp : p < c.flights.length := by
    by_contra hc
    rw [flightAt_invalid c p hc] at hr
    exact hr default_runwayAssigned
  obtain ⟨e1, _, _⟩ := releaseRunway_flights c (c.flightAt p).runwayAssigned
  have hat : ∀ q, (releaseRunway c (c.flightAt p).runwayAssigned).flightAt q = c.flightAt q := by
    intro q
    show (releaseRunway c (c.flightAt p).runwayAssigned).flights.getD q default =
      c.flights.getD q default
    rw [e1]
  have hfl : ∀ q, (((releaseRunway c (c.flightAt p).runwayAssigned).modifyFlight p
      (fun f => { f with runwayAssigned := -1 })).flightAt q).runwayAssigned =
      if q = p then -1 else (c.flightAt q).runwayAssigned := by
    intro q
    rw [flightAt_modifyFlight, e1]
    by_cases hq : q = p
    · simp [hq, hp]
    · simp [hq, hat]
  refine ⟨?_, ?_⟩
  · intro i j hi hj hne heq
    simp only [ATCSController.modifyFlight, List.length_set, e1] at hi hj
    rw [hfl i] at hne heq
    rw [hfl j] at heq
    by_cases hip : i = p
    · simp [hip] at hne
    · by_cases hjp : j = p
      · simp only [hip, hjp, if_false, if_true] at hne heq
        exact absurd heq hne
      · simp only [hip, hjp, if_false] at hne heq
        exact h.1 i j hi hj hne heq
  · intro i hi hne
    simp only [ATCSController.modifyFlight, List.length_set, e1] at hi
    rw [hfl i] at hne ⊢
    by_cases hip : i = p
    · simp [hip] at hne
    · simp only [hip, if_false] at hne ⊢
      obtain ⟨h0, rw, hrw, hocc⟩ := h.2 i hi hne
      obtain ⟨hp0, _⟩ := h.2 p hp hr
      refine ⟨h0, rw, ?_, hocc⟩
      have hdiff : (c.flightAt i).runwayAssigned ≠ (c.flightAt p).runwayAssigned := by
        intro heq
        exact hip (h.1 i p hi hp hne heq)
      have hk : (c.flightAt i).runwayAssigned.toNat ≠ (c.flightAt p).runwayAssigned.toNat := by
        omega
      show (releaseRunway c (c.flightAt p).runwayAssigned).runways[
        (c.flightAt i).runwayAssigned.toNat]? = some rw
      rw [releaseRunway_other c _ _ hk]
      exact hrw

theorem RunwayInv_queue (c : ATCSController) (q : List Nat) (h : RunwayInv c) :
    RunwayInv { c with runwayQueue := q } :=
  RunwayInv_congr c _ rfl rfl (fun _ => rfl) h

theorem RunwayInv_removeFaulted (c : ATCSController) (p : Nat) (h : RunwayInv c) :
    RunwayInv (removeFaultedFlight c p) := by
  unfold removeFaultedFlight
  exact RunwayInv_releaseHeld _ p (RunwayInv_queue c _ h)

theorem flightAt_assignRunway (c : ATCSController) (p q : Nat) :
    (assignRunway c p).2.flightAt q =
      if q = p ∧ p < c.flights.length then
        (assignRunway.onFlight c.runways (c.flightAt p)).2.2
      else c.flightAt q := by
  simp only [assignRunway, ATCSController.flightAt]
  exact getD_set c.flights p q _

theorem RunwayInv_assign (c : ATCSController) (p : Nat) (h : RunwayInv c) :
    RunwayInv (assignRunway c p).2 := by
  rcases onFlight_outcome c.runways (c.flightAt p) with hf | ⟨j, r, hr, hocc, hg⟩
  · refine RunwayInv_congr c _ (by simp [assignRunway]) (by simp [assignRunway, hf]) ?_ h
    intro q
    rw [flightAt_assignRunway, hf]
    split_ifs with hq
    · rw [hq.1]
    · rfl
  · obtain ⟨o1, o2, _⟩ := occupy_getElem c.runways j r hr
    have hrun : (assignRunway c p).2.runways = occupy c.runways j := by
      simp [assignRunway, hg, granted]
    have hlen : (assignRunway c p).2.flights.length = c.flights.length := by
      simp [assignRunway]
    have hfl : ∀ q, ((assignRunway c p).2.flightAt q).runwayAssigned =
        if q = p ∧ p < c.flights.length then (j : Int) else (c.flightAt q).runwayAssigned := by
      intro q
      rw [flightAt_assignRunway, hg]
      split_ifs <;> rfl
    have hnot : ∀ i, i < c.flights.length → (c.flightAt i).runwayAssigned ≠ -1 →
        (c.flightAt i).runwayAssigned ≠ (j : Int) := by
      intro i hi hne heq
      obtain ⟨_, rw, hrw, hro⟩ := h.2 i hi hne
      rw [heq, Int.toNat_ofNat, hr] at hrw
      cases hrw
      rw [hocc] at hro
      exact absurd hro (by decide)
    refine ⟨?_, ?_⟩
    · intro i k hi hk hne heq
      rw [hlen] at hi hk
      rw [hfl i] at hne heq
      rw [hfl k] at heq
      by_cases hip : i = p ∧ p < c.flights.length
      · by_cases hkp : k = p ∧ p < c.flights.length
        · rw [hip.1, hkp.1]
        · rw [if_pos hip, if_neg hkp] at heq
          have hkne : (c.flightAt k).runwayAssigned ≠ -1 := by rw [← heq]; omega
          exact absurd heq.symm (hnot k hk hkne)
      · rw [if_neg hip] at hne heq
        by_cases hkp : k = p ∧ p < c.flights.length
        · rw [if_pos hkp] at heq
          exact absurd heq (hnot i hi hne)
        · rw [if_neg hkp] at heq
          exact h.1 i k hi hk hne heq
    · intro i hi hne
      rw [hlen] at hi
      rw [hfl i] at hne ⊢
      rw [hrun]
      by_cases hip : i = p ∧ p < c.flights.length
      · rw [if_pos hip]
        refine ⟨by omega, { r with occupied := true }, ?_, rfl⟩
        rw [Int.toNat_ofNat]
        exact o1
      · rw [if_neg hip] at hne ⊢
        obtain ⟨h0, rw, hrw, hro⟩ := h.2 i hi hne
        refine ⟨h0, rw, ?_, hro⟩
        have hk : (c.flightAt i).runwayAssigned.toNat ≠ j := by
          have := hnot i hi hne
          omega
        rw [o2 _ hk]
        exact hrw

theorem RunwayInv_loop :
    ∀ (fuel : Nat) (c : ATCSController), RunwayInv c →
      RunwayInv (runwayManagementThread.loop fuel c) := by
  intro fuel
  induction fuel with
  | zero => intro c h; exact h
  | succ n ih =>
    intro c h
    rw [runwayManagementThread.loop]
    split
    · exact h
    · rename_i p _
      simp only []
      split_ifs with hfree hok
      · exact ih _ (RunwayInv_queue _ _ (RunwayInv_assign c p h))
      · exact RunwayInv_modify _ p _ (fun _ => rfl) (RunwayInv_assign c p h)
      · exact ih _ (RunwayInv_queue _ _ h)

theorem RunwayInv_pass (c : ATCSController) (h : RunwayInv c) :
    RunwayInv (runwayManagementThread.pass c) :=
  RunwayInv_loop _ c h

theorem getD_append_one (l : List Flight) (f : Flight) (i : Nat) :
    (l ++ [f]).getD i default =
      if i < l.length then l.getD i default else if i = l.length then f else default := by
  rw [List.getD_eq_getElem?_getD, List.getD_eq_getElem?_getD]
  split_ifs with h1 h2
  · rw [List.getElem?_append_left h1]
  · subst h2
    rw [List.getElem?_append_right (le_refl _)]
    simp
  · rw [List.getElem?_eq_none (by simp; omega)]
    rfl

theorem flightAt_addFlight (c : ATCSController) (f : Flight) (i : Nat) :
    (c.addFlight f).flightAt i =
      if i < c.flights.length then c.flightAt i
      else if i = c.flights.length then f else default := by
  simp only [ATCSController.addFlight, ATCSController.pushQueue, ATCSController.flightAt]
  exact getD_append_one c.flights f i

theorem RunwayInv_addFlight (c : ATCSController) (f : Flight) (hf : f.runwayAssigned = -1)
    (h : RunwayInv c) : RunwayInv (c.addFlight f) := by
  have hlen : (c.addFlight f).flights.length = c.flights.length + 1 := by
    simp [ATCSController.addFlight, ATCSController.pushQueue]
  have hfl : ∀ i, ((c.addFlight f).flightAt i).runwayAssigned =
      if i < c.flights.length then (c.flightAt i).runwayAssigned else -1 := by
    intro i
    rw [flightAt_addFlight]
    split_ifs <;> first | rfl | exact hf
  refine ⟨?_, ?_⟩
  · intro i j _ _ hne heq
    rw [hfl i] at hne heq
    rw [hfl j] at heq
    split_ifs at hne heq with hi hj
    · exact h.1 i j hi hj hne heq
    · exact absurd heq hne
    · exact absurd rfl hne
    · exact absurd rfl hne
  · intro i _ hne
    rw [hfl i] at hne ⊢
    split_ifs at hne ⊢ with hi
    · exact h.2 i hi hne
    · exact absurd rfl hne

theorem RunwayInv_new : RunwayInv ATCSController.new :=
  ⟨fun i j hi => by simp [ATCSController.new] at hi,
    fun i hi => by simp [ATCSController.new] at hi⟩

theorem Reachable_RunwayInv (c : ATCSController) (hr : Reachable c) : RunwayInv c :=
  Reachable_preserves RunwayInv RunwayInv_new
    (fun c _ _ _ _ _ _ h => RunwayInv_addFlight c _ rfl h)
    RunwayInv_pass RunwayInv_modify RunwayInv_check RunwayInv_releaseHeld
    RunwayInv_removeFaulted c hr

/-- Runway exclusion between whole operations: in every state reached from the empty
airport by flight creations, dispatch passes, whole actor polls and fault removals, no two
flights have the same runway in `runwayAssigned`, and a runway that some flight has in
`runwayAssigned` is marked occupied.  Inside a poll the release pair of the actor is not
protected: see `RaceStep`. -/
theorem runway_mutual_exclusion (c : ATCSController) (hr : Reachable c) :
    (∀ (r : Nat) (i j : Nat), i < c.flights.length → j < c.flights.length →
        (c.flightAt i).runwayAssigned = (r : Int) →
        (c.flightAt j).runwayAssigned = (r : Int) → i = j) ∧
      (∀ (r : Nat) (i : Nat), i < c.flights.length →
        (c.flightAt i).runwayAssigned = (r : Int) →
        ∃ rw, c.runways[r]? = some rw ∧ rw.occupied = true) ∧
      (∀ i, i < c.flights.length →
        (c.flightAt i).runwayAssigned = -1 ∨
          ∃ r : Nat, r < c.runways.length ∧ (c.flightAt i).runwayAssigned = (r : Int)) := by
  have h := Reachable_RunwayInv c hr
  refine ⟨?_, ?_, ?_⟩
  · intro r i j hi hj h1 h2
    exact h.1 i j hi hj (by rw [h1]; omega) (by rw [h1, h2])
  · intro r i hi h1
    obtain ⟨_, rw, hrw, hocc⟩ := h.2 i hi (by rw [h1]; omega)
    rw [h1, Int.toNat_ofNat] at hrw
    exact ⟨rw, hrw, hocc⟩
  · intro i hi
    by_cases hne : (c.flightAt i).runwayAssigned = -1
    · exact Or.inl hne
    · right
      obtain ⟨h0, rw, hrw, _⟩ := h.2 i hi hne
      refine ⟨(c.flightAt i).runwayAssigned.toNat, ?_, (Int.toNat_of_nonneg h0).symm⟩
      by_contra hc
      rw [List.getElem?_eq_none (not_lt.1 hc)] at hrw
      exact absurd hrw (by simp)

/-! ## Violation single-fire over the lifetime (C8) -/

theorem ViolInv_of_effect (c c' : ATCSController) (he : ViolEffect c c') (h : ViolInv c) :
    ViolInv c' := by
  intro i hi
  rw [he.1] at hi
  obtain ⟨h1, h2⟩ := h i hi
  rcases he.2 i with ⟨e1, e2⟩ | ⟨e1, e2, id, e3⟩
  · rw [e1, e2]; exact ⟨h1, h2⟩
  · have hnil : (c.flightAt i).avnIDs = [] := by
      by_contra hne
      rw [h2.1 hne] at e1
      exact absurd e1 (by decide)
    rw [e3, hnil, e2]
    simp

theorem FlagsKept_of_effect (c0 c c' : ATCSController) (he : ViolEffect c c')
    (h : FlagsKept c0 c) : FlagsKept c0 c' := by
  refine ⟨by rw [he.1]; exact h.1, ?_⟩
  intro i hi hset
  have := h.2 i hi hset
  rcases he.2 i with ⟨_, e2⟩ | ⟨_, e2, _⟩
  · rw [e2]; exact this
  · exact e2

theorem ViolEffect_of_same (c c' : ATCSController)
    (hlen : c'.flights.length = c.flights.length)
    (h : ∀ q, (c'.flightAt q).avnIDs = (c.flightAt q).avnIDs ∧
      (c'.flightAt q).violationActive = (c.flightAt q).violationActive) :
    ViolEffect c c' :=
  ⟨hlen, fun q => Or.inl (h q)⟩

theorem ViolEffect_modify (c : ATCSController) (p : Nat) (g : Flight → Flight)
    (hg : ∀ f, (g f).avnIDs = f.avnIDs ∧ (g f).violationActive = f.violationActive) :
    ViolEffect c (c.modifyFlight p g) := by
  refine ViolEffect_of_same c _ (by simp [ATCSController.modifyFlight]) ?_
  intro q
  rw [flightAt_modifyFlight]
  split_ifs with h
  · rw [h.1]; exact hg _
  · exact ⟨rfl, rfl⟩

theorem core_viol (f g : Flight) (h : f.core = g.core) :
    f.avnIDs = g.avnIDs ∧ f.violationActive = g.violationActive :=
  ⟨congrArg (fun x => x.2.2.2.1) h, congrArg (fun x => x.2.2.2.2.1) h⟩

theorem ViolEffect_check (c : ATCSController) (p : Nat) (now : Int) :
    ViolEffect c (checkSpeedViolation c p now) := by
  refine ⟨by simp [checkSpeedViolation], ?_⟩
  intro q
  rw [flightAt_checkSpeedViolation]
  split_ifs with h
  · rw [h.1]
    rcases onFlight_cases (c.flightAt p) c.avnGenerator now with e | ⟨e1, e2⟩
    · left; rw [e]; exact ⟨rfl, rfl⟩
    · right; rw [e2]; exact ⟨e1, rfl, _, rfl⟩
  · left; exact ⟨rfl, rfl⟩

theorem flightAt_releaseRunway (c : ATCSController) (r : Int) (q : Nat) :
    (releaseRunway c r).flightAt q = c.flightAt q := by
  show (releaseRunway c r).flights.getD q default = c.flights.getD q default
  rw [(releaseRunway_flights c r).1]

theorem flightAt_releaseHeld (c : ATCSController) (p q : Nat) :
    (releaseHeld c p).flightAt q =
      if q = p ∧ p < c.flights.length ∧ (c.flightAt p).runwayAssigned ≠ -1 then
        { c.flightAt p with runwayAssigned := -1 }
      else c.flightAt q := by
  unfold releaseHeld
  by_cases hr : (c.flightAt p).runwayAssigned ≠ -1
  · rw [if_pos hr, flightAt_modifyFlight, (releaseRunway_flights c _).1, flightAt_releaseRunway,
      flightAt_releaseRunway]
    by_cases h : q = p ∧ p < c.flights.length
    · rw [if_pos h, if_pos ⟨h.1, h.2, hr⟩]
    · rw [if_neg h, if_neg (fun hc => h ⟨hc.1, hc.2.1⟩)]
  · rw [if_neg hr, if_neg (fun hc => hr hc.2.2)]

theorem releaseHeld_frame (c : ATCSController) (p : Nat) :
    (releaseHeld c p).flights.length = c.flights.length ∧
      (releaseHeld c p).runwayQueue = c.runwayQueue ∧
      (releaseHeld c p).avnGenerator = c.avnGenerator := by
  unfold releaseHeld
  obtain ⟨e1, e2, e3⟩ := releaseRunway_flights c (c.flightAt p).runwayAssigned
  split_ifs
  · refine ⟨?_, e2, e3⟩
    simp [ATCSController.modifyFlight, e1]
  · exact ⟨rfl, rfl, rfl⟩

theorem ViolEffect_releaseHeld (c : ATCSController) (p : Nat) :
    ViolEffect c (releaseHeld c p) := by
  refine ViolEffect_of_same c _ (releaseHeld_frame c p).1 ?_
  intro q
  rw [flightAt_releaseHeld]
  split_ifs with h
  · rw [h.1]; exact ⟨rfl, rfl⟩
  · exact ⟨rfl, rfl⟩

theorem ViolEffect_queue (c : ATCSController) (q : List Nat) :
    ViolEffect c { c with runwayQueue := q } :=
  ViolEffect_of_same c _ rfl (fun _ => ⟨rfl, rfl⟩)

theorem ViolEffect_assign (c : ATCSController) (p : Nat) :
    ViolEffect c (assignRunway c p).2 := by
  refine ViolEffect_of_same c _ (by simp [assignRunway]) ?_
  intro q
  rw [flightAt_assignRunway]
  split_ifs with h
  · rw [h.1]
    rcases onFlight_outcome c.runways (c.flightAt p) with e | ⟨j, r, _, _, e⟩ <;> rw [e] <;>
      exact ⟨rfl, rfl⟩
  · exact ⟨rfl, rfl⟩

/-- Preservation scheme for the dispatch loop. -/
theorem loop_preserves (P : ATCSController → Prop)
    (hassign : ∀ c p, P c → P (assignRunway c p).2)
    (hqueue : ∀ c q, P c → P { c with runwayQueue := q })
    (hmod : ∀ c p g, (∀ f, (g f).core = f.core) → P c → P (c.modifyFlight p g)) :
    ∀ (fuel : Nat) (c : ATCSController), P c → P (runwayManagementThread.loop fuel c) := by
  intro fuel
  induction fuel with
  | zero => intro c h; exact h
  | succ n ih =>
    intro c h
    rw [runwayManagementThread.loop]
    split
    · exact h
    · rename_i p _
      simp only []
      split_ifs
      · exact ih _ (hqueue _ _ (hassign c p h))
      · exact hmod _ p _ (fun _ => rfl) (hassign c p h)
      · exact ih _ (hqueue _ _ h)

theorem ViolInv_addFlight (c : ATCSController) (f : Flight) (h1 : f.avnIDs = [])
    (h2 : f.violationActive = false) (h : ViolInv c) : ViolInv (c.addFlight f) := by
  intro i hi
  rw [flightAt_addFlight]
  have hlen : (c.addFlight f).flights.length = c.flights.length + 1 := by
    simp [ATCSController.addFlight, ATCSController.pushQueue]
  rw [hlen] at hi
  split_ifs with a b
  · exact h i a
  · rw [h1, h2]; simp
  · omega

theorem FlagsKept_addFlight (c0 c : ATCSController) (f : Flight) (h : FlagsKept c0 c) :
    FlagsKept c0 (c.addFlight f) := by
  have hlen : (c.addFlight f).flights.length = c.flights.length + 1 := by
    simp [ATCSController.addFlight, ATCSController.pushQueue]
  refine ⟨by rw [hlen]; exact Nat.le_succ_of_le h.1, ?_⟩
  intro i hi hset
  rw [flightAt_addFlight, if_pos (lt_of_lt_of_le hi h.1)]
  exact h.2 i hi hset

theorem ViolInv_new : ViolInv ATCSController.new :=
  fun i hi => by simp [ATCSController.new] at hi

theorem Reachable_ViolInv (c : ATCSController) (hr : Reachable c) : ViolInv c :=
  Reachable_preserves ViolInv ViolInv_new
    (fun c _ _ _ _ _ _ h => ViolInv_addFlight c _ rfl rfl h)
    (fun c h => loop_preserves ViolInv
      (fun c p h => ViolInv_of_effect _ _ (ViolEffect_assign c p) h)
      (fun c q h => ViolInv_of_effect _ _ (ViolEffect_queue c q) h)
      (fun c p g hg h => ViolInv_of_effect _ _
        (ViolEffect_modify c p g (fun f => core_viol _ _ (hg f))) h) _ c h)
    (fun c p g hg h => ViolInv_of_effect _ _
      (ViolEffect_modify c p g (fun f => core_viol _ _ (hg f))) h)
    (fun c p now h => ViolInv_of_effect _ _ (ViolEffect_check c p now) h)
    (fun c p h => ViolInv_of_effect _ _ (ViolEffect_releaseHeld c p) h)
    (fun c p h => ViolInv_of_effect _ _ (ViolEffect_releaseHeld _ p)
      (ViolInv_of_effect _ _ (ViolEffect_queue c _) h))
    c hr

theorem Step_FlagsKept (c c' : ATCSController) (hs : Step c c') : FlagsKept c c' :=
  Step_preserves (FlagsKept c)
    (fun d _ _ _ _ _ _ h => FlagsKept_addFlight c d _ h)
    (fun d h => loop_preserves (FlagsKept c)
      (fun d p h => FlagsKept_of_effect c _ _ (ViolEffect_assign d p) h)
      (fun d q h => FlagsKept_of_effect c _ _ (ViolEffect_queue d q) h)
      (fun d p g hg h => FlagsKept_of_effect c _ _
        (ViolEffect_modify d p g (fun f => core_viol _ _ (hg f))) h) _ d h)
    (fun d p g hg h => FlagsKept_of_effect c _ _
      (ViolEffect_modify d p g (fun f => core_viol _ _ (hg f))) h)
    (fun d p now h => FlagsKept_of_effect c _ _ (ViolEffect_check d p now) h)
    (fun d p h => FlagsKept_of_effect c _ _ (ViolEffect_releaseHeld d p) h)
    (fun d p h => FlagsKept_of_effect c _ _ (ViolEffect_releaseHeld _ p)
      (FlagsKept_of_effect c _ _ (ViolEffect_queue d _) h))
    c c' hs ⟨le_refl _, fun _ _ h => h⟩

/-- C8: no operation of the engine lowers a raised `violationActive` flag, and in every
reachable state each flight has at most one ticket id, and has one exactly when its flag
is raised. -/
theorem violation_once_per_lifetime (c : ATCSController) (hr : Reachable c) :
    (∀ c', Step c c' → ∀ i, i < c.flights.length →
        (c.flightAt i).violationActive = true → (c'.flightAt i).violationActive = true) ∧
      (∀ i, i < c.flights.length →
        (c.flightAt i).avnIDs.length ≤ 1 ∧
          ((c.flightAt i).avnIDs ≠ [] ↔ (c.flightAt i).violationActive = true)) :=
  ⟨fun c' hs => (Step_FlagsKept c c' hs).2, Reachable_ViolInv c hr⟩

/-! ## Order of the backlog (C2) -/

theorem flightKey_le (a b : Flight) : flightKey a ≤ flightKey b ↔ dispatchedBefore a b := by
  unfold flightKey dispatchedBefore
  rw [Prod.Lex.le_iff]

theorem queueComp_key (flights : List Flight) (a b : Nat) :
    queueComp flights a b = true ↔ queueKey flights b < queueKey flights a := by
  unfold queueComp queueKey flightKey FlightPriorityComparator
  rw [Prod.Lex.lt_iff]
  simp only [ne_eq, gt_iff_lt, ite_not]
  split_ifs with h
  · simp only [decide_eq_true_eq]
    constructor
    · intro hlt; exact Or.inr ⟨h.symm, hlt⟩
    · rintro (hlt | ⟨_, hlt⟩)
      · rw [h] at hlt; exact absurd hlt (lt_irrefl _)
      · exact hlt
  · simp only [decide_eq_true_eq]
    constructor
    · intro hlt; exact Or.inl hlt
    · rintro (hlt | ⟨heq, _⟩)
      · exact hlt
      · exact absurd heq.symm h

theorem flightKey_eq (a b : Flight) (h1 : a.priorityLevel = b.priorityLevel)
    (h2 : a.scheduledTime = b.scheduledTime) : flightKey a = flightKey b := by
  unfold flightKey
  rw [h1, h2]

theorem core_flightKey (f g : Flight) (h : f.core = g.core) : flightKey f = flightKey g :=
  flightKey_eq f g (congrArg (fun x => x.1) h) (congrArg (fun x => x.2.1) h)

theorem queueComp_congr (fl fl' : List Flight)
    (h : ∀ q, flightKey (fl'.getD q default) = flightKey (fl.getD q default)) :
    queueComp fl' = queueComp fl := by
  funext a b
  have ha := h a
  have hb := h b
  unfold flightKey at ha hb
  have ha' := congrArg ofLex ha
  have hb' := congrArg ofLex hb
  simp only [ofLex_toLex, Prod.mk.injEq] at ha' hb'
  unfold queueComp FlightPriorityComparator
  rw [ha'.1, ha'.2, hb'.1, hb'.2]

theorem queueKey_congr (fl fl' : List Flight)
    (h : ∀ q, flightKey (fl'.getD q default) = flightKey (fl.getD q default)) :
    queueKey fl' = queueKey fl := by
  funext a
  exact h a

theorem Ordered_congr {α K : Type} [LinearOrder K] (key key' : α → K) (l : List α) (n : Nat)
    (h : ∀ x ∈ l, key' x = key x) (ho : Heap.Ordered key l n) : Heap.Ordered key' l n := by
  intro i x y hi0 hin hx hy
  rw [h x (List.getElem?_mem hx), h y (List.getElem?_mem hy)]
  exact ho i x y hi0 hin hx hy

/-- A well-formed backlog stays well-formed when the flights keep their keys and no queued
flight acquires a runway. -/
theorem QueueInv_congr (c c' : ATCSController) (hlen : c'.flights.length = c.flights.length)
    (hq : c'.runwayQueue = c.runwayQueue)
    (hkey : ∀ q, flightKey (c'.flightAt q) = flightKey (c.flightAt q))
    (hrun : ∀ q, (c.flightAt q).runwayAssigned = -1 → (c'.flightAt q).runwayAssigned = -1)
    (h : QueueInv c) : QueueInv c' := by
  obtain ⟨h1, h2, h3, h4⟩ := h
  refine ⟨?_, ?_, ?_, ?_⟩
  · intro p hp
    rw [hq] at hp
    rw [hlen]
    exact h1 p hp
  · rw [hq]; exact h2
  · rw [hq, queueKey_congr c.flights c'.flights hkey]
    exact h3
  · intro p hp
    rw [hq] at hp
    exact hrun p (h4 p hp)

theorem QueueInv_modify (c : ATCSController) (p : Nat) (g : Flight → Flight)
    (hg : ∀ f, (g f).core = f.core) (h : QueueInv c) : QueueInv (c.modifyFlight p g) :=
  QueueInv_congr c _ (by simp [ATCSController.modifyFlight]) rfl
    (fun q => core_flightKey _ _ (core_modifyFlight c p q g hg))
    (fun q hq => by rw [core_runwayAssigned _ _ (core_modifyFlight c p q g hg)]; exact hq) h

theorem onFlight_flightKey (flight : Flight) (L : Ledger) (now : Int) :
    flightKey (checkSpeedViolation.onFlight flight L now).1 = flightKey flight := by
  rcases onFlight_cases flight L now with h | ⟨_, h⟩
  · rw [h]
  · rw [h]; rfl

theorem QueueInv_check (c : ATCSController) (p : Nat) (now : Int) (h : QueueInv c) :
    QueueInv (checkSpeedViolation c p now) := by
  refine QueueInv_congr c _ (by simp [checkSpeedViolation]) rfl ?_ ?_ h
  · intro q
    rw [flightAt_checkSpeedViolation]
    split_ifs with hq
    · rw [hq.1]; exact onFlight_flightKey _ _ _
    · rfl
  · intro q hq
    rw [flightAt_checkSpeedViolation]
    split_ifs with hqp
    · rw [onFlight_runwayAssigned, ← hqp.1]; exact hq
    · exact hq

theorem QueueInv_releaseHeld (c : ATCSController) (p : Nat) (h : QueueInv c) :
    QueueInv (releaseHeld c p) := by
  obtain ⟨e1, e2, _⟩ := releaseHeld_frame c p
  refine QueueInv_congr c _ e1 e2 ?_ ?_ h
  · intro q
    rw [flightAt_releaseHeld]
    split_ifs with hq
    · rw [hq.1]; rfl
    · rfl
  · intro q hq
    rw [flightAt_releaseHeld]
    split_ifs with hqp
    · rfl
    · exact hq

theorem QueueInv_pop_of (c c1 : ATCSController) (h : QueueInv c)
    (hlen : c1.flights.length = c.flights.length) (hq : c1.runwayQueue = c.runwayQueue)
    (hkey : ∀ q, flightKey (c1.flightAt q) = flightKey (c.flightAt q))
    (hrun : ∀ q, q ∈ c.runwayQueue.tail → (c1.flightAt q).runwayAssigned = -1) :
    QueueInv c1.popQueue ∧
      c1.popQueue.runwayQueue = PriorityQueue.pop (queueComp c.flights) c.runwayQueue ∧
      c1.popQueue.flights = c1.flights ∧ c1.popQueue.runways = c1.runways := by
  obtain ⟨h1, h2, h3, _⟩ := h
  have hcomp : queueComp c1.flights = queueComp c.flights := queueComp_congr _ _ hkey
  have hk : queueKey c1.flights = queueKey c.flights := queueKey_congr _ _ hkey
  have hqueue : c1.popQueue.runwayQueue =
      PriorityQueue.pop (queueComp c.flights) c.runwayQueue := by
    simp only [ATCSController.popQueue, hcomp, hq]
  obtain ⟨p1, _, p3⟩ := Heap.pop_spec (queueComp c.flights) (queueKey c.flights)
    (queueComp_key c.flights) c.runwayQueue h3
  have hsub : ∀ q, q ∈ PriorityQueue.pop (queueComp c.flights) c.runwayQueue →
      q ∈ c.runwayQueue.tail := fun q hq => p3.subset hq
  refine ⟨⟨?_, ?_, ?_, ?_⟩, hqueue, rfl, rfl⟩
  · intro q hqm
    rw [hqueue] at hqm
    show q < c1.flights.length
    rw [hlen]
    exact h1 q (List.mem_of_mem_tail (hsub q hqm))
  · rw [hqueue]
    exact (List.Perm.nodup_iff p3).2 (List.Nodup.sublist (List.tail_sublist _) h2)
  · rw [hqueue]
    show Heap.Ordered (queueKey c1.flights) _ _
    rw [hk]
    exact p1
  · intro q hqm
    rw [hqueue] at hqm
    exact hrun q (hsub q hqm)

theorem onFlight_assign_flightKey (runways : List Runway) (flight : Flight) :
    flightKey (assignRunway.onFlight runways flight).2.2 = flightKey flight := by
  rcases onFlight_outcome runways flight with e | ⟨j, r, _, _, e⟩
  · rw [e]
  · rw [e]; rfl

theorem assignRunway_flightKey (c : ATCSController) (p q : Nat) :
    flightKey ((assignRunway c p).2.flightAt q) = flightKey (c.flightAt q) := by
  rw [flightAt_assignRunway]
  split_ifs with h
  · rw [h.1]; exact onFlight_assign_flightKey _ _
  · rfl

theorem head_not_mem_tail (l : List Nat) (p : Nat) (hn : l.Nodup) (hh : l.head? = some p) :
    p ∉ l.tail := by
  cases l with
  | nil => simp at hh
  | cons a t =>
    simp only [List.head?_cons, Option.some.injEq] at hh
    subst hh
    exact (List.nodup_cons.1 hn).1

theorem QueueInv_assign_pop (c : ATCSController) (p : Nat) (h : QueueInv c)
    (htop : PriorityQueue.top c.runwayQueue = some p) :
    QueueInv (assignRunway c p).2.popQueue ∧
      (assignRunway c p).2.popQueue.runwayQueue =
        PriorityQueue.pop (queueComp c.flights) c.runwayQueue := by
  have := QueueInv_pop_of c (assignRunway c p).2 h (by simp [assignRunway]) rfl
    (assignRunway_flightKey c p) (by
      intro q hq
      rw [flightAt_assignRunway]
      have hne : q ≠ p := by
        intro hc
        rw [hc] at hq
        exact head_not_mem_tail c.runwayQueue p h.2.1 htop hq
      rw [if_neg (fun hc => hne hc.1)]
      exact h.2.2.2 q (List.mem_of_mem_tail hq))
  exact ⟨this.1, this.2.1⟩

theorem QueueInv_pop (c : ATCSController) (h : QueueInv c) : QueueInv c.popQueue :=
  (QueueInv_pop_of c c h rfl rfl (fun _ => rfl)
    (fun q hq => h.2.2.2 q (List.mem_of_mem_tail hq))).1

theorem QueueInv_addFlight (c : ATCSController) (f : Flight) (hf : f.runwayAssigned = -1)
    (h : QueueInv c) : QueueInv (c.addFlight f) := by
  obtain ⟨h1, h2, h3, h4⟩ := h
  have hkey : ∀ x ∈ c.runwayQueue,
      queueKey (c.flights ++ [f]) x = queueKey c.flights x := by
    intro x hx
    unfold queueKey
    rw [getD_append_one, if_pos (h1 x hx)]
  have ho := Ordered_congr (queueKey c.flights) (queueKey (c.flights ++ [f])) c.runwayQueue
    c.runwayQueue.length hkey h3
  obtain ⟨p1, _, p3⟩ := Heap.push_spec (queueComp (c.flights ++ [f]))
    (queueKey (c.flights ++ [f])) (queueComp_key _) c.runwayQueue c.flights.length ho
  have hq : (c.addFlight f).runwayQueue =
      PriorityQueue.push (queueComp (c.flights ++ [f])) c.runwayQueue c.flights.length := rfl
  have hfl : (c.addFlight f).flights = c.flights ++ [f] := rfl
  have hmem : ∀ q, q ∈ (c.addFlight f).runwayQueue →
      q ∈ c.runwayQueue ∨ q = c.flights.length := by
    intro q hqm
    rw [hq] at hqm
    have := p3.subset hqm
    simpa using this
  refine ⟨?_, ?_, ?_, ?_⟩
  · intro q hqm
    rw [hfl, List.length_append, List.length_singleton]
    rcases hmem q hqm with a | a
    · exact Nat.lt_succ_of_lt (h1 q a)
    · omega
  · rw [hq]
    refine (List.Perm.nodup_iff p3).2 ?_
    rw [List.nodup_append]
    refine ⟨h2, List.nodup_singleton _, ?_⟩
    intro a ha hb
    rw [List.mem_singleton] at hb
    have := h1 a ha
    omega
  · rw [hq, hfl]
    exact p1
  · intro q hqm
    rw [flightAt_addFlight]
    rcases hmem q hqm with a | a
    · rw [if_pos (h1 q a)]
      exact h4 q a
    · rw [if_neg (by omega), if_pos a]
      exact hf

theorem popAll_cons {α : Type} (comp : α → α → Bool) (n : Nat) (x : α) (t : List α) :
    PriorityQueue.popAll comp (n + 1) (x :: t) =
      x :: PriorityQueue.popAll comp n (PriorityQueue.pop comp (x :: t)) := rfl

theorem popAll_nil {α : Type} (comp : α → α → Bool) (n : Nat) :
    PriorityQueue.popAll comp n ([] : List α) = [] := by
  cases n <;> rfl

/-- The first loop of `removeFaultedFlight` empties a heap-ordered queue and leaves in
`tempQueue` the entries with another flight number, in pop order. -/
theorem drain_spec (flights : List Flight) (num : Int) :
    ∀ (fuel : Nat) (queue tempQueue : List Nat), queue.length ≤ fuel →
      Heap.Ordered (queueKey flights) queue queue.length →
      removeFaultedFlight.drain flights num fuel queue tempQueue =
        ([], tempQueue ++
          (PriorityQueue.popAll (queueComp flights) queue.length queue).filter
            (fun f => decide ((flights.getD f default).flightNumber ≠ num))) := by
  intro fuel
  induction fuel with
  | zero =>
    intro queue temp hl _
    have : queue = [] := List.length_eq_zero.1 (by omega)
    subst this
    simp [removeFaultedFlight.drain, PriorityQueue.popAll]
  | succ n ih =>
    intro queue temp hl ho
    cases queue with
    | nil => simp [removeFaultedFlight.drain, PriorityQueue.top, PriorityQueue.popAll]
    | cons x t =>
      obtain ⟨p1, p2, _⟩ := Heap.pop_spec (queueComp flights) (queueKey flights)
        (queueComp_key flights) (x :: t) ho
      have hlen : (PriorityQueue.pop (queueComp flights) (x :: t)).length = t.length := by
        rw [p2]; simp
      have hle : (PriorityQueue.pop (queueComp flights) (x :: t)).length ≤ n := by
        rw [hlen]; simp at hl; omega
      rw [removeFaultedFlight.drain]
      simp only [PriorityQueue.top, List.head?_cons, List.length_cons, popAll_cons]
      split_ifs with hne
      · rw [ih _ _ hle p1, hlen, List.filter_cons_of_pos (by simpa using hne)]
        simp
      · rw [ih _ _ hle p1, hlen, List.filter_cons_of_neg (by simpa using hne)]

theorem foldl_push_spec (flights : List Flight) :
    ∀ (temp queue : List Nat), Heap.Ordered (queueKey flights) queue queue.length →
      Heap.Ordered (queueKey flights)
          (temp.foldl (PriorityQueue.push (queueComp flights)) queue)
          (temp.foldl (PriorityQueue.push (queueComp flights)) queue).length ∧
        (temp.foldl (PriorityQueue.push (queueComp flights)) queue).Perm (queue ++ temp) := by
  intro temp
  induction temp with
  | nil => intro queue ho; simpa using ho
  | cons x t ih =>
    intro queue ho
    obtain ⟨p1, _, p3⟩ := Heap.push_spec (queueComp flights) (queueKey flights)
      (queueComp_key flights) queue x ho
    obtain ⟨q1, q2⟩ := ih _ p1
    refine ⟨q1, ?_⟩
    simp only [List.foldl_cons]
    refine q2.trans ?_
    have : (queue ++ x :: t) = (queue ++ [x]) ++ t := by simp
    rw [this]
    exact List.Perm.append_right t p3

theorem popOrder_spec (c : ATCSController) (h : QueueInv c) :
    c.popOrder.Perm c.runwayQueue ∧
      c.popOrder.Pairwise (fun a b => queueKey c.flights a ≤ queueKey c.flights b) :=
  Heap.popAll_spec (queueComp c.flights) (queueKey c.flights) (queueComp_key c.flights)
    c.runwayQueue.length c.runwayQueue (le_refl _) h.2.2.1

/-- The backlog left by `removeFaultedFlight`, before the runway is released: a heap over
exactly the entries whose flight number differs from that of the faulted flight. -/
theorem removeFaulted_queue (c : ATCSController) (p : Nat) (h : QueueInv c) :
    Heap.Ordered (queueKey c.flights) (removeFaultedFlight c p).runwayQueue
        (removeFaultedFlight c p).runwayQueue.length ∧
      (removeFaultedFlight c p).runwayQueue.Perm
        (c.runwayQueue.filter
          (fun f => decide ((c.flightAt f).flightNumber ≠ (c.flightAt p).flightNumber))) := by
  have hq : (removeFaultedFlight c p).runwayQueue =
      (removeFaultedFlight.drain c.flights (c.flightAt p).flightNumber
        c.runwayQueue.length c.runwayQueue []).2.foldl
        (PriorityQueue.push (queueComp c.flights))
        (removeFaultedFlight.drain c.flights (c.flightAt p).flightNumber
          c.runwayQueue.length c.runwayQueue []).1 := by
    unfold removeFaultedFlight
    exact (releaseHeld_frame _ p).2.1
  rw [hq, drain_spec c.flights _ _ _ _ (le_refl _) h.2.2.1]
  obtain ⟨f1, f2⟩ := foldl_push_spec c.flights
    ([] ++ (PriorityQueue.popAll (queueComp c.flights) c.runwayQueue.length
      c.runwayQueue).filter
        (fun f => decide ((c.flights.getD f default).flightNumber ≠
          (c.flightAt p).flightNumber))) []
    (fun i _ _ _ hin => by simp at hin)
  refine ⟨f1, f2.trans ?_⟩
  simp only [List.nil_append]
  exact List.Perm.filter _ (popOrder_spec c h).1

theorem QueueInv_removeFaulted (c : ATCSController) (p : Nat) (h : QueueInv c) :
    QueueInv (removeFaultedFlight c p) := by
  obtain ⟨r1, r2⟩ := removeFaulted_queue c p h
  have hsub : ∀ q, q ∈ (removeFaultedFlight c p).runwayQueue → q ∈ c.runwayQueue :=
    fun q hq => List.mem_of_mem_filter (r2.subset hq)
  have hfl : ∀ q, (removeFaultedFlight c p).flightAt q =
      if q = p ∧ p < c.flights.length ∧ (c.flightAt p).runwayAssigned ≠ -1 then
        { c.flightAt p with runwayAssigned := -1 }
      else c.flightAt q := by
    intro q
    unfold removeFaultedFlight
    exact flightAt_releaseHeld _ p q
  have hlen : (removeFaultedFlight c p).flights.length = c.flights.length := by
    unfold removeFaultedFlight
    exact (releaseHeld_frame _ p).1
  have hkey : ∀ q, flightKey ((removeFaultedFlight c p).flightAt q) =
      flightKey (c.flightAt q) := by
    intro q
    rw [hfl]
    split_ifs with hq
    · rw [hq.1]; rfl
    · rfl
  obtain ⟨h1, h2, _, h4⟩ := h
  refine ⟨?_, ?_, ?_, ?_⟩
  · intro q hq
    rw [hlen]
    exact h1 q (hsub q hq)
  · exact (List.Perm.nodup_iff r2).2 (List.Nodup.filter _ h2)
  · have : queueKey (removeFaultedFlight c p).flights = queueKey c.flights :=
      queueKey_congr _ _ hkey
    rw [this]
    exact r1
  · intro q hq
    rw [hfl]
    split_ifs
    · rfl
    · exact h4 q (hsub q hq)

/-! ## The dispatch pass (C3) -/

theorem PassSpec_refl (c : ATCSController) (hq : c.runwayQueue = []) : PassSpec c c 0 := by
  have ho : c.popOrder = [] := by
    unfold ATCSController.popOrder
    rw [hq]
    rfl
  refine ⟨Nat.zero_le _, rfl, by simp, by rw [hq, ho]; exact List.Perm.refl _, ?_, ?_, ?_,
    fun j r hr _ => Or.inl hr⟩
  · intro p hp
    simp at hp
  · intro hlt
    rw [hq] at hlt
    simp at hlt
  · intro p _
    rfl

theorem mem_pop_tail (c : ATCSController) (h : QueueInv c) (q : Nat)
    (hq : q ∈ PriorityQueue.pop (queueComp c.flights) c.runwayQueue) :
    q ∈ c.runwayQueue.tail :=
  (Heap.pop_spec (queueComp c.flights) (queueKey c.flights) (queueComp_key c.flights)
    c.runwayQueue h.2.2.1).2.2.subset hq

theorem popOrder_step (c c1 : ATCSController) (p : Nat) (t : List Nat) (h : QueueInv c)
    (hq : c.runwayQueue = p :: t)
    (h1 : c1.runwayQueue = PriorityQueue.pop (queueComp c.flights) c.runwayQueue)
    (h2 : queueComp c1.flights = queueComp c.flights) :
    c.popOrder = p :: c1.popOrder := by
  have hlen : (PriorityQueue.pop (queueComp c.flights) c.runwayQueue).length = t.length := by
    rw [(Heap.pop_spec (queueComp c.flights) (queueKey c.flights) (queueComp_key c.flights)
      c.runwayQueue h.2.2.1).2.1, hq]
    simp
  unfold ATCSController.popOrder
  rw [h2, h1, hlen, hq, List.length_cons, popAll_cons]

theorem granted_of_success (runways : List Runway) (flight : Flight)
    (hok : (assignRunway.onFlight runways flight).1 = true) :
    ∃ j r, runways[j]? = some r ∧ r.occupied = false ∧
      assignRunway.onFlight runways flight = granted runways flight j := by
  rcases onFlight_outcome runways flight with e | e
  · rw [e] at hok
    simp at hok
  · exact e

theorem unchanged_of_failure (runways : List Runway) (flight : Flight)
    (hok : (assignRunway.onFlight runways flight).1 = false) :
    assignRunway.onFlight runways flight = (false, runways, flight) := by
  rcases onFlight_outcome runways flight with e | ⟨j, r, _, _, e⟩
  · exact e
  · rw [e] at hok
    simp [granted] at hok

theorem loop_spec :
    ∀ (fuel : Nat) (c : ATCSController), QueueInv c → c.runwayQueue.length ≤ fuel →
      ∃ k, QueueInv (runwayManagementThread.loop fuel c) ∧
        PassSpec c (runwayManagementThread.loop fuel c) k := by
  intro fuel
  induction fuel with
  | zero =>
    intro c h hl
    have hq : c.runwayQueue = [] := List.length_eq_zero.1 (by omega)
    exact ⟨0, h, PassSpec_refl c hq⟩
  | succ n ih =>
    intro c h hl
    cases hq : c.runwayQueue with
    | nil =>
      have hloop : runwayManagementThread.loop (n + 1) c = c := by
        rw [runwayManagementThread.loop]
        simp [PriorityQueue.top, hq]
      rw [hloop]
      exact ⟨0, h, PassSpec_refl c hq⟩
    | cons p t =>
      have htop : PriorityQueue.top c.runwayQueue = some p := by
        simp [PriorityQueue.top, hq]
      have hpm : p ∈ c.runwayQueue := by rw [hq]; exact List.mem_cons_self p t
      have hfree : (c.flightAt p).runwayAssigned = -1 := h.2.2.2 p hpm
      have hplt : p < c.flights.length := h.1 p hpm
      have hord0 : c.popOrder[0]? = some p := by
        unfold ATCSController.popOrder
        rw [hq, List.length_cons, popAll_cons]
        simp
      cases hok : (assignRunway c p).1 with
      | false =>
        have hf := unchanged_of_failure c.runways (c.flightAt p) hok
        have hloop : runwayManagementThread.loop (n + 1) c =
            (assignRunway c p).2.modifyFlight p
              (fun f => { f with estimatedWaitTime := f.estimatedWaitTime + 500 }) := by
          rw [runwayManagementThread.loop]
          simp [htop, hfree, hok]
        have hat : ∀ q, (assignRunway c p).2.flightAt q = c.flightAt q := by
          intro q
          rw [flightAt_assignRunway, hf]
          split_ifs with hc
          · rw [hc.1]
          · rfl
        have hlen2 : (assignRunway c p).2.flights.length = c.flights.length := by
          simp [assignRunway]
        have hfl : ∀ q, (runwayManagementThread.loop (n + 1) c).flightAt q =
            if q = p then
              { c.flightAt p with
                  estimatedWaitTime := (c.flightAt p).estimatedWaitTime + 500 }
            else c.flightAt q := by
          intro q
          rw [hloop, flightAt_modifyFlight, hlen2, hat, hat]
          by_cases hqp : q = p
          · rw [if_pos ⟨hqp, hplt⟩, if_pos hqp]
          · rw [if_neg (fun hc => hqp hc.1), if_neg hqp]
        have hlen3 : (runwayManagementThread.loop (n + 1) c).flights.length =
            c.flights.length := by
          rw [hloop]
          simp [ATCSController.modifyFlight, assignRunway]
        have hqueue : (runwayManagementThread.loop (n + 1) c).runwayQueue = c.runwayQueue := by
          rw [hloop]; rfl
        have hrun : (runwayManagementThread.loop (n + 1) c).runways = c.runways := by
          rw [hloop]
          show (assignRunway.onFlight c.runways (c.flightAt p)).2.1 = c.runways
          rw [hf]
        have hkey : ∀ q, flightKey ((runwayManagementThread.loop (n + 1) c).flightAt q) =
            flightKey (c.flightAt q) := by
          intro q
          rw [hfl]
          split_ifs with hqp
          · rw [hqp]; rfl
          · rfl
        have hQ : QueueInv (runwayManagementThread.loop (n + 1) c) := by
          refine QueueInv_congr c _ hlen3 hqueue hkey ?_ h
          intro q hq1
          rw [hfl]
          split_ifs with hqp
          · exact hfree
          · exact hq1
        have hpo : (runwayManagementThread.loop (n + 1) c).popOrder = c.popOrder := by
          unfold ATCSController.popOrder
          rw [hqueue, queueComp_congr c.flights _ hkey]
        refine ⟨0, hQ, Nat.zero_le _, hlen3, by rw [hpo]; rfl, ?_, ?_, ?_, ?_,
          fun j r hr _ => Or.inl (by rw [hrun]; exact hr)⟩
        · rw [hqueue, List.drop_zero]
          exact (popOrder_spec c h).1.symm
        · intro q hqm
          simp at hqm
        · intro _
          refine ⟨p, hord0, by rw [hqueue]; exact htop, ?_, ?_⟩
          · rw [hfl, if_pos rfl]
          · rw [hrun]
            exact hok
        · intro q hqn
          have hqp : q ≠ p := by
            intro hc
            apply hqn
            rw [hc]
            have : c.popOrder.take (0 + 1) = [p] := by
              cases hpo2 : c.popOrder with
              | nil => rw [hpo2] at hord0; simp at hord0
              | cons a l =>
                rw [hpo2] at hord0
                simp only [List.getElem?_cons_zero, Option.some.injEq] at hord0
                rw [hord0]
                rfl
            rw [this]
            exact List.mem_singleton_self p
          rw [hfl, if_neg hqp]
      | true =>
        obtain ⟨j, r, hr, hocc, hg⟩ := granted_of_success c.runways (c.flightAt p) hok
        have hloop : runwayManagementThread.loop (n + 1) c =
            runwayManagementThread.loop n (assignRunway c p).2.popQueue := by
          rw [runwayManagementThread.loop]
          simp [htop, hfree, hok]
        obtain ⟨hQ1, hq1⟩ := QueueInv_assign_pop c p h htop
        have hcomp1 : queueComp (assignRunway c p).2.popQueue.flights = queueComp c.flights :=
          queueComp_congr _ _ (assignRunway_flightKey c p)
        have hpo := popOrder_step c (assignRunway c p).2.popQueue p t h hq hq1 hcomp1
        have hlen1 : (assignRunway c p).2.popQueue.runwayQueue.length = t.length := by
          rw [hq1, (Heap.pop_spec (queueComp c.flights) (queueKey c.flights)
            (queueComp_key c.flights) c.runwayQueue h.2.2.1).2.1, hq]
          simp
        have hflen1 : (assignRunway c p).2.popQueue.flights.length = c.flights.length := by
          simp [assignRunway, ATCSController.popQueue]
        have hrun1 : (assignRunway c p).2.popQueue.runways = occupy c.runways j := by
          show (assignRunway.onFlight c.runways (c.flightAt p)).2.1 = occupy c.runways j
          rw [hg]; rfl
        have hat1 : ∀ q, (assignRunway c p).2.popQueue.flightAt q =
            if q = p then
              { c.flightAt p with runwayAssigned := (j : Int), runwayOccupied := true }
            else c.flightAt q := by
          intro q
          show (assignRunway c p).2.flightAt q = _
          rw [flightAt_assignRunway, hg]
          by_cases hqp : q = p
          · rw [if_pos ⟨hqp, hplt⟩, if_pos hqp]; rfl
          · rw [if_neg (fun hc => hqp hc.1), if_neg hqp]
        have hpnot : p ∉ (assignRunway c p).2.popQueue.popOrder := by
          intro hc
          have h1 := (popOrder_spec _ hQ1).1.subset hc
          rw [hq1] at h1
          exact head_not_mem_tail c.runwayQueue p h.2.1 htop (mem_pop_tail c h p h1)
        obtain ⟨k1, hQ', s1, s2, s3, s4, s5, s6, s7, s8⟩ :=
          ih (assignRunway c p).2.popQueue hQ1 (by rw [hlen1]; rw [hq] at hl; simp at hl; omega)
        rw [hloop]
        have hpj : ((runwayManagementThread.loop n (assignRunway c p).2.popQueue).flightAt
            p).runwayAssigned = (j : Int) := by
          rw [s7 p (fun hc => hpnot (List.mem_of_mem_take hc)), hat1, if_pos rfl]
        refine ⟨k1 + 1, hQ', ?_, ?_, ?_, ?_, ?_, ?_, ?_, ?_⟩
        · rw [hq, List.length_cons]
          rw [hlen1] at s1
          omega
        · rw [s2, hflen1]
        · rw [s3, hpo, List.drop_succ_cons]
        · rw [hpo, List.drop_succ_cons]
          exact s4
        · intro q hqm
          rw [hpo, List.take_succ_cons, List.mem_cons] at hqm
          rcases hqm with hqp | hqt
          · subst hqp
            refine ⟨j, r, hr, hocc, ?_⟩
            rw [s7 q (fun hc => hpnot (List.mem_of_mem_take hc)), hat1, if_pos rfl]
          · obtain ⟨j2, r2, a1, a2, a3⟩ := s5 q hqt
            have hqp : q ≠ p := by
              intro hc
              rw [hc] at hqt
              exact hpnot (List.mem_of_mem_take hqt)
            rw [hrun1] at a1
            have hj2 : j2 ≠ j := by
              intro hc
              rw [hc, (occupy_getElem c.runways j r hr).1] at a1
              cases a1
              simp at a2
            rw [(occupy_getElem c.runways j r hr).2.1 j2 hj2] at a1
            refine ⟨j2, r2, a1, a2, ?_⟩
            rw [a3, hat1, if_neg hqp]
        · intro hlt
          rw [hq, List.length_cons] at hlt
          obtain ⟨b, b1, b2, b3, b4⟩ := s6 (by rw [hlen1]; omega)
          have hbp : b ≠ p := by
            intro hc
            rw [hc] at b1
            exact hpnot (List.getElem?_mem b1)
          refine ⟨b, ?_, b2, ?_, ?_⟩
          · rw [hpo, List.getElem?_cons_succ]
            exact b1
          · rw [b3, hat1, if_neg hbp]
          · rw [hat1, if_neg hbp] at b4
            exact b4
        · intro q hqn
          rw [hpo, List.take_succ_cons, List.mem_cons, not_or] at hqn
          rw [s7 q hqn.2, hat1, if_neg hqn.1]
        · intro j2 r2 hr2 hocc2
          by_cases hj2 : j2 = j
          · right
            refine ⟨p, ?_, by rw [hj2]; exact hpj⟩
            rw [hpo, List.take_succ_cons]
            exact List.mem_cons_self _ _
          · have h1 : (assignRunway c p).2.popQueue.runways[j2]? = some r2 := by
              rw [hrun1, (occupy_getElem c.runways j r hr).2.1 j2 hj2]
              exact hr2
            rcases s8 j2 r2 h1 hocc2 with a | ⟨q, hq2, hq3⟩
            · exact Or.inl a
            · right
              refine ⟨q, ?_, hq3⟩
              rw [hpo, List.take_succ_cons]
              exact List.mem_cons_of_mem _ hq2

/-- A flight that is not Cargo is given a runway whenever some runway is free. -/
theorem success_of_free (runways : List Runway) (flight : Flight)
    (hc : flight.aircraftType ≠ AircraftType.Cargo) (j : Nat) (hj : runwayFree runways j) :
    (assignRunway.onFlight runways flight).1 = true := by
  by_cases hp : runwayFree runways (preferredRunway flight).toNat
  · simp only [assignRunway.onFlight, (preferred_some_iff runways flight).1 hp]
  · have hnn : (0 : Int) ≤ preferredRunway flight := by
      rcases preferredRunway_range flight with h | h | h <;> rw [h] <;> decide
    have hex : ∃ k, runwayFree runways k ∧ (k : Int) ≠ preferredRunway flight := by
      refine ⟨j, hj, ?_⟩
      intro hc2
      apply hp
      rw [← hc2, Int.toNat_ofNat]
      exact hj
    classical
    have hfind := Nat.find_spec hex
    have hmin : ∀ k, k < Nat.find hex → (k : Int) ≠ preferredRunway flight →
        ¬ runwayFree runways k := by
      intro k hk hkp hfr
      exact Nat.find_min hex hk ⟨hfr, hkp⟩
    have hlen : Nat.find hex < runways.length := by
      obtain ⟨r, hr, _⟩ := hfind.1
      by_contra hcon
      rw [List.getElem?_eq_none (not_lt.1 hcon)] at hr
      exact absurd hr (by simp)
    simp only [assignRunway.onFlight, (preferred_some_iff runways flight).2 hp, ne_eq, hc,
      not_false_eq_true, if_true,
      overflow_lowest (preferredRunway flight) flight runways (Nat.find hex) hfind.1 hfind.2
        runways.length 0 (Nat.zero_le _) (by omega) (fun k _ hk2 hk3 => hmin k hk2 hk3)]

/-- The assignment fails when no runway is free. -/
theorem failure_of_none_free (runways : List Runway) (flight : Flight)
    (h : ∀ j, ¬ runwayFree runways j) : (assignRunway.onFlight runways flight).1 = false := by
  rcases onFlight_outcome runways flight with e | ⟨j, r, hr, hocc, _⟩
  · rw [e]
  · exact absurd ⟨r, hr, hocc⟩ (h j)

theorem QueueInv_pass (c : ATCSController) (h : QueueInv c) :
    QueueInv (runwayManagementThread.pass c) := by
  obtain ⟨_, hQ, _⟩ := loop_spec c.runwayQueue.length c h (le_refl _)
  exact hQ

theorem QueueInv_new : QueueInv ATCSController.new :=
  ⟨fun p hp => by simp [ATCSController.new] at hp, List.nodup_nil,
    fun i _ _ _ hin => by simp [ATCSController.new] at hin,
    fun p hp => by simp [ATCSController.new] at hp⟩

theorem Reachable_QueueInv (c : ATCSController) (hr : Reachable c) : QueueInv c :=
  Reachable_preserves QueueInv QueueInv_new
    (fun c _ _ _ _ _ _ h => QueueInv_addFlight c _ rfl h)
    QueueInv_pass QueueInv_modify QueueInv_check QueueInv_releaseHeld
    QueueInv_removeFaulted c hr

/-! ## Priority levels are those of the constructor -/

theorem ConsInv_of_same (c c' : ATCSController)
    (hlen : c'.flights.length = c.flights.length)
    (h : ∀ q, (c'.flightAt q).priorityLevel = (c.flightAt q).priorityLevel ∧
      (c'.flightAt q).aircraftType = (c.flightAt q).aircraftType ∧
      (c'.flightAt q).emergencyType = (c.flightAt q).emergencyType)
    (hc : ConsInv c) : ConsInv c' := by
  intro i hi
  rw [hlen] at hi
  obtain ⟨h1, h2, h3⟩ := h i
  rw [h1, h2, h3]
  exact hc i hi

theorem core_static (f g : Flight) (h : f.core = g.core) :
    f.priorityLevel = g.priorityLevel ∧ f.aircraftType = g.aircraftType ∧
      f.emergencyType = g.emergencyType :=
  ⟨congrArg (fun x => x.1) h, congrArg (fun x => x.2.2.2.2.2.1) h,
    congrArg (fun x => x.2.2.2.2.2.2.1) h⟩

theorem ConsInv_modify (c : ATCSController) (p : Nat) (g : Flight → Flight)
    (hg : ∀ f, (g f).core = f.core) (h : ConsInv c) : ConsInv (c.modifyFlight p g) :=
  ConsInv_of_same c _ (by simp [ATCSController.modifyFlight])
    (fun q => core_static _ _ (core_modifyFlight c p q g hg)) h

theorem ConsInv_check (c : ATCSController) (p : Nat) (now : Int) (h : ConsInv c) :
    ConsInv (checkSpeedViolation c p now) := by
  refine ConsInv_of_same c _ (by simp [checkSpeedViolation]) ?_ h
  intro q
  rw [flightAt_checkSpeedViolation]
  split_ifs with hq
  · rw [hq.1]
    rcases onFlight_cases (c.flightAt p) c.avnGenerator now with e | ⟨_, e⟩ <;> rw [e] <;>
      exact ⟨rfl, rfl, rfl⟩
  · exact ⟨rfl, rfl, rfl⟩

theorem ConsInv_releaseHeld (c : ATCSController) (p : Nat) (h : ConsInv c) :
    ConsInv (releaseHeld c p) := by
  refine ConsInv_of_same c _ (releaseHeld_frame c p).1 ?_ h
  intro q
  rw [flightAt_releaseHeld]
  split_ifs with hq
  · rw [hq.1]; exact ⟨rfl, rfl, rfl⟩
  · exact ⟨rfl, rfl, rfl⟩

theorem ConsInv_queue (c : ATCSController) (q : List Nat) (h : ConsInv c) :
    ConsInv { c with runwayQueue := q } :=
  ConsInv_of_same c _ rfl (fun _ => ⟨rfl, rfl, rfl⟩) h

theorem ConsInv_assign (c : ATCSController) (p : Nat) (h : ConsInv c) :
    ConsInv (assignRunway c p).2 := by
  refine ConsInv_of_same c _ (by simp [assignRunway]) ?_ h
  intro q
  rw [flightAt_assignRunway]
  split_ifs with hq
  · rw [hq.1]
    rcases onFlight_outcome c.runways (c.flightAt p) with e | ⟨j, r, _, _, e⟩ <;> rw [e] <;>
      exact ⟨rfl, rfl, rfl⟩
  · exact ⟨rfl, rfl, rfl⟩

theorem ConsInv_addFlight (c : ATCSController) (f : Flight)
    (hf : f.priorityLevel = calculatePriority f.aircraftType f.emergencyType)
    (h : ConsInv c) : ConsInv (c.addFlight f) := by
  intro i hi
  have hlen : (c.addFlight f).flights.length = c.flights.length + 1 := by
    simp [ATCSController.addFlight, ATCSController.pushQueue]
  rw [hlen] at hi
  rw [flightAt_addFlight]
  split_ifs with a b
  · exact h i a
  · exact hf
  · omega

theorem Reachable_ConsInv (c : ATCSController) (hr : Reachable c) : ConsInv c :=
  Reachable_preserves ConsInv (fun i hi => by simp [ATCSController.new] at hi)
    (fun c _ _ _ _ _ _ h => ConsInv_addFlight c _ rfl h)
    (fun c h => loop_preserves ConsInv ConsInv_assign ConsInv_queue ConsInv_modify _ c h)
    ConsInv_modify ConsInv_check ConsInv_releaseHeld
    (fun c p h => ConsInv_releaseHeld _ p (ConsInv_queue c _ h))
    c hr

/-- C2: in every reachable state the entry on top of `runwayQueue` has the smallest
(priorityLevel, scheduledTime) pair among all queued entries, and successive pops yield all
entries in non-decreasing priority value and, within one priority value, non-decreasing
scheduled time. -/
theorem backlog_pop_order (c : ATCSController) (hr : Reachable c) :
    (∀ p, PriorityQueue.top c.runwayQueue = some p →
        c.popOrder.head? = some p ∧
          ∀ q ∈ c.runwayQueue, dispatchedBefore (c.flightAt p) (c.flightAt q)) ∧
      c.popOrder.Perm c.runwayQueue ∧
      c.popOrder.Pairwise (fun a b => dispatchedBefore (c.flightAt a) (c.flightAt b)) := by
  have h := Reachable_QueueInv c hr
  obtain ⟨o1, o2⟩ := popOrder_spec c h
  refine ⟨?_, o1, ?_⟩
  · intro p hp
    constructor
    · unfold ATCSController.popOrder
      cases hq : c.runwayQueue with
      | nil => rw [hq] at hp; simp [PriorityQueue.top] at hp
      | cons a t =>
        rw [hq] at hp
        simp only [PriorityQueue.top, List.head?_cons, Option.some.injEq] at hp
        rw [List.length_cons, popAll_cons, hp]
        rfl
    · intro q hq
      obtain ⟨i, hi, hget⟩ := List.getElem_of_mem hq
      have hgi : c.runwayQueue[i]? = some q := by
        rw [List.getElem?_eq_getElem hi, hget]
      have h0 : c.runwayQueue[0]? = some p := by
        unfold PriorityQueue.top at hp
        rw [← List.head?_eq_getElem?]
        exact hp
      exact (flightKey_le _ _).1
        (Heap.ordered_front_le (queueKey c.flights) c.runwayQueue _ (le_refl _) h.2.2.1 i hi
          p q h0 hgi)
  · exact o2.imp (fun hab => (flightKey_le _ _).1 hab)

theorem emergency_of_priority_one (f : Flight)
    (h : f.priorityLevel = calculatePriority f.aircraftType f.emergencyType)
    (h1 : f.priorityLevel = 1) : f.aircraftType = AircraftType.Emergency := by
  rw [h1] at h
  unfold calculatePriority at h
  split_ifs at h with a b d
  · exact a
  · exact absurd h (by decide)
  · exact absurd h (by decide)
  · exact absurd h (by decide)

/-- C3: one dispatch pass from a reachable state removes a run of entries from the front
of the pop order, each with a runway that was free, and stops at the first entry for which
`assignRunway` fails; that entry stays on top of the backlog with no runway and 500 more
wait time, and every entry after it keeps its place and is untouched (`PassSpec`).  In
particular, with exactly a priority-1 and a priority-4 flight queued and exactly one runway
free, the priority-1 flight gets that runway and the priority-4 flight stays queued, without
a runway, with its wait time increased by 500. -/
theorem dispatch_pass_in_priority_order (c : ATCSController) (hr : Reachable c) :
    (∃ k, PassSpec c (runwayManagementThread.pass c) k) ∧
      (∀ (a b j : Nat), c.runwayQueue.Perm [a, b] →
        (c.flightAt a).priorityLevel = 1 → (c.flightAt b).priorityLevel = 4 →
        runwayFree c.runways j → (∀ k, runwayFree c.runways k → k = j) →
        ((runwayManagementThread.pass c).flightAt a).runwayAssigned = (j : Int) ∧
          (runwayManagementThread.pass c).runwayQueue = [b] ∧
          ((runwayManagementThread.pass c).flightAt b).runwayAssigned = -1 ∧
          ((runwayManagementThread.pass c).flightAt b).estimatedWaitTime =
            (c.flightAt b).estimatedWaitTime + 500 ∧
          (c.flightAt b).estimatedWaitTime ≤
            ((runwayManagementThread.pass c).flightAt b).estimatedWaitTime) := by
  have hQ := Reachable_QueueInv c hr
  obtain ⟨k, _, hspec⟩ := loop_spec c.runwayQueue.length c hQ (le_refl _)
  refine ⟨⟨k, hspec⟩, ?_⟩
  intro a b j hperm ha hb hj huniq
  have hR' : RunwayInv (runwayManagementThread.pass c) :=
    Reachable_RunwayInv _ (Reachable.step c _ hr (Step.dispatch c))
  have hC := Reachable_ConsInv c hr
  obtain ⟨s1, s2, _, s4, s5, s6, _, s8⟩ := hspec
  have hlen : c.runwayQueue.length = 2 := by rw [hperm.length_eq]; rfl
  have ham : a ∈ c.runwayQueue := hperm.symm.subset (List.mem_cons_self a [b])
  have hbm : b ∈ c.runwayQueue :=
    hperm.symm.subset (List.mem_cons_of_mem a (List.mem_singleton_self b))
  have hab : a ≠ b := by
    intro hc
    rw [hc, hb] at ha
    exact absurd ha (by decide)
  obtain ⟨o1, o2⟩ := popOrder_spec c hQ
  have holen : c.popOrder.length = 2 := by rw [o1.length_eq]; exact hlen
  obtain ⟨x, y, hxy⟩ := List.length_eq_two.1 holen
  have hmem : ∀ z, z ∈ c.popOrder → z = a ∨ z = b := by
    intro z hz
    have := (o1.trans hperm).subset hz
    simpa using this
  have hnd : c.popOrder.Nodup := (List.Perm.nodup_iff o1).2 hQ.2.1
  have hpo : c.popOrder = [a, b] := by
    rw [hxy] at hmem hnd o2 ⊢
    have hx := hmem x (List.mem_cons_self x [y])
    have hy := hmem y (List.mem_cons_of_mem x (List.mem_singleton_self y))
    have hne : x ≠ y := by
      intro hc
      rw [hc] at hnd
      simp at hnd
    have hle : queueKey c.flights x ≤ queueKey c.flights y := by
      have := List.pairwise_cons.1 o2
      exact this.1 y (List.mem_singleton_self y)
    rcases hx with hx | hx
    · rcases hy with hy | hy
      · exact absurd (hx.trans hy.symm) hne
      · rw [hx, hy]
    · rcases hy with hy | hy
      · rw [hx, hy] at hle
        have hd := (flightKey_le _ _).1 hle
        unfold dispatchedBefore at hd
        have ha' : (c.flights.getD a default).priorityLevel = 1 := ha
        have hb' : (c.flights.getD b default).priorityLevel = 4 := hb
        rw [ha', hb'] at hd
        omega
      · exact absurd (hx.trans hy.symm) hne
  have hemerg : (c.flightAt a).aircraftType = AircraftType.Emergency :=
    emergency_of_priority_one _ (hC a (hQ.1 a ham)) ha
  have hnc : (c.flightAt a).aircraftType ≠ AircraftType.Cargo := by
    rw [hemerg]; decide
  have hone : ∀ (j' : Nat) (r' : Runway), c.runways[j']? = some r' → r'.occupied = false →
      j' = j := fun j' r' h1 h2 => huniq j' ⟨r', h1, h2⟩
  rw [hlen] at s1
  unfold runwayManagementThread.pass
  have hk : k = 0 ∨ k = 1 ∨ k = 2 := by omega
  rcases hk with hk | hk | hk
  · exfalso
    subst hk
    obtain ⟨b0, b1, _, _, b4⟩ := s6 (by omega)
    rw [hpo] at b1
    simp only [List.getElem?_cons_zero, Option.some.injEq] at b1
    subst b1
    obtain ⟨r, hr1, hr2⟩ := hj
    rcases s8 j r hr1 hr2 with e | ⟨q, hq, _⟩
    · have := success_of_free _ (c.flightAt a) hnc j ⟨r, e, hr2⟩
      rw [this] at b4
      exact absurd b4 (by decide)
    · simp at hq
  · subst hk
    obtain ⟨ja, ra, a1, a2, a3⟩ := s5 a (by rw [hpo]; simp)
    have hja := hone ja ra a1 a2
    obtain ⟨b0, b1, _, b3, _⟩ := s6 (by omega)
    rw [hpo] at b1
    simp only [List.getElem?_cons_succ, List.getElem?_cons_zero, Option.some.injEq] at b1
    subst b1
    refine ⟨by rw [a3, hja], ?_, ?_, by rw [b3], by rw [b3]; simp⟩
    · rw [hpo] at s4
      exact List.perm_singleton.1 s4
    · rw [b3]
      exact hQ.2.2.2 b hbm
  · exfalso
    subst hk
    obtain ⟨ja, ra, a1, a2, a3⟩ := s5 a (by rw [hpo]; simp)
    obtain ⟨jb, rb, c1, c2, c3⟩ := s5 b (by rw [hpo]; simp)
    have hja := hone ja ra a1 a2
    have hjb := hone jb rb c1 c2
    apply hab
    have la : a < (runwayManagementThread.pass c).flights.length := by
      have := hQ.1 a ham
      rw [← s2] at this
      exact this
    have lb : b < (runwayManagementThread.pass c).flights.length := by
      have := hQ.1 b hbm
      rw [← s2] at this
      exact this
    refine hR'.1 a b la lb ?_ ?_
    · unfold runwayManagementThread.pass
      rw [a3]
      show (ja : Int) ≠ -1
      omega
    · unfold runwayManagementThread.pass
      rw [a3, c3, hja, hjb]

/-! ## Sample runs -/

theorem sampleTwoQueued_reachable : Reachable sampleTwoQueued :=
  Reachable.step _ _
    (Reachable.step _ _ Reachable.init
      (Step.create _ 1000 samplePIA AircraftType.Commercial FlightDirection.NorthArrival 10
        EmergencyType.None))
    (Step.create _ 1001 samplePIA AircraftType.Commercial FlightDirection.EastDeparture 20
      EmergencyType.None)

theorem sampleTwoLanded_reachable : Reachable sampleTwoLanded :=
  Reachable.step _ _ sampleTwoQueued_reachable (Step.dispatch _)

theorem sampleContended_reachable : Reachable sampleContended :=
  Reachable.step _ _
    (Reachable.step _ _ sampleTwoLanded_reachable
      (Step.create _ 1002 samplePIA AircraftType.Commercial FlightDirection.NorthArrival 25
        EmergencyType.None))
    (Step.create _ 1003 sampleAirforce AircraftType.Emergency FlightDirection.NorthArrival 30
      EmergencyType.Military)

theorem sampleViolated_reachable : Reachable sampleViolated :=
  Reachable.step _ _ sampleTwoQueued_reachable
    (Step.poll sampleTwoQueued 0 10 0 0 true (1 / 2) 0 (by decide))

/-- Example: after two flights are created and one dispatch pass has run, flight 0 holds
runway 0, flight 1 holds runway 1, both runways are marked occupied and no other flight
shares them. -/
theorem runway_mutual_exclusion_witness :
    Reachable sampleTwoLanded ∧
      (sampleTwoLanded.flightAt 0).runwayAssigned = 0 ∧
      (sampleTwoLanded.flightAt 1).runwayAssigned = 1 ∧
      (∃ rw, sampleTwoLanded.runways[0]? = some rw ∧ rw.occupied = true) ∧
      (∀ j, j < sampleTwoLanded.flights.length →
        (sampleTwoLanded.flightAt j).runwayAssigned = 0 → 0 = j) :=
  ⟨sampleTwoLanded_reachable, rfl, rfl,
    (runway_mutual_exclusion sampleTwoLanded sampleTwoLanded_reachable).2.1 0 0
      (by decide) rfl,
    fun j hj h =>
      (runway_mutual_exclusion sampleTwoLanded sampleTwoLanded_reachable).1 0 0 j
        (by decide) hj rfl h⟩

/-- C2, witness: with a priority-4 flight (entry 2) and a priority-1 flight (entry 3) queued,
the top of the backlog is entry 3 and the pop order is 3, 2. -/
theorem backlog_pop_order_witness :
    Reachable sampleContended ∧
      PriorityQueue.top sampleContended.runwayQueue = some 3 ∧
      sampleContended.popOrder = [3, 2] ∧
      dispatchedBefore (sampleContended.flightAt 3) (sampleContended.flightAt 2) ∧
      sampleContended.popOrder.Pairwise
        (fun a b => dispatchedBefore (sampleContended.flightAt a) (sampleContended.flightAt b)) :=
  ⟨sampleContended_reachable, rfl, rfl,
    ((backlog_pop_order sampleContended sampleContended_reachable).1 3 rfl).2 2 (by decide),
    (backlog_pop_order sampleContended sampleContended_reachable).2.2⟩

theorem sampleContended_one_free :
    runwayFree sampleContended.runways 2 ∧
      ∀ k, runwayFree sampleContended.runways k → k = 2 := by
  refine ⟨⟨_, rfl, rfl⟩, ?_⟩
  rintro k ⟨r, hr, ho⟩
  have hrun : sampleContended.runways = samplePool true true false := rfl
  rw [hrun] at hr
  match k, hr with
  | 0, hr =>
    simp only [samplePool, List.getElem?_cons_zero, Option.some.injEq] at hr
    rw [← hr] at ho
    exact absurd ho (by decide)
  | 1, hr =>
    simp only [samplePool, List.getElem?_cons_succ, List.getElem?_cons_zero,
      Option.some.injEq] at hr
    rw [← hr] at ho
    exact absurd ho (by decide)
  | 2, _ => rfl
  | (n + 3), hr => simp [samplePool] at hr

/-- C3, witness (scenario B): with a priority-1 flight (entry 3) and a priority-4 flight
(entry 2) queued and only runway 2 free, the pass gives runway 2 to the priority-1 flight and
leaves the priority-4 flight queued without a runway and with 500 more wait time. -/
theorem dispatch_pass_in_priority_order_witness :
    Reachable sampleContended ∧
      sampleContended.runwayQueue.Perm [3, 2] ∧
      (sampleContended.flightAt 3).priorityLevel = 1 ∧
      (sampleContended.flightAt 2).priorityLevel = 4 ∧
      runwayFree sampleContended.runways 2 ∧
      (∀ k, runwayFree sampleContended.runways k → k = 2) ∧
      ((runwayManagementThread.pass sampleContended).flightAt 3).runwayAssigned = 2 ∧
      (runwayManagementThread.pass sampleContended).runwayQueue = [2] ∧
      ((runwayManagementThread.pass sampleContended).flightAt 2).runwayAssigned = -1 ∧
      ((runwayManagementThread.pass sampleContended).flightAt 2).estimatedWaitTime = 500 ∧
      (∃ k, PassSpec sampleContended (runwayManagementThread.pass sampleContended) k) := by
  have hp : sampleContended.runwayQueue.Perm [3, 2] := List.Perm.refl _
  have h := (dispatch_pass_in_priority_order sampleContended sampleContended_reachable).2
    3 2 2 hp rfl rfl sampleContended_one_free.1 sampleContended_one_free.2
  exact ⟨sampleContended_reachable, hp, rfl, rfl, sampleContended_one_free.1,
    sampleContended_one_free.2, h.1, h.2.1, h.2.2.1, h.2.2.2.1,
    (dispatch_pass_in_priority_order sampleContended sampleContended_reachable).1⟩

/-- C8, witness: once flight 0 has entered Approach at 400 km/h it has its flag raised and
exactly one ticket, and no later operation lowers the flag. -/
theorem violation_once_per_lifetime_witness :
    Reachable sampleViolated ∧
      (sampleViolated.flightAt 0).violationActive = true ∧
      (sampleViolated.flightAt 0).avnIDs = [1] ∧
      (∀ c', Step sampleViolated c' → (c'.flightAt 0).violationActive = true) ∧
      (sampleViolated.flightAt 0).avnIDs.length ≤ 1 :=
  ⟨sampleViolated_reachable, rfl, rfl,
    fun c' hs =>
      (violation_once_per_lifetime sampleViolated sampleViolated_reachable).1 c' hs 0
        (by decide) rfl,
    ((violation_once_per_lifetime sampleViolated sampleViolated_reachable).2 0
      (by decide)).1⟩

/-! ## Refused assignments (C11) -/

theorem set_getD_self (l : List Flight) (p : Nat) : l.set p (l.getD p default) = l := by
  apply List.ext_getElem?
  intro i
  rw [List.getElem?_set]
  split_ifs with h1 h2
  · subst h1
    rw [List.getD_eq_getElem?_getD, List.getElem?_eq_getElem h2]
    rfl
  · subst h1
    rw [List.getElem?_eq_none (by omega)]
  · rfl

theorem assignRunway_of_failure (c : ATCSController) (p : Nat)
    (h : (assignRunway.onFlight c.runways (c.flightAt p)).1 = false) :
    assignRunway c p = (false, c) := by
  have e := unchanged_of_failure c.runways (c.flightAt p) h
  show ((assignRunway.onFlight c.runways (c.flightAt p)).1,
    { c with runways := (assignRunway.onFlight c.runways (c.flightAt p)).2.1,
             flights := c.flights.set p (assignRunway.onFlight c.runways (c.flightAt p)).2.2 })
    = (false, c)
  rw [e]
  show (false, { c with flights := c.flights.set p (c.flights.getD p default) }) = (false, c)
  rw [set_getD_self]

theorem failure_iff_none_admissible (runways : List Runway) (flight : Flight) :
    (assignRunway.onFlight runways flight).1 = false ↔
      ∀ j, admissible flight j → ¬ runwayFree runways j := by
  have hnn : (0 : Int) ≤ preferredRunway flight := by
    rcases preferredRunway_range flight with h | h | h <;> rw [h] <;> decide
  have hcast : (((preferredRunway flight).toNat : Nat) : Int) = preferredRunway flight :=
    Int.toNat_of_nonneg hnn
  constructor
  · intro hfail j hadm hfree
    by_cases hc : flight.aircraftType = AircraftType.Cargo
    · rcases hadm with hj | hj
      · have hj2 : j = (preferredRunway flight).toNat := by omega
        subst hj2
        have := (preferred_some_iff runways flight).1 hfree
        simp [assignRunway.onFlight, this] at hfail
      · exact hj hc
    · rw [success_of_free runways flight hc j hfree] at hfail
      exact Bool.noConfusion hfail
  · intro hnone
    have hp : ¬ runwayFree runways (preferredRunway flight).toNat :=
      hnone _ (Or.inl hcast)
    simp only [assignRunway.onFlight, (preferred_some_iff runways flight).2 hp]
    split_ifs with hc
    · cases ho : assignRunway.overflow (preferredRunway flight) flight runways.length 0
          runways with
      | none => rfl
      | some res =>
        obtain ⟨j, _, hfree, _, _, _⟩ := overflow_some _ _ _ _ _ _ ho
        exact absurd hfree (hnone j (Or.inr hc))
    · rfl

/-- C11: a Cargo flight whose runway 2 is occupied is refused by `assignRunway`, which
then returns the controller unchanged (the flight keeps its `runwayAssigned`, every runway
its occupancy), whatever the state of runways 0 and 1. In general `assignRunway` returns
false exactly when no admissible runway (the preferred one, or any runway for a flight that
is not Cargo) is free, and a false result leaves the whole controller unchanged. -/
theorem assignRunway_refusal (c : ATCSController) (p : Nat) :
    (∀ r, (c.flightAt p).aircraftType = AircraftType.Cargo → c.runways[2]? = some r →
      r.occupied = true → assignRunway c p = (false, c)) ∧
    ((assignRunway c p).1 = false ↔
      ∀ j, admissible (c.flightAt p) j → ¬ runwayFree c.runways j) ∧
    ((assignRunway c p).1 = false → (assignRunway c p).2 = c ∧
      ((assignRunway c p).2.flightAt p).runwayAssigned = (c.flightAt p).runwayAssigned ∧
      ∀ j : Nat, (assignRunway c p).2.runways[j]? = c.runways[j]?) := by
  refine ⟨?_, failure_iff_none_admissible c.runways (c.flightAt p), ?_⟩
  · intro r hc h2 hocc
    apply assignRunway_of_failure
    rw [failure_iff_none_admissible]
    intro j hadm hfree
    have hpref : preferredRunway (c.flightAt p) = 2 := by simp [preferredRunway, hc]
    rcases hadm with hj | hj
    · rw [hpref] at hj
      have hj2 : j = 2 := by omega
      subst hj2
      obtain ⟨r', hr', hfree'⟩ := hfree
      rw [h2] at hr'
      cases hr'
      rw [hocc] at hfree'
      exact Bool.noConfusion hfree'
    · exact hj hc
  · intro hfail
    have e := assignRunway_of_failure c p hfail
    rw [e]
    exact ⟨rfl, rfl, fun _ => rfl⟩

theorem assignRunway_refusal_witness :
    (sampleCargoBlocked.flightAt 1).aircraftType = AircraftType.Cargo ∧
      sampleCargoBlocked.runways = samplePool false false true ∧
      assignRunway sampleCargoBlocked 1 = (false, sampleCargoBlocked) :=
  ⟨rfl, rfl, (assignRunway_refusal sampleCargoBlocked 1).1 _ rfl
    (show sampleCargoBlocked.runways[2]? = some
      { Runway.new 2 "RWY-C (Cargo/Emergency/Overflow)" with occupied := true } from rfl) rfl⟩

theorem sampleCargoBlocked_reachable : Reachable sampleCargoBlocked :=
  Reachable.step _ _ (Reachable.step _ _ (Reachable.step _ _ Reachable.init
    (Step.create _ 1003 sampleAirforce AircraftType.Emergency FlightDirection.NorthArrival 30
      EmergencyType.Military)) (Step.dispatch _))
    (Step.create _ 1001 sampleFedEx AircraftType.Cargo FlightDirection.NorthArrival 0
      EmergencyType.None)

/-! ## Releasing a runway (C12) -/

theorem releaseRunway_same (c : ATCSController) (runwayID : Int) (r : Runway)
    (h0 : 0 ≤ runwayID) (hr : c.runways[runwayID.toNat]? = some r) :
    releaseRunway c runwayID =
      { c with runways := c.runways.set runwayID.toNat { r with occupied := false } } := by
  have hlt : runwayID.toNat < c.runways.length := by
    by_contra hn
    rw [List.getElem?_eq_none (by omega)] at hr
    exact Option.noConfusion hr
  have hlt2 : runwayID < (c.runways.length : Int) := by omega
  simp only [releaseRunway, ge_iff_le, h0, hlt2, and_self, if_true, hr]

theorem releaseRunway_invalid (c : ATCSController) (runwayID : Int)
    (h : runwayID < 0 ∨ (c.runways.length : Int) ≤ runwayID) : releaseRunway c runwayID = c := by
  have hn : ¬ (runwayID ≥ 0 ∧ runwayID < (c.runways.length : Int)) := by omega
  simp only [releaseRunway, hn, if_false]

theorem set_same_runway (l : List Runway) (i : Nat) (r : Runway) (h : l[i]? = some r) :
    l.set i r = l := by
  apply List.ext_getElem?
  intro k
  rw [List.getElem?_set]
  split_ifs with h1 h2
  · subst h1; exact h.symm
  · subst h1
    rw [List.getElem?_eq_none (by omega)]
  · rfl

/-- C12: `releaseRunway(id)` with a valid id leaves runway `id` free and every other
runway, the flights, the backlog and the ledger as they were; on a runway that is already
free, or with an id below 0 or not below the number of runways (so outside 0..2 for a pool
of 3 runways), it returns the controller unchanged; releasing twice gives the state of releasing once.
`Runway::release()` likewise leaves its runway free. -/
theorem releaseRunway_idempotent (c : ATCSController) (runwayID : Int) :
    (∀ r, 0 ≤ runwayID → c.runways[runwayID.toNat]? = some r →
      (releaseRunway c runwayID).runways[runwayID.toNat]? = some { r with occupied := false }) ∧
    (∀ k : Nat, (k : Int) ≠ runwayID →
      (releaseRunway c runwayID).runways[k]? = c.runways[k]?) ∧
    ((releaseRunway c runwayID).flights = c.flights ∧
      (releaseRunway c runwayID).runwayQueue = c.runwayQueue ∧
      (releaseRunway c runwayID).avnGenerator = c.avnGenerator ∧
      (releaseRunway c runwayID).runways.length = c.runways.length) ∧
    (∀ r, 0 ≤ runwayID → c.runways[runwayID.toNat]? = some r → r.occupied = false →
      releaseRunway c runwayID = c) ∧
    ((runwayID < 0 ∨ (c.runways.length : Int) ≤ runwayID) → releaseRunway c runwayID = c) ∧
    releaseRunway (releaseRunway c runwayID) runwayID = releaseRunway c runwayID ∧
    (c.runways.length = 3 → (runwayID < 0 ∨ 2 < runwayID) → releaseRunway c runwayID = c) ∧
    (∀ r : Runway, r.release.occupied = false) := by
  have hlen : (releaseRunway c runwayID).runways.length = c.runways.length := by
    unfold releaseRunway
    split_ifs
    · split
      · simp
      · rfl
    · rfl
  refine ⟨?_, ?_, ⟨(releaseRunway_flights c runwayID).1, (releaseRunway_flights c runwayID).2.1,
    (releaseRunway_flights c runwayID).2.2, hlen⟩, ?_, releaseRunway_invalid c runwayID, ?_,
    fun h3 h => releaseRunway_invalid c runwayID (by omega), fun _ => rfl⟩
  · intro r h0 hr
    have hlt : runwayID.toNat < c.runways.length := by
      by_contra hn
      rw [List.getElem?_eq_none (by omega)] at hr
      exact Option.noConfusion hr
    rw [releaseRunway_same c runwayID r h0 hr]
    show (c.runways.set runwayID.toNat { r with occupied := false })[runwayID.toNat]? = _
    rw [List.getElem?_set_self hlt]
  · intro k hk
    by_cases h0 : 0 ≤ runwayID
    · exact releaseRunway_other c runwayID k (by omega)
    · rw [releaseRunway_invalid c runwayID (Or.inl (by omega))]
  · intro r h0 hr hocc
    rw [releaseRunway_same c runwayID r h0 hr]
    have e : ({ r with occupied := false } : Runway) = r := by
      cases r
      simp only [Runway.mk.injEq, true_and] at hocc ⊢
      exact hocc.symm
    rw [e, set_same_runway c.runways _ r hr]
  · by_cases hv : 0 ≤ runwayID ∧ runwayID < (c.runways.length : Int)
    · have hlt : runwayID.toNat < c.runways.length := by omega
      have hr : c.runways[runwayID.toNat]? = some (c.runways[runwayID.toNat]) :=
        List.getElem?_eq_getElem hlt
      have e1 := releaseRunway_same c runwayID _ hv.1 hr
      have hr2 : (releaseRunway c runwayID).runways[runwayID.toNat]? =
          some { c.runways[runwayID.toNat] with occupied := false } := by
        rw [e1]
        show (c.runways.set runwayID.toNat _)[runwayID.toNat]? = _
        rw [List.getElem?_set_self hlt]
      rw [releaseRunway_same (releaseRunway c runwayID) runwayID _ hv.1 hr2]
      rw [e1]
      simp only [List.set_set]
    · have hv2 : runwayID < 0 ∨ (c.runways.length : Int) ≤ runwayID := by omega
      rw [releaseRunway_invalid c runwayID hv2, releaseRunway_invalid c runwayID hv2]

theorem releaseRunway_idempotent_witness :
    (releaseRunway sampleTwoLanded 0).runways = samplePool false true false ∧
      sampleTwoLanded.runways = samplePool true true false ∧
      releaseRunway sampleTwoLanded 2 = sampleTwoLanded ∧
      releaseRunway sampleTwoLanded 3 = sampleTwoLanded ∧
      releaseRunway sampleTwoLanded (-1) = sampleTwoLanded :=
  ⟨rfl, rfl,
    (releaseRunway_idempotent sampleTwoLanded 2).2.2.2.1
      (Runway.new 2 "RWY-C (Cargo/Emergency/Overflow)") (by decide) rfl rfl,
    (releaseRunway_idempotent sampleTwoLanded 3).2.2.2.2.1 (Or.inr (by decide)),
    (releaseRunway_idempotent sampleTwoLanded (-1)).2.2.2.2.1 (Or.inl (by decide))⟩

/-! ## Non-blocking acquisition (C13) -/

/-- C13 as stated fails: a runway that is free while its mutex is held (by a thread inside
`releaseRunway`) is refused by `tryAcquire`. -/
theorem tryAcquire_refuses_free :
    sampleLockedFree.occupied = false ∧ sampleLockedFree.tryAcquire.1 = false := ⟨rfl, rfl⟩

/-- C13, amended: `Runway::tryAcquire` returns true exactly when the mutex of the runway
was not held and the runway was free; the runway is then occupied (and its mutex held)
afterwards; when it returns false the runway is unchanged. Two calls in a row on a free
runway whose mutex is not held return true, then false. -/
theorem tryAcquire_iff (r : Runway) :
    (r.tryAcquire.1 = true ↔ r.runwayMutex = false ∧ r.occupied = false) ∧
    (r.tryAcquire.1 = true →
      r.tryAcquire.2 = { r with occupied := true, runwayMutex := true }) ∧
    (r.tryAcquire.1 = false → r.tryAcquire.2 = r) ∧
    (r.runwayMutex = false → r.occupied = false →
      r.tryAcquire.1 = true ∧ r.tryAcquire.2.tryAcquire.1 = false) := by
  rcases r with ⟨i, n, m, o⟩
  cases m <;> cases o <;> simp [Runway.tryAcquire]

theorem tryAcquire_iff_witness :
    (Runway.new 0 "RWY-A (North-South Arrivals)").tryAcquire.1 = true ∧
      (Runway.new 0 "RWY-A (North-South Arrivals)").tryAcquire.2.tryAcquire.1 = false :=
  (tryAcquire_iff (Runway.new 0 "RWY-A (North-South Arrivals)")).2.2.2 rfl rfl

/-! ## Fault removal (C14) -/

theorem flightAt_removeFaulted (c : ATCSController) (p q : Nat) :
    (removeFaultedFlight c p).flightAt q =
      if q = p ∧ p < c.flights.length ∧ (c.flightAt p).runwayAssigned ≠ -1 then
        { c.flightAt p with runwayAssigned := -1 }
      else c.flightAt q := by
  unfold removeFaultedFlight
  exact flightAt_releaseHeld _ p q

theorem removeFaulted_length (c : ATCSController) (p : Nat) :
    (removeFaultedFlight c p).flights.length = c.flights.length := by
  unfold removeFaultedFlight
  exact (releaseHeld_frame _ p).1

theorem removeFaulted_runways (c : ATCSController) (p : Nat) :
    (removeFaultedFlight c p).runways =
      if (c.flightAt p).runwayAssigned ≠ -1 then
        (releaseRunway c (c.flightAt p).runwayAssigned).runways
      else c.runways := by
  unfold removeFaultedFlight releaseHeld
  show (if (c.flightAt p).runwayAssigned ≠ -1 then _ else _ : ATCSController).runways = _
  split_ifs with h
  · show (releaseRunway _ (c.flightAt p).runwayAssigned).runways = _
    unfold releaseRunway
    show (if _ ∧ (c.flightAt p).runwayAssigned < (c.runways.length : Int) then _ else _ :
      ATCSController).runways = (if _ then _ else _ : ATCSController).runways
    split_ifs
    · show (match c.runways[(c.flightAt p).runwayAssigned.toNat]? with
        | some r => _ | none => _ : ATCSController).runways = (match
          c.runways[(c.flightAt p).runwayAssigned.toNat]? with
        | some r => _ | none => _ : ATCSController).runways
      cases c.runways[(c.flightAt p).runwayAssigned.toNat]? <;> rfl
    · rfl
  · rfl

theorem mem_addFlight (c : ATCSController) (f : Flight) (h : QueueInv c) (q : Nat)
    (hq : q ∈ (c.addFlight f).runwayQueue) : q ∈ c.runwayQueue ∨ q = c.flights.length := by
  obtain ⟨h1, _, h3, _⟩ := h
  have hkey : ∀ x ∈ c.runwayQueue,
      queueKey (c.flights ++ [f]) x = queueKey c.flights x := by
    intro x hx
    unfold queueKey
    rw [getD_append_one, if_pos (h1 x hx)]
  have ho := Ordered_congr (queueKey c.flights) (queueKey (c.flights ++ [f])) c.runwayQueue
    c.runwayQueue.length hkey h3
  obtain ⟨_, _, p3⟩ := Heap.push_spec (queueComp (c.flights ++ [f]))
    (queueKey (c.flights ++ [f])) (queueComp_key _) c.runwayQueue c.flights.length ho
  have e : (c.addFlight f).runwayQueue =
      PriorityQueue.push (queueComp (c.flights ++ [f])) c.runwayQueue c.flights.length := rfl
  rw [e] at hq
  have := p3.subset hq
  simpa using this

theorem Retired_step (p : Nat) (c c' : ATCSController) (hs : Step c c')
    (h : QueueInv c ∧ Retired c p) : QueueInv c' ∧ Retired c' p := by
  refine Step_preserves (fun c => QueueInv c ∧ Retired c p) ?_ ?_ ?_ ?_ ?_ ?_ c c' hs h
  · rintro c num al aty dir sched emType ⟨hq, hp, hn, hr⟩
    refine ⟨QueueInv_addFlight c _ rfl hq, ?_, ?_, ?_⟩
    · show p < (c.flights ++ [_]).length
      rw [List.length_append, List.length_singleton]
      omega
    · intro hm
      rcases mem_addFlight c _ hq p hm with a | a
      · exact hn a
      · omega
    · rw [flightAt_addFlight, if_pos hp]
      exact hr
  · rintro c ⟨hq, hp, hn, hr⟩
    obtain ⟨k, hQ, hS⟩ := loop_spec c.runwayQueue.length c hq (le_refl _)
    refine ⟨hQ, ?_, ?_, ?_⟩
    · show p < (runwayManagementThread.loop c.runwayQueue.length c).flights.length
      rw [hS.2.1]
      exact hp
    · intro hm
      have h1 : p ∈ c.popOrder.drop k := hS.2.2.2.1.subset hm
      exact hn ((popOrder_spec c hq).1.subset (List.mem_of_mem_drop h1))
    · have h1 : p ∉ c.popOrder.take (k + 1) := fun hm =>
        hn ((popOrder_spec c hq).1.subset (List.mem_of_mem_take hm))
      show ((runwayManagementThread.loop c.runwayQueue.length c).flightAt p).runwayAssigned = -1
      rw [hS.2.2.2.2.2.2.1 p h1]
      exact hr
  · rintro c q g hg ⟨hq, hp, hn, hr⟩
    refine ⟨QueueInv_modify c q g hg hq, ?_, hn, ?_⟩
    · simpa [ATCSController.modifyFlight] using hp
    · rw [core_runwayAssigned _ _ (core_modifyFlight c q p g hg)]
      exact hr
  · rintro c q now ⟨hq, hp, hn, hr⟩
    refine ⟨QueueInv_check c q now hq, ?_, hn, ?_⟩
    · simpa [checkSpeedViolation] using hp
    · rw [flightAt_checkSpeedViolation]
      split_ifs with hqp
      · rw [onFlight_runwayAssigned, ← hqp.1]
        exact hr
      · exact hr
  · rintro c q ⟨hq, hp, hn, hr⟩
    refine ⟨QueueInv_releaseHeld c q hq, ?_, ?_, ?_⟩
    · rw [(releaseHeld_frame c q).1]
      exact hp
    · rw [(releaseHeld_frame c q).2.1]
      exact hn
    · rw [flightAt_releaseHeld]
      split_ifs
      · rfl
      · exact hr
  · rintro c q ⟨hq, hp, hn, hr⟩
    refine ⟨QueueInv_removeFaulted c q hq, ?_, ?_, ?_⟩
    · rw [removeFaulted_length]
      exact hp
    · intro hm
      have := (removeFaulted_queue c q hq).2.subset hm
      exact hn (List.mem_of_mem_filter this)
    · rw [flightAt_removeFaulted]
      split_ifs
      · rfl
      · exact hr

theorem Retired_later (p : Nat) (c c' : ATCSController) (hl : Later c c')
    (h : QueueInv c ∧ Retired c p) : QueueInv c' ∧ Retired c' p := by
  induction hl with
  | refl => exact h
  | step c1 c2 _ hs ih => exact Retired_step p c1 c2 hs ih

theorem removeFaulted_retired (c : ATCSController) (p : Nat) (hq : QueueInv c)
    (hp : p < c.flights.length) : Retired (removeFaultedFlight c p) p := by
  refine ⟨?_, ?_, ?_⟩
  · rw [removeFaulted_length]
    exact hp
  · intro hm
    have := (removeFaulted_queue c p hq).2.subset hm
    simpa using (List.mem_filter.1 this).2
  · rw [flightAt_removeFaulted]
    split_ifs with h
    · rfl
    · by_contra hne
      exact h ⟨rfl, hp, hne⟩

/-- C14: in a reachable state, after `removeFaultedFlight(f)` no backlog entry has the
flight number of `f`, `f.runwayAssigned` is -1 and the runway `f` held before the call is
free; and in every state reached afterwards `f` is still not in the backlog and still
holds no runway. -/
theorem removeFaultedFlight_retires (c : ATCSController) (p : Nat) (hc : Reachable c)
    (hp : p < c.flights.length) :
    (∀ q ∈ (removeFaultedFlight c p).runwayQueue,
      ((removeFaultedFlight c p).flightAt q).flightNumber ≠ (c.flightAt p).flightNumber) ∧
    ((removeFaultedFlight c p).flightAt p).runwayAssigned = -1 ∧
    (∀ j : Nat, (c.flightAt p).runwayAssigned = (j : Int) →
      ∃ r, (removeFaultedFlight c p).runways[j]? = some r ∧ r.occupied = false) ∧
    (∀ c', Later (removeFaultedFlight c p) c' →
      p ∉ c'.runwayQueue ∧ (c'.flightAt p).runwayAssigned = -1) := by
  have hq := Reachable_QueueInv c hc
  have hret := removeFaulted_retired c p hq hp
  refine ⟨?_, hret.2.2, ?_, ?_⟩
  · intro q hm
    have h1 := (removeFaulted_queue c p hq).2.subset hm
    have h2 : (c.flightAt q).flightNumber ≠ (c.flightAt p).flightNumber := by
      simpa using (List.mem_filter.1 h1).2
    rw [flightAt_removeFaulted]
    split_ifs with h
    · rw [h.1] at h2
      exact absurd rfl h2
    · exact h2
  · intro j hj
    have hne : (c.flightAt p).runwayAssigned ≠ -1 := by omega
    obtain ⟨h0, rw, hrw, _⟩ := (Reachable_RunwayInv c hc).2 p hp hne
    rw [removeFaulted_runways, if_pos hne]
    have hjn : (c.flightAt p).runwayAssigned.toNat = j := by omega
    rw [releaseRunway_same c _ rw h0 hrw]
    have hlt : (c.flightAt p).runwayAssigned.toNat < c.runways.length := by
      by_contra hn
      rw [List.getElem?_eq_none (by omega)] at hrw
      exact Option.noConfusion hrw
    refine ⟨{ rw with occupied := false }, ?_, rfl⟩
    rw [← hjn]
    show (c.runways.set _ _)[(c.flightAt p).runwayAssigned.toNat]? = _
    rw [List.getElem?_set_self hlt]
  · intro c' hl
    have := Retired_later p _ c' hl ⟨QueueInv_removeFaulted c p hq, hret⟩
    exact ⟨this.2.2.1, this.2.2.2⟩

theorem removeFaultedFlight_retires_witness :
    (sampleTwoLanded.flightAt 0).runwayAssigned = 0 ∧
      (∃ r, (removeFaultedFlight sampleTwoLanded 0).runways[0]? = some r ∧
        r.occupied = false) ∧
      ((removeFaultedFlight sampleTwoLanded 0).flightAt 0).runwayAssigned = -1 ∧
      0 ∉ (runwayManagementThread.pass (removeFaultedFlight sampleTwoLanded 0)).runwayQueue ∧
      ((runwayManagementThread.pass (removeFaultedFlight sampleTwoLanded 0)).flightAt
        0).runwayAssigned = -1 :=
  have h := removeFaultedFlight_retires sampleTwoLanded 0 sampleTwoLanded_reachable
    (by decide)
  ⟨rfl, h.2.2.1 0 rfl, h.2.1,
    h.2.2.2 _ (Later.step _ _ _ (Later.refl _) (Step.dispatch _))⟩

/-! ## Order of the backlog after a fault removal (C15) -/

theorem sampleTied_reachable : Reachable sampleTied :=
  Reachable.step _ _ (Reachable.step _ _ (Reachable.step _ _ (Reachable.step _ _
    (Reachable.step _ _ Reachable.init
      (Step.create _ 1000 samplePIA AircraftType.Commercial FlightDirection.NorthArrival 0
        EmergencyType.None))
      (Step.create _ 1001 samplePIA AircraftType.Commercial FlightDirection.NorthArrival 0
        EmergencyType.None))
      (Step.create _ 1002 sampleAirforce AircraftType.Emergency FlightDirection.NorthArrival 1
        EmergencyType.Military))
      (Step.create _ 1003 sampleAirforce AircraftType.Emergency FlightDirection.NorthArrival 2
        EmergencyType.Military))
      (Step.create _ 1004 sampleAirforce AircraftType.Emergency FlightDirection.NorthArrival 3
        EmergencyType.Military)

theorem sublist_pair_of_mem (l : List Nat) (a b : Nat) (ha : a ∈ l) (hb : b ∈ l)
    (hne : a ≠ b) : [a, b].Sublist l ∨ [b, a].Sublist l := by
  induction l with
  | nil => simp at ha
  | cons x t ih =>
    by_cases hax : a = x
    · left
      subst hax
      have hbt : b ∈ t := by
        rcases List.mem_cons.1 hb with h | h
        · exact absurd h.symm hne
        · exact h
      exact List.Sublist.cons₂ _ (List.singleton_sublist.2 hbt)
    · by_cases hbx : b = x
      · right
        subst hbx
        have hat : a ∈ t := by
          rcases List.mem_cons.1 ha with h | h
          · exact absurd h hax
          · exact h
        exact List.Sublist.cons₂ _ (List.singleton_sublist.2 hat)
      · have hat : a ∈ t := by
          rcases List.mem_cons.1 ha with h | h
          · exact absurd h hax
          · exact h
        have hbt : b ∈ t := by
          rcases List.mem_cons.1 hb with h | h
          · exact absurd h hbx
          · exact h
        rcases ih hat hbt with h | h
        · exact Or.inl (List.Sublist.cons _ h)
        · exact Or.inr (List.Sublist.cons _ h)

/-- In a list sorted by a key, of two members with different keys the one with the smaller
key comes first. -/
theorem poppedBefore_iff_key {K : Type} [LinearOrder K] (key : Nat → K) (l : List Nat)
    (hs : l.Pairwise (fun a b => key a ≤ key b)) (a b : Nat) (ha : a ∈ l) (hb : b ∈ l)
    (hk : key a ≠ key b) : poppedBefore l a b ↔ key a < key b := by
  unfold poppedBefore
  constructor
  · intro h
    have := List.Pairwise.sublist h hs
    simp only [List.pairwise_cons, List.mem_singleton, forall_eq, List.not_mem_nil,
      IsEmpty.forall_iff, implies_true, List.Pairwise.nil, and_self, and_true] at this
    exact lt_of_le_of_ne this hk
  · intro h
    have hne : a ≠ b := fun e => hk (congrArg key e)
    rcases sublist_pair_of_mem l a b ha hb hne with h1 | h1
    · exact h1
    · have := List.Pairwise.sublist h1 hs
      simp only [List.pairwise_cons, List.mem_singleton, forall_eq, List.not_mem_nil,
        IsEmpty.forall_iff, implies_true, List.Pairwise.nil, and_self, and_true] at this
      exact absurd h (not_lt.2 this)

theorem flightKey_removeFaulted (c : ATCSController) (p q : Nat) :
    flightKey ((removeFaultedFlight c p).flightAt q) = flightKey (c.flightAt q) := by
  rw [flightAt_removeFaulted]
  split_ifs with h
  · rw [h.1]; rfl
  · rfl

/-- C15 as stated fails: flights 0 and 1 of `sampleTied` tie; the backlog is popped in the
order 2, 3, 4, 1, 0, and after the removal of flight 2 in the order 3, 4, 0, 1. -/
theorem removeFaultedFlight_reorders_ties :
    Reachable sampleTied ∧ sampleTied.popOrder = [2, 3, 4, 1, 0] ∧
      (removeFaultedFlight sampleTied 2).popOrder = [3, 4, 0, 1] ∧
      flightKey (sampleTied.flightAt 0) = flightKey (sampleTied.flightAt 1) ∧
      poppedBefore sampleTied.popOrder 1 0 ∧
      ¬ poppedBefore (removeFaultedFlight sampleTied 2).popOrder 1 0 :=
  ⟨sampleTied_reachable, rfl, rfl, rfl, by unfold poppedBefore; decide,
    by unfold poppedBefore; decide⟩

/-- C15, amended: in a reachable state `removeFaultedFlight(f)` keeps exactly the backlog
entries whose flight number differs from that of `f`, each once; the remaining entries are
popped in non-decreasing (priorityLevel, scheduledTime) order, so two remaining entries
with different keys are popped in the same relative order as before the removal. (Entries
with equal keys may change places.) -/
theorem removeFaultedFlight_keeps_order (c : ATCSController) (p : Nat) (hc : Reachable c) :
    (removeFaultedFlight c p).runwayQueue.Perm
        (c.runwayQueue.filter
          (fun f => decide ((c.flightAt f).flightNumber ≠ (c.flightAt p).flightNumber))) ∧
      (removeFaultedFlight c p).runwayQueue.Nodup ∧
      (removeFaultedFlight c p).popOrder.Perm (removeFaultedFlight c p).runwayQueue ∧
      (removeFaultedFlight c p).popOrder.Pairwise
        (fun a b => flightKey (c.flightAt a) ≤ flightKey (c.flightAt b)) ∧
      (∀ a b, a ∈ (removeFaultedFlight c p).runwayQueue →
        b ∈ (removeFaultedFlight c p).runwayQueue →
        flightKey (c.flightAt a) ≠ flightKey (c.flightAt b) →
        (poppedBefore (removeFaultedFlight c p).popOrder a b ↔
          poppedBefore c.popOrder a b)) := by
  have hq := Reachable_QueueInv c hc
  have hq' := QueueInv_removeFaulted c p hq
  have hperm := (removeFaulted_queue c p hq).2
  have hs := popOrder_spec c hq
  have hs' := popOrder_spec _ hq'
  have hkey : queueKey (removeFaultedFlight c p).flights = queueKey c.flights :=
    queueKey_congr _ _ (fun q => flightKey_removeFaulted c p q)
  have hsort' : (removeFaultedFlight c p).popOrder.Pairwise
      (fun a b => queueKey c.flights a ≤ queueKey c.flights b) := by
    have := hs'.2
    rw [hkey] at this
    exact this
  refine ⟨hperm, hq'.2.1, hs'.1, hsort', ?_⟩
  intro a b ha hb hk
  have ha0 : a ∈ c.runwayQueue := List.mem_of_mem_filter (hperm.subset ha)
  have hb0 : b ∈ c.runwayQueue := List.mem_of_mem_filter (hperm.subset hb)
  rw [poppedBefore_iff_key (queueKey c.flights) _ hsort' a b (hs'.1.symm.subset ha)
      (hs'.1.symm.subset hb) hk,
    poppedBefore_iff_key (queueKey c.flights) _ hs.2 a b (hs.1.symm.subset ha0)
      (hs.1.symm.subset hb0) hk]

theorem removeFaultedFlight_keeps_order_witness :
    (removeFaultedFlight sampleTied 2).runwayQueue.Perm [3, 0, 1, 4] ∧
      (poppedBefore (removeFaultedFlight sampleTied 2).popOrder 4 1 ↔
        poppedBefore sampleTied.popOrder 4 1) :=
  have h := removeFaultedFlight_keeps_order sampleTied 2 sampleTied_reachable
  ⟨h.1, h.2.2.2.2 4 1 (by decide) (by decide) (by decide)⟩

/-! ## The members one actor poll writes -/

/-- The members of the flight that `checkSpeedViolation` leaves alone. -/
theorem onFlight_fields (flight : Flight) (L : Ledger) (now : Int) :
    (checkSpeedViolation.onFlight flight L now).1.phase = flight.phase ∧
      (checkSpeedViolation.onFlight flight L now).1.direction = flight.direction ∧
      (checkSpeedViolation.onFlight flight L now).1.hasFault = flight.hasFault ∧
      (checkSpeedViolation.onFlight flight L now).1.speed = flight.speed ∧
      (checkSpeedViolation.onFlight flight L now).1.faultDescription =
        flight.faultDescription := by
  rcases onFlight_cases flight L now with h | ⟨_, h⟩ <;> rw [h] <;> exact ⟨rfl, rfl, rfl, rfl, rfl⟩

theorem phase_checkSpeedViolation (c : ATCSController) (p q : Nat) (now : Int) :
    ((checkSpeedViolation c p now).flightAt q).phase = (c.flightAt q).phase := by
  rw [flightAt_checkSpeedViolation]
  split_ifs with h
  · rw [(onFlight_fields _ _ _).1, h.1]
  · rfl

theorem phase_releaseHeld (c : ATCSController) (p q : Nat) :
    ((releaseHeld c p).flightAt q).phase = (c.flightAt q).phase := by
  rw [flightAt_releaseHeld]
  split_ifs with h
  · rw [h.1]
  · rfl

theorem phase_removeFaulted (c : ATCSController) (p q : Nat) :
    ((removeFaultedFlight c p).flightAt q).phase = (c.flightAt q).phase := by
  rw [flightAt_removeFaulted]
  split_ifs with h
  · rw [h.1]
  · rfl

theorem phase_updateSpeed (c : ATCSController) (p q : Nat) (v : ℚ) :
    ((updateSpeed c p v).flightAt q).phase = (c.flightAt q).phase := by
  unfold updateSpeed
  rw [flightAt_modifyFlight]
  split_ifs with h
  · rw [h.1]
  · rfl

theorem phase_updatePhase (c : ATCSController) (p : Nat) (hp : p < c.flights.length)
    (ph : FlightPhase) : ((updatePhase c p ph).flightAt p).phase = ph := by
  unfold updatePhase
  rw [flightAt_modifyFlight, if_pos ⟨rfl, hp⟩]

theorem phase_checkGroundFaults (c : ATCSController) (p q : Nat) (u : ℚ) (r : Nat) :
    ((checkGroundFaults c p u r).flightAt q).phase = (c.flightAt q).phase := by
  unfold checkGroundFaults
  split_ifs
  · rw [phase_removeFaulted, flightAt_modifyFlight]
    split_ifs with h
    · rw [h.1]
    · rfl
  · rfl
  · rfl

/-- The phase of the polled flight after the `switch` of one round. -/
theorem phase_phaseSwitch (c : ATCSController) (p elapsed r : Nat) (now : Int)
    (hp : p < c.flights.length) :
    ((flightThread.phaseSwitch c p elapsed r now).1.flightAt p).phase =
      match (c.flightAt p).phase with
      | FlightPhase.Holding =>
        if elapsed ≥ 10 then FlightPhase.Approach else FlightPhase.Holding
      | FlightPhase.Approach =>
        if elapsed ≥ 8 then FlightPhase.Landing else FlightPhase.Approach
      | FlightPhase.Landing => if elapsed < 6 then FlightPhase.Landing else FlightPhase.Taxi
      | FlightPhase.Taxi => if elapsed ≥ 5 then FlightPhase.AtGate else FlightPhase.Taxi
      | FlightPhase.AtGate =>
        if elapsed ≥ 5 ∧ isDeparture (c.flightAt p).direction then FlightPhase.Taxi
        else FlightPhase.AtGate
      | FlightPhase.TakeoffRoll =>
        if elapsed ≥ 3 then FlightPhase.Climb else FlightPhase.TakeoffRoll
      | FlightPhase.Climb => if elapsed ≥ 4 then FlightPhase.Cruise else FlightPhase.Climb
      | FlightPhase.Cruise =>
        if elapsed ≥ 10 then FlightPhase.Departure else FlightPhase.Cruise
      | FlightPhase.Departure => FlightPhase.Departure := by
  have hs : ∀ (c1 : ATCSController) (ph : FlightPhase) (v : ℚ),
      c1.flights.length = c.flights.length →
      ((updateSpeed (updatePhase c1 p ph) p v).flightAt p).phase = ph := by
    intro c1 ph v hl
    rw [phase_updateSpeed, phase_updatePhase c1 p (by omega)]
  unfold flightThread.phaseSwitch
  cases hph : (c.flightAt p).phase <;> simp only []
  · split_ifs
    · rw [phase_checkSpeedViolation, hs c _ _ rfl]
    · exact hph
  · split_ifs
    · rw [phase_checkSpeedViolation, hs c _ _ rfl]
    · exact hph
  · split_ifs
    · rw [phase_checkSpeedViolation, phase_updateSpeed, hph]
    · rw [hs c _ _ rfl]
  · split_ifs
    · rw [hs c _ _ rfl]
    · exact hph
  · rw [phase_releaseHeld]
    unfold isDeparture
    split_ifs with h1 h2 h3 h4 h5
    · rw [hs c _ _ rfl]
    · exact absurd ⟨h1, h2⟩ h3
    · exact absurd h4.2 h2
    · exact hph
    · exact absurd h5.1 h1
    · exact hph
  · split_ifs
    · rw [phase_checkSpeedViolation, hs c _ _ rfl]
    · rw [phase_updateSpeed, hph]
  · split_ifs
    · rw [phase_releaseHeld, phase_checkSpeedViolation, hs c _ _ rfl]
    · exact hph
  · split_ifs
    · rw [phase_updatePhase c p hp]
    · exact hph
  · exact hph

/-- The round ends the thread exactly in Departure, or in Cruise once 10 s have passed. -/
theorem phaseSwitch_return (c : ATCSController) (p elapsed r : Nat) (now : Int) :
    (flightThread.phaseSwitch c p elapsed r now).2 = true ↔
      (c.flightAt p).phase = FlightPhase.Departure ∨
        ((c.flightAt p).phase = FlightPhase.Cruise ∧ 10 ≤ elapsed) := by
  unfold flightThread.phaseSwitch
  cases hph : (c.flightAt p).phase <;> simp only [] <;>
    first | (split_ifs <;> simp_all) | simp_all

theorem phase_step (c : ATCSController) (p elapsed r : Nat) (now : Int)
    (simulationRunning : Bool) (u : ℚ) (r2 : Nat) (q : Nat) :
    ((flightThread.step c p elapsed r now simulationRunning u r2).1.flightAt q).phase =
      ((flightThread.phaseSwitch c p elapsed r now).1.flightAt q).phase := by
  unfold flightThread.step
  simp only []
  split_ifs
  · rfl
  · exact phase_checkGroundFaults _ _ _ _ _
  · rfl

/-- Preservation scheme for the `switch` of one round of the actor of flight `p`: only
the four kinds of write it performs have to be checked. -/
theorem phaseSwitch_frame (P : ATCSController → Prop) (p : Nat)
    (hph : ∀ c ph, P c → P (updatePhase c p ph))
    (hsp : ∀ c v, P c → P (updateSpeed c p v))
    (hcheck : ∀ c now, P c → P (checkSpeedViolation c p now))
    (hrel : ∀ c, P c → P (releaseHeld c p))
    (c : ATCSController) (elapsed r : Nat) (now : Int) (hc : P c) :
    P (flightThread.phaseSwitch c p elapsed r now).1 := by
  unfold flightThread.phaseSwitch
  split
  · split_ifs
    · exact hcheck _ _ (hsp _ _ (hph _ _ hc))
    · exact hc
  · split_ifs
    · exact hcheck _ _ (hsp _ _ (hph _ _ hc))
    · exact hc
  · split_ifs
    · exact hcheck _ _ (hsp _ _ hc)
    · exact hsp _ _ (hph _ _ hc)
  · split_ifs
    · exact hsp _ _ (hph _ _ hc)
    · exact hc
  · simp only []
    apply hrel
    split_ifs
    · exact hsp _ _ (hph _ _ hc)
    · exact hc
    · exact hc
  · split_ifs
    · exact hcheck _ _ (hsp _ _ (hph _ _ hc))
    · exact hsp _ _ hc
  · split_ifs
    · exact hrel _ (hcheck _ _ (hsp _ _ (hph _ _ hc)))
    · exact hc
  · split_ifs
    · exact hph _ _ hc
    · exact hc
  · exact hc

/-- Preservation scheme for one whole round (one poll) of the actor of flight `p`. -/
theorem step_frame (P : ATCSController → Prop) (p : Nat)
    (hph : ∀ c ph, P c → P (updatePhase c p ph))
    (hsp : ∀ c v, P c → P (updateSpeed c p v))
    (hcheck : ∀ c now, P c → P (checkSpeedViolation c p now))
    (hrel : ∀ c, P c → P (releaseHeld c p))
    (hmark : ∀ c d, P c →
      P (c.modifyFlight p (fun f => { f with hasFault := true, faultDescription := d })))
    (hremove : ∀ c, P c → P (removeFaultedFlight c p))
    (c : ATCSController) (elapsed r : Nat) (now : Int) (simulationRunning : Bool) (u : ℚ)
    (r2 : Nat) (hc : P c) :
    P (flightThread.step c p elapsed r now simulationRunning u r2).1 := by
  have h1 := phaseSwitch_frame P p hph hsp hcheck hrel c elapsed r now hc
  unfold flightThread.step
  simp only []
  split_ifs
  · exact h1
  · unfold checkGroundFaults
    split_ifs
    · exact hremove _ (hmark _ _ h1)
    · exact h1
    · exact h1
  · exact h1

/-- One poll of the actor of flight `p` leaves every other flight record as it was. -/
theorem step_other (c : ATCSController) (p elapsed r : Nat) (now : Int)
    (simulationRunning : Bool) (u : ℚ) (r2 : Nat) (q : Nat) (hq : q ≠ p) :
    (flightThread.step c p elapsed r now simulationRunning u r2).1.flightAt q =
      c.flightAt q := by
  refine step_frame (fun c' => c'.flightAt q = c.flightAt q) p ?_ ?_ ?_ ?_ ?_ ?_ c elapsed r
    now simulationRunning u r2 rfl
  · intro c1 ph h
    unfold updatePhase
    rw [flightAt_modifyFlight, if_neg (fun hh => hq hh.1)]
    exact h
  · intro c1 v h
    unfold updateSpeed
    rw [flightAt_modifyFlight, if_neg (fun hh => hq hh.1)]
    exact h
  · intro c1 now1 h
    rw [flightAt_checkSpeedViolation, if_neg (fun hh => hq hh.1)]
    exact h
  · intro c1 h
    rw [flightAt_releaseHeld, if_neg (fun hh => hq hh.1)]
    exact h
  · intro c1 d h
    rw [flightAt_modifyFlight, if_neg (fun hh => hq hh.1)]
    exact h
  · intro c1 h
    rw [flightAt_removeFaulted, if_neg (fun hh => hq hh.1)]
    exact h

/-! ## The phase table (C18) -/

/-- C18: one poll of the actor of a flight changes the phase of the flight exactly when
the elapsed dwell time has reached the threshold of its phase (Holding 10, Approach 8,
Landing 6, Taxi 5, AtGate 5, TakeoffRoll 3, Climb 4, Cruise 10) and the table has a
successor for it, and the new phase is that successor: Holding to Approach, Approach to
Landing, Landing to Taxi, Taxi to AtGate, AtGate to Taxi for departures only (arrivals
stay AtGate), TakeoffRoll to Climb, Climb to Cruise, Cruise to Departure. A poll in
Departure ends the actor. No other flight changes. -/
theorem flightThread_phase_table (c : ATCSController) (p elapsed r : Nat) (now : Int)
    (simulationRunning : Bool) (u : ℚ) (r2 : Nat) (hp : p < c.flights.length) :
    ((flightThread.step c p elapsed r now simulationRunning u r2).1.flightAt p).phase =
        (if thresholdReached (c.flightAt p).phase elapsed then
          tableSuccessor (c.flightAt p).phase (c.flightAt p).direction
        else (c.flightAt p).phase) ∧
      (((flightThread.step c p elapsed r now simulationRunning u r2).1.flightAt p).phase ≠
          (c.flightAt p).phase ↔
        thresholdReached (c.flightAt p).phase elapsed ∧
          ¬ ((c.flightAt p).phase = FlightPhase.AtGate ∧
            ¬ isDeparture (c.flightAt p).direction)) ∧
      ((c.flightAt p).phase = FlightPhase.Departure →
        (flightThread.step c p elapsed r now simulationRunning u r2).2 = false) ∧
      (∀ q, q ≠ p →
        (flightThread.step c p elapsed r now simulationRunning u r2).1.flightAt q =
          c.flightAt q) := by
  have h1 : ((flightThread.step c p elapsed r now simulationRunning u r2).1.flightAt p).phase =
      (if thresholdReached (c.flightAt p).phase elapsed then
        tableSuccessor (c.flightAt p).phase (c.flightAt p).direction
      else (c.flightAt p).phase) := by
    rw [phase_step, phase_phaseSwitch c p elapsed r now hp]
    cases hph : (c.flightAt p).phase <;>
      simp only [thresholdReached, dwellThreshold, tableSuccessor, isDeparture, ge_iff_le,
        if_false] <;>
      split_ifs <;> first | rfl | omega | simp_all
  refine ⟨h1, ?_, ?_, fun q hq => step_other c p elapsed r now simulationRunning u r2 q hq⟩
  · rw [h1]
    cases hph : (c.flightAt p).phase <;>
      simp only [thresholdReached, dwellThreshold, tableSuccessor, isDeparture] <;>
      split_ifs <;> simp_all
  · intro hd
    have := (phaseSwitch_return c p elapsed r now).2 (Or.inl hd)
    unfold flightThread.step
    simp only [this, if_true]

theorem flightThread_phase_table_witness :
    ((flightThread.step sampleTwoQueued 0 10 0 0 true (1 / 2) 0).1.flightAt 0).phase =
        FlightPhase.Approach ∧
      ((flightThread.step sampleTwoQueued 0 9 0 0 true (1 / 2) 0).1.flightAt 0).phase =
        FlightPhase.Holding :=
  ⟨(flightThread_phase_table sampleTwoQueued 0 10 0 0 true (1 / 2) 0 (by decide)).1,
    (flightThread_phase_table sampleTwoQueued 0 9 0 0 true (1 / 2) 0 (by decide)).1⟩

/-! ## Ground faults (C17) -/

theorem toDouble_005 : toDouble (5 / 100) = 3602879701896397 / 72057594037927936 := by
  have := roundBinary_eq 53 (5/100) (-5) 7205759403792794
    (by norm_num [abs_of_pos]) (by norm_num [abs_of_pos]) (by norm_num) (by norm_num)
  unfold toDouble
  rw [this]
  norm_num

theorem toDouble_zero : toDouble 0 = 0 := by
  simp [toDouble, roundBinary]

theorem toDouble_half : toDouble (1 / 2) = 1 / 2 := by
  have := roundBinary_eq 53 (1/2) (-1) 4503599627370496
    (by norm_num [abs_of_pos]) (by norm_num [abs_of_pos]) (by norm_num) (by norm_num)
  unfold toDouble
  rw [this]
  norm_num

/-- No `double` lies between 5/100 and the `double` literal `0.05`: for a draw of type
`double`, the test `dis(gen) < 0.05` is the test against 5/100. -/
theorem double_lt_literal (u : ℚ) (hu : isDouble u) : u < toDouble (5 / 100) ↔ u < 5 / 100 := by
  rw [toDouble_005]
  constructor
  · intro h
    by_contra hge
    have hge : (5 : ℚ) / 100 ≤ u := not_lt.1 hge
    have hpos : 0 < u := by linarith
    have hne : u ≠ 0 := ne_of_gt hpos
    have hb : binade u = -5 :=
      binade_eq u (-5) (by rw [abs_of_pos hpos]; norm_num; linarith)
        (by rw [abs_of_pos hpos]; norm_num; linarith)
    unfold isDouble toDouble roundBinary at hu
    rw [if_neg hne] at hu
    simp only [hb] at hu
    norm_num at hu
    generalize roundHalfEven (u * 144115188075855872) = j at hu
    have h1 : (j : ℚ) < 7205759403792794 := by
      rw [← hu] at h
      linarith
    have h2 : j < 7205759403792794 := by exact_mod_cast h1
    have h3 : j ≤ 7205759403792793 := by omega
    have h4 : (j : ℚ) ≤ 7205759403792793 := by exact_mod_cast h3
    rw [← hu] at hge
    linarith
  · intro h
    linarith

theorem faultTypes_mem (r : Nat) : faultTypes.getD (r % faultTypes.length) "" ∈ faultTypes := by
  have h : r % 4 = 0 ∨ r % 4 = 1 ∨ r % 4 = 2 ∨ r % 4 = 3 := by omega
  have hl : faultTypes.length = 4 := rfl
  rw [hl]
  rcases h with h | h | h | h <;> rw [h] <;> simp [faultTypes]

theorem checkGroundFaults_eq (c : ATCSController) (p : Nat) (u : ℚ) (r : Nat)
    (hu : isDouble u) :
    checkGroundFaults c p u r =
      if groundFaultFires (c.flightAt p) u then removeFaultedFlight (markFaulted c p r) p
      else c := by
  have hd := double_lt_literal u hu
  unfold checkGroundFaults markFaulted
  by_cases hf : groundFaultFires (c.flightAt p) u
  · rw [if_pos hf, if_pos hf.1, if_pos ⟨hd.2 hf.2.2, hf.2.1⟩]
  · rw [if_neg hf]
    split_ifs with h1 h2
    · exact absurd ⟨h1, h2.2, hd.1 h2.1⟩ hf
    · rfl
    · rfl

/-- A poll whose draw is not below the literal `0.05` injects no fault. -/
theorem step_quiet (c : ATCSController) (p elapsed r : Nat) (now : Int)
    (simulationRunning : Bool) (u : ℚ) (r2 : Nat) (hu : toDouble (5 / 100) ≤ u) :
    (flightThread.step c p elapsed r now simulationRunning u r2).1 =
      (flightThread.phaseSwitch c p elapsed r now).1 := by
  unfold flightThread.step
  simp only []
  split_ifs
  · rfl
  · unfold checkGroundFaults
    split_ifs with h1 h2
    · exact absurd h2.1 (not_lt.2 hu)
    · rfl
    · rfl
  · rfl

theorem half_quiet : toDouble (5 / 100) ≤ 1 / 2 := by
  rw [toDouble_005]
  norm_num

/-- A poll that stays in the loop while the simulation runs ends with `checkGroundFaults`. -/
theorem step_running (c : ATCSController) (p elapsed r : Nat) (now : Int) (u : ℚ) (r2 : Nat)
    (h : (flightThread.phaseSwitch c p elapsed r now).2 = false) :
    (flightThread.step c p elapsed r now true u r2).1 =
      checkGroundFaults (flightThread.phaseSwitch c p elapsed r now).1 p u r2 := by
  unfold flightThread.step
  simp only [h, Bool.false_eq_true, if_false, if_true]

theorem sampleTaxi_reachable : Reachable sampleTaxi := by
  have h0 : Reachable (runwayManagementThread.pass (ATCSController.new.addFlight sampleNorth)) :=
    Reachable.step _ _ (Reachable.step _ _ Reachable.init
      (Step.create _ 1000 samplePIA AircraftType.Commercial FlightDirection.NorthArrival 10
        EmergencyType.None)) (Step.dispatch _)
  have s1 := Step.poll _ 0 10 0 100 true (1 / 2) 0
    (show 0 < (runwayManagementThread.pass
      (ATCSController.new.addFlight sampleNorth)).flights.length by decide)
  rw [step_quiet _ _ _ _ _ _ _ _ half_quiet] at s1
  have h1 := Reachable.step _ _ h0 s1
  have s2 := Step.poll _ 0 8 0 200 true (1 / 2) 0
    (show 0 < (flightThread.phaseSwitch (runwayManagementThread.pass
      (ATCSController.new.addFlight sampleNorth)) 0 10 0 100).1.flights.length by decide)
  rw [step_quiet _ _ _ _ _ _ _ _ half_quiet] at s2
  have h2 := Reachable.step _ _ h1 s2
  have s3 := Step.poll _ 0 6 0 300 true (1 / 2) 0
    (show 0 < (flightThread.phaseSwitch (flightThread.phaseSwitch
      (runwayManagementThread.pass (ATCSController.new.addFlight sampleNorth))
      0 10 0 100).1 0 8 0 200).1.flights.length by decide)
  rw [step_quiet _ _ _ _ _ _ _ _ half_quiet] at s3
  exact Reachable.step _ _ h2 s3

theorem sampleTaxi_fires : groundFaultFires (sampleTaxi.flightAt 0) 0 :=
  ⟨Or.inl rfl, rfl, by norm_num⟩

theorem sampleFaulted_step :
    (flightThread.step sampleTaxi 0 0 0 0 true 0 0).1 = sampleFaulted := by
  rw [step_running sampleTaxi 0 0 0 0 0 0 rfl]
  show checkGroundFaults sampleTaxi 0 0 0 = _
  rw [checkGroundFaults_eq _ _ _ _ toDouble_zero, if_pos sampleTaxi_fires]
  rfl

theorem sampleFaulted_reachable : Reachable sampleFaulted := by
  have s := Step.poll sampleTaxi 0 0 0 0 true 0 0 (by decide)
  rw [sampleFaulted_step] at s
  exact Reachable.step _ _ sampleTaxi_reachable s

/-- Preservation scheme for the dispatch loop: only its three kinds of write have to be
checked. -/
theorem loop_frame (P : ATCSController → Prop)
    (hassign : ∀ c p, P c → P (assignRunway c p).2)
    (hqueue : ∀ c q, P c → P { c with runwayQueue := q })
    (hwait : ∀ c p, P c →
      P (c.modifyFlight p (fun f => { f with estimatedWaitTime := f.estimatedWaitTime + 500 }))) :
    ∀ (fuel : Nat) (c : ATCSController), P c → P (runwayManagementThread.loop fuel c) := by
  intro fuel
  induction fuel with
  | zero => intro c h; exact h
  | succ n ih =>
    intro c h
    rw [runwayManagementThread.loop]
    split
    · exact h
    · rename_i p _
      simp only []
      split_ifs
      · exact ih _ (hqueue _ _ (hassign c p h))
      · exact hwait _ p (hassign c p h)
      · exact ih _ (hqueue _ _ h)

/-- Preservation scheme for one operation of the engine, by the kinds of write the
operations perform. -/
theorem Step_frame (P : ATCSController → Prop)
    (hadd : ∀ c num al aty dir sched emType, P c →
      P (c.addFlight (Flight.new num al aty dir sched emType)))
    (hassign : ∀ c p, P c → P (assignRunway c p).2)
    (hqueue : ∀ c q, P c → P { c with runwayQueue := q })
    (hwait : ∀ c p, P c →
      P (c.modifyFlight p (fun f => { f with estimatedWaitTime := f.estimatedWaitTime + 500 })))
    (hph : ∀ c p ph, P c → P (updatePhase c p ph))
    (hsp : ∀ c p v, P c → P (updateSpeed c p v))
    (hcheck : ∀ c p now, P c → P (checkSpeedViolation c p now))
    (hrel : ∀ c p, P c → P (releaseHeld c p))
    (hmark : ∀ c p d, P c →
      P (c.modifyFlight p (fun f => { f with hasFault := true, faultDescription := d })))
    (c c' : ATCSController) (hs : Step c c') (hc : P c) : P c' := by
  have hremove : ∀ c p, P c → P (removeFaultedFlight c p) := by
    intro c p h
    unfold removeFaultedFlight
    exact hrel _ p (hqueue c _ h)
  cases hs with
  | create num al aty dir sched emType => exact hadd c num al aty dir sched emType hc
  | dispatch => exact loop_frame P hassign hqueue hwait _ c hc
  | poll p elapsed r now running u r2 hp =>
    exact step_frame P p (hph · p) (hsp · p) (hcheck · p) (hrel · p) (hmark · p)
      (hremove · p) c elapsed r now running u r2 hc
  | fault p hp => exact hremove c p hc

theorem default_hasFault : (default : Flight).hasFault = false := rfl

/-- No operation of the engine clears the fault flag of a flight. -/
theorem hasFault_step (c c' : ATCSController) (hs : Step c c') (i : Nat)
    (h : (c.flightAt i).hasFault = true) : (c'.flightAt i).hasFault = true := by
  refine Step_frame (fun c1 => (c1.flightAt i).hasFault = true) ?_ ?_ ?_ ?_ ?_ ?_ ?_ ?_ ?_
    c c' hs h
  · intro c1 num al aty dir sched emType h1
    show ((c1.addFlight _).flightAt i).hasFault = true
    rw [flightAt_addFlight]
    split_ifs with a b
    · exact h1
    · rw [flightAt_invalid c1 i a, default_hasFault] at h1
      exact Bool.noConfusion h1
    · rw [flightAt_invalid c1 i a, default_hasFault] at h1
      exact Bool.noConfusion h1
  · intro c1 p h1
    show ((assignRunway c1 p).2.flightAt i).hasFault = true
    rw [flightAt_assignRunway]
    split_ifs with a
    · rw [a.1] at h1
      rcases onFlight_outcome c1.runways (c1.flightAt p) with e | ⟨j, rw, _, _, e⟩
      · rw [e]; exact h1
      · rw [e]; exact h1
    · exact h1
  · intro c1 q h1
    exact h1
  · intro c1 p h1
    show ((c1.modifyFlight p _).flightAt i).hasFault = true
    rw [flightAt_modifyFlight]
    split_ifs with a
    · rw [a.1] at h1; exact h1
    · exact h1
  · intro c1 p ph h1
    show ((updatePhase c1 p ph).flightAt i).hasFault = true
    unfold updatePhase
    rw [flightAt_modifyFlight]
    split_ifs with a
    · rw [a.1] at h1; exact h1
    · exact h1
  · intro c1 p v h1
    show ((updateSpeed c1 p v).flightAt i).hasFault = true
    unfold updateSpeed
    rw [flightAt_modifyFlight]
    split_ifs with a
    · rw [a.1] at h1; exact h1
    · exact h1
  · intro c1 p now h1
    show ((checkSpeedViolation c1 p now).flightAt i).hasFault = true
    rw [flightAt_checkSpeedViolation]
    split_ifs with a
    · rw [(onFlight_fields _ _ _).2.2.1, ← a.1]; exact h1
    · exact h1
  · intro c1 p h1
    show ((releaseHeld c1 p).flightAt i).hasFault = true
    rw [flightAt_releaseHeld]
    split_ifs with a
    · rw [a.1] at h1; exact h1
    · exact h1
  · intro c1 p d h1
    show ((c1.modifyFlight p _).flightAt i).hasFault = true
    rw [flightAt_modifyFlight]
    split_ifs with a
    · rfl
    · exact h1

theorem hasFault_later (c c' : ATCSController) (hl : Later c c') (i : Nat)
    (h : (c.flightAt i).hasFault = true) : (c'.flightAt i).hasFault = true := by
  induction hl with
  | refl => exact h
  | step c1 c2 _ hs ih => exact hasFault_step c1 c2 hs i ih

theorem flightAt_markFaulted (c : ATCSController) (p r : Nat) (hp : p < c.flights.length) :
    (removeFaultedFlight (markFaulted c p r) p).flightAt p =
      { c.flightAt p with
          hasFault := true
          faultDescription := faultTypes.getD (r % faultTypes.length) ""
          runwayAssigned := -1 } := by
  have hm : (markFaulted c p r).flightAt p =
      { c.flightAt p with
          hasFault := true
          faultDescription := faultTypes.getD (r % faultTypes.length) "" } := by
    unfold markFaulted
    rw [flightAt_modifyFlight, if_pos ⟨rfl, hp⟩]
  rw [flightAt_removeFaulted, hm]
  split_ifs with h
  · rfl
  · have hl : p < (markFaulted c p r).flights.length := by
      simpa [markFaulted, ATCSController.modifyFlight] using hp
    have : (c.flightAt p).runwayAssigned = -1 := by
      by_contra hne
      exact h ⟨rfl, hl, hne⟩
    rw [← this]

/-- C17: for a draw `u` of type `double`, `checkGroundFaults` marks the flight faulted
exactly when the flight is in Taxi or AtGate, is not yet faulted and `u < 0.05`; it then
stores one of the four listed fault descriptions and removes the flight from the backlog
(no entry with its flight number remains). In every other case the whole controller
(flight, backlog, runway pool) is unchanged. No later operation clears `hasFault`. -/
theorem checkGroundFaults_fires_iff (c : ATCSController) (p : Nat) (u : ℚ) (r : Nat)
    (hc : Reachable c) (hp : p < c.flights.length) (hu : isDouble u) :
    (((c.flightAt p).hasFault = false ∧
        ((checkGroundFaults c p u r).flightAt p).hasFault = true) ↔
      groundFaultFires (c.flightAt p) u) ∧
    (groundFaultFires (c.flightAt p) u →
      checkGroundFaults c p u r = removeFaultedFlight (markFaulted c p r) p ∧
        ((checkGroundFaults c p u r).flightAt p).faultDescription ∈ faultTypes ∧
        p ∉ (checkGroundFaults c p u r).runwayQueue ∧
        ∀ q ∈ (checkGroundFaults c p u r).runwayQueue,
          (c.flightAt q).flightNumber ≠ (c.flightAt p).flightNumber) ∧
    (¬ groundFaultFires (c.flightAt p) u → checkGroundFaults c p u r = c) ∧
    (∀ c' i, Later c c' → (c.flightAt i).hasFault = true →
      (c'.flightAt i).hasFault = true) := by
  have he := checkGroundFaults_eq c p u r hu
  have hq : QueueInv (markFaulted c p r) :=
    QueueInv_modify c p _ (fun _ => rfl) (Reachable_QueueInv c hc)
  have hl : p < (markFaulted c p r).flights.length := by
    simpa [markFaulted, ATCSController.modifyFlight] using hp
  refine ⟨?_, ?_, ?_, fun c' i hl h => hasFault_later c c' hl i h⟩
  · constructor
    · rintro ⟨h1, h2⟩
      by_contra hn
      rw [he, if_neg hn, h1] at h2
      exact Bool.noConfusion h2
    · intro hf
      refine ⟨hf.2.1, ?_⟩
      rw [he, if_pos hf, flightAt_markFaulted c p r hp]
  · intro hf
    rw [he, if_pos hf]
    refine ⟨rfl, ?_, (removeFaulted_retired _ p hq hl).2.1, ?_⟩
    · rw [flightAt_markFaulted c p r hp]
      exact faultTypes_mem r
    · intro q hm
      have h1 := (removeFaulted_queue _ p hq).2.subset hm
      have h2 := (List.mem_filter.1 h1).2
      have e : ∀ x, ((markFaulted c p r).flightAt x).flightNumber =
          (c.flightAt x).flightNumber := by
        intro x
        unfold markFaulted
        rw [flightAt_modifyFlight]
        split_ifs with a
        · rw [a.1]
        · rfl
      rw [e q, e p] at h2
      simpa using h2
  · intro hn
    rw [he, if_neg hn]

theorem checkGroundFaults_fires_iff_witness :
    (sampleTaxi.flightAt 0).hasFault = false ∧
      ((checkGroundFaults sampleTaxi 0 0 0).flightAt 0).hasFault = true ∧
      checkGroundFaults sampleTaxi 0 (1 / 2) 0 = sampleTaxi :=
  ⟨rfl,
    ((checkGroundFaults_fires_iff sampleTaxi 0 0 0 sampleTaxi_reachable (by decide)
      toDouble_zero).1.2 sampleTaxi_fires).2,
    (checkGroundFaults_fires_iff sampleTaxi 0 (1 / 2) 0 sampleTaxi_reachable (by decide)
      toDouble_half).2.2.1 (fun h => absurd h.2.2 (by norm_num))⟩

/-! ## A faulted flight keeps moving (C16) -/

/-- The actor of a flight does not read `hasFault`: a flight in Taxi, faulted or not,
is moved to AtGate by the first poll after 5 s. -/
theorem taxi_to_gate (c : ATCSController) (p elapsed r : Nat) (now : Int)
    (simulationRunning : Bool) (u : ℚ) (r2 : Nat) (hp : p < c.flights.length)
    (hph : (c.flightAt p).phase = FlightPhase.Taxi) (he : 5 ≤ elapsed) :
    ((flightThread.step c p elapsed r now simulationRunning u r2).1.flightAt p).phase =
      FlightPhase.AtGate := by
  rw [phase_step, phase_phaseSwitch c p elapsed r now hp, hph]
  simp only [ge_iff_le, he, if_true]

/-- C16, at the failing input: the flight of `sampleFaulted` is faulted and in Taxi, and
the poll of its actor after 5 s moves it to AtGate. -/
theorem faulted_flight_advances :
    Reachable sampleFaulted ∧ (sampleFaulted.flightAt 0).hasFault = true ∧
      (sampleFaulted.flightAt 0).phase = FlightPhase.Taxi ∧
      ((flightThread.step sampleFaulted 0 5 0 0 true (1 / 2) 0).1.flightAt 0).phase =
        FlightPhase.AtGate :=
  ⟨sampleFaulted_reachable, rfl, rfl,
    taxi_to_gate sampleFaulted 0 5 0 0 true (1 / 2) 0 (by decide) rfl (by decide)⟩

/-! ## Speed on leaving Holding (C19) -/

/-- The `switch` of a poll on a flight that has been in Holding for 10 s: the flight
enters Approach with the speed `400 + rand() % 201`, which is above the Approach limit of
290, and a flight without an open violation gets one. -/
theorem holding_exit_speed (c : ATCSController) (p elapsed r : Nat) (now : Int)
    (hp : p < c.flights.length) (hph : (c.flightAt p).phase = FlightPhase.Holding)
    (he : 10 ≤ elapsed) :
    ((flightThread.phaseSwitch c p elapsed r now).1.flightAt p).phase = FlightPhase.Approach ∧
      ((flightThread.phaseSwitch c p elapsed r now).1.flightAt p).speed =
        ((400 + r % 201 : Nat) : ℚ) ∧
      ¬ inEnvelope FlightPhase.Approach ((400 + r % 201 : Nat) : ℚ) ∧
      ((c.flightAt p).violationActive = false →
        ((flightThread.phaseSwitch c p elapsed r now).1.flightAt p).violationActive = true) := by
  have hl : p < (updateSpeed (updatePhase c p FlightPhase.Approach) p
      ((400 + r % 201 : Nat) : ℚ)).flights.length := by
    simpa [updateSpeed, updatePhase, ATCSController.modifyFlight] using hp
  have hf : (updateSpeed (updatePhase c p FlightPhase.Approach) p
      ((400 + r % 201 : Nat) : ℚ)).flightAt p =
      { c.flightAt p with phase := FlightPhase.Approach, speed := ((400 + r % 201 : Nat) : ℚ) } := by
    unfold updateSpeed
    rw [flightAt_modifyFlight, if_pos ⟨rfl, by
      simpa [updatePhase, ATCSController.modifyFlight] using hp⟩]
    unfold updatePhase
    rw [flightAt_modifyFlight, if_pos ⟨rfl, hp⟩]
  have hsw : (flightThread.phaseSwitch c p elapsed r now).1 =
      checkSpeedViolation (updateSpeed (updatePhase c p FlightPhase.Approach) p
        ((400 + r % 201 : Nat) : ℚ)) p now := by
    unfold flightThread.phaseSwitch
    rw [hph]
    simp only [ge_iff_le, he, if_true]
  have hout : ¬ inEnvelope FlightPhase.Approach ((400 + r % 201 : Nat) : ℚ) := by
    unfold inEnvelope
    simp only [not_and, not_le]
    intro _
    have : (290 : ℚ) < ((400 + r % 201 : Nat) : ℚ) := by
      have h400 : (400 : ℚ) ≤ ((400 + r % 201 : Nat) : ℚ) := by
        exact_mod_cast Nat.le_add_right 400 (r % 201)
      linarith
    exact this
  rw [hsw, flightAt_checkSpeedViolation, if_pos ⟨rfl, hl⟩, hf]
  refine ⟨(onFlight_fields _ _ _).1, (onFlight_fields _ _ _).2.2.2.1, hout, ?_⟩
  intro hv
  have hb := (verdict_breach FlightPhase.Approach ((400 + r % 201 : Nat) : ℚ)).2 hout
  unfold checkSpeedViolation.onFlight
  simp only [hb, hv, Bool.not_false, Bool.and_self, if_true]

/-- C19, at the failing input: flight 0 of `sampleTwoQueued` is in Holding with no open
violation; the poll after 10 s (with `rand()` returning 0) leaves it in Approach at
400 km/h, not 290, with a violation opened and ticket 1 issued. -/
theorem holding_exit_opens_violation :
    Reachable sampleTwoQueued ∧
      (sampleTwoQueued.flightAt 0).phase = FlightPhase.Holding ∧
      (sampleTwoQueued.flightAt 0).violationActive = false ∧
      (sampleViolated.flightAt 0).phase = FlightPhase.Approach ∧
      (sampleViolated.flightAt 0).speed = 400 ∧
      ¬ inEnvelope FlightPhase.Approach (sampleViolated.flightAt 0).speed ∧
      (sampleViolated.flightAt 0).violationActive = true ∧
      (sampleViolated.flightAt 0).violationReason =
        "Speed outside approach range (240-290 km/h)" ∧
      (sampleViolated.flightAt 0).avnIDs = [1] :=
  ⟨sampleTwoQueued_reachable, rfl, rfl, rfl, rfl,
    (holding_exit_speed sampleTwoQueued 0 10 0 0 (by decide) rfl (by decide)).2.2.1,
    rfl, rfl, rfl⟩

/-! ## The phase a generated flight starts in (C20) -/

theorem toFloat_015 : toFloat (15 / 100) = 5033165 / 33554432 := by
  have := roundBinary_eq 24 (15/100) (-3) 10066330
    (by norm_num [abs_of_pos]) (by norm_num [abs_of_pos]) (by norm_num) (by norm_num)
  unfold toFloat
  rw [this]
  norm_num

/-- What `generate` returns: the controller as it was when no airline is a candidate, or
the controller with one flight more, built by the constructor from the direction of the
schedule. -/
theorem generate_cases (c : ATCSController) (schedule : FlightSchedule)
    (flightNumberCounter : Nat) (u1 u2 : ℚ) (sysNow : Int) (c' : ATCSController) (n' : Nat)
    (h : flightGenerationThread.generate c schedule flightNumberCounter u1 u2 sysNow =
      some (c', n')) :
    (c' = c ∧ n' = flightNumberCounter) ∨
      ∃ airline emType,
        c' = c.addFlight (Flight.new (unsignedToInt flightNumberCounter) airline airline.type
          schedule.direction sysNow emType) ∧
        n' = (flightNumberCounter + 1) % 2 ^ 32 := by
  unfold flightGenerationThread.generate at h
  simp only [] at h
  by_cases hne : flightGenerationThread.candidateAirlines c.airlines schedule
      (decide (u1 < schedule.emergencyProbability)) ≠ []
  · rw [if_pos hne] at h
    split at h
    · split at h
      · rename_i airline _
        injection h with h
        injection h with h1 h2
        exact Or.inr ⟨airline, _, h1.symm, h2.symm⟩
      · exact Option.noConfusion h
    · exact Option.noConfusion h
  · rw [if_neg hne] at h
    injection h with h
    injection h with h1 h2
    exact Or.inl ⟨h1.symm, h2.symm⟩

theorem sampleDeparture_generated :
    flightGenerationThread.generate ATCSController.new sampleEastSchedule 1000 (1 / 2) 0 0 =
      some (sampleDeparture, 1001) := by
  have hb : decide ((1 : ℚ) / 2 < sampleEastSchedule.emergencyProbability) = false := by
    have : sampleEastSchedule.emergencyProbability = toFloat (15 / 100) := rfl
    rw [this, toFloat_015]
    norm_num
  have hcand : flightGenerationThread.candidateAirlines ATCSController.new.airlines
      sampleEastSchedule false = [0, 1, 2, 4] := by decide
  unfold flightGenerationThread.generate
  simp only [hb, hcand, zero_mul, toDouble_zero, Int.floor_zero, Int.toNat_zero]
  rfl

/-- C20 as stated fails: the flight the generator creates on the fresh controller for the
East departure schedule (draws 1/2 and 0) starts in Holding, not in AtGate or Taxi. -/
theorem departure_starts_holding :
    sampleEastSchedule ∈ ATCSController.new.flightSchedules ∧
      flightGenerationThread.generate ATCSController.new sampleEastSchedule 1000 (1 / 2) 0 0 =
        some (sampleDeparture, 1001) ∧
      (sampleDeparture.flightAt 0).direction = FlightDirection.EastDeparture ∧
      (sampleDeparture.flightAt 0).phase = FlightPhase.Holding ∧
      (sampleDeparture.flightAt 0).phase ≠ FlightPhase.AtGate ∧
      (sampleDeparture.flightAt 0).phase ≠ FlightPhase.Taxi :=
  ⟨by simp [ATCSController.new, sampleEastSchedule], sampleDeparture_generated, rfl, rfl,
    by decide, by decide⟩

/-- C20, amended: every flight the generator creates, for an arrival direction or for a
departure direction, is the last entry of `flights`, has the direction of its schedule and
starts in the Holding phase. -/
theorem generated_flight_starts_holding (c : ATCSController) (schedule : FlightSchedule)
    (flightNumberCounter : Nat) (u1 u2 : ℚ) (sysNow : Int) (c' : ATCSController) (n' : Nat)
    (h : flightGenerationThread.generate c schedule flightNumberCounter u1 u2 sysNow =
      some (c', n'))
    (hnew : c' ≠ c) :
    c'.flights.length = c.flights.length + 1 ∧
      (c'.flightAt c.flights.length).direction = schedule.direction ∧
      (c'.flightAt c.flights.length).phase = FlightPhase.Holding := by
  rcases generate_cases c schedule flightNumberCounter u1 u2 sysNow c' n' h with
    ⟨e, _⟩ | ⟨airline, emType, e, _⟩
  · exact absurd e hnew
  · subst e
    refine ⟨by simp [ATCSController.addFlight, ATCSController.pushQueue], ?_, ?_⟩
    · rw [flightAt_addFlight, if_neg (lt_irrefl _), if_pos rfl]
      rfl
    · rw [flightAt_addFlight, if_neg (lt_irrefl _), if_pos rfl]
      rfl

theorem generated_flight_starts_holding_witness :
    (sampleDeparture.flightAt 0).direction = FlightDirection.EastDeparture ∧
      (sampleDeparture.flightAt 0).phase = FlightPhase.Holding :=
  (generated_flight_starts_holding ATCSController.new sampleEastSchedule 1000 (1 / 2) 0 0
    sampleDeparture 1001 sampleDeparture_generated
    (fun e => absurd (congrArg (fun x => x.flights.length) e) (by decide))).2

/-! ## The candidate airlines of the generator (C21) -/

theorem isCandidate_iff (schedule : FlightSchedule) (isEmergency : Bool) (a : Airline) :
    flightGenerationThread.isCandidate schedule isEmergency a = true ↔
      candidateRule schedule isEmergency a := by
  unfold flightGenerationThread.isCandidate candidateRule
  cases isEmergency <;> cases hs : schedule.emergencyType <;> simp

theorem mem_candidateAirlines (airlines : List Airline) (schedule : FlightSchedule)
    (isEmergency : Bool) (j : Nat) :
    j ∈ flightGenerationThread.candidateAirlines airlines schedule isEmergency ↔
      ∃ a, airlines[j]? = some a ∧ candidateRule schedule isEmergency a := by
  unfold flightGenerationThread.candidateAirlines
  rw [List.mem_filter, List.mem_range]
  constructor
  · rintro ⟨hj, h⟩
    rw [List.getElem?_eq_getElem hj] at h
    exact ⟨airlines[j], List.getElem?_eq_getElem hj, (isCandidate_iff _ _ _).1 h⟩
  · rintro ⟨a, ha, hr⟩
    have hj : j < airlines.length := by
      by_contra hn
      rw [List.getElem?_eq_none (by omega)] at ha
      exact Option.noConfusion ha
    refine ⟨hj, ?_⟩
    rw [ha]
    exact (isCandidate_iff _ _ _).2 hr

theorem generate_of_empty (c : ATCSController) (schedule : FlightSchedule)
    (flightNumberCounter : Nat) (u1 u2 : ℚ) (sysNow : Int)
    (h : flightGenerationThread.candidateAirlines c.airlines schedule
      (decide (u1 < schedule.emergencyProbability)) = []) :
    flightGenerationThread.generate c schedule flightNumberCounter u1 u2 sysNow =
      some (c, flightNumberCounter) := by
  unfold flightGenerationThread.generate
  simp only [h, ne_eq, not_true_eq_false, if_false]

/-- C21: for every airline table, schedule and emergency draw, airline `j` is in the
candidate vector of the generator exactly when it is named `Pakistan Airforce` (emergency,
subtype Military), named `AghaKhan Air Ambulance` (emergency, subtype Medical), of the
Emergency category (emergency, any other subtype), or of a non-Emergency category (no
emergency); no airline is listed twice. When the vector is empty the generator returns the
controller and the flight-number counter unchanged. -/
theorem candidateAirlines_exact (c : ATCSController) (schedule : FlightSchedule)
    (flightNumberCounter : Nat) (u1 u2 : ℚ) (sysNow : Int) (isEmergency : Bool) :
    (∀ j, j ∈ flightGenerationThread.candidateAirlines c.airlines schedule isEmergency ↔
      ∃ a, c.airlines[j]? = some a ∧ candidateRule schedule isEmergency a) ∧
    (flightGenerationThread.candidateAirlines c.airlines schedule isEmergency).Nodup ∧
    (flightGenerationThread.candidateAirlines c.airlines schedule
        (decide (u1 < schedule.emergencyProbability)) = [] →
      flightGenerationThread.generate c schedule flightNumberCounter u1 u2 sysNow =
        some (c, flightNumberCounter)) :=
  ⟨mem_candidateAirlines c.airlines schedule isEmergency,
    List.Nodup.filter _ (List.nodup_range _),
    generate_of_empty c schedule flightNumberCounter u1 u2 sysNow⟩

theorem candidateAirlines_exact_witness :
    flightGenerationThread.candidateAirlines samplePIAOnly.airlines sampleMilitarySchedule
        true = [] ∧
      flightGenerationThread.generate samplePIAOnly sampleMilitarySchedule 1000 0 0 0 =
        some (samplePIAOnly, 1000) :=
  ⟨by decide,
    (candidateAirlines_exact samplePIAOnly sampleMilitarySchedule 1000 0 0 0 true).2.2
      (by
        have : decide ((0 : ℚ) < sampleMilitarySchedule.emergencyProbability) = true := by
          decide
        rw [this]
        decide)⟩

/-! ## A schedule that always yields a military emergency (C22) -/

theorem floor_draw (u : ℚ) (hd : isDouble u) (h0 : 0 ≤ u) (h1 : u < 1) :
    (Int.floor (toDouble (u * ((1 : Nat) : ℚ)))).toNat = 0 := by
  rw [Nat.cast_one, mul_one, hd]
  have : Int.floor u = 0 := Int.floor_eq_zero_iff.2 ⟨h0, h1⟩
  rw [this]
  rfl

theorem military_candidates (c : ATCSController) (schedule : FlightSchedule)
    (hc : c.airlines = ATCSController.new.airlines)
    (hM : schedule.emergencyType = EmergencyType.Military) :
    flightGenerationThread.candidateAirlines c.airlines schedule true = [3] := by
  rw [hc]
  unfold flightGenerationThread.candidateAirlines flightGenerationThread.isCandidate
  simp only [hM]
  decide

/-- C22: with the reference airline table, a schedule with emergency probability 1.0 and
subtype Military turns every draw from [0,1) into an emergency, and the generator then
creates a flight of the airline `Pakistan Airforce` with emergency subtype Military and
priority level 1 (and consumes one flight number). -/
theorem military_slot (c : ATCSController) (schedule : FlightSchedule)
    (flightNumberCounter : Nat) (u1 u2 : ℚ) (sysNow : Int)
    (hc : c.airlines = ATCSController.new.airlines)
    (hp : schedule.emergencyProbability = 1)
    (hM : schedule.emergencyType = EmergencyType.Military)
    (h1 : u1 < 1) (h2 : 0 ≤ u2 ∧ u2 < 1) (hd : isDouble u2) :
    decide (u1 < schedule.emergencyProbability) = true ∧
      flightGenerationThread.generate c schedule flightNumberCounter u1 u2 sysNow =
        some (c.addFlight (Flight.new (unsignedToInt flightNumberCounter) sampleAirforce
            AircraftType.Emergency schedule.direction sysNow EmergencyType.Military),
          (flightNumberCounter + 1) % 2 ^ 32) ∧
      (Flight.new (unsignedToInt flightNumberCounter) sampleAirforce
          AircraftType.Emergency schedule.direction sysNow
          EmergencyType.Military).airline.name = "Pakistan Airforce" ∧
      (Flight.new (unsignedToInt flightNumberCounter) sampleAirforce
          AircraftType.Emergency schedule.direction sysNow
          EmergencyType.Military).emergencyType = EmergencyType.Military ∧
      (Flight.new (unsignedToInt flightNumberCounter) sampleAirforce
          AircraftType.Emergency schedule.direction sysNow
          EmergencyType.Military).priorityLevel = 1 := by
  have hb : decide (u1 < schedule.emergencyProbability) = true := by
    rw [hp]
    exact decide_eq_true h1
  refine ⟨hb, ?_, rfl, rfl, rfl⟩
  have hcand := military_candidates c schedule hc hM
  unfold flightGenerationThread.generate
  simp only [hb, hcand, ne_eq, List.cons_ne_self, not_false_eq_true, if_true,
    List.length_singleton, floor_draw u2 hd h2.1 h2.2]
  have ha : c.airlines[3]? = some sampleAirforce := by
    rw [hc]
    rfl
  simp only [List.getElem?_cons_zero, ha, hM]
  rfl

theorem military_slot_witness :
    flightGenerationThread.generate ATCSController.new sampleMilitarySchedule 1000 (1 / 2)
        (1 / 2) 0 =
      some (ATCSController.new.addFlight (Flight.new 1000 sampleAirforce
          AircraftType.Emergency FlightDirection.NorthArrival 0 EmergencyType.Military),
        1001) :=
  (military_slot ATCSController.new sampleMilitarySchedule 1000 (1 / 2) (1 / 2) 0 rfl rfl rfl
    (by norm_num) ⟨by norm_num, by norm_num⟩ toDouble_half).2.1

/-! ## Members that never change -/

theorem FixedEq_refl (c : ATCSController) : FixedEq c c := ⟨rfl, rfl, rfl, fun _ => rfl⟩

theorem FixedEq_trans (c d e : ATCSController) (h1 : FixedEq c d) (h2 : FixedEq d e) :
    FixedEq c e :=
  ⟨h2.1.trans h1.1, h2.2.1.trans h1.2.1, h2.2.2.1.trans h1.2.2.1,
    fun i => (h2.2.2.2 i).trans (h1.2.2.2 i)⟩

theorem core_fixed (f g : Flight) (h : f.core = g.core) : f.fixed = g.fixed := by
  have h1 : f.priorityLevel = g.priorityLevel := congrArg (fun x => x.1) h
  have h2 : f.aircraftType = g.aircraftType := congrArg (fun x => x.2.2.2.2.2.1) h
  have h3 : f.emergencyType = g.emergencyType := congrArg (fun x => x.2.2.2.2.2.2.1) h
  have h4 : f.flightNumber = g.flightNumber := congrArg (fun x => x.2.2.2.2.2.2.2.1) h
  have h5 : f.direction = g.direction := congrArg (fun x => x.2.2.2.2.2.2.2.2) h
  unfold Flight.fixed
  rw [h1, h2, h3, h4, h5]

theorem FixedEq_modify (c : ATCSController) (p : Nat) (g : Flight → Flight)
    (hg : ∀ f, (g f).core = f.core) : FixedEq c (c.modifyFlight p g) :=
  ⟨by simp [ATCSController.modifyFlight], rfl, rfl,
    fun q => core_fixed _ _ (core_modifyFlight c p q g hg)⟩

theorem FixedEq_check (c : ATCSController) (p : Nat) (now : Int) :
    FixedEq c (checkSpeedViolation c p now) := by
  refine ⟨by simp [checkSpeedViolation], rfl, rfl, ?_⟩
  intro q
  rw [flightAt_checkSpeedViolation]
  split_ifs with hq
  · rw [hq.1]
    rcases onFlight_cases (c.flightAt p) c.avnGenerator now with e | ⟨_, e⟩
    · rw [e]
    · rw [e]; rfl
  · rfl

theorem releaseRunway_tables (c : ATCSController) (r : Int) :
    (releaseRunway c r).airlines = c.airlines ∧
      (releaseRunway c r).flightSchedules = c.flightSchedules := by
  unfold releaseRunway
  split_ifs
  · split <;> exact ⟨rfl, rfl⟩
  · exact ⟨rfl, rfl⟩

theorem FixedEq_releaseHeld (c : ATCSController) (p : Nat) : FixedEq c (releaseHeld c p) := by
  refine ⟨(releaseHeld_frame c p).1, ?_, ?_, ?_⟩
  · unfold releaseHeld
    split_ifs
    · exact (releaseRunway_tables c _).1
    · rfl
  · unfold releaseHeld
    split_ifs
    · exact (releaseRunway_tables c _).2
    · rfl
  · intro q
    rw [flightAt_releaseHeld]
    split_ifs with hq
    · rw [hq.1]; rfl
    · rfl

theorem FixedEq_queue (c : ATCSController) (q : List Nat) :
    FixedEq c { c with runwayQueue := q } := ⟨rfl, rfl, rfl, fun _ => rfl⟩

theorem FixedEq_assign (c : ATCSController) (p : Nat) : FixedEq c (assignRunway c p).2 := by
  refine ⟨by simp [assignRunway], rfl, rfl, ?_⟩
  intro q
  rw [flightAt_assignRunway]
  split_ifs with hq
  · rw [hq.1]
    rcases onFlight_outcome c.runways (c.flightAt p) with e | ⟨j, r, _, _, e⟩
    · rw [e]
    · rw [e]; rfl
  · rfl

theorem FixedEq_removeFaulted (c : ATCSController) (p : Nat) :
    FixedEq c (removeFaultedFlight c p) := by
  unfold removeFaultedFlight
  exact FixedEq_trans c _ _ (FixedEq_queue c _) (FixedEq_releaseHeld _ p)

/-- A dispatch pass changes no fixed member and neither table. -/
theorem FixedEq_pass (c : ATCSController) : FixedEq c (runwayManagementThread.pass c) :=
  loop_frame (FixedEq c)
    (fun d p h => FixedEq_trans c d _ h (FixedEq_assign d p))
    (fun d q h => FixedEq_trans c d _ h (FixedEq_queue d q))
    (fun d p h => FixedEq_trans c d _ h (FixedEq_modify d p _ (fun _ => rfl)))
    _ c (FixedEq_refl c)

/-- A poll changes no fixed member and neither table. -/
theorem FixedEq_step (c : ATCSController) (p elapsed r : Nat) (now : Int)
    (simulationRunning : Bool) (u : ℚ) (r2 : Nat) :
    FixedEq c (flightThread.step c p elapsed r now simulationRunning u r2).1 :=
  step_frame (FixedEq c) p
    (fun d _ h => FixedEq_trans c d _ h (FixedEq_modify d p _ (fun _ => rfl)))
    (fun d _ h => FixedEq_trans c d _ h (FixedEq_modify d p _ (fun _ => rfl)))
    (fun d now1 h => FixedEq_trans c d _ h (FixedEq_check d p now1))
    (fun d h => FixedEq_trans c d _ h (FixedEq_releaseHeld d p))
    (fun d _ h => FixedEq_trans c d _ h (FixedEq_modify d p _ (fun _ => rfl)))
    (fun d h => FixedEq_trans c d _ h (FixedEq_removeFaulted d p))
    c elapsed r now simulationRunning u r2 (FixedEq_refl c)

/-! ## The generator and the engine it drives -/

/-- What a call of `generate` that returns has done: nothing when no airline is a
candidate, or one flight of a candidate airline added, with the counter value as its number. -/
theorem generate_flight (c : ATCSController) (schedule : FlightSchedule)
    (flightNumberCounter : Nat) (u1 u2 : ℚ) (sysNow : Int) (c' : ATCSController) (n' : Nat)
    (h : flightGenerationThread.generate c schedule flightNumberCounter u1 u2 sysNow =
      some (c', n')) :
    (c' = c ∧ n' = flightNumberCounter) ∨
      ∃ airlineIdx airline,
        airlineIdx ∈ flightGenerationThread.candidateAirlines c.airlines schedule
          (decide (u1 < schedule.emergencyProbability)) ∧
        c.airlines[airlineIdx]? = some airline ∧
        c' = c.addFlight (Flight.new (unsignedToInt flightNumberCounter) airline airline.type
          schedule.direction sysNow
          (if decide (u1 < schedule.emergencyProbability) = true then schedule.emergencyType
            else EmergencyType.None)) ∧
        n' = (flightNumberCounter + 1) % 2 ^ 32 := by
  unfold flightGenerationThread.generate at h
  simp only [] at h
  by_cases hne : flightGenerationThread.candidateAirlines c.airlines schedule
      (decide (u1 < schedule.emergencyProbability)) ≠ []
  · rw [if_pos hne] at h
    split at h
    · rename_i airlineIdx hidx
      split at h
      · rename_i airline ha
        injection h with h
        injection h with h1 h2
        exact Or.inr ⟨airlineIdx, airline, List.getElem?_mem hidx, ha, h1.symm, h2.symm⟩
      · exact Option.noConfusion h
    · exact Option.noConfusion h
  · rw [if_neg hne] at h
    injection h with h
    injection h with h1 h2
    exact Or.inl ⟨h1.symm, h2.symm⟩

/-- Every operation of the running engine is an operation of the controller, or changes
nothing. -/
theorem EngineStep_Step (s s' : ATCSController × Nat) (h : EngineStep s s') :
    s'.1 = s.1 ∨ Step s.1 s'.1 := by
  cases h with
  | generate c n schedule u1 u2 sysNow c' n' _ hg =>
    rcases generate_flight c schedule n u1 u2 sysNow c' n' hg with
      ⟨e, _⟩ | ⟨_, airline, _, _, e, _⟩
    · exact Or.inl e
    · right
      show Step c c'
      rw [e]
      exact Step.create _ _ _ _ _ _ _
  | dispatch c n => exact Or.inr (Step.dispatch c)
  | poll c n p elapsed r now running u r2 hp =>
    exact Or.inr (Step.poll c p elapsed r now running u r2 hp)

theorem EngineReachable_Reachable (s : ATCSController × Nat) (h : EngineReachable s) :
    Reachable s.1 := by
  induction h with
  | init => exact Reachable.init
  | step s s' _ hs ih =>
    rcases EngineStep_Step s s' hs with e | e
    · rw [e]; exact ih
    · exact Reachable.step _ _ ih e

theorem unsignedToInt_mod (n : Nat) : unsignedToInt (n % 2 ^ 32) = unsignedToInt n := by
  unfold unsignedToInt
  rw [Nat.mod_mod]

/-- In the reference table the airlines a rule for emergencies can pick are of the
Emergency category. -/
theorem reference_rule (schedule : FlightSchedule) (j : Nat) (a : Airline)
    (ha : ATCSController.new.airlines[j]? = some a) (hr : candidateRule schedule true a) :
    a.type = AircraftType.Emergency := by
  have hm : a ∈ ATCSController.new.airlines := List.getElem?_mem ha
  have h1 : ∀ x ∈ ATCSController.new.airlines, x.name = "Pakistan Airforce" →
      x.type = AircraftType.Emergency := by decide
  have h2 : ∀ x ∈ ATCSController.new.airlines, x.name = "AghaKhan Air Ambulance" →
      x.type = AircraftType.Emergency := by decide
  unfold candidateRule at hr
  simp only [if_true] at hr
  split_ifs at hr
  · exact h1 a hm hr
  · exact h2 a hm hr
  · exact hr

theorem GeneratorInv_of_FixedEq (c d : ATCSController) (n : Nat) (h : FixedEq c d)
    (hi : GeneratorInv (c, n)) : GeneratorInv (d, n) := by
  obtain ⟨h1, h2, h3, h4⟩ := hi
  obtain ⟨e1, e2, e3, e4⟩ := h
  refine ⟨e2.trans h1, e3.trans h2, ?_, ?_⟩
  · show n = (1000 + d.flights.length) % 2 ^ 32
    rw [e1]
    exact h3
  · intro i hlt
    have hlt' : i < c.flights.length := by
      have : i < d.flights.length := hlt
      rw [e1] at this
      exact this
    have hf := e4 i
    unfold Flight.fixed at hf
    simp only [Prod.mk.injEq] at hf
    show (d.flightAt i).flightNumber = _ ∧ ((d.flightAt i).emergencyType ≠ _ →
      (d.flightAt i).aircraftType = _)
    rw [hf.1, hf.2.1, hf.2.2.1]
    exact h4 i hlt'

theorem EngineReachable_GeneratorInv (s : ATCSController × Nat) (h : EngineReachable s) :
    GeneratorInv s := by
  induction h with
  | init =>
    exact ⟨rfl, rfl, rfl, fun i hi => by simp [ATCSController.new] at hi⟩
  | step s s' _ hs ih =>
    cases hs with
    | generate c n schedule u1 u2 sysNow c' n' _ hg =>
      rcases generate_flight c schedule n u1 u2 sysNow c' n' hg with
        ⟨e1, e2⟩ | ⟨j, airline, hj, ha, e1, e2⟩
      · rw [e1, e2]; exact ih
      · obtain ⟨h1, h2, h3, h4⟩ := ih
        have h1 : c.airlines = ATCSController.new.airlines := h1
        have h3 : n = (1000 + c.flights.length) % 2 ^ 32 := h3
        have hlen : c'.flights.length = c.flights.length + 1 := by
          rw [e1]; simp [ATCSController.addFlight, ATCSController.pushQueue]
        refine ⟨?_, ?_, ?_, ?_⟩
        · show c'.airlines = _
          rw [e1]; exact h1
        · show c'.flightSchedules = _
          rw [e1]; exact h2
        · show n' = (1000 + c'.flights.length) % 2 ^ 32
          rw [e2, hlen, h3]
          norm_num
          omega
        · intro i hi
          have hi : i < c'.flights.length := hi
          rw [hlen] at hi
          show (c'.flightAt i).flightNumber = _ ∧ ((c'.flightAt i).emergencyType ≠ _ →
            (c'.flightAt i).aircraftType = _)
          rw [e1, flightAt_addFlight]
          by_cases a : i < c.flights.length
          · rw [if_pos a]
            exact h4 i a
          · have b : i = c.flights.length := by omega
            rw [if_neg a, if_pos b]
            refine ⟨?_, ?_⟩
            · show unsignedToInt n = unsignedToInt (1000 + i)
              rw [h3, b, unsignedToInt_mod]
            · intro hem
              show airline.type = AircraftType.Emergency
              have hem : (if decide (u1 < schedule.emergencyProbability) = true then
                  schedule.emergencyType else EmergencyType.None) ≠ EmergencyType.None := hem
              have hb : decide (u1 < schedule.emergencyProbability) = true := by
                by_contra hn
                rw [if_neg hn] at hem
                exact hem rfl
              rw [hb] at hj
              obtain ⟨a', ha', hr⟩ := (mem_candidateAirlines c.airlines schedule true j).1 hj
              rw [ha] at ha'
              cases ha'
              rw [h1] at ha
              exact reference_rule schedule j airline ha hr
    | dispatch c n => exact GeneratorInv_of_FixedEq c _ n (FixedEq_pass c) ih
    | poll c n p elapsed r now running u r2 hp =>
      exact GeneratorInv_of_FixedEq c _ n (FixedEq_step c p elapsed r now running u r2) ih

theorem unsignedToInt_inj (i j : Nat) (hi : i < 2 ^ 32) (hj : j < 2 ^ 32)
    (h : unsignedToInt (1000 + i) = unsignedToInt (1000 + j)) : i = j := by
  unfold unsignedToInt at h
  norm_num at hi hj h
  split_ifs at h <;> omega

/-! ## Each flight at most once in the backlog (C23) -/

/-- An existing flight that is not in the backlog is not put there by any operation. -/
theorem absent_step (p : Nat) (c c' : ATCSController) (hs : Step c c')
    (h : QueueInv c ∧ p < c.flights.length ∧ p ∉ c.runwayQueue) :
    QueueInv c' ∧ p < c'.flights.length ∧ p ∉ c'.runwayQueue := by
  refine Step_preserves (fun c => QueueInv c ∧ p < c.flights.length ∧ p ∉ c.runwayQueue)
    ?_ ?_ ?_ ?_ ?_ ?_ c c' hs h
  · rintro c num al aty dir sched emType ⟨hq, hp, hn⟩
    refine ⟨QueueInv_addFlight c _ rfl hq, ?_, ?_⟩
    · show p < (c.flights ++ [_]).length
      rw [List.length_append, List.length_singleton]
      omega
    · intro hm
      rcases mem_addFlight c _ hq p hm with a | a
      · exact hn a
      · omega
  · rintro c ⟨hq, hp, hn⟩
    obtain ⟨k, hQ, hS⟩ := loop_spec c.runwayQueue.length c hq (le_refl _)
    refine ⟨hQ, ?_, ?_⟩
    · show p < (runwayManagementThread.loop c.runwayQueue.length c).flights.length
      rw [hS.2.1]
      exact hp
    · intro hm
      have h1 : p ∈ c.popOrder.drop k := hS.2.2.2.1.subset hm
      exact hn ((popOrder_spec c hq).1.subset (List.mem_of_mem_drop h1))
  · rintro c q g hg ⟨hq, hp, hn⟩
    exact ⟨QueueInv_modify c q g hg hq, by simpa [ATCSController.modifyFlight] using hp, hn⟩
  · rintro c q now ⟨hq, hp, hn⟩
    exact ⟨QueueInv_check c q now hq, by simpa [checkSpeedViolation] using hp, hn⟩
  · rintro c q ⟨hq, hp, hn⟩
    refine ⟨QueueInv_releaseHeld c q hq, ?_, ?_⟩
    · rw [(releaseHeld_frame c q).1]
      exact hp
    · rw [(releaseHeld_frame c q).2.1]
      exact hn
  · rintro c q ⟨hq, hp, hn⟩
    refine ⟨QueueInv_removeFaulted c q hq, ?_, ?_⟩
    · rw [removeFaulted_length]
      exact hp
    · intro hm
      have := (removeFaulted_queue c q hq).2.subset hm
      exact hn (List.mem_of_mem_filter this)

theorem absent_later (p : Nat) (c c' : ATCSController) (hl : Later c c')
    (h : QueueInv c ∧ p < c.flights.length ∧ p ∉ c.runwayQueue) :
    QueueInv c' ∧ p < c'.flights.length ∧ p ∉ c'.runwayQueue := by
  induction hl with
  | refl => exact h
  | step c1 c2 _ hs ih => exact absent_step p c1 c2 hs ih

theorem sampleEngine_reachable : EngineReachable sampleEngine :=
  EngineReachable.step _ _ EngineReachable.init
    (EngineStep.generate ATCSController.new 1000 sampleEastSchedule (1 / 2) 0 0
      sampleDeparture 1001 (by simp [ATCSController.new, sampleEastSchedule])
      sampleDeparture_generated)

/-- C23: in every state of the running engine no flight is in the backlog twice; two
backlog entries with the same flight number are the same flight as long as no more than
`2 ^ 32` flights have been made (the 32-bit counter repeats a number only after `2 ^ 32`
flights: in general the two entries are `2 ^ 32` flights apart); and a flight that is out
of the backlog, such as one a dispatch pass has given a runway and popped, is not put back
by any later operation. -/
theorem backlog_entries_once (c : ATCSController) (n : Nat) (hr : EngineReachable (c, n)) :
    c.runwayQueue.Nodup ∧
      (∀ a ∈ c.runwayQueue, ∀ b ∈ c.runwayQueue,
        (c.flightAt a).flightNumber = (c.flightAt b).flightNumber →
          a % 2 ^ 32 = b % 2 ^ 32) ∧
      (c.flights.length ≤ 2 ^ 32 → ∀ a ∈ c.runwayQueue, ∀ b ∈ c.runwayQueue,
        (c.flightAt a).flightNumber = (c.flightAt b).flightNumber → a = b) ∧
      (∀ p, p < c.flights.length → p ∉ c.runwayQueue →
        ∀ c', Later c c' → p ∉ c'.runwayQueue) ∧
      (∀ p ∈ c.runwayQueue, p ∉ (runwayManagementThread.pass c).runwayQueue →
        ((runwayManagementThread.pass c).flightAt p).runwayAssigned ≠ -1 ∧
          ∀ c', Later (runwayManagementThread.pass c) c' → p ∉ c'.runwayQueue) := by
  have hreach := EngineReachable_Reachable (c, n) hr
  have hq : QueueInv c := Reachable_QueueInv c hreach
  have hg := EngineReachable_GeneratorInv (c, n) hr
  have hnum : ∀ a ∈ c.runwayQueue, ∀ b ∈ c.runwayQueue,
      (c.flightAt a).flightNumber = (c.flightAt b).flightNumber →
        a % 2 ^ 32 = b % 2 ^ 32 := by
    intro a ha b hb he
    rw [(hg.2.2.2 a (hq.1 a ha)).1, (hg.2.2.2 b (hq.1 b hb)).1] at he
    unfold unsignedToInt at he
    norm_num at he ⊢
    split_ifs at he <;> omega
  refine ⟨hq.2.1, hnum, ?_, ?_, ?_⟩
  · intro hlen a ha b hb he
    have h1 := hnum a ha b hb he
    have ha' := hq.1 a ha
    have hb' := hq.1 b hb
    norm_num at h1 hlen
    omega
  · intro p hp hn c' hl
    exact (absent_later p c c' hl ⟨hq, hp, hn⟩).2.2
  · intro p hp hn
    obtain ⟨k, hQ, hS⟩ := loop_spec c.runwayQueue.length c hq (le_refl _)
    have hlen : p < (runwayManagementThread.pass c).flights.length := by
      show p < (runwayManagementThread.loop c.runwayQueue.length c).flights.length
      rw [hS.2.1]
      exact hq.1 p hp
    refine ⟨?_, fun c' hl => (absent_later p _ c' hl ⟨hQ, hlen, hn⟩).2.2⟩
    have hpo : p ∈ c.popOrder := (popOrder_spec c hq).1.symm.subset hp
    have hnd : p ∉ c.popOrder.drop k := fun hm => hn (hS.2.2.2.1.symm.subset hm)
    have htk : p ∈ c.popOrder.take k := by
      rw [← List.take_append_drop k c.popOrder] at hpo
      rcases List.mem_append.1 hpo with h | h
      · exact h
      · exact absurd h hnd
    obtain ⟨j, r, _, _, e⟩ := hS.2.2.2.2.1 p htk
    show ((runwayManagementThread.loop c.runwayQueue.length c).flightAt p).runwayAssigned ≠ -1
    rw [e]
    show (j : Int) ≠ -1
    omega

theorem backlog_entries_once_witness :
    sampleEngine.1.runwayQueue = [0] ∧
      0 ∉ (runwayManagementThread.pass sampleEngine.1).runwayQueue ∧
      ((runwayManagementThread.pass sampleEngine.1).flightAt 0).runwayAssigned ≠ -1 ∧
      0 ∉ (runwayManagementThread.pass
        (runwayManagementThread.pass sampleEngine.1)).runwayQueue :=
  have h := (backlog_entries_once sampleEngine.1 sampleEngine.2 sampleEngine_reachable).2.2.2.2
    0 (by decide) (by decide)
  ⟨rfl, by decide, h.1, h.2 _ (Later.step _ _ _ (Later.refl _) (Step.dispatch _))⟩

/-! ## No generated flight has priority level 2 (C29) -/

/-- C29: in every state of the running engine no flight has priority level 2 (each has
1, 3 or 4); and a flight the generator makes there as an emergency comes from an airline
of the Emergency category and has priority 1, while one made as a non-emergency has
emergency subtype None and is Cargo with priority 3 or Commercial with priority 4. -/
theorem generator_never_priority_two (c : ATCSController) (n : Nat)
    (hr : EngineReachable (c, n)) :
    (∀ i, i < c.flights.length →
      (c.flightAt i).priorityLevel ≠ 2 ∧
        ((c.flightAt i).priorityLevel = 1 ∨ (c.flightAt i).priorityLevel = 3 ∨
          (c.flightAt i).priorityLevel = 4)) ∧
      (∀ schedule u1 u2 sysNow c' n',
        flightGenerationThread.generate c schedule n u1 u2 sysNow = some (c', n') →
        c' ≠ c →
        (decide (u1 < schedule.emergencyProbability) = true →
          (c'.flightAt c.flights.length).airline.type = AircraftType.Emergency ∧
            (c'.flightAt c.flights.length).aircraftType = AircraftType.Emergency ∧
            (c'.flightAt c.flights.length).emergencyType = schedule.emergencyType ∧
            (c'.flightAt c.flights.length).priorityLevel = 1) ∧
        (decide (u1 < schedule.emergencyProbability) = false →
          (c'.flightAt c.flights.length).emergencyType = EmergencyType.None ∧
            (c'.flightAt c.flights.length).airline.type ≠ AircraftType.Emergency ∧
            (((c'.flightAt c.flights.length).aircraftType = AircraftType.Cargo ∧
                (c'.flightAt c.flights.length).priorityLevel = 3) ∨
              ((c'.flightAt c.flights.length).aircraftType = AircraftType.Commercial ∧
                (c'.flightAt c.flights.length).priorityLevel = 4)))) := by
  have hreach := EngineReachable_Reachable (c, n) hr
  have hcons : ConsInv c := Reachable_ConsInv c hreach
  have hg := EngineReachable_GeneratorInv (c, n) hr
  constructor
  · intro i hi
    have h1 := hcons i hi
    have h2 := (hg.2.2.2 i hi).2
    rw [h1]
    unfold calculatePriority
    cases hty : (c.flightAt i).aircraftType <;> cases hem : (c.flightAt i).emergencyType <;>
      simp_all
  · intro schedule u1 u2 sysNow c' n' hgen hnew
    rcases generate_flight c schedule n u1 u2 sysNow c' n' hgen with
      ⟨e, _⟩ | ⟨j, airline, hj, ha, e, _⟩
    · exact absurd e hnew
    · have hf : c'.flightAt c.flights.length =
          Flight.new (unsignedToInt n) airline airline.type schedule.direction sysNow
            (if decide (u1 < schedule.emergencyProbability) = true then schedule.emergencyType
              else EmergencyType.None) := by
        rw [e, flightAt_addFlight, if_neg (lt_irrefl _), if_pos rfl]
      have hair : c.airlines = ATCSController.new.airlines := hg.1
      constructor
      · intro hb
        rw [hb] at hj
        obtain ⟨a', ha', hrule⟩ := (mem_candidateAirlines c.airlines schedule true j).1 hj
        rw [ha] at ha'
        cases ha'
        rw [hair] at ha
        have hty := reference_rule schedule j airline ha hrule
        rw [hf, hb]
        refine ⟨hty, hty, rfl, ?_⟩
        show calculatePriority airline.type _ = 1
        rw [hty]
        rfl
      · intro hb
        rw [hb] at hj
        obtain ⟨a', ha', hrule⟩ := (mem_candidateAirlines c.airlines schedule false j).1 hj
        rw [ha] at ha'
        cases ha'
        have hty : airline.type ≠ AircraftType.Emergency := by
          unfold candidateRule at hrule
          simpa using hrule
        rw [hf, hb]
        refine ⟨rfl, hty, ?_⟩
        show (airline.type = AircraftType.Cargo ∧
            calculatePriority airline.type EmergencyType.None = 3) ∨
          (airline.type = AircraftType.Commercial ∧
            calculatePriority airline.type EmergencyType.None = 4)
        cases h : airline.type
        · exact Or.inr ⟨rfl, rfl⟩
        · exact Or.inl ⟨rfl, rfl⟩
        · exact absurd h hty

theorem generator_never_priority_two_witness :
    (sampleEngine.1.flightAt 0).priorityLevel ≠ 2 ∧
      ((sampleEngine.1.flightAt 0).priorityLevel = 1 ∨
        (sampleEngine.1.flightAt 0).priorityLevel = 3 ∨
        (sampleEngine.1.flightAt 0).priorityLevel = 4) :=
  (generator_never_priority_two sampleEngine.1 sampleEngine.2 sampleEngine_reachable).1 0
    (by decide)

/-! ## Payments (C24) -/

theorem processPayment_scan_result (L : Ledger) (avnID : Int) (amount : ℚ) :
    ∀ l : List SharedAVN,
      processPayment.scan L avnID amount l =
        match l.find? (fun avn => decide (avn.avnID = avnID)) with
        | none => some (false, L)
        | some avn => if amount ≥ avn.fineAmount then none else some (false, L) := by
  intro l
  induction l with
  | nil => rfl
  | cons avn rest ih =>
    rw [processPayment.scan]
    by_cases h : avn.avnID = avnID
    · rw [if_pos h, List.find?_cons_of_pos _ (by simpa using h)]
      simp only [updatePaymentStatus, if_true]
    · rw [if_neg h, List.find?_cons_of_neg _ (by simpa using h)]
      exact ih

/-- What `processPayment` does: it reports failure for an unknown id or an insufficient
amount, and does not return when the first ticket with the id is covered by the amount. -/
theorem processPayment_result (L : Ledger) (avnID : Int) (amount : ℚ) :
    processPayment L avnID amount =
      match L.avnVector.find? (fun avn => decide (avn.avnID = avnID)) with
      | none => some (false, L)
      | some avn => if amount ≥ avn.fineAmount then none else some (false, L) :=
  processPayment_scan_result L avnID amount L.avnVector

/-- No call of `processPayment` returns true. -/
theorem processPayment_never_true (L : Ledger) (avnID : Int) (amount : ℚ)
    (res : Bool × Ledger) (h : processPayment L avnID amount = some res) :
    res = (false, L) := by
  rw [processPayment_result] at h
  split at h
  · injection h with h; exact h.symm
  · split_ifs at h
    injection h with h; exact h.symm

set_option maxRecDepth 8000 in
theorem sampleLedger_vector :
    sampleLedger.avnVector =
      [ { avnID := 1, airlineName := "PIA", flightNumber := 1000, aircraftType := 0,
          recordedSpeed := 250, permissibleSpeed := 240, issueDateTime := 0,
          fineAmount := 575000, paymentStatus := false, dueDate := 259200 } ] := by
  have e : sampleLedger.avnVector =
      [ { avnID := 1, airlineName := "PIA", flightNumber := 1000, aircraftType := 0,
          recordedSpeed := 250, permissibleSpeed := 240, issueDateTime := 0,
          fineAmount := totalAmount AircraftType.Commercial, paymentStatus := false,
          dueDate := 259200 } ] := by
    rfl
  rw [e, totalAmount_Commercial]

/-- C24, at the failing input: the ledger holds the unpaid ticket 1 of PIA with a fine of
575000; `processPayment(1, 575000)` does not return (and the ticket stays unpaid), whereas
an insufficient amount and an unknown id are rejected with the ledger unchanged, and
`payAVN(1)` does mark the ticket paid and takes it off the unpaid listing. -/
theorem processPayment_blocks :
    (listActiveAVNs sampleLedger "PIA").map (fun avn => (avn.avnID, avn.fineAmount)) =
        [(1, 575000)] ∧
      processPayment sampleLedger 1 575000 = none ∧
      processPayment sampleLedger 1 574999 = some (false, sampleLedger) ∧
      processPayment sampleLedger 2 575000 = some (false, sampleLedger) ∧
      (∃ L', payAVN sampleLedger 1 = some L' ∧ listActiveAVNs L' "PIA" = []) := by
  have hv := sampleLedger_vector
  refine ⟨?_, ?_, ?_, ?_, ?_⟩
  · unfold listActiveAVNs
    rw [hv]
    decide
  · rw [processPayment_result, hv]
    simp
  · rw [processPayment_result, hv]
    simp
    norm_num
  · rw [processPayment_result, hv]
    simp
  · refine ⟨_, rfl, ?_⟩
    show (List.filter _ (updatePaymentStatus.scan 1 true sampleLedger.avnVector)) = []
    rw [hv]
    rfl

/-! ## The speeds the actor assigns (C25) -/

theorem toFloat_zero : toFloat 0 = 0 := by
  simp [toFloat, roundBinary]

theorem toFloat_eq (x : ℚ) (e m : Int) (y : ℚ)
    (h1 : (2 : ℚ) ^ e ≤ |x|) (h2 : |x| < (2 : ℚ) ^ (e + 1))
    (h3 : (m : ℚ) - 1/2 < x * (2 : ℚ) ^ (((24 : Nat) : Int) - 1 - e))
    (h4 : x * (2 : ℚ) ^ (((24 : Nat) : Int) - 1 - e) < (m : ℚ) + 1/2)
    (hy : (m : ℚ) * (2 : ℚ) ^ (e - (((24 : Nat) : Int) - 1)) = y) : toFloat x = y := by
  unfold toFloat
  rw [roundBinary_eq 24 x e m h1 h2 h3 h4, hy]

/-- A value halfway between two integers is rounded to the lower one when that is even. -/
theorem roundHalfEven_tie (y : ℚ) (m : Int) (h : y = (m : ℚ) + 1/2) (heven : m % 2 = 0) :
    roundHalfEven y = m := by
  have hf : Int.floor y = m := by
    rw [Int.floor_eq_iff]
    constructor <;> rw [h] <;> linarith
  unfold roundHalfEven
  simp only [hf]
  have hr : y - (m : ℚ) = 1/2 := by rw [h]; ring
  rw [hr]
  simp only [lt_irrefl, if_false, heven, if_true]

theorem toFloat_tie (x : ℚ) (e m : Int) (y : ℚ)
    (h1 : (2 : ℚ) ^ e ≤ |x|) (h2 : |x| < (2 : ℚ) ^ (e + 1))
    (h3 : x * (2 : ℚ) ^ (((24 : Nat) : Int) - 1 - e) = (m : ℚ) + 1/2) (heven : m % 2 = 0)
    (hy : (m : ℚ) * (2 : ℚ) ^ (e - (((24 : Nat) : Int) - 1)) = y) : toFloat x = y := by
  have hx : x ≠ 0 := by
    intro h
    rw [h] at h1
    have : (0 : ℚ) < 2 ^ e := by positivity
    simp at h1
    linarith
  unfold toFloat roundBinary
  rw [if_neg hx]
  simp only []
  rw [binade_eq x e h1 h2, roundHalfEven_tie _ m h3 heven, hy]

theorem landingSpeed_0 : landingSpeed 0 = 240 := by
  have a1 : toFloat (0) = 0 := by
    rw [show (0 : ℚ) = 0 by norm_num]
    exact toFloat_zero
  have a2 : toFloat (0 / 6) = 0 := by
    rw [show (0 / 6 : ℚ) = 0 by norm_num]
    exact toFloat_zero
  have a3 : toFloat (1 - 0) = 1 :=
    toFloat_eq _ 0 8388608 _ (by norm_num [abs_of_pos]) (by norm_num [abs_of_pos])
      (by norm_num) (by norm_num) (by norm_num)
  have a4 : toFloat (240 * 1) = 240 :=
    toFloat_eq _ 7 15728640 _ (by norm_num [abs_of_pos]) (by norm_num [abs_of_pos])
      (by norm_num) (by norm_num) (by norm_num)
  have a5 : toFloat (30 * 0) = 0 := by
    rw [show (30 * 0 : ℚ) = 0 by norm_num]
    exact toFloat_zero
  have a6 : toFloat (240 + 0) = 240 :=
    toFloat_eq _ 7 15728640 _ (by norm_num [abs_of_pos]) (by norm_num [abs_of_pos])
      (by norm_num) (by norm_num) (by norm_num)
  show toFloat (toFloat (240 * toFloat (1 - toFloat (toFloat ((0 : Nat) : ℚ) / 6))) +
    toFloat (30 * toFloat (toFloat ((0 : Nat) : ℚ) / 6))) = _
  rw [Nat.cast_zero, a1, a2, a3, a4, a5, a6]

theorem landingSpeed_1 : landingSpeed 1 = 205 := by
  have a1 : toFloat (1) = 1 :=
    toFloat_eq _ 0 8388608 _ (by norm_num [abs_of_pos]) (by norm_num [abs_of_pos])
      (by norm_num) (by norm_num) (by norm_num)
  have a2 : toFloat (1 / 6) = 11184811 / 67108864 :=
    toFloat_eq _ (-3) 11184811 _ (by norm_num [abs_of_pos]) (by norm_num [abs_of_pos])
      (by norm_num) (by norm_num) (by norm_num)
  have a3 : toFloat (1 - 11184811 / 67108864) = 13981013 / 16777216 :=
    toFloat_eq _ (-1) 13981013 _ (by norm_num [abs_of_pos]) (by norm_num [abs_of_pos])
      (by norm_num) (by norm_num) (by norm_num)
  have a4 : toFloat (240 * (13981013 / 16777216)) = 200 :=
    toFloat_eq _ 7 13107200 _ (by norm_num [abs_of_pos]) (by norm_num [abs_of_pos])
      (by norm_num) (by norm_num) (by norm_num)
  have a5 : toFloat (30 * (11184811 / 67108864)) = 5 :=
    toFloat_eq _ 2 10485760 _ (by norm_num [abs_of_pos]) (by norm_num [abs_of_pos])
      (by norm_num) (by norm_num) (by norm_num)
  have a6 : toFloat (200 + 5) = 205 :=
    toFloat_eq _ 7 13434880 _ (by norm_num [abs_of_pos]) (by norm_num [abs_of_pos])
      (by norm_num) (by norm_num) (by norm_num)
  show toFloat (toFloat (240 * toFloat (1 - toFloat (toFloat ((1 : Nat) : ℚ) / 6))) +
    toFloat (30 * toFloat (toFloat ((1 : Nat) : ℚ) / 6))) = _
  rw [Nat.cast_one, a1, a2, a3, a4, a5, a6]

theorem landingSpeed_2 : landingSpeed 2 = 11141119 / 65536 := by
  have a1 : toFloat (2) = 2 :=
    toFloat_eq _ 1 8388608 _ (by norm_num [abs_of_pos]) (by norm_num [abs_of_pos])
      (by norm_num) (by norm_num) (by norm_num)
  have a2 : toFloat (2 / 6) = 11184811 / 33554432 :=
    toFloat_eq _ (-2) 11184811 _ (by norm_num [abs_of_pos]) (by norm_num [abs_of_pos])
      (by norm_num) (by norm_num) (by norm_num)
  have a3 : toFloat (1 - 11184811 / 33554432) = 5592405 / 8388608 :=
    toFloat_tie _ (-1) 11184810 _ (by norm_num [abs_of_pos]) (by norm_num [abs_of_pos])
      (by norm_num) (by decide) (by norm_num)
  have a4 : toFloat (240 * (5592405 / 8388608)) = 10485759 / 65536 :=
    toFloat_eq _ 7 10485759 _ (by norm_num [abs_of_pos]) (by norm_num [abs_of_pos])
      (by norm_num) (by norm_num) (by norm_num)
  have a5 : toFloat (30 * (11184811 / 33554432)) = 10 :=
    toFloat_eq _ 3 10485760 _ (by norm_num [abs_of_pos]) (by norm_num [abs_of_pos])
      (by norm_num) (by norm_num) (by norm_num)
  have a6 : toFloat (10485759 / 65536 + 10) = 11141119 / 65536 :=
    toFloat_eq _ 7 11141119 _ (by norm_num [abs_of_pos]) (by norm_num [abs_of_pos])
      (by norm_num) (by norm_num) (by norm_num)
  show toFloat (toFloat (240 * toFloat (1 - toFloat (toFloat ((2 : Nat) : ℚ) / 6))) +
    toFloat (30 * toFloat (toFloat ((2 : Nat) : ℚ) / 6))) = _
  rw [Nat.cast_ofNat, a1, a2, a3, a4, a5, a6]

theorem landingSpeed_3 : landingSpeed 3 = 135 := by
  have a1 : toFloat (3) = 3 :=
    toFloat_eq _ 1 12582912 _ (by norm_num [abs_of_pos]) (by norm_num [abs_of_pos])
      (by norm_num) (by norm_num) (by norm_num)
  have a2 : toFloat (3 / 6) = 1 / 2 :=
    toFloat_eq _ (-1) 8388608 _ (by norm_num [abs_of_pos]) (by norm_num [abs_of_pos])
      (by norm_num) (by norm_num) (by norm_num)
  have a3 : toFloat (1 - 1 / 2) = 1 / 2 :=
    toFloat_eq _ (-1) 8388608 _ (by norm_num [abs_of_pos]) (by norm_num [abs_of_pos])
      (by norm_num) (by norm_num) (by norm_num)
  have a4 : toFloat (240 * (1 / 2)) = 120 :=
    toFloat_eq _ 6 15728640 _ (by norm_num [abs_of_pos]) (by norm_num [abs_of_pos])
      (by norm_num) (by norm_num) (by norm_num)
  have a5 : toFloat (30 * (1 / 2)) = 15 :=
    toFloat_eq _ 3 15728640 _ (by norm_num [abs_of_pos]) (by norm_num [abs_of_pos])
      (by norm_num) (by norm_num) (by norm_num)
  have a6 : toFloat (120 + 15) = 135 :=
    toFloat_eq _ 7 8847360 _ (by norm_num [abs_of_pos]) (by norm_num [abs_of_pos])
      (by norm_num) (by norm_num) (by norm_num)
  show toFloat (toFloat (240 * toFloat (1 - toFloat (toFloat ((3 : Nat) : ℚ) / 6))) +
    toFloat (30 * toFloat (toFloat ((3 : Nat) : ℚ) / 6))) = _
  rw [Nat.cast_ofNat, a1, a2, a3, a4, a5, a6]

theorem landingSpeed_4 : landingSpeed 4 = 13107199 / 131072 := by
  have a1 : toFloat (4) = 4 :=
    toFloat_eq _ 2 8388608 _ (by norm_num [abs_of_pos]) (by norm_num [abs_of_pos])
      (by norm_num) (by norm_num) (by norm_num)
  have a2 : toFloat (4 / 6) = 11184811 / 16777216 :=
    toFloat_eq _ (-1) 11184811 _ (by norm_num [abs_of_pos]) (by norm_num [abs_of_pos])
      (by norm_num) (by norm_num) (by norm_num)
  have a3 : toFloat (1 - 11184811 / 16777216) = 5592405 / 16777216 :=
    toFloat_eq _ (-2) 11184810 _ (by norm_num [abs_of_pos]) (by norm_num [abs_of_pos])
      (by norm_num) (by norm_num) (by norm_num)
  have a4 : toFloat (240 * (5592405 / 16777216)) = 10485759 / 131072 :=
    toFloat_eq _ 6 10485759 _ (by norm_num [abs_of_pos]) (by norm_num [abs_of_pos])
      (by norm_num) (by norm_num) (by norm_num)
  have a5 : toFloat (30 * (11184811 / 16777216)) = 20 :=
    toFloat_eq _ 4 10485760 _ (by norm_num [abs_of_pos]) (by norm_num [abs_of_pos])
      (by norm_num) (by norm_num) (by norm_num)
  have a6 : toFloat (10485759 / 131072 + 20) = 13107199 / 131072 :=
    toFloat_eq _ 6 13107199 _ (by norm_num [abs_of_pos]) (by norm_num [abs_of_pos])
      (by norm_num) (by norm_num) (by norm_num)
  show toFloat (toFloat (240 * toFloat (1 - toFloat (toFloat ((4 : Nat) : ℚ) / 6))) +
    toFloat (30 * toFloat (toFloat ((4 : Nat) : ℚ) / 6))) = _
  rw [Nat.cast_ofNat, a1, a2, a3, a4, a5, a6]

theorem landingSpeed_5 : landingSpeed 5 = 65 := by
  have a1 : toFloat (5) = 5 :=
    toFloat_eq _ 2 10485760 _ (by norm_num [abs_of_pos]) (by norm_num [abs_of_pos])
      (by norm_num) (by norm_num) (by norm_num)
  have a2 : toFloat (5 / 6) = 13981013 / 16777216 :=
    toFloat_eq _ (-1) 13981013 _ (by norm_num [abs_of_pos]) (by norm_num [abs_of_pos])
      (by norm_num) (by norm_num) (by norm_num)
  have a3 : toFloat (1 - 13981013 / 16777216) = 2796203 / 16777216 :=
    toFloat_eq _ (-3) 11184812 _ (by norm_num [abs_of_pos]) (by norm_num [abs_of_pos])
      (by norm_num) (by norm_num) (by norm_num)
  have a4 : toFloat (240 * (2796203 / 16777216)) = 10485761 / 262144 :=
    toFloat_eq _ 5 10485761 _ (by norm_num [abs_of_pos]) (by norm_num [abs_of_pos])
      (by norm_num) (by norm_num) (by norm_num)
  have a5 : toFloat (30 * (13981013 / 16777216)) = 25 :=
    toFloat_eq _ 4 13107200 _ (by norm_num [abs_of_pos]) (by norm_num [abs_of_pos])
      (by norm_num) (by norm_num) (by norm_num)
  have a6 : toFloat (10485761 / 262144 + 25) = 65 :=
    toFloat_tie _ 6 8519680 _ (by norm_num [abs_of_pos]) (by norm_num [abs_of_pos])
      (by norm_num) (by decide) (by norm_num)
  show toFloat (toFloat (240 * toFloat (1 - toFloat (toFloat ((5 : Nat) : ℚ) / 6))) +
    toFloat (30 * toFloat (toFloat ((5 : Nat) : ℚ) / 6))) = _
  rw [Nat.cast_ofNat, a1, a2, a3, a4, a5, a6]

/-- A check on a speed inside the envelope of the phase changes nothing. -/
theorem checkSpeedViolation_quiet (c : ATCSController) (p : Nat) (now : Int)
    (h : inEnvelope (c.flightAt p).phase (c.flightAt p).speed) :
    checkSpeedViolation c p now = c := by
  have hv : (checkSpeedViolation.verdict (c.flightAt p).phase (c.flightAt p).speed).violation =
      false := by
    by_contra hn
    exact ((verdict_breach _ _).1 (by simpa using hn)) h
  have e : checkSpeedViolation.onFlight (c.flightAt p) c.avnGenerator now =
      (c.flightAt p, c.avnGenerator) := by
    unfold checkSpeedViolation.onFlight
    simp only [hv, Bool.false_and, Bool.false_eq_true, if_false]
  show ({ c with
    flights := c.flights.set p (checkSpeedViolation.onFlight (c.flightAt p) c.avnGenerator now).1
    avnGenerator := (checkSpeedViolation.onFlight (c.flightAt p) c.avnGenerator now).2 } :
      ATCSController) = c
  rw [e]
  show ({ c with flights := c.flights.set p (c.flights.getD p default) } : ATCSController) = c
  rw [set_getD_self]

theorem flightAt_updateSpeed (c : ATCSController) (p : Nat) (v : ℚ)
    (hp : p < c.flights.length) :
    (updateSpeed c p v).flightAt p = { c.flightAt p with speed := v } := by
  unfold updateSpeed
  rw [flightAt_modifyFlight, if_pos ⟨rfl, hp⟩]

theorem flightAt_enter (c : ATCSController) (p : Nat) (ph : FlightPhase) (v : ℚ)
    (hp : p < c.flights.length) :
    (updateSpeed (updatePhase c p ph) p v).flightAt p =
      { c.flightAt p with phase := ph, speed := v } := by
  rw [flightAt_updateSpeed _ _ _ (by
    simpa [updatePhase, ATCSController.modifyFlight] using hp)]
  unfold updatePhase
  rw [flightAt_modifyFlight, if_pos ⟨rfl, hp⟩]

/-- The check made on entering a phase at a speed inside its envelope changes nothing. -/
theorem enter_quiet (c : ATCSController) (p : Nat) (ph : FlightPhase) (v : ℚ) (now : Int)
    (hp : p < c.flights.length) (h : inEnvelope ph v) :
    checkSpeedViolation (updateSpeed (updatePhase c p ph) p v) p now =
      updateSpeed (updatePhase c p ph) p v := by
  apply checkSpeedViolation_quiet
  rw [flightAt_enter c p ph v hp]
  exact h

theorem landingSpeed_cases (e : Nat) (he : e < 6) :
    landingSpeed e = 240 ∨ landingSpeed e = 205 ∨ landingSpeed e = 11141119 / 65536 ∨
      landingSpeed e = 135 ∨ landingSpeed e = 13107199 / 131072 ∨ landingSpeed e = 65 := by
  have h : e = 0 ∨ e = 1 ∨ e = 2 ∨ e = 3 ∨ e = 4 ∨ e = 5 := by omega
  rcases h with h | h | h | h | h | h <;> subst h
  · exact Or.inl landingSpeed_0
  · exact Or.inr (Or.inl landingSpeed_1)
  · exact Or.inr (Or.inr (Or.inl landingSpeed_2))
  · exact Or.inr (Or.inr (Or.inr (Or.inl landingSpeed_3)))
  · exact Or.inr (Or.inr (Or.inr (Or.inr (Or.inl landingSpeed_4))))
  · exact Or.inr (Or.inr (Or.inr (Or.inr (Or.inr landingSpeed_5))))

/-- The landing speed after `e` whole seconds, `e` in 0..5: the `float` value of
`240 * (1 - e/6) + 30 * (e/6)` is at most `2 ^ (-16)` away from `240 - 35 e`, and lies
between 30 and 240. -/
theorem landingSpeed_bounds (e : Nat) (he : e < 6) :
    30 ≤ landingSpeed e ∧ landingSpeed e ≤ 240 ∧
      |landingSpeed e - (240 - 35 * (e : ℚ))| ≤ 1 / 65536 := by
  have h : e = 0 ∨ e = 1 ∨ e = 2 ∨ e = 3 ∨ e = 4 ∨ e = 5 := by omega
  rcases h with h | h | h | h | h | h <;> subst h
  · rw [landingSpeed_0]; norm_num
  · rw [landingSpeed_1]; norm_num
  · rw [landingSpeed_2]; norm_num [abs_le]
  · rw [landingSpeed_3]; norm_num
  · rw [landingSpeed_4]; norm_num [abs_le]
  · rw [landingSpeed_5]; norm_num

theorem mod_cast_bounds (a r m : Nat) (hm : 0 < m) :
    (a : ℚ) ≤ ((a + r % m : Nat) : ℚ) ∧ ((a + r % m : Nat) : ℚ) ≤ (a : ℚ) + (m : ℚ) - 1 := by
  have h := Nat.mod_lt r hm
  constructor
  · exact_mod_cast Nat.le_add_right a (r % m)
  · have h1 : a + r % m + 1 ≤ a + m := by omega
    have h2 : ((a + r % m + 1 : Nat) : ℚ) ≤ ((a + m : Nat) : ℚ) := by exact_mod_cast h1
    rw [Nat.cast_add, Nat.cast_one, Nat.cast_add a m] at h2
    linarith

theorem core_viol_modify (c : ATCSController) (p q : Nat) (g : Flight → Flight)
    (hg : ∀ f, (g f).core = f.core) :
    ((c.modifyFlight p g).flightAt q).violationActive = (c.flightAt q).violationActive :=
  (core_viol _ _ (core_modifyFlight c p q g hg)).2

theorem viol_releaseHeld (c : ATCSController) (p q : Nat) :
    ((releaseHeld c p).flightAt q).violationActive = (c.flightAt q).violationActive := by
  rw [flightAt_releaseHeld]
  split_ifs with h
  · rw [h.1]
  · rfl

/-- C25: every speed the actor assigns in Landing and on entry into Taxi, AtGate, Climb
and Cruise is inside the envelope of that phase. The landing speed for `e` in 0..5 is the
`float` value of `240 * (1 - e/6) + 30 * (e/6)`, between 30 and 240 and within `2 ^ (-16)`
of `240 - 35 e`; Taxi gets 20 (after Landing) or `15 + r % 16` (a departure leaving the
gate); AtGate gets 0; Climb `250 + r % 213`; Cruise `800 + r % 101`. The checks made on
those assignments do nothing: the round is the same as without them, so outside Holding a
round leaves the ledger and the violation flag of the flight as they were. -/
theorem actor_speeds_in_envelope (c : ATCSController) (p elapsed r : Nat) (now : Int)
    (hp : p < c.flights.length) :
    (∀ e, e < 6 → inEnvelope FlightPhase.Landing (landingSpeed e) ∧ 30 ≤ landingSpeed e ∧
      landingSpeed e ≤ 240 ∧ |landingSpeed e - (240 - 35 * (e : ℚ))| ≤ 1 / 65536) ∧
    (inEnvelope FlightPhase.Taxi 20 ∧
      inEnvelope FlightPhase.Taxi ((15 + r % 16 : Nat) : ℚ) ∧
      inEnvelope FlightPhase.AtGate 0 ∧
      inEnvelope FlightPhase.Climb ((250 + r % 213 : Nat) : ℚ) ∧
      inEnvelope FlightPhase.Cruise ((800 + r % 101 : Nat) : ℚ)) ∧
    ((c.flightAt p).phase = FlightPhase.Landing → elapsed < 6 →
      (flightThread.phaseSwitch c p elapsed r now).1 =
        updateSpeed c p (landingSpeed elapsed)) ∧
    ((c.flightAt p).phase = FlightPhase.Landing → 6 ≤ elapsed →
      (flightThread.phaseSwitch c p elapsed r now).1 =
        updateSpeed (updatePhase c p FlightPhase.Taxi) p 20) ∧
    ((c.flightAt p).phase = FlightPhase.Taxi → 5 ≤ elapsed →
      (flightThread.phaseSwitch c p elapsed r now).1 =
        updateSpeed (updatePhase c p FlightPhase.AtGate) p 0) ∧
    ((c.flightAt p).phase = FlightPhase.AtGate → 5 ≤ elapsed →
      isDeparture (c.flightAt p).direction →
      (flightThread.phaseSwitch c p elapsed r now).1 =
        releaseHeld (updateSpeed (updatePhase c p FlightPhase.Taxi) p
          ((15 + r % 16 : Nat) : ℚ)) p) ∧
    ((c.flightAt p).phase = FlightPhase.TakeoffRoll → 3 ≤ elapsed →
      (flightThread.phaseSwitch c p elapsed r now).1 =
        updateSpeed (updatePhase c p FlightPhase.Climb) p ((250 + r % 213 : Nat) : ℚ)) ∧
    ((c.flightAt p).phase = FlightPhase.Climb → 4 ≤ elapsed →
      (flightThread.phaseSwitch c p elapsed r now).1 =
        releaseHeld (updateSpeed (updatePhase c p FlightPhase.Cruise) p
          ((800 + r % 101 : Nat) : ℚ)) p) ∧
    ((c.flightAt p).phase ≠ FlightPhase.Holding →
      (flightThread.phaseSwitch c p elapsed r now).1.avnGenerator = c.avnGenerator ∧
        ((flightThread.phaseSwitch c p elapsed r now).1.flightAt p).violationActive =
          (c.flightAt p).violationActive) := by
  have hland : ∀ e, e < 6 → inEnvelope FlightPhase.Landing (landingSpeed e) :=
    fun e he => (landingSpeed_bounds e he).2.1
  have htaxi : inEnvelope FlightPhase.Taxi ((15 + r % 16 : Nat) : ℚ) := by
    have := mod_cast_bounds 15 r 16 (by norm_num)
    simp only [Nat.cast_ofNat] at this
    unfold inEnvelope
    constructor <;> linarith [this.1, this.2]
  have hclimb : inEnvelope FlightPhase.Climb ((250 + r % 213 : Nat) : ℚ) := by
    have := mod_cast_bounds 250 r 213 (by norm_num)
    simp only [Nat.cast_ofNat] at this
    unfold inEnvelope
    constructor <;> linarith [this.1, this.2]
  have hcruise : inEnvelope FlightPhase.Cruise ((800 + r % 101 : Nat) : ℚ) := by
    have := mod_cast_bounds 800 r 101 (by norm_num)
    simp only [Nat.cast_ofNat] at this
    unfold inEnvelope
    constructor <;> linarith [this.1, this.2]
  have hl240 : inEnvelope FlightPhase.Landing 240 := by unfold inEnvelope; norm_num
  have c1 : (c.flightAt p).phase = FlightPhase.Landing → elapsed < 6 →
      (flightThread.phaseSwitch c p elapsed r now).1 =
        updateSpeed c p (landingSpeed elapsed) := by
    intro hph he
    unfold flightThread.phaseSwitch
    rw [hph]
    simp only [he, if_true]
    apply checkSpeedViolation_quiet
    rw [flightAt_updateSpeed c p _ hp]
    show inEnvelope (c.flightAt p).phase (landingSpeed elapsed)
    rw [hph]
    exact hland elapsed he
  have c2 : (c.flightAt p).phase = FlightPhase.Landing → 6 ≤ elapsed →
      (flightThread.phaseSwitch c p elapsed r now).1 =
        updateSpeed (updatePhase c p FlightPhase.Taxi) p 20 := by
    intro hph he
    unfold flightThread.phaseSwitch
    rw [hph]
    simp only [not_lt.2 he, if_false]
  have c3 : (c.flightAt p).phase = FlightPhase.Taxi → 5 ≤ elapsed →
      (flightThread.phaseSwitch c p elapsed r now).1 =
        updateSpeed (updatePhase c p FlightPhase.AtGate) p 0 := by
    intro hph he
    unfold flightThread.phaseSwitch
    rw [hph]
    simp only [ge_iff_le, he, if_true]
  have c4 : (c.flightAt p).phase = FlightPhase.AtGate → 5 ≤ elapsed →
      isDeparture (c.flightAt p).direction →
      (flightThread.phaseSwitch c p elapsed r now).1 =
        releaseHeld (updateSpeed (updatePhase c p FlightPhase.Taxi) p
          ((15 + r % 16 : Nat) : ℚ)) p := by
    intro hph he hd
    unfold isDeparture at hd
    unfold flightThread.phaseSwitch
    rw [hph]
    simp only [ge_iff_le, he, hd, if_true]
  have c5 : (c.flightAt p).phase = FlightPhase.TakeoffRoll → 3 ≤ elapsed →
      (flightThread.phaseSwitch c p elapsed r now).1 =
        updateSpeed (updatePhase c p FlightPhase.Climb) p ((250 + r % 213 : Nat) : ℚ) := by
    intro hph he
    unfold flightThread.phaseSwitch
    rw [hph]
    simp only [ge_iff_le, he, if_true]
    exact enter_quiet c p _ _ now hp hclimb
  have c6 : (c.flightAt p).phase = FlightPhase.Climb → 4 ≤ elapsed →
      (flightThread.phaseSwitch c p elapsed r now).1 =
        releaseHeld (updateSpeed (updatePhase c p FlightPhase.Cruise) p
          ((800 + r % 101 : Nat) : ℚ)) p := by
    intro hph he
    unfold flightThread.phaseSwitch
    rw [hph]
    simp only [ge_iff_le, he, if_true]
    rw [enter_quiet c p _ _ now hp hcruise]
  refine ⟨fun e he => ⟨hland e he, landingSpeed_bounds e he⟩,
    ⟨by unfold inEnvelope; norm_num, htaxi, by unfold inEnvelope; norm_num, hclimb, hcruise⟩,
    c1, c2, c3, c4, c5, c6, ?_⟩
  intro hne
  have hU : ∀ (d : ATCSController) (ph : FlightPhase) (v : ℚ),
      (updateSpeed (updatePhase d p ph) p v).avnGenerator = d.avnGenerator ∧
        ((updateSpeed (updatePhase d p ph) p v).flightAt p).violationActive =
          (d.flightAt p).violationActive := by
    intro d ph v
    refine ⟨rfl, ?_⟩
    unfold updateSpeed updatePhase
    refine Eq.trans (core_viol_modify _ p p _ ?_) (core_viol_modify d p p _ ?_) <;>
      (intro f; rfl)
  have hS : ∀ (d : ATCSController) (v : ℚ),
      (updateSpeed d p v).avnGenerator = d.avnGenerator ∧
        ((updateSpeed d p v).flightAt p).violationActive =
          (d.flightAt p).violationActive := by
    intro d v
    refine ⟨rfl, ?_⟩
    unfold updateSpeed
    exact core_viol_modify d p p _ (fun _ => rfl)
  have hR : ∀ d : ATCSController,
      (releaseHeld d p).avnGenerator = d.avnGenerator ∧
        ((releaseHeld d p).flightAt p).violationActive = (d.flightAt p).violationActive :=
    fun d => ⟨(releaseHeld_frame d p).2.2, viol_releaseHeld d p p⟩
  cases hph : (c.flightAt p).phase
  · exact absurd hph hne
  · by_cases he : 8 ≤ elapsed
    · have e : (flightThread.phaseSwitch c p elapsed r now).1 =
          updateSpeed (updatePhase c p FlightPhase.Landing) p 240 := by
        unfold flightThread.phaseSwitch
        rw [hph]
        simp only [ge_iff_le, he, if_true]
        exact enter_quiet c p _ _ now hp hl240
      rw [e]
      exact hU c _ _
    · have e : (flightThread.phaseSwitch c p elapsed r now).1 = c := by
        unfold flightThread.phaseSwitch
        rw [hph]
        simp only [ge_iff_le, he, if_false]
      rw [e]
      exact ⟨rfl, rfl⟩
  · by_cases he : elapsed < 6
    · rw [c1 hph he]
      exact hS c _
    · rw [c2 hph (not_lt.1 he)]
      exact hU c _ _
  · by_cases he : 5 ≤ elapsed
    · rw [c3 hph he]
      exact hU c _ _
    · have e : (flightThread.phaseSwitch c p elapsed r now).1 = c := by
        unfold flightThread.phaseSwitch
        rw [hph]
        simp only [ge_iff_le, he, if_false]
      rw [e]
      exact ⟨rfl, rfl⟩
  · by_cases he : 5 ≤ elapsed ∧ isDeparture (c.flightAt p).direction
    · rw [c4 hph he.1 he.2]
      exact ⟨(hR _).1.trans (hU c _ _).1, (hR _).2.trans (hU c _ _).2⟩
    · have e : (flightThread.phaseSwitch c p elapsed r now).1 = releaseHeld c p := by
        unfold flightThread.phaseSwitch
        rw [hph]
        unfold isDeparture at he
        simp only []
        split_ifs with h1 h2
        · exact absurd ⟨h1, h2⟩ he
        · rfl
        · rfl
      rw [e]
      exact hR c
  · by_cases he : 3 ≤ elapsed
    · rw [c5 hph he]
      exact hU c _ _
    · have e : (flightThread.phaseSwitch c p elapsed r now).1 =
          updateSpeed c p (rollSpeed elapsed) := by
        unfold flightThread.phaseSwitch
        rw [hph]
        simp only [ge_iff_le, he, if_false]
      rw [e]
      exact hS c _
  · by_cases he : 4 ≤ elapsed
    · rw [c6 hph he]
      exact ⟨(hR _).1.trans (hU c _ _).1, (hR _).2.trans (hU c _ _).2⟩
    · have e : (flightThread.phaseSwitch c p elapsed r now).1 = c := by
        unfold flightThread.phaseSwitch
        rw [hph]
        simp only [ge_iff_le, he, if_false]
      rw [e]
      exact ⟨rfl, rfl⟩
  · by_cases he : 10 ≤ elapsed
    · have e : (flightThread.phaseSwitch c p elapsed r now).1 =
          updatePhase c p FlightPhase.Departure := by
        unfold flightThread.phaseSwitch
        rw [hph]
        simp only [ge_iff_le, he, if_true]
      rw [e]
      refine ⟨rfl, ?_⟩
      unfold updatePhase
      exact core_viol_modify c p p _ (fun _ => rfl)
    · have e : (flightThread.phaseSwitch c p elapsed r now).1 = c := by
        unfold flightThread.phaseSwitch
        rw [hph]
        simp only [ge_iff_le, he, if_false]
      rw [e]
      exact ⟨rfl, rfl⟩
  · have e : (flightThread.phaseSwitch c p elapsed r now).1 = c := by
      unfold flightThread.phaseSwitch
      rw [hph]
    rw [e]
    exact ⟨rfl, rfl⟩

theorem sampleInLanding_reachable : Reachable sampleInLanding := by
  have h0 : Reachable (runwayManagementThread.pass (ATCSController.new.addFlight sampleNorth)) :=
    Reachable.step _ _ (Reachable.step _ _ Reachable.init
      (Step.create _ 1000 samplePIA AircraftType.Commercial FlightDirection.NorthArrival 10
        EmergencyType.None)) (Step.dispatch _)
  have s1 := Step.poll _ 0 10 0 100 true (1 / 2) 0
    (show 0 < (runwayManagementThread.pass
      (ATCSController.new.addFlight sampleNorth)).flights.length by decide)
  rw [step_quiet _ _ _ _ _ _ _ _ half_quiet] at s1
  have h1 := Reachable.step _ _ h0 s1
  have s2 := Step.poll _ 0 8 0 200 true (1 / 2) 0
    (show 0 < (flightThread.phaseSwitch (runwayManagementThread.pass
      (ATCSController.new.addFlight sampleNorth)) 0 10 0 100).1.flights.length by decide)
  rw [step_quiet _ _ _ _ _ _ _ _ half_quiet] at s2
  exact Reachable.step _ _ h1 s2

theorem actor_speeds_in_envelope_witness :
    Reachable sampleInLanding ∧
      (sampleInLanding.flightAt 0).phase = FlightPhase.Landing ∧
      (flightThread.phaseSwitch sampleInLanding 0 2 0 300).1 =
        updateSpeed sampleInLanding 0 (landingSpeed 2) ∧
      landingSpeed 2 = 11141119 / 65536 :=
  ⟨sampleInLanding_reachable, rfl,
    (actor_speeds_in_envelope sampleInLanding 0 2 0 300 (by decide)).2.2.1 rfl (by decide),
    landingSpeed_2⟩

/-! ## Runways released by a poll (C26) -/

theorem releaseRunway_runways (c : ATCSController) (runwayID : Int) :
    (releaseRunway c runwayID).runways = releasePool c.runways runwayID := by
  unfold releaseRunway releasePool
  split_ifs
  · cases c.runways[runwayID.toNat]? <;> rfl
  · rfl

theorem released_released (v : List Runway × Int) : released (released v) = released v := by
  unfold released
  simp

theorem view_modify (c : ATCSController) (q p : Nat) (g : Flight → Flight)
    (hg : ∀ f, (g f).core = f.core) : runwayView (c.modifyFlight q g) p = runwayView c p := by
  unfold runwayView
  rw [core_runwayAssigned _ _ (core_modifyFlight c q p g hg)]
  rfl

theorem view_check (c : ATCSController) (q p : Nat) (now : Int) :
    runwayView (checkSpeedViolation c q now) p = runwayView c p := by
  unfold runwayView
  have : ((checkSpeedViolation c q now).flightAt p).runwayAssigned =
      (c.flightAt p).runwayAssigned := by
    rw [flightAt_checkSpeedViolation]
    split_ifs with h
    · rw [onFlight_runwayAssigned, h.1]
    · rfl
  rw [this]
  rfl

theorem view_releaseHeld (c : ATCSController) (p : Nat) :
    runwayView (releaseHeld c p) p = released (runwayView c p) := by
  unfold runwayView released
  have h1 : ((releaseHeld c p).flightAt p).runwayAssigned = -1 := by
    rw [flightAt_releaseHeld]
    split_ifs with h
    · rfl
    · by_cases hp : p < c.flights.length
      · by_contra hne
        exact h ⟨rfl, hp, hne⟩
      · rw [flightAt_invalid c p hp]
        rfl
  have h2 : (releaseHeld c p).runways =
      if (c.flightAt p).runwayAssigned ≠ -1 then
        releasePool c.runways (c.flightAt p).runwayAssigned
      else c.runways := by
    unfold releaseHeld
    split_ifs with h
    · show (releaseRunway c _).runways = _
      exact releaseRunway_runways c _
    · rfl
  rw [h1, h2]

theorem view_queue (c : ATCSController) (q : List Nat) (p : Nat) :
    runwayView { c with runwayQueue := q } p = runwayView c p := rfl

theorem view_removeFaulted (c : ATCSController) (p : Nat) :
    runwayView (removeFaultedFlight c p) p = released (runwayView c p) := by
  unfold removeFaultedFlight
  rw [view_releaseHeld, view_queue]

/-- The runways after the `switch` of a round: the flight gives up its runway at the gate
and on leaving Climb, and nothing changes otherwise. -/
theorem view_phaseSwitch (c : ATCSController) (p elapsed r : Nat) (now : Int) :
    runwayView (flightThread.phaseSwitch c p elapsed r now).1 p =
      if (c.flightAt p).phase = FlightPhase.AtGate ∨
          ((c.flightAt p).phase = FlightPhase.Climb ∧ 4 ≤ elapsed) then
        released (runwayView c p)
      else runwayView c p := by
  have hU : ∀ (d : ATCSController) (ph : FlightPhase) (v : ℚ),
      runwayView (updateSpeed (updatePhase d p ph) p v) p = runwayView d p := by
    intro d ph v
    unfold updateSpeed updatePhase
    refine Eq.trans (view_modify _ p p _ ?_) (view_modify d p p _ ?_) <;> (intro f; rfl)
  have hS : ∀ (d : ATCSController) (v : ℚ),
      runwayView (updateSpeed d p v) p = runwayView d p := by
    intro d v
    unfold updateSpeed
    exact view_modify d p p _ (fun _ => rfl)
  have hP : ∀ (d : ATCSController) (ph : FlightPhase),
      runwayView (updatePhase d p ph) p = runwayView d p := by
    intro d ph
    unfold updatePhase
    exact view_modify d p p _ (fun _ => rfl)
  unfold flightThread.phaseSwitch
  cases hph : (c.flightAt p).phase <;> simp only [] <;>
    simp only [false_or, true_or, false_and, true_and, if_true, if_false, reduceCtorEq]
  · split_ifs
    · rw [view_check, hU]
    · rfl
  · split_ifs
    · rw [view_check, hU]
    · rfl
  · split_ifs
    · rw [view_check, hS]
    · rw [hU]
  · split_ifs
    · rw [hU]
    · rfl
  · rw [view_releaseHeld]
    split_ifs
    · rw [hU]
    · rfl
    · rfl
  · split_ifs
    · rw [view_check, hU]
    · rw [hS]
  · split_ifs with h
    · rw [view_releaseHeld, view_check, hU]
    · rfl
  · split_ifs
    · rw [hP]
    · rfl

/-- The runways after a whole poll. -/
theorem view_step (c : ATCSController) (p elapsed r : Nat) (now : Int)
    (simulationRunning : Bool) (u : ℚ) (r2 : Nat) :
    runwayView (flightThread.step c p elapsed r now simulationRunning u r2).1 p =
      if pollReleases c p elapsed r now simulationRunning u then released (runwayView c p)
      else runwayView c p := by
  have hs := view_phaseSwitch c p elapsed r now
  by_cases hf : faultInjected c p elapsed r now simulationRunning u
  · have e : (flightThread.step c p elapsed r now simulationRunning u r2).1 =
        removeFaultedFlight (markFaulted (flightThread.phaseSwitch c p elapsed r now).1 p r2)
          p := by
      obtain ⟨h1, h2, h3, h4, h5⟩ := hf
      unfold flightThread.step checkGroundFaults markFaulted
      simp only [h1, h2, h3, h4, h5, Bool.false_eq_true, if_false, if_true, and_self]
    rw [e, view_removeFaulted,
      if_pos (show pollReleases c p elapsed r now simulationRunning u from Or.inr (Or.inr hf))]
    have hm : runwayView (markFaulted (flightThread.phaseSwitch c p elapsed r now).1 p r2) p =
        runwayView (flightThread.phaseSwitch c p elapsed r now).1 p := by
      unfold markFaulted
      exact view_modify _ p p _ (fun _ => rfl)
    rw [hm, hs]
    split_ifs
    · exact released_released _
    · rfl
  · have e : (flightThread.step c p elapsed r now simulationRunning u r2).1 =
        (flightThread.phaseSwitch c p elapsed r now).1 := by
      unfold flightThread.step
      simp only []
      split_ifs with h1 h2
      · rfl
      · unfold checkGroundFaults
        split_ifs with h3 h4
        · exact absurd ⟨h2, by simpa using h1, h3, h4.1, h4.2⟩ hf
        · rfl
        · rfl
      · rfl
    rw [e, hs]
    by_cases hr : (c.flightAt p).phase = FlightPhase.AtGate ∨
        ((c.flightAt p).phase = FlightPhase.Climb ∧ 4 ≤ elapsed)
    · have hpr : pollReleases c p elapsed r now simulationRunning u := by
        rcases hr with h | h
        · exact Or.inl h
        · exact Or.inr (Or.inl h)
      rw [if_pos hr, if_pos hpr]
    · have hpr : ¬ pollReleases c p elapsed r now simulationRunning u := by
        rintro (h | h | h)
        · exact hr (Or.inl h)
        · exact hr (Or.inr h)
        · exact hf h
      rw [if_neg hr, if_neg hpr]

theorem faultInjected_phase (c : ATCSController) (p elapsed r : Nat) (now : Int)
    (simulationRunning : Bool) (u : ℚ) (hp : p < c.flights.length)
    (h : faultInjected c p elapsed r now simulationRunning u) :
    (c.flightAt p).phase = FlightPhase.Landing ∨ (c.flightAt p).phase = FlightPhase.Taxi ∨
      (c.flightAt p).phase = FlightPhase.AtGate := by
  obtain ⟨_, _, h3, _, _⟩ := h
  rw [phase_phaseSwitch c p elapsed r now hp] at h3
  cases hph : (c.flightAt p).phase <;> rw [hph] at h3 <;> simp only [] at h3 <;>
    first
      | exact Or.inl rfl
      | exact Or.inr (Or.inl rfl)
      | exact Or.inr (Or.inr rfl)
      | (split_ifs at h3 <;> simp at h3)
      | simp at h3

theorem sampleGate_step :
    (flightThread.step sampleTaxi 0 5 0 400 true (1 / 2) 0).1 = sampleGate :=
  step_quiet sampleTaxi 0 5 0 400 true (1 / 2) 0 half_quiet

theorem sampleGate_reachable : Reachable sampleGate := by
  have s := Step.poll sampleTaxi 0 5 0 400 true (1 / 2) 0 (by decide)
  rw [sampleGate_step] at s
  exact Reachable.step _ _ sampleTaxi_reachable s

theorem sampleClimb_inv : RunwayInv sampleClimb :=
  RunwayInv_modify sampleTwoLanded 1 _ (fun _ => rfl)
    (Reachable_RunwayInv _ sampleTwoLanded_reachable)

/-- C26 as stated fails: flight 0 of `sampleTaxi` is in Taxi and holds runway 0; the poll
in which the fault injection fires leaves it with no runway and runway 0 free. -/
theorem taxi_poll_releases :
    Reachable sampleTaxi ∧ (sampleTaxi.flightAt 0).phase = FlightPhase.Taxi ∧
      (sampleTaxi.flightAt 0).runwayAssigned = 0 ∧
      sampleTaxi.runways = samplePool true false false ∧
      (flightThread.step sampleTaxi 0 0 0 0 true 0 0).1 = sampleFaulted ∧
      (sampleFaulted.flightAt 0).phase = FlightPhase.Taxi ∧
      (sampleFaulted.flightAt 0).runwayAssigned = -1 ∧
      sampleFaulted.runways = samplePool false false false :=
  ⟨sampleTaxi_reachable, rfl, rfl, rfl, sampleFaulted_step, rfl, rfl, rfl⟩

/-- C26, amended: after a poll taken while the flight is at the gate, after the
Climb-to-Cruise transition, and after a poll in which the fault injection fires (which
needs the flight to start the poll in Landing, Taxi or AtGate), the flight holds no runway,
the runway it held before is free and every other runway is unchanged; every other poll
leaves `runwayAssigned` and the pool unchanged.  The state is any state in which the
runways held by flights exist and are held by one flight each (`RunwayInv`), whatever the
phases of its flights. -/
theorem poll_runway_effect (c : ATCSController) (p elapsed r : Nat) (now : Int)
    (simulationRunning : Bool) (u : ℚ) (r2 : Nat) (hc : RunwayInv c)
    (hp : p < c.flights.length) :
    (pollReleases c p elapsed r now simulationRunning u →
      ((flightThread.step c p elapsed r now simulationRunning u r2).1.flightAt
          p).runwayAssigned = -1 ∧
        (∀ j : Nat, (c.flightAt p).runwayAssigned = (j : Int) →
          ∃ rw, (flightThread.step c p elapsed r now simulationRunning u r2).1.runways[j]? =
              some rw ∧ rw.occupied = false) ∧
        (∀ k : Nat, (k : Int) ≠ (c.flightAt p).runwayAssigned →
          (flightThread.step c p elapsed r now simulationRunning u r2).1.runways[k]? =
            c.runways[k]?)) ∧
      (¬ pollReleases c p elapsed r now simulationRunning u →
        ((flightThread.step c p elapsed r now simulationRunning u r2).1.flightAt
            p).runwayAssigned = (c.flightAt p).runwayAssigned ∧
          (flightThread.step c p elapsed r now simulationRunning u r2).1.runways =
            c.runways) ∧
      (faultInjected c p elapsed r now simulationRunning u →
        (c.flightAt p).phase = FlightPhase.Landing ∨
          (c.flightAt p).phase = FlightPhase.Taxi ∨
          (c.flightAt p).phase = FlightPhase.AtGate) := by
  have hv := view_step c p elapsed r now simulationRunning u r2
  refine ⟨?_, ?_, faultInjected_phase c p elapsed r now simulationRunning u hp⟩
  · intro hr
    rw [if_pos hr] at hv
    have h1 : ((flightThread.step c p elapsed r now simulationRunning u r2).1.flightAt
        p).runwayAssigned = -1 := congrArg Prod.snd hv
    have h2 : (flightThread.step c p elapsed r now simulationRunning u r2).1.runways =
        if (c.flightAt p).runwayAssigned ≠ -1 then
          releasePool c.runways (c.flightAt p).runwayAssigned
        else c.runways := congrArg Prod.fst hv
    refine ⟨h1, ?_, ?_⟩
    · intro j hj
      have hne : (c.flightAt p).runwayAssigned ≠ -1 := by omega
      obtain ⟨h0, rw, hrw, _⟩ := hc.2 p hp hne
      have hlt : (c.flightAt p).runwayAssigned.toNat < c.runways.length := by
        by_contra hn
        rw [List.getElem?_eq_none (by omega)] at hrw
        exact Option.noConfusion hrw
      have hjn : (c.flightAt p).runwayAssigned.toNat = j := by omega
      rw [h2, if_pos hne, ← releaseRunway_runways, releaseRunway_same c _ rw h0 hrw]
      refine ⟨{ rw with occupied := false }, ?_, rfl⟩
      rw [← hjn]
      show (c.runways.set _ _)[(c.flightAt p).runwayAssigned.toNat]? = _
      rw [List.getElem?_set_self hlt]
    · intro k hk
      rw [h2]
      split_ifs with hne
      · obtain ⟨h0, _⟩ := hc.2 p hp hne
        rw [← releaseRunway_runways]
        exact releaseRunway_other c _ k (by omega)
      · rfl
  · intro hr
    rw [if_neg hr] at hv
    exact ⟨congrArg Prod.snd hv, congrArg Prod.fst hv⟩

theorem poll_runway_effect_witness :
    ((sampleGate.flightAt 0).phase = FlightPhase.AtGate ∧
        (sampleGate.flightAt 0).runwayAssigned = 0 ∧
        ((flightThread.step sampleGate 0 0 0 0 true (1 / 2) 0).1.flightAt 0).runwayAssigned =
          -1 ∧
        (∃ rw, (flightThread.step sampleGate 0 0 0 0 true (1 / 2) 0).1.runways[0]? = some rw ∧
          rw.occupied = false) ∧
        (flightThread.step sampleGate 0 0 0 0 true (1 / 2) 0).1.runways[1]? =
          sampleGate.runways[1]?) ∧
      ((sampleClimb.flightAt 1).phase = FlightPhase.Climb ∧
        (sampleClimb.flightAt 1).runwayAssigned = 1 ∧
        ((flightThread.step sampleClimb 1 4 0 0 true (1 / 2) 0).1.flightAt 1).runwayAssigned =
          -1 ∧
        (∃ rw, (flightThread.step sampleClimb 1 4 0 0 true (1 / 2) 0).1.runways[1]? = some rw ∧
          rw.occupied = false) ∧
        (flightThread.step sampleClimb 1 4 0 0 true (1 / 2) 0).1.runways[0]? =
          sampleClimb.runways[0]?) ∧
      (((flightThread.step sampleClimb 1 3 0 0 true (1 / 2) 0).1.flightAt 1).runwayAssigned =
          (sampleClimb.flightAt 1).runwayAssigned ∧
        (flightThread.step sampleClimb 1 3 0 0 true (1 / 2) 0).1.runways =
          sampleClimb.runways) ∧
      ((sampleTaxi.flightAt 0).phase = FlightPhase.Taxi ∧
        ((flightThread.step sampleTaxi 0 0 0 0 true 0 0).1.flightAt 0).runwayAssigned = -1 ∧
        ((flightThread.step sampleTaxi 0 0 0 0 true (1 / 2) 0).1.flightAt 0).runwayAssigned =
          (sampleTaxi.flightAt 0).runwayAssigned ∧
        (flightThread.step sampleTaxi 0 0 0 0 true (1 / 2) 0).1.runways =
          sampleTaxi.runways) := by
  have hg := (poll_runway_effect sampleGate 0 0 0 0 true (1 / 2) 0
    (Reachable_RunwayInv _ sampleGate_reachable) (by decide)).1 (Or.inl rfl)
  have hcl := (poll_runway_effect sampleClimb 1 4 0 0 true (1 / 2) 0 sampleClimb_inv
    (by decide)).1 (Or.inr (Or.inl ⟨rfl, by decide⟩))
  have hq := (poll_runway_effect sampleClimb 1 3 0 0 true (1 / 2) 0 sampleClimb_inv
    (by decide)).2.1
    (by
      rintro (h | h | h)
      · exact absurd h (by decide)
      · exact absurd h.2 (by decide)
      · exact absurd h.2.2.2.1 (not_lt.2 half_quiet))
  have ht := poll_runway_effect sampleTaxi 0 0 0 0 true 0 0
    (Reachable_RunwayInv _ sampleTaxi_reachable) (by decide)
  have hs := (poll_runway_effect sampleTaxi 0 0 0 0 true (1 / 2) 0
    (Reachable_RunwayInv _ sampleTaxi_reachable) (by decide)).2.1
    (by
      rintro (h | h | h)
      · exact absurd h (by decide)
      · exact absurd h.1 (by decide)
      · exact absurd h.2.2.2.1 (not_lt.2 half_quiet))
  exact ⟨⟨rfl, rfl, hg.1, hg.2.1 0 rfl, hg.2.2 1 (by decide)⟩,
    ⟨rfl, rfl, hcl.1, hcl.2.1 1 rfl, hcl.2.2 0 (by decide)⟩, hq,
    ⟨rfl, (ht.1 (Or.inr (Or.inr ⟨rfl, rfl, Or.inl rfl, by rw [toDouble_005]; norm_num,
      rfl⟩))).1, hs.1, hs.2⟩⟩

/-! ## How one operation moves the phase of a flight -/

/-- The phase of the polled flight after one poll, by the phase table. -/
theorem phase_poll (c : ATCSController) (p elapsed r : Nat) (now : Int)
    (simulationRunning : Bool) (u : ℚ) (r2 : Nat) (hp : p < c.flights.length) :
    ((flightThread.step c p elapsed r now simulationRunning u r2).1.flightAt p).phase =
      (if thresholdReached (c.flightAt p).phase elapsed then
        tableSuccessor (c.flightAt p).phase (c.flightAt p).direction
      else (c.flightAt p).phase) := by
  rw [phase_step, phase_phaseSwitch c p elapsed r now hp]
  cases hph : (c.flightAt p).phase <;>
    simp only [thresholdReached, dwellThreshold, tableSuccessor, isDeparture, ge_iff_le,
      if_false] <;>
    split_ifs <;> first | rfl | omega | simp_all

theorem phase_assign (c : ATCSController) (p q : Nat) :
    ((assignRunway c p).2.flightAt q).phase = (c.flightAt q).phase := by
  rw [flightAt_assignRunway]
  split_ifs with h
  · rw [h.1]
    rcases onFlight_outcome c.runways (c.flightAt p) with e | ⟨j, r, _, _, e⟩
    · rw [e]
    · rw [e]; rfl
  · rfl

/-- A dispatch pass changes no phase. -/
theorem phase_pass (c : ATCSController) (q : Nat) :
    ((runwayManagementThread.pass c).flightAt q).phase = (c.flightAt q).phase := by
  refine loop_frame (fun d => (d.flightAt q).phase = (c.flightAt q).phase) ?_ ?_ ?_ _ c rfl
  · intro d p h
    show ((assignRunway d p).2.flightAt q).phase = _
    rw [phase_assign]
    exact h
  · intro d l h
    exact h
  · intro d p h
    show ((d.modifyFlight p _).flightAt q).phase = _
    rw [flightAt_modifyFlight]
    split_ifs with a
    · rw [a.1] at h
      rw [a.1]
      exact h
    · exact h

theorem fixed_direction (f g : Flight) (h : f.fixed = g.fixed) : f.direction = g.direction :=
  congrArg (fun x => x.2.2.2.2) h

/-- One operation leaves the direction of an existing flight alone, and either leaves its
phase alone or moves it to the successor of the phase table, the dwell threshold having
been reached. -/
theorem Step_phase (c c' : ATCSController) (hs : Step c c') (i : Nat)
    (hi : i < c.flights.length) :
    i < c'.flights.length ∧ (c'.flightAt i).direction = (c.flightAt i).direction ∧
      ((c'.flightAt i).phase = (c.flightAt i).phase ∨
        ∃ elapsed, thresholdReached (c.flightAt i).phase elapsed ∧
          (c'.flightAt i).phase =
            tableSuccessor (c.flightAt i).phase (c.flightAt i).direction) := by
  cases hs with
  | create num al aty dir sched emType =>
    refine ⟨?_, ?_, Or.inl ?_⟩
    · show i < (c.flights ++ [_]).length
      rw [List.length_append, List.length_singleton]
      omega
    · rw [flightAt_addFlight, if_pos hi]
    · rw [flightAt_addFlight, if_pos hi]
  | dispatch =>
    have hf := FixedEq_pass c
    refine ⟨by rw [hf.1]; exact hi, fixed_direction _ _ (hf.2.2.2 i), Or.inl (phase_pass c i)⟩
  | poll p elapsed r now running u r2 hp =>
    have hf := FixedEq_step c p elapsed r now running u r2
    refine ⟨by rw [hf.1]; exact hi, fixed_direction _ _ (hf.2.2.2 i), ?_⟩
    by_cases hip : i = p
    · subst hip
      rw [phase_poll c i elapsed r now running u r2 hi]
      split_ifs with ht
      · exact Or.inr ⟨elapsed, ht, rfl⟩
      · exact Or.inl rfl
    · left
      rw [step_other c p elapsed r now running u r2 i hip]
  | fault p hp =>
    have hf := FixedEq_removeFaulted c p
    refine ⟨by rw [hf.1]; exact hi, fixed_direction _ _ (hf.2.2.2 i),
      Or.inl (phase_removeFaulted c p i)⟩

/-! ## Every flight that leaves Holding is ticketed (C27) -/

theorem onFlight_breach (f : Flight) (L : Ledger) (now : Int)
    (hout : ¬ inEnvelope f.phase f.speed) (hv : f.violationActive = false) :
    (checkSpeedViolation.onFlight f L now).1.violationActive = true ∧
      (checkSpeedViolation.onFlight f L now).1.avnIDs = f.avnIDs ++ [L.avnCounter + 1] ∧
      (checkSpeedViolation.onFlight f L now).2.avnCounter = L.avnCounter + 1 ∧
      (checkSpeedViolation.onFlight f L now).2.avnVector.length = L.avnVector.length + 1 := by
  have hb := (verdict_breach f.phase f.speed).2 hout
  unfold checkSpeedViolation.onFlight
  simp only [hb, hv, Bool.not_false, Bool.and_self, if_true]
  simp [generateAVN]

/-- A poll that ends outside Taxi and AtGate is the `switch` alone. -/
theorem step_eq_switch (c : ATCSController) (p elapsed r : Nat) (now : Int)
    (simulationRunning : Bool) (u : ℚ) (r2 : Nat)
    (h : ¬ (((flightThread.phaseSwitch c p elapsed r now).1.flightAt p).phase =
        FlightPhase.Taxi ∨
      ((flightThread.phaseSwitch c p elapsed r now).1.flightAt p).phase =
        FlightPhase.AtGate)) :
    (flightThread.step c p elapsed r now simulationRunning u r2).1 =
      (flightThread.phaseSwitch c p elapsed r now).1 := by
  unfold flightThread.step
  simp only []
  split_ifs
  · rfl
  · unfold checkGroundFaults
    rw [if_neg h]
  · rfl

/-- The poll that takes a flight without open violation out of Holding. -/
theorem holding_exit_ticket (c : ATCSController) (p elapsed r : Nat) (now : Int)
    (simulationRunning : Bool) (u : ℚ) (r2 : Nat) (hp : p < c.flights.length)
    (hph : (c.flightAt p).phase = FlightPhase.Holding) (he : 10 ≤ elapsed)
    (hv : (c.flightAt p).violationActive = false) :
    ((flightThread.step c p elapsed r now simulationRunning u r2).1.flightAt p).phase =
        FlightPhase.Approach ∧
      ((flightThread.step c p elapsed r now simulationRunning u r2).1.flightAt p).speed =
        ((400 + r % 201 : Nat) : ℚ) ∧
      ((flightThread.step c p elapsed r now simulationRunning u r2).1.flightAt
        p).violationActive = true ∧
      ((flightThread.step c p elapsed r now simulationRunning u r2).1.flightAt p).avnIDs =
        (c.flightAt p).avnIDs ++ [c.avnGenerator.avnCounter + 1] ∧
      (flightThread.step c p elapsed r now simulationRunning u r2).1.avnGenerator.avnCounter =
        c.avnGenerator.avnCounter + 1 ∧
      (flightThread.step c p elapsed r now simulationRunning u r2).1.avnGenerator.avnVector.length
        = c.avnGenerator.avnVector.length + 1 := by
  obtain ⟨h1, h2, hout, h4⟩ := holding_exit_speed c p elapsed r now hp hph he
  have hs : (flightThread.step c p elapsed r now simulationRunning u r2).1 =
      (flightThread.phaseSwitch c p elapsed r now).1 := by
    apply step_eq_switch
    rw [h1]
    simp
  have hsw : (flightThread.phaseSwitch c p elapsed r now).1 =
      checkSpeedViolation (updateSpeed (updatePhase c p FlightPhase.Approach) p
        ((400 + r % 201 : Nat) : ℚ)) p now := by
    unfold flightThread.phaseSwitch
    rw [hph]
    simp only [ge_iff_le, he, if_true]
  have hl : p < (updateSpeed (updatePhase c p FlightPhase.Approach) p
      ((400 + r % 201 : Nat) : ℚ)).flights.length := by
    simpa [updateSpeed, updatePhase, ATCSController.modifyFlight] using hp
  have hf := flightAt_enter c p FlightPhase.Approach ((400 + r % 201 : Nat) : ℚ) hp
  have hb := onFlight_breach
    ({ c.flightAt p with phase := FlightPhase.Approach, speed := ((400 + r % 201 : Nat) : ℚ) })
    c.avnGenerator now hout hv
  rw [hs]
  refine ⟨h1, h2, h4 hv, ?_, ?_, ?_⟩
  · rw [hsw, flightAt_checkSpeedViolation, if_pos ⟨rfl, hl⟩, hf]
    exact hb.2.1
  · rw [hsw]
    show (checkSpeedViolation.onFlight ((updateSpeed (updatePhase c p FlightPhase.Approach) p
      ((400 + r % 201 : Nat) : ℚ)).flightAt p) c.avnGenerator now).2.avnCounter = _
    rw [hf]
    exact hb.2.2.1
  · rw [hsw]
    show (checkSpeedViolation.onFlight ((updateSpeed (updatePhase c p FlightPhase.Approach) p
      ((400 + r % 201 : Nat) : ℚ)).flightAt p) c.avnGenerator now).2.avnVector.length = _
    rw [hf]
    exact hb.2.2.2

/-- An operation that takes a flight out of Holding leaves it with its violation flag
raised. -/
theorem Step_leaves_holding (c c' : ATCSController) (hs : Step c c') (i : Nat)
    (hi : i < c.flights.length) (hph : (c.flightAt i).phase = FlightPhase.Holding)
    (hne : (c'.flightAt i).phase ≠ FlightPhase.Holding) :
    (c'.flightAt i).violationActive = true := by
  by_cases hv : (c.flightAt i).violationActive = true
  · exact (Step_FlagsKept c c' hs).2 i hi hv
  · have hv : (c.flightAt i).violationActive = false := by simpa using hv
    cases hs with
    | create num al aty dir sched emType =>
      rw [flightAt_addFlight, if_pos hi] at hne
      exact absurd hph hne
    | dispatch =>
      rw [phase_pass] at hne
      exact absurd hph hne
    | poll p elapsed r now running u r2 hp =>
      by_cases hip : i = p
      · subst hip
        have he : 10 ≤ elapsed := by
          by_contra hlt
          rw [phase_poll c i elapsed r now running u r2 hi, hph] at hne
          simp only [thresholdReached, dwellThreshold] at hne
          rw [if_neg hlt] at hne
          exact hne rfl
        exact (holding_exit_ticket c i elapsed r now running u r2 hi hph he hv).2.2.1
      · rw [step_other c p elapsed r now running u r2 i hip] at hne
        exact absurd hph hne
    | fault p hp =>
      rw [phase_removeFaulted] at hne
      exact absurd hph hne

theorem left_holding_flagged (c : ATCSController) (hc : Reachable c) :
    ∀ i, i < c.flights.length → (c.flightAt i).phase ≠ FlightPhase.Holding →
      (c.flightAt i).violationActive = true := by
  induction hc with
  | init =>
    intro i hi
    simp [ATCSController.new] at hi
  | step c c' _ hs ih =>
    intro i hi hne
    by_cases hold : i < c.flights.length
    · by_cases hph : (c.flightAt i).phase = FlightPhase.Holding
      · exact Step_leaves_holding c c' hs i hold hph hne
      · exact (Step_FlagsKept c c' hs).2 i hold (ih i hold hph)
    · cases hs with
      | create num al aty dir sched emType =>
        have hlen : (c.addFlight (Flight.new num al aty dir sched emType)).flights.length =
            c.flights.length + 1 := by
          simp [ATCSController.addFlight, ATCSController.pushQueue]
        rw [hlen] at hi
        have hie : i = c.flights.length := by omega
        rw [flightAt_addFlight, if_neg hold, if_pos hie] at hne
        exact absurd rfl hne
      | dispatch =>
        rw [(FixedEq_pass c).1] at hi
        exact absurd hi hold
      | poll p elapsed r now running u r2 hp =>
        rw [(FixedEq_step c p elapsed r now running u r2).1] at hi
        exact absurd hi hold
      | fault p hp =>
        rw [(FixedEq_removeFaulted c p).1] at hi
        exact absurd hi hold

/-- C27: the poll that takes a flight without open violation out of Holding sets its
speed to `400 + r % 201`, a value between 400 and 600 and outside the Approach envelope
(240 to 290), so the check on that transition raises `violationActive` and issues one
ticket (one id on the flight, one record in the ledger); and in every reachable state
every flight that has left Holding has `violationActive` set. -/
theorem holding_exit_always_violates (c : ATCSController) (hc : Reachable c) :
    (∀ (p elapsed r : Nat) (now : Int) (simulationRunning : Bool) (u : ℚ) (r2 : Nat),
      p < c.flights.length → (c.flightAt p).phase = FlightPhase.Holding → 10 ≤ elapsed →
      (c.flightAt p).violationActive = false →
      ((flightThread.step c p elapsed r now simulationRunning u r2).1.flightAt p).phase =
          FlightPhase.Approach ∧
        ((flightThread.step c p elapsed r now simulationRunning u r2).1.flightAt p).speed =
          ((400 + r % 201 : Nat) : ℚ) ∧
        (400 : ℚ) ≤ ((400 + r % 201 : Nat) : ℚ) ∧ ((400 + r % 201 : Nat) : ℚ) ≤ 600 ∧
        ¬ inEnvelope FlightPhase.Approach ((400 + r % 201 : Nat) : ℚ) ∧
        ((flightThread.step c p elapsed r now simulationRunning u r2).1.flightAt
          p).violationActive = true ∧
        ((flightThread.step c p elapsed r now simulationRunning u r2).1.flightAt p).avnIDs =
          (c.flightAt p).avnIDs ++ [c.avnGenerator.avnCounter + 1] ∧
        (flightThread.step c p elapsed r now simulationRunning u
          r2).1.avnGenerator.avnVector.length = c.avnGenerator.avnVector.length + 1) ∧
      (∀ i, i < c.flights.length → (c.flightAt i).phase ≠ FlightPhase.Holding →
        (c.flightAt i).violationActive = true) := by
  refine ⟨?_, left_holding_flagged c hc⟩
  intro p elapsed r now running u r2 hp hph he hv
  obtain ⟨t1, t2, t3, t4, _, t6⟩ :=
    holding_exit_ticket c p elapsed r now running u r2 hp hph he hv
  have hb := mod_cast_bounds 400 r 201 (by norm_num)
  simp only [Nat.cast_ofNat] at hb
  exact ⟨t1, t2, hb.1, by linarith [hb.2],
    (holding_exit_speed c p elapsed r now hp hph he).2.2.1, t3, t4, t6⟩

theorem holding_exit_always_violates_witness :
    (sampleTwoQueued.flightAt 0).phase = FlightPhase.Holding ∧
      ((flightThread.step sampleTwoQueued 0 10 7 0 true (1 / 2) 0).1.flightAt 0).speed = 407 ∧
      ((flightThread.step sampleTwoQueued 0 10 7 0 true (1 / 2) 0).1.flightAt
        0).violationActive = true ∧
      (sampleViolated.flightAt 0).violationActive = true :=
  have h := holding_exit_always_violates sampleTwoQueued sampleTwoQueued_reachable
  have h1 := h.1 0 10 7 0 true (1 / 2) 0 (by decide) rfl (by decide) rfl
  ⟨rfl, h1.2.1, h1.2.2.2.2.2.1,
    (holding_exit_always_violates sampleViolated sampleViolated_reachable).2 0 (by decide)
      (by decide)⟩

/-! ## The phases a flight can reach (C28) -/

theorem groundPhase_successor (phase : FlightPhase) (direction : FlightDirection)
    (h : groundPhase phase) : groundPhase (tableSuccessor phase direction) := by
  unfold groundPhase at h ⊢
  rcases h with h | h | h | h | h <;> subst h <;> unfold tableSuccessor <;>
    split_ifs <;> simp

theorem Reachable_groundPhase (c : ATCSController) (hc : Reachable c) :
    ∀ i, i < c.flights.length → groundPhase (c.flightAt i).phase := by
  induction hc with
  | init =>
    intro i hi
    simp [ATCSController.new] at hi
  | step c c' _ hs ih =>
    intro i hi
    by_cases hold : i < c.flights.length
    · obtain ⟨_, _, h | ⟨_, _, h⟩⟩ := Step_phase c c' hs i hold
      · rw [h]; exact ih i hold
      · rw [h]; exact groundPhase_successor _ _ (ih i hold)
    · cases hs with
      | create num al aty dir sched emType =>
        have hlen : (c.addFlight (Flight.new num al aty dir sched emType)).flights.length =
            c.flights.length + 1 := by
          simp [ATCSController.addFlight, ATCSController.pushQueue]
        rw [hlen] at hi
        have hie : i = c.flights.length := by omega
        rw [flightAt_addFlight, if_neg hold, if_pos hie]
        exact Or.inl rfl
      | dispatch =>
        rw [(FixedEq_pass c).1] at hi
        exact absurd hi hold
      | poll p elapsed r now running u r2 hp =>
        rw [(FixedEq_step c p elapsed r now running u r2).1] at hi
        exact absurd hi hold
      | fault p hp =>
        rw [(FixedEq_removeFaulted c p).1] at hi
        exact absurd hi hold

/-- Once at the gate an arrival stays there, and a departure at the gate or in Taxi stays
in those two phases. -/
theorem gate_later (c c' : ATCSController) (hl : Later c c') (i : Nat)
    (hi : i < c.flights.length) :
    i < c'.flights.length ∧ (c'.flightAt i).direction = (c.flightAt i).direction ∧
      (¬ isDeparture (c.flightAt i).direction → (c.flightAt i).phase = FlightPhase.AtGate →
        (c'.flightAt i).phase = FlightPhase.AtGate) ∧
      (isDeparture (c.flightAt i).direction →
        ((c.flightAt i).phase = FlightPhase.AtGate ∨ (c.flightAt i).phase = FlightPhase.Taxi) →
        ((c'.flightAt i).phase = FlightPhase.AtGate ∨
          (c'.flightAt i).phase = FlightPhase.Taxi)) := by
  induction hl with
  | refl => exact ⟨hi, rfl, fun _ h => h, fun _ h => h⟩
  | step c1 c2 _ hs ih =>
    obtain ⟨i1, d1, a1, b1⟩ := ih
    obtain ⟨i2, d2, hph⟩ := Step_phase c1 c2 hs i i1
    refine ⟨i2, d2.trans d1, ?_, ?_⟩
    · intro hnd hg
      have h1 := a1 hnd hg
      rcases hph with h | ⟨_, _, h⟩
      · rw [h]; exact h1
      · rw [h, h1, d1]
        unfold isDeparture at hnd
        unfold tableSuccessor
        simp only [hnd, if_false]
    · intro hd hg
      have h1 := b1 hd hg
      rcases hph with h | ⟨_, _, h⟩
      · rw [h]; exact h1
      · rw [h, d1]
        unfold isDeparture at hd
        rcases h1 with h1 | h1 <;> rw [h1] <;> unfold tableSuccessor <;> simp [hd]

/-- C28: in every reachable state every flight is in Holding, Approach, Landing, Taxi or
AtGate, never in TakeoffRoll, Climb, Cruise or Departure. A poll after 5 s takes a flight
in Taxi to AtGate, whatever its direction, and a departure at the gate back to Taxi; in
all later states a departure that is at the gate or in Taxi is in one of those two phases
and an arrival at the gate is still at the gate. -/
theorem airborne_phases_unreachable (c : ATCSController) (hc : Reachable c) :
    (∀ i, i < c.flights.length →
      groundPhase (c.flightAt i).phase ∧
        (c.flightAt i).phase ≠ FlightPhase.TakeoffRoll ∧
        (c.flightAt i).phase ≠ FlightPhase.Climb ∧
        (c.flightAt i).phase ≠ FlightPhase.Cruise ∧
        (c.flightAt i).phase ≠ FlightPhase.Departure) ∧
      (∀ (p elapsed r : Nat) (now : Int) (simulationRunning : Bool) (u : ℚ) (r2 : Nat),
        p < c.flights.length → 5 ≤ elapsed →
        ((c.flightAt p).phase = FlightPhase.Taxi →
          ((flightThread.step c p elapsed r now simulationRunning u r2).1.flightAt p).phase =
            FlightPhase.AtGate) ∧
        ((c.flightAt p).phase = FlightPhase.AtGate → isDeparture (c.flightAt p).direction →
          ((flightThread.step c p elapsed r now simulationRunning u r2).1.flightAt p).phase =
            FlightPhase.Taxi)) ∧
      (∀ i c', i < c.flights.length → Later c c' →
        (¬ isDeparture (c.flightAt i).direction → (c.flightAt i).phase = FlightPhase.AtGate →
          (c'.flightAt i).phase = FlightPhase.AtGate) ∧
        (isDeparture (c.flightAt i).direction →
          ((c.flightAt i).phase = FlightPhase.AtGate ∨
            (c.flightAt i).phase = FlightPhase.Taxi) →
          ((c'.flightAt i).phase = FlightPhase.AtGate ∨
            (c'.flightAt i).phase = FlightPhase.Taxi))) := by
  refine ⟨?_, ?_, ?_⟩
  · intro i hi
    have hg := Reachable_groundPhase c hc i hi
    refine ⟨hg, ?_, ?_, ?_, ?_⟩ <;>
      (intro h; rw [h] at hg; unfold groundPhase at hg; simp at hg)
  · intro p elapsed r now running u r2 hp he
    constructor
    · intro hph
      exact taxi_to_gate c p elapsed r now running u r2 hp hph he
    · intro hph hd
      rw [phase_poll c p elapsed r now running u r2 hp, hph]
      unfold isDeparture at hd
      simp only [thresholdReached, dwellThreshold, he, if_true, tableSuccessor, hd]
  · intro i c' hi hl
    exact (gate_later c c' hl i hi).2.2

theorem airborne_phases_unreachable_witness :
    groundPhase (sampleFaulted.flightAt 0).phase ∧
      (sampleFaulted.flightAt 0).phase ≠ FlightPhase.TakeoffRoll ∧
      ((flightThread.step sampleFaulted 0 5 0 0 true (1 / 2) 0).1.flightAt 0).phase =
        FlightPhase.AtGate :=
  have h := airborne_phases_unreachable sampleFaulted sampleFaulted_reachable
  ⟨(h.1 0 (by decide)).1, (h.1 0 (by decide)).2.1,
    (h.2.1 0 5 0 0 true (1 / 2) 0 (by decide) (by decide)).1 rfl⟩

/-! ## The release pair of the actor is not atomic (C1) -/

/-- The pair under its guard is the two statements one after the other. -/
theorem releaseHeld_split (c : ATCSController) (p : Nat) :
    releaseHeld c p =
      if (c.flightAt p).runwayAssigned ≠ -1 then
        flightThread.clearStatement (flightThread.releaseStatement c p) p
      else c := rfl

/-- A round that comes to the pair with a runway held is the part before the pair, the two
statements and the part after the pair: with no other thread running in between, the
statement-by-statement actions make up the poll of `flightThread.step`. -/
theorem step_split (c : ATCSController) (p elapsed r : Nat) (now : Int)
    (simulationRunning : Bool) (u : ℚ) (r2 : Nat) (c1 : ATCSController)
    (hb : flightThread.beforePair c p elapsed r now = some c1)
    (hne : (c1.flightAt p).runwayAssigned ≠ -1) :
    (flightThread.step c p elapsed r now simulationRunning u r2).1 =
      flightThread.afterPair
        (flightThread.clearStatement (flightThread.releaseStatement c1 p) p) p
        simulationRunning u r2 := by
  have hs : flightThread.phaseSwitch c p elapsed r now =
      (flightThread.clearStatement (flightThread.releaseStatement c1 p) p, false) := by
    unfold flightThread.beforePair at hb
    unfold flightThread.phaseSwitch
    cases hph : (c.flightAt p).phase <;> rw [hph] at hb <;> simp only [] at hb ⊢
    all_goals first
      | exact Option.noConfusion hb
      | (injection hb with hb
         rw [hb, releaseHeld_split, if_pos hne])
      | (by_cases he : elapsed ≥ 4
         · rw [if_pos he] at hb
           injection hb with hb
           rw [if_pos he, hb, releaseHeld_split, if_pos hne]
         · rw [if_neg he] at hb
           exact Option.noConfusion hb)
  unfold flightThread.step flightThread.afterPair
  simp only [hs, Bool.false_eq_true, if_false]
  split_ifs <;> rfl

theorem sampleRace_reachable :
    RaceReachable (sampleMidRelease, [0]) ∧ RaceReachable (sampleRace, [0]) := by
  have h0 : RaceReachable
      (runwayManagementThread.pass (ATCSController.new.addFlight sampleNorth), []) :=
    RaceReachable.step _ _ (RaceReachable.step _ _ RaceReachable.init
      (RaceStep.create _ [] 1000 samplePIA AircraftType.Commercial
        FlightDirection.NorthArrival 10 EmergencyType.None)) (RaceStep.dispatch _ [])
  have s1 := RaceStep.poll _ [] 0 10 0 100 true (1 / 2) 0
    (show 0 < (runwayManagementThread.pass
      (ATCSController.new.addFlight sampleNorth)).flights.length by decide)
    (List.not_mem_nil 0)
  rw [step_quiet _ _ _ _ _ _ _ _ half_quiet] at s1
  have h1 := RaceReachable.step _ _ h0 s1
  have s2 := RaceStep.poll _ [] 0 8 0 200 true (1 / 2) 0
    (show 0 < (flightThread.phaseSwitch (runwayManagementThread.pass
      (ATCSController.new.addFlight sampleNorth)) 0 10 0 100).1.flights.length by decide)
    (List.not_mem_nil 0)
  rw [step_quiet _ _ _ _ _ _ _ _ half_quiet] at s2
  have h2 := RaceReachable.step _ _ h1 s2
  have s3 := RaceStep.poll _ [] 0 6 0 300 true (1 / 2) 0
    (show 0 < (flightThread.phaseSwitch (flightThread.phaseSwitch
      (runwayManagementThread.pass (ATCSController.new.addFlight sampleNorth))
      0 10 0 100).1 0 8 0 200).1.flights.length by decide)
    (List.not_mem_nil 0)
  rw [step_quiet _ _ _ _ _ _ _ _ half_quiet] at s3
  have h3 : RaceReachable (sampleTaxi, []) := RaceReachable.step _ _ h2 s3
  have s4 := RaceStep.poll sampleTaxi [] 0 5 0 400 true (1 / 2) 0 (by decide)
    (List.not_mem_nil 0)
  rw [sampleGate_step] at s4
  have h4 := RaceReachable.step _ _ h3 s4
  have h5 : RaceReachable (sampleGateQueued, []) :=
    RaceReachable.step _ _ h4
      (RaceStep.create sampleGate [] 1002 samplePIA AircraftType.Commercial
        FlightDirection.NorthArrival 25 EmergencyType.None)
  have h6 : RaceReachable (sampleMidRelease, [0]) :=
    RaceReachable.step _ _ h5
      (RaceStep.release sampleGateQueued [] 0 0 0 0 sampleGateQueued (by decide)
        (List.not_mem_nil 0) rfl (by decide))
  exact ⟨h6, RaceReachable.step _ _ h6 (RaceStep.dispatch sampleMidRelease [0])⟩

theorem sampleRace_eq : sampleRace = (assignRunway sampleMidRelease 1).2.popQueue := rfl

theorem sampleRace_fields :
    sampleRace.flights.length = 2 ∧ (sampleRace.flightAt 0).runwayAssigned = 0 ∧
      (sampleRace.flightAt 1).runwayAssigned = 0 ∧
      sampleRace.runways = samplePool true false false := by
  rw [sampleRace_eq]
  exact ⟨rfl, rfl, rfl, rfl⟩

/-- C1 fails in the program at the release pair of `flightThread`.  Flight 0 is at the
gate with runway 0 and flight 1, a north arrival, waits in the backlog.  The actor of
flight 0 runs `releaseRunway(0)`: runway 0 is free while flight 0 still has
`runwayAssigned == 0`.  Before the actor runs `runwayAssigned = -1` a dispatch pass gives
runway 0 to flight 1: two flights have `runwayAssigned == 0`.  Run with nothing in between,
the same actions are the poll of `flightThread.step`, after which only flight 1 has the
runway. -/
theorem release_pair_shares_runway :
    RaceReachable (sampleMidRelease, [0]) ∧
      (sampleMidRelease.flightAt 0).runwayAssigned = 0 ∧
      sampleMidRelease.runways = samplePool false false false ∧
      RaceReachable (sampleRace, [0]) ∧
      sampleRace.flights.length = 2 ∧
      (sampleRace.flightAt 0).runwayAssigned = 0 ∧
      (sampleRace.flightAt 1).runwayAssigned = 0 ∧
      sampleRace.runways = samplePool true false false ∧
      ¬ RunwayInv sampleRace ∧
      RunwayInv sampleGateQueued ∧
      (flightThread.step sampleGateQueued 0 0 0 0 true (1 / 2) 0).1 =
        flightThread.afterPair (flightThread.clearStatement sampleMidRelease 0) 0 true
          (1 / 2) 0 := by
  obtain ⟨f1, f2, f3, f4⟩ := sampleRace_fields
  refine ⟨sampleRace_reachable.1, rfl, rfl, sampleRace_reachable.2, f1, f2, f3, f4, ?_, ?_,
    step_split sampleGateQueued 0 0 0 0 true (1 / 2) 0 sampleGateQueued rfl (by decide)⟩
  · intro h
    have h01 := h.1 0 1 (by rw [f1]; decide) (by rw [f1]; decide) (by rw [f2]; decide)
      (by rw [f2, f3])
    exact absurd h01 (by decide)
  · exact Reachable_RunwayInv _ (Reachable.step _ _ sampleGate_reachable
      (Step.create sampleGate 1002 samplePIA AircraftType.Commercial
        FlightDirection.NorthArrival 25 EmergencyType.None))

end ATCS
